import Mathlib

/-!
# gvfs: the mountable-list (computer) backend and the FTP backend

A shallow embedding of `daemon/gvfsbackendcomputer.c` and
`daemon/gvfsbackendftp.c`.

* A C string is the list of its bytes before the terminating NUL, written
  as a `List Char` (one `Char` per byte, compared by its code as
  `strcmp` compares `unsigned char`s).  A `char *` that may be `NULL` is an
  `Option`.
* GLib objects the code only passes around (`GIcon`, `GFile`) are handles;
  the GLib predicates on them (`g_icon_equal`, `g_file_equal`) are
  parameters.
* A job records every terminal call made on it, in order.
-/

namespace Gvfs

/-! ## C strings -/

/-- The libc `strcmp`: the sign of the first differing byte pair. -/
def strcmp : List Char → List Char → Int
  | [], [] => 0
  | [], _ :: _ => -1
  | _ :: _, [] => 1
  | a :: as, b :: bs =>
    if a.toNat < b.toNat then -1
    else if b.toNat < a.toNat then 1
    else strcmp as bs

/-- Dereference of a `char *` the code assumes to be non-NULL. -/
def deref (s : Option (List Char)) : List Char := s.getD []

/-! ## Errors and jobs -/

/-- Error domains: `G_IO_ERROR`, or one of another library. -/
inductive GQuark where
  | G_IO_ERROR
  | OTHER_DOMAIN (q : Nat)
  deriving DecidableEq, Repr

/-- The members of `GIOErrorEnum` the two backends use. -/
inductive GIOErrorEnum where
  | G_IO_ERROR_FAILED
  | G_IO_ERROR_NOT_FOUND
  | G_IO_ERROR_IS_DIRECTORY
  | G_IO_ERROR_NOT_DIRECTORY
  | G_IO_ERROR_NOT_MOUNTABLE_FILE
  | G_IO_ERROR_FILENAME_TOO_LONG
  | G_IO_ERROR_INVALID_FILENAME
  | G_IO_ERROR_INVALID_ARGUMENT
  | G_IO_ERROR_PERMISSION_DENIED
  | G_IO_ERROR_NOT_SUPPORTED
  | G_IO_ERROR_NO_SPACE
  | G_IO_ERROR_CLOSED
  | G_IO_ERROR_CANCELLED
  | G_IO_ERROR_CANT_CREATE_BACKUP
  | G_IO_ERROR_HOST_NOT_FOUND
  | OTHER_CODE (c : Nat)
  deriving DecidableEq, Repr

open GQuark GIOErrorEnum

/-- A `GError`: domain, code and the untranslated message. -/
structure GError where
  domain : GQuark
  code : GIOErrorEnum
  message : String
  deriving DecidableEq, Repr

/-- Modelled from the spec: the terminal transitions of a job (the job
sources are not among the files): succeeded, or failed with an error.
`ASYNC_STARTED` stands for a platform asynchronous call that was handed the
job: its callback makes the terminal call. -/
inductive Completion where
  | SUCCEEDED
  | FAILED (e : GError)
  | ASYNC_STARTED (op : String)
  deriving DecidableEq, Repr

/-- Modelled from the spec: the struct `GVfsJob`, as its cancellation token
and the terminal calls made on it so far, in order. The spec allows one; a
second one is recorded all the same. -/
structure GVfsJob where
  cancelled : Bool
  completions : List Completion
  deriving DecidableEq, Repr

/-- Modelled from the spec: the function `g_vfs_job_succeeded`, the terminal
transition to success. -/
def g_vfs_job_succeeded (job : GVfsJob) : GVfsJob :=
  { job with completions := job.completions ++ [Completion.SUCCEEDED] }

/-- Modelled from the spec: the function `g_vfs_job_failed`, the terminal
transition to failure with the error of the given domain, code and
message. -/
def g_vfs_job_failed (job : GVfsJob) (domain : GQuark) (code : GIOErrorEnum)
    (message : String) : GVfsJob :=
  { job with completions := job.completions ++ [Completion.FAILED ⟨domain, code, message⟩] }

/-- Modelled from the spec: the function `g_vfs_job_failed_from_error`, the
terminal transition to failure with the given error. -/
def g_vfs_job_failed_from_error (job : GVfsJob) (error : GError) : GVfsJob :=
  { job with completions := job.completions ++ [Completion.FAILED error] }

/-- A job on which nothing has been called yet. -/
def fresh_job : GVfsJob := ⟨false, []⟩

/-! ## The mountable-list backend: data -/

/-- Handle of a `GIcon`. -/
structure GIcon where
  id : Nat
  deriving DecidableEq, Repr

/-- Handle of a `GFile`. -/
structure GFile where
  id : Nat
  deriving DecidableEq, Repr

/-- What the code reads from a `GMount`. -/
structure GMount where
  name : List Char
  icon : GIcon
  root : GFile
  can_unmount : Bool
  can_eject : Bool
  has_volume : Bool
  deriving DecidableEq, Repr

/-- What the code reads from a `GVolume`. -/
structure GVolume where
  name : List Char
  icon : GIcon
  can_mount : Bool
  can_eject : Bool
  mount : Option GMount
  has_drive : Bool
  deriving DecidableEq, Repr

/-- What the code reads from a `GDrive`. -/
structure GDrive where
  name : List Char
  icon : GIcon
  can_eject : Bool
  volumes : List GVolume
  deriving DecidableEq, Repr

/-- What the volume monitor reports: the connected drives, the volumes and
the mounts. -/
structure GVolumeMonitor where
  connected_drives : List GDrive
  volumes : List GVolume
  mounts : List GMount
  deriving DecidableEq, Repr

/-- The struct `ComputerFile`. `g_slice_new0` gives `blank_file`. -/
structure ComputerFile where
  filename : Option (List Char)
  display_name : Option (List Char)
  icon : Option GIcon
  root : Option GFile
  prio : Int
  can_mount : Bool
  can_unmount : Bool
  can_eject : Bool
  drive : Option GDrive
  volume : Option GVolume
  mount : Option GMount
  deriving DecidableEq, Repr

/-- The zeroed `ComputerFile` of `g_slice_new0`. -/
def blank_file : ComputerFile :=
  { filename := none, display_name := none, icon := none, root := none, prio := 0,
    can_mount := false, can_unmount := false, can_eject := false,
    drive := none, volume := none, mount := none }

/-- Kinds of file monitor events the backend emits. -/
inductive GFileMonitorEvent where
  | G_FILE_MONITOR_EVENT_CHANGED
  | G_FILE_MONITOR_EVENT_DELETED
  | G_FILE_MONITOR_EVENT_CREATED
  deriving DecidableEq, Repr

open GFileMonitorEvent

/-- Modelled from the spec: one call of `g_vfs_monitor_emit_event` on the root
monitor, a change event as its kind and its path. -/
structure MonitorEvent where
  kind : GFileMonitorEvent
  path : List Char
  deriving DecidableEq, Repr

/-- The struct `GVfsBackendComputer`: the file list, the tag of the pending
idle task (0 when none) and the events emitted on `root_monitor` so far. -/
structure GVfsBackendComputer where
  files : List ComputerFile
  recompute_idle_tag : Nat
  root_monitor : List MonitorEvent
  deriving DecidableEq, Repr

/-- The GLib predicates the backend calls on handles. -/
structure GLib where
  g_icon_equal : Option GIcon → Option GIcon → Bool
  g_file_equal : GFile → GFile → Bool

/-! ## The mountable-list backend: building the list -/

/-- The function `computer_file_equal` (assumes equal filenames). -/
def computer_file_equal (glib : GLib) (a b : ComputerFile) : Bool :=
  if strcmp (deref a.display_name) (deref b.display_name) ≠ 0 then false
  else if !glib.g_icon_equal a.icon b.icon then false
  else if (match a.root, b.root with
      | some ra, some rb => !glib.g_file_equal ra rb
      | some _, none => true
      | none, some _ => true
      | none, none => false) then false
  else if a.prio ≠ b.prio then false
  else if a.can_mount ≠ b.can_mount || a.can_unmount ≠ b.can_unmount
      || a.can_eject ≠ b.can_eject then false
  else true

/-- The function `filename_is_used`: the scan stops at the first entry whose
filename is still `NULL`. -/
def filename_is_used : List ComputerFile → List Char → Bool
  | [], _ => false
  | file :: files, filename =>
    match file.filename with
    | none => false
    | some f => if strcmp f filename = 0 then true else filename_is_used files filename

/-- The comparison `sort_file_by_filename`. -/
def sort_file_by_filename (a b : ComputerFile) : Int :=
  strcmp (deref a.filename) (deref b.filename)

/-- The function `convert_slashes`: every '/' becomes a backslash. -/
def convert_slashes : List Char → List Char
  | [] => []
  | c :: str => (if c = '/' then '\\' else c) :: convert_slashes str

/-- The call `g_strconcat ("/", filename, NULL)`. -/
def event_path (file : ComputerFile) : List Char := '/' :: deref file.filename

/-- One pass of the loop of `update_from_files` with `old` at the head of
the old list; `rest` is the loop continued with the old list advanced. -/
def update_loop_old (glib : GLib) (old : ComputerFile)
    (rest : List ComputerFile → List MonitorEvent) : List ComputerFile → List MonitorEvent
  | [] => ⟨G_FILE_MONITOR_EVENT_DELETED, event_path old⟩ :: rest []
  | new :: newl =>
    let cmp := strcmp (deref old.filename) (deref new.filename)
    if cmp = 0 then
      if !computer_file_equal glib old new then
        ⟨G_FILE_MONITOR_EVENT_CHANGED, event_path new⟩ :: rest newl
      else rest newl
    else if cmp < 0 then
      ⟨G_FILE_MONITOR_EVENT_DELETED, event_path old⟩ :: rest (new :: newl)
    else
      ⟨G_FILE_MONITOR_EVENT_CREATED, event_path new⟩ :: update_loop_old glib old rest newl

/-- The loop `while (oldl != NULL || newl != NULL)` of `update_from_files`,
as the events it emits in order. It is written by recursion on the old list
and, inside, on the new list; `update_loop_nil`, `update_loop_cons_nil` and
`update_loop_cons_cons` give it back in the shape of the source. -/
def update_loop (glib : GLib) : List ComputerFile → List ComputerFile → List MonitorEvent
  | [] => fun newl => newl.map fun new => ⟨G_FILE_MONITOR_EVENT_CREATED, event_path new⟩
  | old :: oldl => update_loop_old glib old (update_loop glib oldl)

/-- The function `update_from_files`: install the new list and emit the
change events on the root monitor. -/
def update_from_files (glib : GLib) (backend : GVfsBackendComputer)
    (files : List ComputerFile) : GVfsBackendComputer :=
  { backend with
    files := files
    root_monitor := backend.root_monitor ++ update_loop glib backend.files files }

/-- Entries of one connected drive, prepended to `files`: one per volume, or
a single drive entry when the drive has no volume. -/
def add_drive (files : List ComputerFile) (drive : GDrive) : List ComputerFile :=
  if drive.volumes ≠ [] then
    drive.volumes.foldl (fun files volume =>
      { blank_file with
        drive := some drive, volume := some volume, mount := volume.mount, prio := -3 }
        :: files) files
  else
    { blank_file with drive := some drive, volume := none, mount := none, prio := -3 } :: files

/-- Entry of a volume that has no drive, prepended to `files`. -/
def add_volume (files : List ComputerFile) (volume : GVolume) : List ComputerFile :=
  if !volume.has_drive then
    { blank_file with
      drive := none, volume := some volume, mount := volume.mount, prio := -2 } :: files
  else files

/-- Entry of a mount that has no volume, prepended to `files`. -/
def add_mount (files : List ComputerFile) (mount : GMount) : List ComputerFile :=
  if !mount.has_volume then
    { blank_file with drive := none, volume := none, mount := some mount, prio := -1 } :: files
  else files

/-- The first part of `recompute_files`: the three loops over the drives,
the volumes and the mounts, then `g_list_reverse`. -/
def collect_files (volume_monitor : GVolumeMonitor) : List ComputerFile :=
  let files := volume_monitor.connected_drives.foldl add_drive []
  let files := volume_monitor.volumes.foldl add_volume files
  let files := volume_monitor.mounts.foldl add_mount files
  files.reverse

/-- The first `if` chain of the second loop: icon, display name, root and
capabilities from the mount, else the volume, else the drive. -/
def fill_fields (file : ComputerFile) : ComputerFile :=
  match file.mount with
  | some mount =>
    { file with
      icon := some mount.icon, display_name := some mount.name, root := some mount.root,
      can_unmount := mount.can_unmount, can_eject := mount.can_eject }
  | none =>
    match file.volume with
    | some volume =>
      { file with
        icon := some volume.icon, display_name := some volume.name,
        can_mount := volume.can_mount, root := none, can_eject := volume.can_eject }
    | none =>
      match file.drive with
      | some drive =>
        { file with
          icon := some drive.icon, display_name := some drive.name,
          can_eject := drive.can_eject }
      | none => file

/-- The second `if` chain: the base name and the extension, from the drive,
else the volume, else the mount. -/
def basename_extension (file : ComputerFile) : List Char × List Char :=
  match file.drive with
  | some drive => (drive.name, ".drive".toList)
  | none =>
    match file.volume with
    | some volume => (volume.name, ".volume".toList)
    | none =>
      match file.mount with
      | some mount => (mount.name, ".mount".toList)
      | none => ([], ".mount".toList)

/-- The call `g_strdup_printf ("%s-%d%s", basename, uniq, extension)`. -/
def printf_uniq (basename : List Char) (uniq : Nat) (extension : List Char) : List Char :=
  basename ++ '-' :: Nat.toDigits 10 uniq ++ extension

/-- The loop `while (filename_is_used (files, filename))`, run for at most
`fuel` tests of its condition; `none` when the fuel runs out. -/
def uniq_loop (files : List ComputerFile) (basename extension : List Char) :
    Nat → Nat → List Char → Option (List Char)
  | 0, _, _ => none
  | fuel + 1, uniq, filename =>
    if filename_is_used files filename then
      uniq_loop files basename extension fuel (uniq + 1) (printf_uniq basename uniq extension)
    else some filename

/-- The second loop of `recompute_files`, with the entries before the cursor
in `done` and the cursor at the head of the second list. The counter `uniq`
is a C `int`; it never exceeds the number of entries, and is a `Nat` here.
The filename loop is given one test more than there are entries. -/
def name_files : List ComputerFile → List ComputerFile → Option (List ComputerFile)
  | done, [] => some done
  | done, file :: rest =>
    let file := fill_fields file
    let files := done ++ file :: rest
    let (basename, extension) := basename_extension file
    let basename := convert_slashes basename
    match uniq_loop files basename extension (files.length + 1) 1 (basename ++ extension) with
    | none => none
    | some filename => name_files (done ++ [{ file with filename := some filename }]) rest

/-- The call `g_list_sort (files, sort_file_by_filename)`: GLib sorts stably,
ascending for the comparison function. -/
def g_list_sort_files (files : List ComputerFile) : List ComputerFile :=
  files.insertionSort fun a b => sort_file_by_filename a b ≤ 0

/-- The list `recompute_files` hands to `update_from_files`. -/
def recompute_list (volume_monitor : GVolumeMonitor) : Option (List ComputerFile) :=
  (name_files [] (collect_files volume_monitor)).map g_list_sort_files

/-- The function `recompute_files`. -/
def recompute_files (glib : GLib) (backend : GVfsBackendComputer)
    (volume_monitor : GVolumeMonitor) : Option GVfsBackendComputer :=
  (recompute_list volume_monitor).map (update_from_files glib backend)

/-! ## The mountable-list backend: the job handlers -/

/-- What `lookup` returns: `&root`, an entry of the list, or `NULL`. -/
inductive LookupResult where
  | ROOT
  | FILE (file : ComputerFile)
  | NULL
  deriving DecidableEq, Repr

/-- The loop `while (*filename == '/') filename++`. -/
def skip_slashes : List Char → List Char
  | [] => []
  | c :: filename => if c = '/' then skip_slashes filename else c :: filename

/-- The label `out` of `lookup`: fail the job and return `NULL`. -/
def lookup_out (job : GVfsJob) : LookupResult × GVfsJob :=
  (LookupResult.NULL, g_vfs_job_failed job G_IO_ERROR G_IO_ERROR_NOT_FOUND "File doesn't exist")

/-- The loop of `lookup` over `backend->files`. -/
def lookup_files : List ComputerFile → List Char → Option ComputerFile
  | [], _ => none
  | file :: l, filename =>
    if strcmp (deref file.filename) filename = 0 then some file else lookup_files l filename

/-- The function `lookup`. -/
def lookup (backend : GVfsBackendComputer) (job : GVfsJob) (filename : List Char) :
    LookupResult × GVfsJob :=
  if filename.head? ≠ some '/' then lookup_out job
  else
    let filename := skip_slashes filename
    if filename = [] then (LookupResult.ROOT, job)
    else if '/' ∈ filename then lookup_out job
    else
      match lookup_files backend.files filename with
      | some file => (LookupResult.FILE file, job)
      | none => lookup_out job

/-- The function `try_open_for_read`. -/
def try_open_for_read (backend : GVfsBackendComputer) (job : GVfsJob)
    (filename : List Char) : GVfsJob :=
  match lookup backend job filename with
  | (LookupResult.ROOT, job) =>
    g_vfs_job_failed job G_IO_ERROR G_IO_ERROR_IS_DIRECTORY "Can't open directory"
  | (LookupResult.FILE _, job) =>
    g_vfs_job_failed job G_IO_ERROR G_IO_ERROR_NOT_SUPPORTED "Can't open mountable file"
  | (LookupResult.NULL, job) => job

/-- File types set by the backend. -/
inductive GFileType where
  | G_FILE_TYPE_UNKNOWN
  | G_FILE_TYPE_REGULAR
  | G_FILE_TYPE_DIRECTORY
  | G_FILE_TYPE_MOUNTABLE
  deriving DecidableEq, Repr

/-- The attributes of a `GFileInfo` the backend sets. The target URI is kept
as the `GFile` whose URI it is. -/
structure GFileInfo where
  name : Option (List Char)
  display_name : Option (List Char)
  icon : Option GIcon
  target_uri : Option GFile
  sort_order : Int
  file_type : GFileType
  can_mount : Option Bool
  can_unmount : Option Bool
  can_eject : Option Bool
  can_write : Option Bool
  can_delete : Option Bool
  can_trash : Option Bool
  content_type : Option String
  deriving DecidableEq, Repr

/-- The call `g_file_info_new ()`. -/
def g_file_info_new : GFileInfo :=
  { name := none, display_name := none, icon := none, target_uri := none, sort_order := 0,
    file_type := GFileType.G_FILE_TYPE_UNKNOWN, can_mount := none, can_unmount := none,
    can_eject := none, can_write := none, can_delete := none, can_trash := none,
    content_type := none }

/-- The function `file_info_from_file`. -/
def file_info_from_file (file : ComputerFile) (info : GFileInfo) : GFileInfo :=
  { info with
    name := file.filename
    display_name := file.display_name
    icon := if file.icon.isSome then file.icon else info.icon
    target_uri := if file.root.isSome then file.root else info.target_uri
    sort_order := file.prio
    file_type := GFileType.G_FILE_TYPE_MOUNTABLE
    can_mount := some file.can_mount
    can_unmount := some file.can_unmount
    can_eject := some file.can_eject
    can_write := some false
    can_delete := some false
    can_trash := some false }

/-- The function `try_enumerate`: the job and the infos added to it. -/
def try_enumerate (backend : GVfsBackendComputer) (job : GVfsJob)
    (filename : List Char) : GVfsJob × List GFileInfo :=
  match lookup backend job filename with
  | (LookupResult.FILE _, job) =>
    (g_vfs_job_failed job G_IO_ERROR G_IO_ERROR_NOT_DIRECTORY "The file is not a directory", [])
  | (LookupResult.NULL, job) => (job, [])
  | (LookupResult.ROOT, job) =>
    (g_vfs_job_succeeded job,
      backend.files.map fun file => file_info_from_file file g_file_info_new)

/-- The function `try_query_info`: the job and the info it was given. -/
def try_query_info (backend : GVfsBackendComputer) (job : GVfsJob)
    (filename : List Char) (info : GFileInfo) : GVfsJob × GFileInfo :=
  let (file, job) := lookup backend job filename
  let info :=
    match file with
    | LookupResult.ROOT =>
      { info with
        name := some "/".toList
        file_type := GFileType.G_FILE_TYPE_DIRECTORY
        display_name := some "Computer".toList
        icon := some ⟨0⟩
        can_write := some false
        can_delete := some false
        can_trash := some false
        content_type := some "inode/directory" }
    | LookupResult.FILE file => file_info_from_file file info
    | LookupResult.NULL => info
  (g_vfs_job_succeeded job, info)

/-- The function `try_create_dir_monitor`: the job and whether the root
monitor was set on it. -/
def try_create_dir_monitor (backend : GVfsBackendComputer) (job : GVfsJob)
    (filename : List Char) : GVfsJob × Bool :=
  let (file, job) := lookup backend job filename
  if file ≠ LookupResult.ROOT then
    (g_vfs_job_failed job G_IO_ERROR G_IO_ERROR_NOT_SUPPORTED "Can't open mountable file", false)
  else
    (g_vfs_job_succeeded job, true)

/-- A platform asynchronous call (`g_volume_mount`, `g_mount_unmount`,
`g_mount_eject`, `g_volume_eject`, `g_drive_eject`) given the job as user
data: the job is completed by the callback, once. -/
def start_async (job : GVfsJob) (op : String) : GVfsJob :=
  { job with completions := job.completions ++ [Completion.ASYNC_STARTED op] }

/-- The function `try_mount_mountable`. -/
def try_mount_mountable (backend : GVfsBackendComputer) (job : GVfsJob)
    (filename : List Char) : GVfsJob :=
  match lookup backend job filename with
  | (LookupResult.ROOT, job) =>
    g_vfs_job_failed job G_IO_ERROR G_IO_ERROR_NOT_MOUNTABLE_FILE "Not a mountable file"
  | (LookupResult.FILE file, job) =>
    if file.volume.isSome then start_async job "g_volume_mount"
    else g_vfs_job_failed job G_IO_ERROR G_IO_ERROR_NOT_SUPPORTED "Can't mount file"
  | (LookupResult.NULL, job) => job

/-- The function `try_unmount_mountable`. -/
def try_unmount_mountable (backend : GVfsBackendComputer) (job : GVfsJob)
    (filename : List Char) : GVfsJob :=
  match lookup backend job filename with
  | (LookupResult.ROOT, job) =>
    g_vfs_job_failed job G_IO_ERROR G_IO_ERROR_NOT_MOUNTABLE_FILE "Not a mountable file"
  | (LookupResult.FILE file, job) =>
    if file.mount.isSome then start_async job "g_mount_unmount"
    else g_vfs_job_failed job G_IO_ERROR G_IO_ERROR_NOT_SUPPORTED "Can't unmount file"
  | (LookupResult.NULL, job) => job

/-- The function `try_eject_mountable`. -/
def try_eject_mountable (backend : GVfsBackendComputer) (job : GVfsJob)
    (filename : List Char) : GVfsJob :=
  match lookup backend job filename with
  | (LookupResult.ROOT, job) =>
    g_vfs_job_failed job G_IO_ERROR G_IO_ERROR_NOT_MOUNTABLE_FILE "Not a mountable file"
  | (LookupResult.FILE file, job) =>
    if file.mount.isSome then start_async job "g_mount_eject"
    else if file.volume.isSome then start_async job "g_volume_eject"
    else if file.drive.isSome then start_async job "g_drive_eject"
    else g_vfs_job_failed job G_IO_ERROR G_IO_ERROR_NOT_SUPPORTED "Can't eject file"
  | (LookupResult.NULL, job) => job

/-- The callback `mount_volume_cb`, given what `g_volume_mount_finish`
reported and, on success, the result of `g_volume_get_mount`. -/
def mount_volume_cb (finish : Except GError (Option GMount)) (job : GVfsJob) : GVfsJob :=
  match finish with
  | Except.ok (some _) => g_vfs_job_succeeded job
  | Except.ok none =>
    g_vfs_job_failed job G_IO_ERROR G_IO_ERROR_FAILED
      "Internal error: No mount object for mounted volume"
  | Except.error error => g_vfs_job_failed_from_error job error

/-- The callbacks `unmount_mount_cb`, `eject_mount_cb`, `eject_volume_cb`
and `eject_drive_cb`, which have the same body: succeed when the platform
call finished, else fail from its error. -/
def finish_cb (finish : Except GError Unit) (job : GVfsJob) : GVfsJob :=
  match finish with
  | Except.ok _ => g_vfs_job_succeeded job
  | Except.error error => g_vfs_job_failed_from_error job error

/-! ## The FTP backend: connections -/

/-- Status of a socket call. The sockets are created blocking, so
`SOUP_SOCKET_WOULD_BLOCK` is not among the results. -/
inductive SoupSocketIOStatus where
  | SOUP_SOCKET_OK
  | SOUP_SOCKET_EOF
  | SOUP_SOCKET_ERROR
  deriving DecidableEq, Repr

open SoupSocketIOStatus

/-- What one call of `soup_socket_read_until` reports: the status, the bytes
it stored at the given address (`n_bytes` is their number), whether they end
in the boundary, and the error it set when it failed. -/
structure ReadResult where
  status : SoupSocketIOStatus
  data : List Char
  got_boundary : Bool
  error : Option GError
  deriving DecidableEq, Repr

/-- What one call of `soup_socket_write` reports: the status, the number of
bytes written, and the error it set when it failed. -/
structure WriteResult where
  status : SoupSocketIOStatus
  n_bytes : Nat
  error : Option GError
  deriving DecidableEq, Repr

/-- A `SoupAddress`: host name and port. -/
structure SoupAddress where
  name : List Char
  port : Nat
  deriving DecidableEq, Repr

/-- A `SoupSocket` as the backend sees it: the peer's address, what the next
reads and writes will report, and the buffers written so far. -/
structure SoupSocket where
  remote_address : SoupAddress
  reads : List ReadResult
  writes : List WriteResult
  written : List (List Char)
  deriving DecidableEq, Repr

/-- The NUL byte. -/
def NUL : Char := Char.ofNat 0

/-- The struct `FtpConnection`. `read_buffer` is the array of 256 bytes. -/
structure FtpConnection where
  error : Option GError
  job : Option GVfsJob
  features : Nat
  commands : SoupSocket
  read_buffer : List Char
  read_bytes : Nat
  data : Option SoupSocket
  deriving DecidableEq, Repr

/-- The size of `gsize` arithmetic. -/
def GSIZE : Nat := 2 ^ 64

/-- The call `g_set_error (&slot, ...)`: GLib stores the error in an empty
slot and leaves a set slot as it is (with a warning). -/
def g_set_error (slot : Option GError) (domain : GQuark) (code : GIOErrorEnum)
    (message : String) : Option GError :=
  match slot with
  | none => some ⟨domain, code, message⟩
  | some old => some old

/-- The macro `ftp_connection_in_error`. -/
def ftp_connection_in_error (conn : FtpConnection) : Bool := conn.error.isSome

/-- The macro `STATUS_GROUP`. -/
def STATUS_GROUP (status : Nat) : Nat := status / 100

/-- The function `ftp_connection_pop_job`: the result, the connection and
the job it completed (none when no job was bound). -/
def ftp_connection_pop_job (conn : FtpConnection) : Bool × FtpConnection × Option GVfsJob :=
  match conn.job with
  | none => (false, conn, none)
  | some job =>
    match conn.error with
    | some error =>
      (true, { conn with error := none, job := none },
        some (g_vfs_job_failed_from_error job error))
    | none => (false, { conn with job := none }, some (g_vfs_job_succeeded job))

/-- The function `ftp_connection_push_job` on a connection that is not
`NULL`. -/
def ftp_connection_push_job (conn : FtpConnection) (job : GVfsJob) : FtpConnection :=
  match conn.job with
  | some _ => conn
  | none => { conn with job := some job }

/-- The `switch` of `ftp_connection_set_error_from_response`: the error code
and the message for a response. -/
def error_from_response (response : Nat) : GIOErrorEnum × String :=
  if response = 332 ∨ response = 532 then (G_IO_ERROR_NOT_SUPPORTED, "Accounts are unsupported")
  else if response = 421 then (G_IO_ERROR_FAILED, "Host closed connection")
  else if response = 425 then
    (G_IO_ERROR_CLOSED, "Cannot open data connection. Maybe your firewall prevents this?")
  else if response = 426 then (G_IO_ERROR_CLOSED, "Data connection closed")
  else if response = 450 ∨ response = 550 then (G_IO_ERROR_NOT_FOUND, "File unavailable")
  else if response = 451 then (G_IO_ERROR_FAILED, "Operation failed")
  else if response = 452 ∨ response = 552 then (G_IO_ERROR_NO_SPACE, "No space left on server")
  else if response = 500 ∨ response = 501 ∨ response = 502 ∨ response = 503 ∨ response = 504 then
    (G_IO_ERROR_NOT_SUPPORTED, "Operation unsupported")
  else if response = 530 then (G_IO_ERROR_PERMISSION_DENIED, "Permission denied")
  else if response = 551 then (G_IO_ERROR_FAILED, "Page type unknown")
  else if response = 553 then (G_IO_ERROR_INVALID_FILENAME, "Invalid filename")
  else (G_IO_ERROR_FAILED, "Invalid reply")

/-- The function `ftp_connection_set_error_from_response`. -/
def ftp_connection_set_error_from_response (conn : FtpConnection) (response : Nat) :
    FtpConnection :=
  let (code, msg) := error_from_response response
  { conn with error := g_set_error conn.error G_IO_ERROR code msg }

/-! ## The FTP backend: receiving a reply -/

/-- The flag `RESPONSE_PASS_100`. -/
def RESPONSE_PASS_100 : Nat := 1 <<< 0
/-- The flag `RESPONSE_PASS_300`. -/
def RESPONSE_PASS_300 : Nat := 1 <<< 1
/-- The flag `RESPONSE_PASS_400`. -/
def RESPONSE_PASS_400 : Nat := 1 <<< 2
/-- The flag `RESPONSE_PASS_500`. -/
def RESPONSE_PASS_500 : Nat := 1 <<< 3
/-- The flag `RESPONSE_FAIL_200`. -/
def RESPONSE_FAIL_200 : Nat := 1 <<< 4

/-- The local enum `reply_state`. -/
inductive ReplyState where
  | FIRST_LINE
  | MULTILINE
  | DONE
  deriving DecidableEq, Repr

/-- The locals of `ftp_connection_receive` that live across its loop,
with the connection. -/
structure ReceiveLocals where
  conn : FtpConnection
  reply_state : ReplyState
  response : Nat
  bytes_left : Nat
  deriving DecidableEq, Repr

/-- Leaving the loop body: by `return`, or to the next test of the loop
condition. -/
inductive ReceiveStep where
  | RETURN (value : Nat) (conn : FtpConnection)
  | NEXT (locals : ReceiveLocals)
  deriving DecidableEq, Repr

/-- Bytes `data` stored into the array `buf` from offset `off` on. -/
def buffer_store (buf : List Char) (off : Nat) (data : List Char) : List Char :=
  buf.take off ++ data ++ buf.drop (off + data.length)

/-- The byte `p[i]` of an array `p`. -/
def byte_at (p : List Char) (i : Nat) : Nat := (p.getD i NUL).toNat

/-- The body of the loop of `ftp_connection_receive`, given what
`soup_socket_read_until` reported. The comparisons on `char` are made on the
byte values; a byte above 127 fails the digit tests on either signedness. -/
def receive_body (l : ReceiveLocals) (r : ReadResult) : ReceiveStep :=
  let conn := l.conn
  let off := conn.read_bytes
  let n_bytes := r.data.length
  let conn := { conn with read_buffer := buffer_store conn.read_buffer off r.data }
  match r.status, r.got_boundary with
  | SOUP_SOCKET_ERROR, _ =>
    let conn := { conn with error := if conn.error.isNone then r.error else conn.error }
    ReceiveStep.RETURN 0
      { conn with read_buffer := buffer_store conn.read_buffer conn.read_bytes [NUL] }
  | _, false =>
    let conn :=
      { conn with error := g_set_error conn.error G_IO_ERROR G_IO_ERROR_FAILED "Invalid reply" }
    ReceiveStep.RETURN 0
      { conn with read_buffer := buffer_store conn.read_buffer conn.read_bytes [NUL] }
  | _, true =>
    let bytes_left := (l.bytes_left + GSIZE - n_bytes % GSIZE) % GSIZE
    let conn := { conn with read_bytes := (conn.read_bytes + n_bytes) % GSIZE }
    let conn := { conn with read_buffer := buffer_store conn.read_buffer conn.read_bytes [NUL] }
    let last_line := conn.read_buffer.drop off
    if l.reply_state = ReplyState.FIRST_LINE then
      if n_bytes < 4 ∨
          byte_at last_line 0 ≤ '0'.toNat ∨ byte_at last_line 0 > '5'.toNat ∨
          byte_at last_line 1 < '0'.toNat ∨ byte_at last_line 1 > '9'.toNat ∨
          byte_at last_line 2 < '0'.toNat ∨ byte_at last_line 2 > '9'.toNat then
        ReceiveStep.RETURN 0
          { conn with
            error := g_set_error conn.error G_IO_ERROR G_IO_ERROR_FAILED "Invalid reply" }
      else
        let response := 100 * (byte_at last_line 0 - '0'.toNat) +
          10 * (byte_at last_line 1 - '0'.toNat) + (byte_at last_line 2 - '0'.toNat)
        if byte_at last_line 3 = ' '.toNat then
          ReceiveStep.NEXT ⟨conn, ReplyState.DONE, response, bytes_left⟩
        else if byte_at last_line 3 = '-'.toNat then
          ReceiveStep.NEXT ⟨conn, ReplyState.MULTILINE, response, bytes_left⟩
        else
          ReceiveStep.RETURN 0
            { conn with
              error := g_set_error conn.error G_IO_ERROR G_IO_ERROR_FAILED "Invalid reply" }
    else
      if n_bytes ≥ 4 ∧ conn.read_buffer.take 3 = last_line.take 3 ∧
          byte_at last_line 3 = ' '.toNat then
        ReceiveStep.NEXT ⟨conn, ReplyState.DONE, l.response, bytes_left⟩
      else
        ReceiveStep.NEXT ⟨conn, l.reply_state, l.response, bytes_left⟩

/-- What a read reports on a socket that has nothing more to deliver: the
peer closed, end of file without the boundary. -/
def read_at_eof : ReadResult := ⟨SOUP_SOCKET_EOF, [], false, none⟩

/-- The loop `while (reply_state != DONE && bytes_left >= 6)` of
`ftp_connection_receive`, over what the coming reads of the command socket
report; each read is taken off the socket. -/
def receive_loop : List ReadResult → ReceiveLocals → ReceiveStep
  | [], l =>
    if l.reply_state ≠ ReplyState.DONE ∧ l.bytes_left ≥ 6 then
      match receive_body l read_at_eof with
      | ReceiveStep.RETURN value conn => ReceiveStep.RETURN value conn
      | ReceiveStep.NEXT l => ReceiveStep.NEXT l
    else ReceiveStep.NEXT l
  | r :: reads, l =>
    if l.reply_state ≠ ReplyState.DONE ∧ l.bytes_left ≥ 6 then
      let l := { l with conn := { l.conn with commands := { l.conn.commands with reads := reads } } }
      match receive_body l r with
      | ReceiveStep.RETURN value conn => ReceiveStep.RETURN value conn
      | ReceiveStep.NEXT l => receive_loop reads l
    else ReceiveStep.NEXT l

/-- The `switch (STATUS_GROUP (response))` that ends
`ftp_connection_receive`. Group 0 returns 0; a group above 5 is excluded by
an assertion in the source and falls to `return response` here. -/
def receive_switch (conn : FtpConnection) (flags : Nat) (response : Nat) :
    Nat × FtpConnection :=
  match STATUS_GROUP response with
  | 0 => (0, conn)
  | 1 =>
    if flags &&& RESPONSE_PASS_100 ≠ 0 then (response, conn)
    else (0, ftp_connection_set_error_from_response conn response)
  | 2 =>
    if flags &&& RESPONSE_FAIL_200 ≠ 0 then
      (0, ftp_connection_set_error_from_response conn response)
    else (response, conn)
  | 3 =>
    if flags &&& RESPONSE_PASS_300 ≠ 0 then (response, conn)
    else (0, ftp_connection_set_error_from_response conn response)
  | 4 =>
    if flags &&& RESPONSE_PASS_400 ≠ 0 then (response, conn)
    else (0, ftp_connection_set_error_from_response conn response)
  | 5 =>
    if flags &&& RESPONSE_PASS_500 ≠ 0 then (response, conn)
    else (0, ftp_connection_set_error_from_response conn response)
  | _ => (response, conn)

/-- The part of `ftp_connection_receive` that reads the reply: the
initialisation of the locals and the loop. -/
def receive_read (conn : FtpConnection) : ReceiveStep :=
  let conn := { conn with read_bytes := 0 }
  let bytes_left := 256 - conn.read_bytes - 1
  receive_loop conn.commands.reads ⟨conn, ReplyState.FIRST_LINE, 0, bytes_left⟩

/-- The function `ftp_connection_receive`: the value returned and the
connection afterwards. The connection is bound to a job, as at every call in
the source: each read is given `conn->job->cancellable`, and a cancelled
read is a read that reports `SOUP_SOCKET_ERROR`. -/
def ftp_connection_receive (conn : FtpConnection) (flags : Nat) : Nat × FtpConnection :=
  if ftp_connection_in_error conn then (0, conn)
  else
    match receive_read conn with
    | ReceiveStep.RETURN value conn => (value, conn)
    | ReceiveStep.NEXT l =>
      if l.reply_state ≠ ReplyState.DONE then
        (0, { l.conn with
              error := g_set_error l.conn.error G_IO_ERROR G_IO_ERROR_FAILED "Invalid reply" })
      else receive_switch l.conn flags l.response

/-! ## The FTP backend: the connection pool -/

/-- The struct `GVfsBackendFtp`: the address, the credentials and the queue
of idle connections (`NULL` before mount and after unmount), with a record
of the connections given to `ftp_connection_free`. -/
structure GVfsBackendFtp where
  addr : Option SoupAddress
  user : Option (List Char)
  password : Option (List Char)
  queue : Option (List FtpConnection)
  freed : List FtpConnection
  deriving DecidableEq, Repr

/-- The function `ftp_connection_free`, as the record of the call. -/
def ftp_connection_free (ftp : GVfsBackendFtp) (conn : FtpConnection) : GVfsBackendFtp :=
  { ftp with freed := ftp.freed ++ [conn] }

/-- The function `g_vfs_backend_ftp_push_connection`: the backend afterwards
and the job completed on the way. -/
def g_vfs_backend_ftp_push_connection (ftp : GVfsBackendFtp) (conn : Option FtpConnection) :
    GVfsBackendFtp × Option GVfsJob :=
  match conn with
  | none => (ftp, none)
  | some conn =>
    let (_, conn, job) := ftp_connection_pop_job conn
    match ftp.queue with
    | some queue => ({ ftp with queue := some (queue ++ [conn]) }, job)
    | none => (ftp_connection_free ftp conn, job)

/-- What a waiter finds when `g_cond_wait` returns: the queue as other
threads left it, and whether the job was cancelled meanwhile. -/
structure Wakeup where
  queue : Option (List FtpConnection)
  cancelled : Bool
  deriving DecidableEq, Repr

/-- The call `g_queue_pop_head (queue)`; on a `NULL` queue GLib returns
`NULL`. -/
def g_queue_pop_head (queue : Option (List FtpConnection)) :
    Option FtpConnection × Option (List FtpConnection) :=
  match queue with
  | none => (none, none)
  | some [] => (none, some [])
  | some (conn :: queue) => (some conn, some queue)

/-- How `g_vfs_backend_ftp_pop_connection` ends. `RETURNED` is a return
with a connection, the job bound to it. `NULL_DEREF` is the call
`ftp_connection_push_job (conn, job)` made with `conn == NULL`, which reads
`conn->job`; the job is as the function left it before that call.
`BLOCKED` is a `g_cond_wait` that is never woken. `waits` counts the calls
of `g_cond_wait` made before the function ended. -/
inductive PopResult where
  | RETURNED (conn : FtpConnection) (ftp : GVfsBackendFtp) (waits : Nat)
  | NULL_DEREF (ftp : GVfsBackendFtp) (job : GVfsJob) (waits : Nat)
  | BLOCKED
  deriving DecidableEq, Repr

/-- The loop `while (conn == NULL && ftp->queue == NULL &&
!g_cancellable_is_cancelled (job->cancellable))` of
`g_vfs_backend_ftp_pop_connection`, over the coming wake-ups. It gives the
connection, the backend, the job and the number of waits, or nothing when a
wait is never woken. -/
def pop_wait_loop : List Wakeup → Option FtpConnection → GVfsBackendFtp → GVfsJob → Nat →
    Option (Option FtpConnection × GVfsBackendFtp × GVfsJob × Nat)
  | wakeups, conn, ftp, job, waits =>
    if conn.isNone ∧ ftp.queue.isNone ∧ ¬ job.cancelled then
      match wakeups with
      | [] => none
      | w :: wakeups =>
        let (conn, queue) := g_queue_pop_head w.queue
        pop_wait_loop wakeups conn { ftp with queue := queue }
          { job with cancelled := w.cancelled } (waits + 1)
    else some (conn, ftp, job, waits)

/-- The function `g_vfs_backend_ftp_pop_connection`. -/
def g_vfs_backend_ftp_pop_connection (ftp : GVfsBackendFtp) (job : GVfsJob)
    (wakeups : List Wakeup) : PopResult :=
  let (conn, queue) :=
    match ftp.queue with
    | some _ => g_queue_pop_head ftp.queue
    | none => (none, ftp.queue)
  let ftp := { ftp with queue := queue }
  let waited :=
    if conn.isNone ∧ ftp.queue.isSome then pop_wait_loop wakeups conn ftp job 0
    else some (conn, ftp, job, 0)
  match waited with
  | none => PopResult.BLOCKED
  | some (none, ftp, job, waits) =>
    PopResult.NULL_DEREF ftp
      (g_vfs_job_failed job G_IO_ERROR G_IO_ERROR_CANCELLED "Operation was cancelled") waits
  | some (some conn, ftp, job, waits) =>
    PopResult.RETURNED (ftp_connection_push_job conn job) ftp waits

/-- The loop `while ((conn = g_queue_pop_head (ftp->queue)))` of
`do_unmount`: free every idle connection. -/
def free_all (ftp : GVfsBackendFtp) : List FtpConnection → GVfsBackendFtp
  | [] => ftp
  | conn :: queue => free_all (ftp_connection_free ftp conn) queue

/-- The function `do_unmount`. -/
def do_unmount (ftp : GVfsBackendFtp) (job : GVfsJob) : GVfsBackendFtp × GVfsJob :=
  let ftp :=
    match ftp.queue with
    | some queue => free_all ftp queue
    | none => ftp
  ({ ftp with queue := none }, g_vfs_job_succeeded job)

/-! ## The change events, as the specification words them -/

/-- Whether `files` has an entry with the filename of `file`. -/
def spec_name_in (files : List ComputerFile) (file : ComputerFile) : Bool :=
  files.any fun other => decide (deref other.filename = deref file.filename)

/-- One `DELETED` event for each entry of the old list whose filename is not
in the new list. -/
def spec_deleted (old new : List ComputerFile) : List MonitorEvent :=
  (old.filter fun o => !spec_name_in new o).map
    fun o => ⟨G_FILE_MONITOR_EVENT_DELETED, '/' :: deref o.filename⟩

/-- One `CREATED` event for each entry of the new list whose filename is not
in the old list. -/
def spec_created (old new : List ComputerFile) : List MonitorEvent :=
  (new.filter fun n => !spec_name_in old n).map
    fun n => ⟨G_FILE_MONITOR_EVENT_CREATED, '/' :: deref n.filename⟩

/-- Two targets are the same when both are absent, or both are present and
`g_file_equal` holds of them. -/
def spec_same_target (glib : GLib) : Option GFile → Option GFile → Bool
  | none, none => true
  | some ra, some rb => glib.g_file_equal ra rb
  | _, _ => false

/-- Deep equality as the specification words it: the two records have the
same display name, equal icons, the same target, the same priority and the
same three capability flags. -/
def spec_deep_equal (glib : GLib) (a b : ComputerFile) : Bool :=
  decide (deref a.display_name = deref b.display_name) &&
  glib.g_icon_equal a.icon b.icon &&
  spec_same_target glib a.root b.root &&
  decide (a.prio = b.prio) &&
  decide (a.can_mount = b.can_mount) &&
  decide (a.can_unmount = b.can_unmount) &&
  decide (a.can_eject = b.can_eject)

/-- One `CHANGED` event for each entry of the new list whose filename is in
the old list with a record that is not deep-equal. -/
def spec_changed (glib : GLib) (old new : List ComputerFile) : List MonitorEvent :=
  (new.filter fun n => old.any fun o =>
      decide (deref o.filename = deref n.filename) && !spec_deep_equal glib o n).map
    fun n => ⟨G_FILE_MONITOR_EVENT_CHANGED, '/' :: deref n.filename⟩

/-- The events the specification asks for, kind by kind. -/
def spec_events (glib : GLib) (old new : List ComputerFile) : List MonitorEvent :=
  spec_deleted old new ++ spec_created old new ++ spec_changed glib old new

/-- A list strictly increasing by filename. -/
def StrictlySorted (files : List ComputerFile) : Prop :=
  files.Pairwise fun a b => strcmp (deref a.filename) (deref b.filename) < 0

/-! ## Sample data -/

/-- GLib predicates that compare handles. -/
def sample_glib : GLib := ⟨fun a b => decide (a = b), fun a b => decide (a = b)⟩

/-- A drive named A, without volumes. -/
def sample_drive : GDrive := ⟨"A".toList, ⟨1⟩, true, []⟩

/-- The mount of the volume named B. -/
def sample_mount : GMount := ⟨"B".toList, ⟨3⟩, ⟨7⟩, true, false, true⟩

/-- A volume named B, without drive, not mounted. -/
def sample_volume : GVolume := ⟨"B".toList, ⟨2⟩, true, false, none, false⟩

/-- The platform with the drive A and the unmounted volume B. -/
def sample_monitor : GVolumeMonitor := ⟨[sample_drive], [sample_volume], []⟩

/-- The same platform after B was mounted. -/
def sample_monitor_mounted : GVolumeMonitor :=
  ⟨[sample_drive], [{ sample_volume with mount := some sample_mount }], [sample_mount]⟩

/-- The file list for `sample_monitor`: `A.drive`, `B.volume`. -/
def sample_files : List ComputerFile := (recompute_list sample_monitor).getD []

/-- The file list for `sample_monitor_mounted`. -/
def sample_files_mounted : List ComputerFile := (recompute_list sample_monitor_mounted).getD []

/-- A backend holding `sample_files`. -/
def sample_backend : GVfsBackendComputer := ⟨sample_files, 0, []⟩

/-- The list `sample_files` with `can_eject` of every record changed and
nothing else. -/
def sample_files_eject : List ComputerFile :=
  sample_files.map fun file => { file with can_eject := !file.can_eject }

/-- A socket to a server that has nothing to say. -/
def sample_socket : SoupSocket := ⟨⟨"example".toList, 21⟩, [], [], []⟩

/-- An idle connection: no job, no error, an empty buffer. -/
def sample_conn : FtpConnection :=
  { error := none, job := none, features := 0, commands := sample_socket,
    read_buffer := List.replicate 256 NUL, read_bytes := 0, data := none }

/-- A mounted FTP backend whose idle queue is empty. -/
def sample_ftp_empty : GVfsBackendFtp :=
  { addr := some ⟨"example".toList, 21⟩, user := none, password := none,
    queue := some [], freed := [] }

/-- A mounted FTP backend with one idle connection. -/
def sample_ftp : GVfsBackendFtp := { sample_ftp_empty with queue := some [sample_conn] }

/-- The error `pop` fails a job with. -/
def cancelled_error : GError := ⟨G_IO_ERROR, G_IO_ERROR_CANCELLED, "Operation was cancelled"⟩

/-- The 4xx and 5xx codes the claim on the default case excepts. -/
def spec_listed_codes : List Nat :=
  [421, 425, 426, 450, 452, 500, 501, 502, 503, 504, 530, 532, 550, 552, 553]

/-- The table of codes and error kinds of the specification. -/
def spec_error_table : List (Nat × GIOErrorEnum) :=
  [(332, G_IO_ERROR_NOT_SUPPORTED), (532, G_IO_ERROR_NOT_SUPPORTED),
   (421, G_IO_ERROR_FAILED),
   (425, G_IO_ERROR_CLOSED), (426, G_IO_ERROR_CLOSED),
   (450, G_IO_ERROR_NOT_FOUND), (550, G_IO_ERROR_NOT_FOUND),
   (452, G_IO_ERROR_NO_SPACE), (552, G_IO_ERROR_NO_SPACE),
   (500, G_IO_ERROR_NOT_SUPPORTED), (501, G_IO_ERROR_NOT_SUPPORTED),
   (502, G_IO_ERROR_NOT_SUPPORTED), (503, G_IO_ERROR_NOT_SUPPORTED),
   (504, G_IO_ERROR_NOT_SUPPORTED),
   (530, G_IO_ERROR_PERMISSION_DENIED),
   (553, G_IO_ERROR_INVALID_FILENAME)]

/-- Whether the flags let a reply with code `c` through: a 2xx unless
`RESPONSE_FAIL_200` is set, a reply of group 1, 3, 4 or 5 when the matching
`RESPONSE_PASS_g00` is set. -/
def spec_passes (flags c : Nat) : Bool :=
  (c / 100 = 2 ∧ flags &&& RESPONSE_FAIL_200 = 0) ∨
  (c / 100 = 1 ∧ flags &&& RESPONSE_PASS_100 ≠ 0) ∨
  (c / 100 = 3 ∧ flags &&& RESPONSE_PASS_300 ≠ 0) ∨
  (c / 100 = 4 ∧ flags &&& RESPONSE_PASS_400 ≠ 0) ∨
  (c / 100 = 5 ∧ flags &&& RESPONSE_PASS_500 ≠ 0)

/-- A read that delivers one whole line, boundary included. -/
def line_read (data : String) : ReadResult := ⟨SOUP_SOCKET_OK, data.toList, true, none⟩

/-- The sample connection with a job bound and the given reads to come. -/
def sample_conn_reading (reads : List ReadResult) : FtpConnection :=
  { sample_conn with
    job := some fresh_job, commands := { sample_socket with reads := reads } }

/-- Whether a first line fails the header test of `ftp_connection_receive`:
shorter than four bytes, a first byte outside '1'..'5', or a second or third
byte that is not a digit. -/
def spec_bad_header (line : List Char) : Prop :=
  line.length < 4 ∨
  byte_at line 0 ≤ '0'.toNat ∨ byte_at line 0 > '5'.toNat ∨
  byte_at line 1 < '0'.toNat ∨ byte_at line 1 > '9'.toNat ∨
  byte_at line 2 < '0'.toNat ∨ byte_at line 2 > '9'.toNat

instance (line : List Char) : Decidable (spec_bad_header line) := by
  unfold spec_bad_header
  infer_instance

/-- The code the three digits of a first line stand for. -/
def spec_header_code (line : List Char) : Nat :=
  100 * (byte_at line 0 - '0'.toNat) + 10 * (byte_at line 1 - '0'.toNat) +
    (byte_at line 2 - '0'.toNat)

/-- The connection after a line was stored behind the bytes read so far,
and the terminator behind the line. -/
def spec_line_stored (conn : FtpConnection) (line : List Char) : FtpConnection :=
  { conn with
    read_buffer :=
      buffer_store (buffer_store conn.read_buffer conn.read_bytes line)
        (conn.read_bytes + line.length) [NUL]
    read_bytes := conn.read_bytes + line.length }

/-- A connection about to read the reply `150 Opening data connection`. -/
def sample_conn_150 : FtpConnection :=
  sample_conn_reading [line_read "150 Opening data connection\r\n"]

/-- The locals of `ftp_connection_receive` after it read that reply. -/
def sample_locals_150 : ReceiveLocals :=
  match receive_read sample_conn_150 with
  | ReceiveStep.NEXT l => l
  | ReceiveStep.RETURN _ conn => ⟨conn, ReplyState.FIRST_LINE, 0, 0⟩

/-! ## The mountable-list backend: debounced recomputation -/

/-- The idle sources of the GLib main loop: the ids of the sources waiting
to run, oldest first, and the last id handed out. -/
structure GMainContext where
  idle_sources : List Nat
  last_id : Nat
  deriving DecidableEq, Repr

/-- The call `g_idle_add (function, data)`: GLib attaches a new idle source
and returns its id, which is greater than 0. -/
def g_idle_add (context : GMainContext) : Nat × GMainContext :=
  (context.last_id + 1,
    { idle_sources := context.idle_sources ++ [context.last_id + 1],
      last_id := context.last_id + 1 })

/-- The function `recompute_files_in_idle`: the backend afterwards and the
value returned (`FALSE`: the source is not to run again). -/
def recompute_files_in_idle (glib : GLib) (backend : GVfsBackendComputer)
    (volume_monitor : GVolumeMonitor) : GVfsBackendComputer × Bool :=
  let backend := { backend with recompute_idle_tag := 0 }
  ((recompute_files glib backend volume_monitor).getD backend, false)

/-- The function `object_changed`, the handler of the nine signals of the
volume monitor. -/
def object_changed (backend : GVfsBackendComputer) (context : GMainContext) :
    GVfsBackendComputer × GMainContext :=
  if backend.recompute_idle_tag = 0 then
    let (tag, context) := g_idle_add context
    ({ backend with recompute_idle_tag := tag }, context)
  else (backend, context)

/-- The backend in its main loop. -/
structure ComputerLoop where
  backend : GVfsBackendComputer
  context : GMainContext
  deriving DecidableEq, Repr

/-- What happens next in the main loop: the volume monitor emits one of its
signals, or the loop is idle and dispatches the oldest idle source, with the
platform in the given state. -/
inductive LoopStep where
  | PLATFORM_EVENT
  | IDLE (volume_monitor : GVolumeMonitor)
  deriving DecidableEq, Repr

/-- One step of the main loop. An idle source whose function returns `FALSE`
is removed after its run. -/
def loop_step (glib : GLib) (s : ComputerLoop) : LoopStep → ComputerLoop
  | LoopStep.PLATFORM_EVENT =>
    let (backend, context) := object_changed s.backend s.context
    { s with backend := backend, context := context }
  | LoopStep.IDLE volume_monitor =>
    match s.context.idle_sources with
    | [] => s
    | id :: sources =>
      let (backend, again) := recompute_files_in_idle glib s.backend volume_monitor
      { backend := backend
        context :=
          { s.context with idle_sources := if again then sources ++ [id] else sources } }

/-- A sequence of steps of the main loop. -/
def loop_run (glib : GLib) (s : ComputerLoop) (steps : List LoopStep) : ComputerLoop :=
  steps.foldl (loop_step glib) s

/-- The tag and the idle sources agree: no source and tag 0, or one source
whose id is the tag. -/
def spec_coalesced (s : ComputerLoop) : Prop :=
  (s.context.idle_sources = [] ∧ s.backend.recompute_idle_tag = 0) ∨
  (s.context.idle_sources = [s.backend.recompute_idle_tag] ∧ s.backend.recompute_idle_tag ≠ 0)

/-! ## The entries of the list, as the specification words them -/

/-- The drive, volume, mount and priority of an entry. -/
def entry_origin (file : ComputerFile) :
    Option GDrive × Option GVolume × Option GMount × Int :=
  (file.drive, file.volume, file.mount, file.prio)

/-- The entries the specification lists, in build order: per connected
drive one entry per volume or, without volumes, one drive-only entry
(priority -3); one per volume without drive (-2); one per mount without
volume (-1). -/
def spec_origins (volume_monitor : GVolumeMonitor) :
    List (Option GDrive × Option GVolume × Option GMount × Int) :=
  (volume_monitor.connected_drives.map fun drive =>
      if drive.volumes = [] then [(some drive, none, none, -3)]
      else drive.volumes.map fun volume => (some drive, some volume, volume.mount, -3)).flatten ++
  ((volume_monitor.volumes.filter fun volume => !volume.has_drive).map
      fun volume => (none, some volume, volume.mount, -2)) ++
  ((volume_monitor.mounts.filter fun mount => !mount.has_volume).map
      fun mount => (none, none, some mount, -1))

/-- The list length the specification gives. -/
def spec_length (volume_monitor : GVolumeMonitor) : Nat :=
  (volume_monitor.connected_drives.map fun drive => max 1 drive.volumes.length).sum +
  (volume_monitor.volumes.filter fun volume => !volume.has_drive).length +
  (volume_monitor.mounts.filter fun mount => !mount.has_volume).length

/-- The entries the first loop of `recompute_files` makes for one drive, in
the order of its volumes. -/
def drive_entries (drive : GDrive) : List ComputerFile :=
  if drive.volumes = [] then
    [{ blank_file with drive := some drive, volume := none, mount := none, prio := -3 }]
  else
    drive.volumes.map fun volume =>
      { blank_file with
        drive := some drive, volume := some volume, mount := volume.mount, prio := -3 }

/-- The entry the second loop of `recompute_files` makes for one volume, if
any. -/
def volume_entries (volume : GVolume) : List ComputerFile :=
  if !volume.has_drive then
    [{ blank_file with drive := none, volume := some volume, mount := volume.mount, prio := -2 }]
  else []

/-- The entry the third loop of `recompute_files` makes for one mount, if
any. -/
def mount_entries (mount : GMount) : List ComputerFile :=
  if !mount.has_volume then
    [{ blank_file with drive := none, volume := none, mount := some mount, prio := -1 }]
  else []

/-! ## Filenames, as the specification words them -/

/-- The name the specification gives the `i`-th of the entries that share a
base name and an extension: name and extension for the first, and the name,
a dash, the decimal `i` and the extension for the others. -/
def spec_candidate (basename extension : List Char) (i : Nat) : List Char :=
  if i = 0 then basename ++ extension
  else basename ++ '-' :: Nat.toDigits 10 i ++ extension

/-- Whether an entry is the drive-only entry of a drive named `name`. -/
def spec_drive_only (name : List Char) (file : ComputerFile) : Bool :=
  match file.drive with
  | some drive => decide (drive.name = name) && file.volume.isNone
  | none => false

/-- The platform-provided name an entry's filename is derived from: of the
drive when it has one, else of the volume, else of the mount. -/
def spec_name (file : ComputerFile) : List Char :=
  match file.drive, file.volume, file.mount with
  | some drive, _, _ => drive.name
  | none, some volume, _ => volume.name
  | none, none, some mount => mount.name
  | none, none, none => []

/-- The extension by origin: `.drive` when the entry has a drive, else
`.volume` when it has a volume, else `.mount`. -/
def spec_extension (file : ComputerFile) : List Char :=
  if file.drive.isSome then ".drive".toList
  else if file.volume.isSome then ".volume".toList
  else ".mount".toList

/-- The strings of the pattern `^[^/]+\.(drive|volume|mount)(-[0-9]+)?$`: a
non-empty stem without '/', a dot, one of the three words and, optionally, a
dash and one or more decimal digits. -/
def spec_matches_pattern (s : List Char) : Prop :=
  ∃ stem word suffix : List Char,
    s = stem ++ '.' :: word ++ suffix ∧ stem ≠ [] ∧ (∀ c ∈ stem, c ≠ '/') ∧
    (word = "drive".toList ∨ word = "volume".toList ∨ word = "mount".toList) ∧
    (suffix = [] ∨
      ∃ digits : List Char, digits ≠ [] ∧ (∀ c ∈ digits, c.isDigit = true) ∧
        suffix = '-' :: digits)

/-- A monitor state with two connected drives named "X", neither with a
volume, and a volume without drive named "X". -/
def sample_monitor_twins : GVolumeMonitor :=
  ⟨[⟨"X".toList, ⟨1⟩, true, []⟩, ⟨"X".toList, ⟨2⟩, false, []⟩],
    [⟨"X".toList, ⟨3⟩, true, false, none, false⟩], []⟩

/-! ## The FTP backend: sending a command -/

/-- The call `soup_socket_write` on a blocking socket: it reports what the
socket's next write reports, and the bytes written are added to the
socket's record. A socket with no report left takes the whole buffer. -/
def soup_socket_write (sock : SoupSocket) (buffer : List Char) : WriteResult × SoupSocket :=
  match sock.writes with
  | [] =>
    (⟨SOUP_SOCKET_OK, buffer.length, none⟩, { sock with written := sock.written ++ [buffer] })
  | w :: writes =>
    (w, { sock with writes := writes, written := sock.written ++ [buffer.take w.n_bytes] })

/-- The function `ftp_connection_sendv`: the value returned and the
connection afterwards. `command` is the command as
`g_string_append_vprintf` formats it. -/
def ftp_connection_sendv (conn : FtpConnection) (flags : Nat) (command : List Char) :
    Nat × FtpConnection :=
  if ftp_connection_in_error conn then (0, conn)
  else
    let command := command ++ "\r\n".toList
    let (w, commands) := soup_socket_write conn.commands command
    let conn := { conn with commands := commands }
    match w.status with
    | SOUP_SOCKET_ERROR =>
      (0, { conn with error := if conn.error.isNone then w.error else conn.error })
    | _ =>
      if w.n_bytes = command.length then ftp_connection_receive conn flags
      else
        (0, { conn with
          error := g_set_error conn.error G_IO_ERROR G_IO_ERROR_FAILED "broken transmission" })

/-- The function `ftp_connection_send`. -/
def ftp_connection_send (conn : FtpConnection) (flags : Nat) (command : List Char) :
    Nat × FtpConnection :=
  ftp_connection_sendv conn flags command

/-! ## The FTP backend: C strings and numbers -/

/-- The string a `char *` into an array points to: the bytes before the
first NUL. -/
def c_string (p : List Char) : List Char := p.takeWhile (· ≠ NUL)

/-- The call `strrchr (s, c)` for a `c` other than NUL, as the offset of the
last `c` in the string. -/
def strrchr : List Char → Char → Option Nat
  | [], _ => none
  | x :: s, c =>
    match strrchr s c with
    | some i => some (i + 1)
    | none => if x = c then some 0 else none

/-- The C function `isspace` in the C locale. -/
def isspace (c : Char) : Bool := c = ' ' || (9 ≤ c.toNat && c.toNat ≤ 13)

/-- The number a string of decimal digits stands for. -/
def digits_value (digits : List Char) : Nat :=
  digits.foldl (fun v c => 10 * v + (c.toNat - '0'.toNat)) 0

/-- The conversion both `strtoul (s, NULL, 10)` and the `%u` of `sscanf`
make: white space is skipped, a sign is accepted, then come one or more
digits. The value is that of an `unsigned long` of 64 bits: `ULONG_MAX` on
overflow, negated modulo 2^64 after a minus sign. It gives the value and
the rest of the string, or nothing when there is no digit. -/
def scan_unsigned_long (s : List Char) : Option (Nat × List Char) :=
  let s := s.dropWhile isspace
  let (negative, s) :=
    match s with
    | '-' :: t => (true, t)
    | '+' :: t => (false, t)
    | _ => (false, s)
  let digits := s.takeWhile Char.isDigit
  if digits = [] then none
  else
    let n := digits_value digits
    let value :=
      if n ≥ 2 ^ 64 then 2 ^ 64 - 1
      else if negative then (2 ^ 64 - n) % 2 ^ 64
      else n
    some (value, s.dropWhile Char.isDigit)

/-- The call `strtoul (s, NULL, 10)`: 0 when there is no number. -/
def strtoul (s : List Char) : Nat :=
  match scan_unsigned_long s with
  | some (value, _) => value
  | none => 0

/-- One `%u` of `sscanf`: the value stored in the `guint` and the rest of
the input. -/
def scan_u (s : List Char) : Option (Nat × List Char) :=
  (scan_unsigned_long s).map fun (value, rest) => (value % 2 ^ 32, rest)

/-- A ',' of the format of `sscanf`: the input has to go on with it. -/
def scan_comma : List Char → Option (List Char)
  | ',' :: s => some s
  | _ => none

/-- The call `sscanf (s, "%u,%u,%u,%u,%u,%u", ...)`: the six numbers when it
returns 6. -/
def sscanf_pasv (s : List Char) : Option (Nat × Nat × Nat × Nat × Nat × Nat) := do
  let (ip1, s) ← scan_u s
  let s ← scan_comma s
  let (ip2, s) ← scan_u s
  let s ← scan_comma s
  let (ip3, s) ← scan_u s
  let s ← scan_comma s
  let (ip4, s) ← scan_u s
  let s ← scan_comma s
  let (port1, s) ← scan_u s
  let s ← scan_comma s
  let (port2, _) ← scan_u s
  some (ip1, ip2, ip3, ip4, port1, port2)

/-- The loop `for (s = conn->read_buffer; *s; s++)` of
`ftp_connection_ensure_data_connection` over the string in the buffer: the
numbers read at the first place where `sscanf` reads six, or nothing when
the loop ends at the NUL. -/
def pasv_scan : List Char → Option (Nat × Nat × Nat × Nat × Nat × Nat)
  | [] => none
  | c :: s =>
    match sscanf_pasv (c :: s) with
    | some numbers => some numbers
    | none => pasv_scan s

/-! ## The FTP backend: the data connection -/

/-- The flag `FTP_FEATURE_EPSV`. -/
def FTP_FEATURE_EPSV : Nat := 1 <<< 3

/-- The libsoup macro `SOUP_STATUS_IS_SUCCESSFUL`. -/
def SOUP_STATUS_IS_SUCCESSFUL (status : Nat) : Bool := 200 ≤ status && status < 300

/-- What the network answers a new socket: the status
`soup_socket_connect_sync` reports for an address, and what the reads of a
socket connected to it will report. -/
structure SoupNetwork where
  connect_sync : SoupAddress → Nat
  reads : SoupAddress → List ReadResult

/-- The first part of `ftp_connection_ensure_data_connection`, the `if` on
`FTP_FEATURE_EPSV`: the address with which it jumps to `have_address`, or
none when it falls through to `PASV`. -/
def epsv_address (conn : FtpConnection) : Option SoupAddress × FtpConnection :=
  if conn.features &&& FTP_FEATURE_EPSV ≠ 0 then
    let (status, conn) := ftp_connection_send conn RESPONSE_PASS_500 "EPSV".toList
    if STATUS_GROUP status = 2 then
      match strrchr (c_string conn.read_buffer) '(' with
      | some s =>
        let port := strtoul (c_string (conn.read_buffer.drop (s + 4))) % 2 ^ 32
        if port ≠ 0 then (some ⟨conn.commands.remote_address.name, port⟩, conn)
        else (none, conn)
      | none => (none, conn)
    else (none, conn)
  else (none, conn)

/-- The second part of `ftp_connection_ensure_data_connection`, from the
`PASV` command to the address: none when the function returns `FALSE`
there. -/
def pasv_address (conn : FtpConnection) : Option SoupAddress × FtpConnection :=
  let (status, conn) := ftp_connection_send conn 0 "PASV".toList
  if status = 0 then (none, conn)
  else
    match pasv_scan (c_string conn.read_buffer) with
    | none =>
      (none, { conn with
        error := g_set_error conn.error G_IO_ERROR G_IO_ERROR_FAILED "Invalid reply" })
    | some (ip1, ip2, ip3, ip4, port1, port2) =>
      let ip := Nat.toDigits 10 ip1 ++ '.' :: Nat.toDigits 10 ip2 ++
        '.' :: Nat.toDigits 10 ip3 ++ '.' :: Nat.toDigits 10 ip4
      (some ⟨ip, (port1 <<< 8) % 2 ^ 32 ||| port2⟩, conn)

/-- The part of `ftp_connection_ensure_data_connection` from the label
`have_address` on. -/
def have_address (net : SoupNetwork) (conn : FtpConnection) (addr : SoupAddress) :
    Bool × FtpConnection :=
  let data : SoupSocket := ⟨addr, net.reads addr, [], []⟩
  let status := net.connect_sync addr
  if !SOUP_STATUS_IS_SUCCESSFUL status then
    (false, { conn with
      error := g_set_error conn.error G_IO_ERROR G_IO_ERROR_HOST_NOT_FOUND
        "Could not connect to host"
      data := none })
  else (true, { conn with data := some data })

/-- The function `ftp_connection_ensure_data_connection`. -/
def ftp_connection_ensure_data_connection (net : SoupNetwork) (conn : FtpConnection) :
    Bool × FtpConnection :=
  match epsv_address conn with
  | (some addr, conn) => have_address net conn addr
  | (none, conn) =>
    match pasv_address conn with
    | (some addr, conn) => have_address net conn addr
    | (none, conn) => (false, conn)

/-- The function `ftp_connection_close_data_connection` on a connection
that is not `NULL`. -/
def ftp_connection_close_data_connection (conn : FtpConnection) : FtpConnection :=
  { conn with data := none }

/-! ## The FTP backend: file names -/

/-- The function `ftp_filename_from_gvfs_path`: a copy of the path. -/
def ftp_filename_from_gvfs_path (pathname : List Char) : List Char := pathname

/-- The call `strpbrk (s, accept)`: the string from the first byte that is
in `accept` on, or `NULL`. -/
def strpbrk (s accept : List Char) : Option (List Char) :=
  match s.dropWhile fun c => !accept.contains c with
  | [] => none
  | c :: rest => some (c :: rest)

/-- The locals of GLib's `g_build_path_va`. -/
structure BuildPath where
  result : List Char
  is_first : Bool
  have_leading : Bool
  single_element : Option (List Char)
  last_trailing : Option (List Char)
  deriving DecidableEq, Repr

/-- One pass of the loop of GLib's `g_build_path_va` for the separator "/":
an empty element is skipped; the leading separators of the first element
that is not empty are kept; the element without its leading and trailing
separators is appended, after a separator when it is not the first;
`last_trailing` is the run of separators that ends the element. -/
def build_path_step (st : BuildPath) (element : List Char) : BuildPath :=
  if element = [] then st
  else
    let start := element.dropWhile (· = '/')
    let middle := (start.reverse.dropWhile (· = '/')).reverse
    let trailing := element.drop (element.reverse.dropWhile (· = '/')).length
    let st := { st with last_trailing := some trailing }
    let st :=
      if !st.have_leading then
        { st with
          single_element :=
            if element.length - trailing.length ≤ element.length - start.length then some element
            else st.single_element
          result := st.result ++ element.take (element.length - start.length)
          have_leading := true }
      else { st with single_element := none }
    if middle = [] then st
    else
      { st with
        result := (if st.is_first then st.result else st.result ++ ['/']) ++ middle
        is_first := false }

/-- GLib's `g_build_path ("/", ...)` on the given elements. -/
def g_build_path (elements : List (List Char)) : List Char :=
  let st := elements.foldl build_path_step ⟨[], true, false, none, none⟩
  match st.single_element with
  | some element => element
  | none => st.result ++ st.last_trailing.getD []

/-- The loop `while (base > file_name && G_IS_DIR_SEPARATOR (*base)) base--`
of GLib's `g_path_get_dirname`. -/
def dirname_loop (file_name : List Char) : Nat → Nat
  | 0 => 0
  | base + 1 =>
    if file_name.getD (base + 1) NUL = '/' then dirname_loop file_name base else base + 1

/-- GLib's `g_path_get_dirname` on a Unix path. -/
def g_path_get_dirname (file_name : List Char) : List Char :=
  match strrchr file_name '/' with
  | none => ".".toList
  | some base => file_name.take (1 + dirname_loop file_name base)

/-- A string without the '/' characters that end it. -/
def spec_strip_trailing (s : List Char) : List Char :=
  (s.reverse.dropWhile (· = '/')).reverse

/-- The directory name and the base name joined by '/', as the
specification words it: the directory name without the '/' that end it, one
'/', the base name. When nothing of the directory name is left without the
'/' that end it, as for the root "/", the base name follows the directory
name as it is; an empty base name adds nothing to the directory name. -/
def spec_join (dirname basename : List Char) : List Char :=
  if basename = [] then dirname
  else if spec_strip_trailing dirname = [] then dirname ++ basename
  else spec_strip_trailing dirname ++ '/' :: basename

/-- The function `ftp_filename_construct`; `NULL` is none. -/
def ftp_filename_construct (dirname basename : List Char) : Option (List Char) :=
  if (strpbrk basename "/\r\n".toList).isSome then none
  else some (g_build_path [dirname, basename])

/-! ## The FTP backend: the job handlers -/

/-- How a job handler of the FTP backend ends: it returns, with the backend
and the job as `g_vfs_backend_ftp_push_connection` left them, or it ends in
`g_vfs_backend_ftp_pop_connection` as `PopResult` tells. -/
inductive JobRun where
  | RETURNED (ftp : GVfsBackendFtp) (job : Option GVfsJob)
  | NULL_DEREF (ftp : GVfsBackendFtp) (job : GVfsJob)
  | BLOCKED
  deriving DecidableEq, Repr

/-- The function `do_delete`. -/
def do_delete (ftp : GVfsBackendFtp) (job : GVfsJob) (wakeups : List Wakeup)
    (filename : List Char) : JobRun :=
  match g_vfs_backend_ftp_pop_connection ftp job wakeups with
  | PopResult.BLOCKED => JobRun.BLOCKED
  | PopResult.NULL_DEREF ftp job _ => JobRun.NULL_DEREF ftp job
  | PopResult.RETURNED conn ftp _ =>
    let file := ftp_filename_from_gvfs_path filename
    let (response, conn) := ftp_connection_send conn RESPONSE_PASS_500 ("DELE ".toList ++ file)
    let conn :=
      if STATUS_GROUP response = 5 then (ftp_connection_send conn 0 ("RMD ".toList ++ file)).2
      else conn
    let (ftp, job) := g_vfs_backend_ftp_push_connection ftp (some conn)
    JobRun.RETURNED ftp job

/-- The function `do_set_display_name`. The new path it stores in the job is
not a terminal call and is left out; `%s` prints a `NULL` as "(null)". -/
def do_set_display_name (ftp : GVfsBackendFtp) (job : GVfsJob) (wakeups : List Wakeup)
    (filename display_name : List Char) : JobRun :=
  match g_vfs_backend_ftp_pop_connection ftp job wakeups with
  | PopResult.BLOCKED => JobRun.BLOCKED
  | PopResult.NULL_DEREF ftp job _ => JobRun.NULL_DEREF ftp job
  | PopResult.RETURNED conn ftp _ =>
    let original := ftp_filename_from_gvfs_path filename
    let dir := ftp_filename_from_gvfs_path (g_path_get_dirname filename)
    let now := ftp_filename_construct dir display_name
    let conn :=
      if now.isNone then
        { conn with
          error := g_set_error conn.error G_IO_ERROR G_IO_ERROR_INVALID_FILENAME
            "Invalid filename" }
      else conn
    let (_, conn) :=
      ftp_connection_send conn (RESPONSE_PASS_300 ||| RESPONSE_FAIL_200)
        ("RNFR ".toList ++ original)
    let (_, conn) := ftp_connection_send conn 0 ("RNTO ".toList ++ now.getD "(null)".toList)
    let (ftp, job) := g_vfs_backend_ftp_push_connection ftp (some conn)
    JobRun.RETURNED ftp job

/-! ## Commands and replies, as the specification words them -/

/-- The connection after `command` and its line end were written whole to
the command socket. -/
def spec_sent (conn : FtpConnection) (command : List Char) : FtpConnection :=
  { conn with
    commands :=
      { conn.commands with
        written := conn.commands.written ++ [command ++ "\r\n".toList] } }

/-- The server answers with the code `c`: the reading part of
`ftp_connection_receive` on `conn` ends with the reply complete, the
response `c`, and the connection `after`. -/
def spec_answered (conn : FtpConnection) (c : Nat) (after : FtpConnection) : Prop :=
  ∃ l, receive_read conn = ReceiveStep.NEXT l ∧ l.reply_state = ReplyState.DONE ∧
    l.response = c ∧ l.conn = after

/-- What reading a reply leaves as it was: the job, the features, the data
socket, and of the command socket the peer, the writes to come and the
record of the bytes written. -/
def spec_same_session (a b : FtpConnection) : Prop :=
  a.job = b.job ∧ a.features = b.features ∧ a.data = b.data ∧
  a.commands.remote_address = b.commands.remote_address ∧
  a.commands.writes = b.commands.writes ∧ a.commands.written = b.commands.written

/-- The error `ftp_connection_set_error_from_response` sets for a code. -/
def spec_response_error (c : Nat) : GError :=
  ⟨G_IO_ERROR, (error_from_response c).1, (error_from_response c).2⟩

/-- The locals of `ftp_connection_receive` after it read the reply on
`conn`, for the sample connections. -/
def sample_reply (conn : FtpConnection) : ReceiveLocals :=
  match receive_read conn with
  | ReceiveStep.NEXT l => l
  | ReceiveStep.RETURN _ conn => ⟨conn, ReplyState.FIRST_LINE, 0, 0⟩

/-- An idle connection to a server that answers the first command with 550
and the second with 250. -/
def sample_conn_delete : FtpConnection :=
  { sample_conn with
    commands :=
      { sample_socket with
        reads := [line_read "550 No such file\r\n", line_read "250 Directory removed\r\n"] } }

/-- A mounted FTP backend with `sample_conn_delete` idle. -/
def sample_ftp_delete : GVfsBackendFtp :=
  { sample_ftp_empty with queue := some [sample_conn_delete] }

/-- The sample connection after `DELE /x` was sent for a fresh job and
answered. -/
def sample_conn_dele : FtpConnection :=
  (sample_reply
    (spec_sent { sample_conn_delete with job := some fresh_job } "DELE /x".toList)).conn

/-- The sample connection after `RMD /x` was sent next and answered. -/
def sample_conn_rmd : FtpConnection :=
  (sample_reply (spec_sent sample_conn_dele "RMD /x".toList)).conn

/-- A network on which every connect succeeds (status 200) and a data socket
has nothing to deliver. -/
def sample_net : SoupNetwork := ⟨fun _ => 200, fun _ => []⟩

/-- An idle connection with the `EPSV` feature to a server that answers the
first command with 500 and the second with
`227 Entering Passive Mode (10,0,0,5,20,30)`. -/
def sample_conn_epsv : FtpConnection :=
  { sample_conn with
    features := FTP_FEATURE_EPSV
    commands :=
      { sample_socket with
        reads := [line_read "500 Unknown command\r\n",
          line_read "227 Entering Passive Mode (10,0,0,5,20,30)\r\n"] } }

/-- The connection `sample_conn_epsv` after `EPSV` was sent and answered. -/
def sample_conn_epsv_after : FtpConnection :=
  (sample_reply (spec_sent sample_conn_epsv "EPSV".toList)).conn

/-- The connection `sample_conn_epsv` after `PASV` was sent next and
answered. -/
def sample_conn_epsv_pasv : FtpConnection :=
  (sample_reply (spec_sent sample_conn_epsv_after "PASV".toList)).conn

/-! ## The FTP backend: listing a directory -/

/-- The locals of `run_list_command` that live across its loop; `name` is
the content of the buffer `name`. -/
structure ListLocals where
  size : Nat
  bytes_read : Nat
  name : List Char
  list : List (List Char)
  deriving DecidableEq, Repr

/-- How the loop of `run_list_command` is left: `DONE` when its condition
fails or a read delivers nothing, `TOO_LONG` by the `break` after the error
is set, `ERROR2` by `goto error2` with the error of the read. -/
inductive ListExit where
  | DONE (l : ListLocals)
  | TOO_LONG (l : ListLocals)
  | ERROR2 (l : ListLocals) (error : Option GError)
  deriving DecidableEq, Repr

/-- The loop `do ... while (status == SOUP_SOCKET_OK)` of `run_list_command`
over what the coming reads of the data socket report. A read that reports
the boundary has delivered its two bytes, so `bytes_read - 2` does not wrap;
a socket with no report left delivers nothing. -/
def list_loop : List ReadResult → ListLocals → ListExit
  | [], l =>
    if (l.bytes_read + 3) % GSIZE ≥ l.size ∧ l.size ≥ 16384 then ListExit.TOO_LONG l
    else
      let l := if (l.bytes_read + 3) % GSIZE ≥ l.size then { l with size := l.size + 128 } else l
      ListExit.DONE l
  | r :: reads, l =>
    if (l.bytes_read + 3) % GSIZE ≥ l.size ∧ l.size ≥ 16384 then ListExit.TOO_LONG l
    else
      let l := if (l.bytes_read + 3) % GSIZE ≥ l.size then { l with size := l.size + 128 } else l
      let l :=
        { l with
          name := buffer_store l.name l.bytes_read r.data
          bytes_read := (l.bytes_read + r.data.length) % GSIZE }
      match r.status with
      | SOUP_SOCKET_ERROR => ListExit.ERROR2 l r.error
      | status =>
        if r.data.length = 0 then ListExit.DONE l
        else
          let l :=
            if r.got_boundary then
              let name := buffer_store l.name (l.bytes_read - 2) [NUL]
              { l with name := name, list := c_string name :: l.list, bytes_read := 0 }
            else l
          if status = SOUP_SOCKET_OK then list_loop reads l else ListExit.DONE l

/-- The function `run_list_command`: the list returned (`NULL` is the empty
list) and the connection afterwards. A read on a data socket that is `NULL`
reports an error. -/
def run_list_command (net : SoupNetwork) (conn : FtpConnection) (command : List Char) :
    List (List Char) × FtpConnection :=
  let (_, conn) := ftp_connection_ensure_data_connection net conn
  let (_, conn) := ftp_connection_sendv conn (RESPONSE_PASS_100 ||| RESPONSE_FAIL_200) command
  if ftp_connection_in_error conn then ([], ftp_connection_close_data_connection conn)
  else
    let reads :=
      match conn.data with
      | some data => data.reads
      | none => [⟨SOUP_SOCKET_ERROR, [], false, none⟩]
    match list_loop reads ⟨128, 0, [], []⟩ with
    | ListExit.ERROR2 _ error =>
      let conn := { conn with error := if conn.error.isNone then error else conn.error }
      let conn := ftp_connection_close_data_connection conn
      let (_, conn) := ftp_connection_receive conn 0
      ([], ftp_connection_close_data_connection conn)
    | ListExit.TOO_LONG l =>
      let conn :=
        { conn with
          error := g_set_error conn.error G_IO_ERROR G_IO_ERROR_FILENAME_TOO_LONG
            "filename too long" }
      let list :=
        if l.bytes_read ≠ 0 then c_string (buffer_store l.name l.bytes_read [NUL]) :: l.list
        else l.list
      let conn := ftp_connection_close_data_connection conn
      let (_, conn) := ftp_connection_receive conn 0
      if ftp_connection_in_error conn then ([], ftp_connection_close_data_connection conn)
      else (list.reverse, conn)
    | ListExit.DONE l =>
      let list :=
        if l.bytes_read ≠ 0 then c_string (buffer_store l.name l.bytes_read [NUL]) :: l.list
        else l.list
      let conn := ftp_connection_close_data_connection conn
      let (_, conn) := ftp_connection_receive conn 0
      if ftp_connection_in_error conn then ([], ftp_connection_close_data_connection conn)
      else (list.reverse, conn)

/-! ## Listings, as the specification words them -/

/-- The reads that deliver one line in the given pieces: each piece whole,
the last one with the boundary. -/
def spec_line_reads : List (List Char) → List ReadResult
  | [] => []
  | piece :: pieces =>
    ⟨SOUP_SOCKET_OK, piece, decide (pieces = []), none⟩ :: spec_line_reads pieces

/-- The reads that deliver the lines of a listing, each in its pieces, after
which the server closes the data connection. -/
def spec_listing_reads (lines : List (List (List Char))) : List ReadResult :=
  (lines.map spec_line_reads).flatten

/-- The line `run_list_command` returns for a line delivered in the given
pieces: the bytes before the two bytes of the line end, as a C string. -/
def spec_line (pieces : List (List Char)) : List Char :=
  c_string (pieces.flatten.take (pieces.flatten.length - 2))

/-- Whether every read the loop of `run_list_command` makes delivers at most
the `size - bytes_read - 1` bytes it asks for, from the given `size` and
`bytes_read` on. -/
def spec_reads_fit : List ReadResult → Nat → Nat → Bool
  | [], _, _ => true
  | r :: reads, size, bytes_read =>
    if bytes_read + 3 ≥ size ∧ size ≥ 16384 then true
    else
      let size := if bytes_read + 3 ≥ size then size + 128 else size
      decide (r.data.length ≤ size - bytes_read - 1) &&
        spec_reads_fit reads size (if r.got_boundary then 0 else bytes_read + r.data.length)

/-- The locals after one pass of the loop of `run_list_command` in which the
read reported `SOUP_SOCKET_OK` and delivered `r.data`, without wrap of the
counters. -/
def spec_list_next (l : ListLocals) (r : ReadResult) : ListLocals :=
  let size := if l.bytes_read + 3 ≥ l.size then l.size + 128 else l.size
  let name := buffer_store l.name l.bytes_read r.data
  let bytes_read := l.bytes_read + r.data.length
  if r.got_boundary then
    ⟨size, 0, buffer_store name (bytes_read - 2) [NUL],
      c_string (buffer_store name (bytes_read - 2) [NUL]) :: l.list⟩
  else ⟨size, bytes_read, name, l.list⟩

/-- An idle connection without the `EPSV` feature, bound to a job, to a
server that answers `PASV`, the list command and the end of the transfer. -/
def sample_conn_list : FtpConnection :=
  { sample_conn with
    job := some fresh_job
    commands :=
      { sample_socket with
        reads := [line_read "227 Entering Passive Mode (10,0,0,5,20,30)\r\n",
          line_read "150 Here comes the directory listing\r\n",
          line_read "226 Directory send OK\r\n"] } }

/-- A listing of two lines, "abc" delivered in two pieces and "d" in one. -/
def sample_listing : List (List (List Char)) :=
  [["ab".toList, "c\r\n".toList], ["d\r\n".toList]]

/-- A network whose data sockets deliver `sample_listing`. -/
def sample_net_listing : SoupNetwork := ⟨fun _ => 200, fun _ => spec_listing_reads sample_listing⟩

/-- A line of 16384 bytes, 16382 times 'a' and the line end, in the pieces
a socket delivers that holds back one byte for the boundary: 126 bytes, then
127 times 128 bytes, then the line end. -/
def sample_long_line : List (List Char) :=
  List.replicate 126 'a' :: (List.replicate 127 (List.replicate 128 'a') ++ [['\r', '\n']])

/-- A network whose data sockets deliver `sample_long_line`. -/
def sample_net_long : SoupNetwork := ⟨fun _ => 200, fun _ => spec_line_reads sample_long_line⟩

/-- The connection `sample_conn_list` after the data connection was made on
the given network. -/
def sample_conn_list_data (net : SoupNetwork) : FtpConnection :=
  (ftp_connection_ensure_data_connection net sample_conn_list).2

/-- The connection `sample_conn_list` after the data connection was made and
`LIST` was sent and answered. -/
def sample_conn_list_sent (net : SoupNetwork) : FtpConnection :=
  (ftp_connection_sendv (sample_conn_list_data net) (RESPONSE_PASS_100 ||| RESPONSE_FAIL_200)
    "LIST".toList).2

/-! ## The connection pool, as the specification words it -/

/-- An idle connection in the specification's sense: bound to no job, with an
empty error slot. -/
def spec_idle (conn : FtpConnection) : Prop := conn.job = none ∧ conn.error = none

instance (conn : FtpConnection) : Decidable (spec_idle conn) := by
  unfold spec_idle
  infer_instance

/-- The invariant of the pool: every connection held in the idle queue is
idle. -/
def spec_pool_idle (ftp : GVfsBackendFtp) : Prop :=
  ∀ queue, ftp.queue = some queue → ∀ conn ∈ queue, spec_idle conn

/-- The backend a pop leaves behind, whichever way it ends; a pop that
blocks leaves the backend as it was. -/
def spec_after_pop (ftp : GVfsBackendFtp) (result : PopResult) : GVfsBackendFtp :=
  match result with
  | PopResult.RETURNED _ ftp _ => ftp
  | PopResult.NULL_DEREF ftp _ _ => ftp
  | PopResult.BLOCKED => ftp

/-- A second idle connection, to another port of the same host. -/
def sample_conn_second : FtpConnection :=
  { sample_conn with commands := ⟨⟨"example".toList, 2121⟩, [], [], []⟩ }

/-- A mounted FTP backend with two idle connections. -/
def sample_ftp_two : GVfsBackendFtp :=
  { sample_ftp_empty with queue := some [sample_conn, sample_conn_second] }

/-- A connection bound to a job that met the error of a cancelled read. -/
def sample_conn_failed : FtpConnection :=
  { sample_conn with job := some fresh_job, error := some cancelled_error }

/-! ## The daemon: registration of mounts -/

/-- The struct `RegisteredPath`; the callback and the data pointer are
identified by numbers. -/
structure RegisteredPath where
  obj_path : List Char
  callback : Nat
  data : Nat
  deriving DecidableEq, Repr

/-- The fields of `GVfsDaemonPrivate` that `g_vfs_daemon_register_mount`
uses: the hash table `registered_paths`, keyed by string, and the `gint`
`mount_counter`. -/
structure GVfsDaemon where
  registered_paths : List (List Char × RegisteredPath)
  mount_counter : Int
  deriving DecidableEq, Repr

/-- What `g_vfs_daemon_init` sets in these fields. -/
def g_vfs_daemon_init : GVfsDaemon := ⟨[], 0⟩

/-- A value of `gint` arithmetic, wrapped to 32 bits. -/
def gint_wrap (x : Int) : Int := (x + 2 ^ 31) % 2 ^ 32 - 2 ^ 31

/-- The conversion `%d` of `printf`. -/
def printf_d (n : Int) : List Char :=
  if n < 0 then '-' :: Nat.toDigits 10 n.natAbs else Nat.toDigits 10 n.toNat

/-- GLib's `g_hash_table_insert` on a table with `g_str_equal` keys: the
value of an equal key is replaced, a new key is added. -/
def g_hash_table_insert : List (List Char × RegisteredPath) → List Char → RegisteredPath →
    List (List Char × RegisteredPath)
  | [], key, value => [(key, value)]
  | (k, v) :: table, key, value =>
    if k = key then (k, value) :: table else (k, v) :: g_hash_table_insert table key value

/-- GLib's `g_hash_table_lookup` on such a table. -/
def g_hash_table_lookup : List (List Char × RegisteredPath) → List Char → Option RegisteredPath
  | [], _ => none
  | (k, v) :: table, key => if k = key then some v else g_hash_table_lookup table key

/-- The function `g_vfs_daemon_register_mount`: the path returned and the
daemon afterwards. -/
def g_vfs_daemon_register_mount (daemon : GVfsDaemon) (callback user_data : Nat) :
    List Char × GVfsDaemon :=
  let daemon := { daemon with mount_counter := gint_wrap (daemon.mount_counter + 1) }
  let id := daemon.mount_counter
  let data : RegisteredPath :=
    { obj_path := "/org/gtk/vfs/mount/".toList ++ printf_d id
      callback := callback
      data := user_data }
  let daemon :=
    { daemon with
      registered_paths := g_hash_table_insert daemon.registered_paths data.obj_path data }
  (data.obj_path, daemon)

/-- Calls of `g_vfs_daemon_register_mount` made one after the other with the
given callbacks and data: the paths returned, in order, and the daemon
afterwards. -/
def spec_register_all (daemon : GVfsDaemon) : List (Nat × Nat) → List (List Char) × GVfsDaemon
  | [] => ([], daemon)
  | (callback, user_data) :: rest =>
    let (path, daemon) := g_vfs_daemon_register_mount daemon callback user_data
    let (paths, daemon) := spec_register_all daemon rest
    (path :: paths, daemon)

/-- The object path the specification gives the k-th mount. -/
def spec_mount_path (k : Nat) : List Char := "/org/gtk/vfs/mount/".toList ++ Nat.toDigits 10 k

/-! ## The write channel: seek offsets on the wire -/

/-- The enum `GSeekType`. -/
inductive GSeekType where
  | G_SEEK_CUR
  | G_SEEK_SET
  | G_SEEK_END
  deriving DecidableEq, Repr

/-- The jobs `write_channel_handle_request` creates. -/
inductive WriteChannelJob where
  | WRITE (data : List Char)
  | CLOSE_WRITE
  | SEEK_WRITE (seek_type : GSeekType) (offset : Int)
  deriving DecidableEq, Repr

/-- The constant `G_VFS_DAEMON_SOCKET_PROTOCOL_REQUEST_CLOSE`. -/
def G_VFS_DAEMON_SOCKET_PROTOCOL_REQUEST_CLOSE : Nat := 1
/-- The constant `G_VFS_DAEMON_SOCKET_PROTOCOL_REQUEST_SEEK_CUR`. -/
def G_VFS_DAEMON_SOCKET_PROTOCOL_REQUEST_SEEK_CUR : Nat := 3
/-- The constant `G_VFS_DAEMON_SOCKET_PROTOCOL_REQUEST_SEEK_SET`. -/
def G_VFS_DAEMON_SOCKET_PROTOCOL_REQUEST_SEEK_SET : Nat := 4
/-- The constant `G_VFS_DAEMON_SOCKET_PROTOCOL_REQUEST_SEEK_END`. -/
def G_VFS_DAEMON_SOCKET_PROTOCOL_REQUEST_SEEK_END : Nat := 5
/-- The constant `G_VFS_DAEMON_SOCKET_PROTOCOL_REPLY_SEEK_POS`. -/
def G_VFS_DAEMON_SOCKET_PROTOCOL_REPLY_SEEK_POS : Nat := 2

/-- The error domain `G_VFS_ERROR`. -/
def G_VFS_ERROR : GQuark := OTHER_DOMAIN 1
/-- The error code `G_VFS_ERROR_INTERNAL_ERROR`. -/
def G_VFS_ERROR_INTERNAL_ERROR : GIOErrorEnum := OTHER_CODE 1

/-- The 64 bits of a `goffset` in two's complement. -/
def goffset_bits (offset : Int) : Nat := (offset % 2 ^ 64).toNat

/-- The `goffset` (a `gint64`) that 64 bits stand for in two's complement. -/
def goffset_of_bits (bits : Nat) : Int :=
  if bits % 2 ^ 64 < 2 ^ 63 then ((bits % 2 ^ 64 : Nat) : Int)
  else ((bits % 2 ^ 64 : Nat) : Int) - 2 ^ 64

/-- The conversion of a `goffset` to `guint32`. -/
def guint32_of_goffset (offset : Int) : Nat := (offset % 2 ^ 32).toNat

/-- The expression `((goffset)arg1) | (((goffset)arg2) << 32)` on two
`guint32` arguments. -/
def seek_request_offset (arg1 arg2 : Nat) : Int :=
  goffset_of_bits (arg1 % 2 ^ 32 ||| ((arg2 % 2 ^ 32) <<< 32) % 2 ^ 64)

/-- The function `write_channel_handle_request`: the job created (`NULL`
for an unknown command) and the error set. The constant
`G_VFS_DAEMON_SOCKET_PROTOCOL_REQUEST_WRITE` is not defined in the protocol
header at hand and is a parameter. -/
def write_channel_handle_request (REQUEST_WRITE : Nat) (command _seq_nr arg1 arg2 : Nat)
    (data : List Char) : Option WriteChannelJob × Option GError :=
  if command = REQUEST_WRITE then (some (WriteChannelJob.WRITE data), none)
  else if command = G_VFS_DAEMON_SOCKET_PROTOCOL_REQUEST_CLOSE then
    (some WriteChannelJob.CLOSE_WRITE, none)
  else if command = G_VFS_DAEMON_SOCKET_PROTOCOL_REQUEST_SEEK_CUR ∨
      command = G_VFS_DAEMON_SOCKET_PROTOCOL_REQUEST_SEEK_END ∨
      command = G_VFS_DAEMON_SOCKET_PROTOCOL_REQUEST_SEEK_SET then
    let seek_type :=
      if command = G_VFS_DAEMON_SOCKET_PROTOCOL_REQUEST_SEEK_END then GSeekType.G_SEEK_END
      else if command = G_VFS_DAEMON_SOCKET_PROTOCOL_REQUEST_SEEK_CUR then GSeekType.G_SEEK_CUR
      else GSeekType.G_SEEK_SET
    (some (WriteChannelJob.SEEK_WRITE seek_type (seek_request_offset arg1 arg2)), none)
  else
    (none, g_set_error none G_VFS_ERROR G_VFS_ERROR_INTERNAL_ERROR
      ("Unknown stream command " ++ String.mk (Nat.toDigits 10 command) ++ "\n"))

/-- GLib's `GUINT32_SWAP_LE_BE`: the four bytes of a `guint32` in reverse
order. -/
def GUINT32_SWAP_LE_BE (val : Nat) : Nat :=
  val % 256 * 2 ^ 24 + val / 2 ^ 8 % 256 * 2 ^ 16 + val / 2 ^ 16 % 256 * 2 ^ 8 +
    val / 2 ^ 24 % 256

/-- GLib's `g_htonl` on a host of the given byte order. -/
def g_htonl (little_endian : Bool) (val : Nat) : Nat :=
  if little_endian then GUINT32_SWAP_LE_BE (val % 2 ^ 32) else val % 2 ^ 32

/-- GLib's `g_ntohl` on a host of the given byte order. -/
def g_ntohl (little_endian : Bool) (val : Nat) : Nat :=
  if little_endian then GUINT32_SWAP_LE_BE (val % 2 ^ 32) else val % 2 ^ 32

/-- The struct `GVfsDaemonSocketProtocolReply`. -/
structure GVfsDaemonSocketProtocolReply where
  type : Nat
  seq_nr : Nat
  arg1 : Nat
  arg2 : Nat
  deriving DecidableEq, Repr

/-- The function `g_vfs_write_channel_send_seek_offset`: the reply handed to
`g_vfs_channel_send_reply`, on a host of the given byte order and a channel
whose current sequence number is `seq_nr`. -/
def g_vfs_write_channel_send_seek_offset (little_endian : Bool) (seq_nr : Nat) (offset : Int) :
    GVfsDaemonSocketProtocolReply :=
  { type := g_htonl little_endian G_VFS_DAEMON_SOCKET_PROTOCOL_REPLY_SEEK_POS
    seq_nr := g_htonl little_endian seq_nr
    arg1 := g_htonl little_endian (goffset_bits offset &&& 0xffffffff)
    arg2 := g_htonl little_endian (guint32_of_goffset (offset >>> (32 : Nat))) }

/-! ## The tool `gvfs-move` -/

/-- The error code `G_IO_ERROR_EXISTS`. -/
def G_IO_ERROR_EXISTS : GIOErrorEnum := OTHER_CODE 2

/-- A set of `GFileCopyFlags`, as far as the tool uses them. -/
structure GFileCopyFlags where
  G_FILE_COPY_OVERWRITE : Bool
  G_FILE_COPY_BACKUP : Bool
  deriving DecidableEq, Repr

/-- One call of `g_file_move` the tool made. -/
structure MoveCall where
  source : List Char
  target : List Char
  flags : GFileCopyFlags
  deriving DecidableEq, Repr

/-- What the platform reports to the tool: which locations are directories,
the base name of a location and the child of a location by a name. -/
structure MovePlatform where
  is_dir : List Char → Bool
  g_file_get_basename : List Char → List Char
  g_file_get_child : List Char → List Char → List Char

/-- The world of a run of the tool: the outcome of each coming call of
`g_file_move` (no error, or the error set), the result of each coming
`fgets` on standard input (`NULL`, or the line), and the records of the
calls made and of what was printed. -/
structure MoveState where
  moves : List (Option GError)
  lines : List (Option (List Char))
  calls : List MoveCall
  stdout : List (List Char)
  stderr : List (List Char)
  deriving DecidableEq, Repr

/-- The call `g_file_move (source, target, flags, ...)`: the error it set,
none when it returned true. When the list of outcomes is used up the move
succeeds. -/
def g_file_move (st : MoveState) (source target : List Char) (flags : GFileCopyFlags) :
    Option GError × MoveState :=
  let st := { st with calls := st.calls ++ [MoveCall.mk source target flags] }
  match st.moves with
  | [] => (none, st)
  | outcome :: moves => (outcome, { st with moves := moves })

/-- The call `fgets (line, sizeof (line), stdin)`; at the end of the input
it returns `NULL`. -/
def fgets (st : MoveState) : Option (List Char) × MoveState :=
  match st.lines with
  | [] => (none, st)
  | line :: lines => (line, { st with lines := lines })

/-- The call `g_printerr ("Error moving file %s: %s\n", ...)` at the label
`move_failed`. -/
def move_failed (st : MoveState) (arg : List Char) (error : GError) : MoveState :=
  { st with
    stderr := st.stderr ++ ["Error moving file ".toList ++ arg ++ ": ".toList ++ error.message.toList ++ "\n".toList] }

/-- The body of the loop of `main` for the argument `arg`. -/
def move_source (p : MovePlatform) (interactive backup dest_is_dir : Bool) (dest : List Char)
    (st : MoveState) (arg : List Char) : MoveState :=
  let source := arg
  let target :=
    if dest_is_dir then p.g_file_get_child dest (p.g_file_get_basename source) else dest
  let flags : GFileCopyFlags := ⟨!interactive, backup⟩
  match g_file_move st source target flags with
  | (none, st) => st
  | (some error, st) =>
    if interactive ∧ error.domain = G_IO_ERROR ∧ error.code = G_IO_ERROR_EXISTS then
      let st :=
        { st with
          stdout := st.stdout ++ ["overwrite ".toList ++ p.g_file_get_basename target ++ "?".toList] }
      match fgets st with
      | (some line, st) =>
        if line.head? = some 'y' then
          let flags := { flags with G_FILE_COPY_OVERWRITE := true }
          match g_file_move st source target flags with
          | (none, st) => st
          | (some error, st) => move_failed st arg error
        else st
      | (none, st) => st
    else move_failed st arg error

/-- The function `main` of `gvfs-move`, after `g_option_context_parse` has
taken the options out of the argument vector and set `interactive` and
`backup`: the exit status and the world afterwards. `argv` starts with the
program name. -/
def main (p : MovePlatform) (interactive backup : Bool) (argv : List (List Char))
    (st : MoveState) : Nat × MoveState :=
  let argc := argv.length
  if argc ≤ 2 then (1, { st with stderr := st.stderr ++ ["Missing operand\n".toList] })
  else
    let dest := argv.getD (argc - 1) []
    let dest_is_dir := p.is_dir dest
    if !dest_is_dir ∧ argc > 3 then
      (1, { st with
            stderr := st.stderr ++ ["Target ".toList ++ dest ++ " is not a directory\n".toList] })
    else
      (0, ((argv.drop 1).take (argc - 2)).foldl
        (move_source p interactive backup dest_is_dir dest) st)

/-- A platform without directories, where the base name of a location is
the location and a child is named by joining with '/'. -/
def sample_platform : MovePlatform :=
  ⟨fun _ => false, fun name => name, fun dir name => dir ++ '/' :: name⟩

/-- A world in which the next move fails because the source does not
exist. -/
def sample_move_state : MoveState :=
  { moves := [some (GError.mk G_IO_ERROR G_IO_ERROR_NOT_FOUND "No such file or directory")],
    lines := [], calls := [], stdout := [], stderr := [] }

/-! ## Replies, as the specification words them -/

/-- A read that delivers a whole line: no socket error, the boundary found,
and the bytes delivered end in the boundary. -/
def spec_whole_line (r : ReadResult) : Prop :=
  r.status ≠ SOUP_SOCKET_ERROR ∧ r.got_boundary = true ∧ "\r\n".toList <:+ r.data

instance (r : ReadResult) : Decidable (spec_whole_line r) := by
  unfold spec_whole_line
  infer_instance

/-- Whether a line ends the continuation a first line with the three code
bytes `code` opened: at least four bytes, the same three code bytes, then a
space. -/
def spec_terminates (code line : List Char) : Prop :=
  line.length ≥ 4 ∧ code = line.take 3 ∧ byte_at line 3 = ' '.toNat

instance (code line : List Char) : Decidable (spec_terminates code line) := by
  unfold spec_terminates
  infer_instance

/-- Whether every read the loop of `ftp_connection_receive` makes, from the
given locals on, delivers at most the `bytes_left` bytes it asks for. -/
def spec_receive_fit : List ReadResult → ReceiveLocals → Bool
  | [], _ => true
  | r :: reads, l =>
    if l.reply_state ≠ ReplyState.DONE ∧ l.bytes_left ≥ 6 then
      decide (r.data.length ≤ l.bytes_left) &&
        match receive_body
          { l with conn := { l.conn with commands := { l.conn.commands with reads := reads } } }
          r with
        | ReceiveStep.RETURN _ _ => true
        | ReceiveStep.NEXT l => spec_receive_fit reads l
    else true

/-- The locals with which the loop of `ftp_connection_receive` starts. -/
def spec_receive_start (conn : FtpConnection) : ReceiveLocals :=
  ⟨{ conn with read_bytes := 0 }, ReplyState.FIRST_LINE, 0, 255⟩

/-- The invariant of the loop of `ftp_connection_receive`: the bytes read
and the bytes left add up to the buffer without its last byte. -/
def spec_receive_inv (l : ReceiveLocals) : Prop :=
  l.conn.read_bytes + l.bytes_left = 255 ∧ l.conn.read_buffer.length = 256

/-- Whether the reply buffer is terminated behind the bytes read, inside the
array of 256 bytes. -/
def spec_terminated (conn : FtpConnection) : Prop :=
  conn.read_buffer.length = 256 ∧ conn.read_bytes ≤ 255 ∧
    byte_at conn.read_buffer conn.read_bytes = 0

/-- A connection about to read a reply of three lines. -/
def sample_conn_feat : FtpConnection :=
  sample_conn_reading
    [line_read "211-Features\r\n", line_read "211-MDTM\r\n", line_read " SIZE\r\n",
      line_read "211 End\r\n", line_read "200 next\r\n"]

/-- A line of `n` bytes that starts a continuation or goes on with it. -/
def sample_continuation (n : Nat) : ReadResult :=
  ⟨SOUP_SOCKET_OK, "211-".toList ++ List.replicate (n - 6) 'x' ++ "\r\n".toList, true, none⟩

/-- A connection about to read a continuation that is not ended within the
buffer: five lines of fifty bytes. -/
def sample_conn_unended : FtpConnection :=
  sample_conn_reading (List.replicate 5 (sample_continuation 50))

/-! ## The FTP backend: login, features, directories and listing lines -/

/-- The flag `FTP_FEATURE_MDTM`. -/
def FTP_FEATURE_MDTM : Nat := 1 <<< 0
/-- The flag `FTP_FEATURE_SIZE`. -/
def FTP_FEATURE_SIZE : Nat := 1 <<< 1
/-- The flag `FTP_FEATURE_TVFS`. -/
def FTP_FEATURE_TVFS : Nat := 1 <<< 2
/-- The macro `FTP_FEATURES_DEFAULT`. -/
def FTP_FEATURES_DEFAULT : Nat := FTP_FEATURE_EPSV

/-- GLib's `g_ascii_tolower`. -/
def g_ascii_tolower (c : Char) : Char :=
  if 'A'.toNat ≤ c.toNat ∧ c.toNat ≤ 'Z'.toNat then Char.ofNat (c.toNat + 32) else c

/-- GLib's `g_ascii_strcasecmp`, up to the size of a non-zero result. -/
def g_ascii_strcasecmp (s1 s2 : List Char) : Int :=
  strcmp (s1.map g_ascii_tolower) (s2.map g_ascii_tolower)

/-- The pieces of a non-empty string between the delimiters `\r\n`, the
piece collected so far in reverse. -/
def strsplit_loop : List Char → List Char → List (List Char)
  | [], piece => [piece.reverse]
  | '\r' :: '\n' :: string, piece => piece.reverse :: strsplit_loop string []
  | c :: string, piece => strsplit_loop string (c :: piece)

/-- GLib's `g_strsplit (string, "\r\n", -1)`: the vector without its `NULL`
end; it is empty for the empty string. -/
def g_strsplit (string : List Char) : List (List Char) :=
  if string = [] then [] else strsplit_loop string []

/-- The table `features` of `ftp_connection_parse_features`. -/
def features_table : List (List Char × Nat) :=
  [("MDTM".toList, FTP_FEATURE_MDTM), ("SIZE".toList, FTP_FEATURE_SIZE),
    ("TVFS".toList, FTP_FEATURE_TVFS), ("EPSV".toList, FTP_FEATURE_EPSV)]

/-- The function `ftp_connection_parse_features`, on a reply of at least one
line. -/
def ftp_connection_parse_features (conn : FtpConnection) : FtpConnection :=
  let supported := g_strsplit (c_string conn.read_buffer)
  (supported.drop 1).foldl
    (fun conn feature =>
      if feature.head? ≠ some ' ' then conn
      else
        let feature := feature.drop 1
        features_table.foldl
          (fun conn entry =>
            if g_ascii_strcasecmp feature entry.1 = 0 then
              { conn with features := conn.features ||| entry.2 }
            else conn)
          conn)
    conn

/-- The function `ftp_connection_login`. -/
def ftp_connection_login (conn : FtpConnection) (username password : List Char) :
    Nat × FtpConnection :=
  if ftp_connection_in_error conn then (0, conn)
  else
    let (status, conn) := ftp_connection_send conn RESPONSE_PASS_300 ("USER ".toList ++ username)
    if STATUS_GROUP status = 3 then ftp_connection_send conn 0 ("PASS ".toList ++ password)
    else (status, conn)

/-- The function `ftp_connection_use`. -/
def ftp_connection_use (conn : FtpConnection) : Bool × FtpConnection :=
  let (_, conn) := ftp_connection_send conn 0 "TYPE I".toList
  if ftp_connection_in_error conn then (false, conn)
  else
    let (status, conn) := ftp_connection_send conn 0 "FEAT".toList
    let conn :=
      if status ≠ 0 then ftp_connection_parse_features conn
      else { conn with features := FTP_FEATURES_DEFAULT }
    let conn :=
      if conn.features &&& FTP_FEATURE_EPSV ≠ 0 then
        (ftp_connection_send conn 0 "EPSV ALL".toList).2
      else conn
    (true, { conn with error := none })

/-- The conversion `%s` of `printf` on a `char *` that may be `NULL`, as
the C library of GLib prints it. -/
def printf_s (s : Option (List Char)) : List Char :=
  match s with
  | some s => s
  | none => "(null)".toList

/-- The function `ftp_connection_cd`. -/
def ftp_connection_cd (conn : FtpConnection) (file : Option (List Char)) :
    Bool × FtpConnection :=
  let (response, conn) :=
    ftp_connection_send conn RESPONSE_PASS_500 ("CWD ".toList ++ printf_s file)
  if response = 550 then
    (false, { conn with
      error := g_set_error conn.error G_IO_ERROR G_IO_ERROR_NOT_DIRECTORY
        "The file is not a directory" })
  else if STATUS_GROUP response = 5 then
    (false, ftp_connection_set_error_from_response conn response)
  else (decide (response ≠ 0), conn)

/-- The function `ftp_connection_try_cd`. -/
def ftp_connection_try_cd (conn : FtpConnection) (file : Option (List Char)) :
    Bool × FtpConnection :=
  if ftp_connection_in_error conn then (false, conn)
  else
    match ftp_connection_cd conn file with
    | (false, conn) => (false, { conn with error := none })
    | (true, conn) => (true, conn)

/-- What `ParseFTPList` reports for a line: the type it returns and the
fields of `struct list_result` that `process_line` reads, with `fe_time` as
the seconds `mktime` makes of it. -/
structure list_result where
  type : Char
  fe_fname : List Char
  fe_fnlen : Nat
  fe_lname : List Char
  fe_lnlen : Nat
  fe_size : List Char
  fe_time : Int
  deriving DecidableEq, Repr

/-- GLib's `g_strndup`. -/
def g_strndup (str : List Char) (n : Nat) : List Char := (c_string str).take n

/-- The attributes `process_line` sets on the `GFileInfo` it returns, with
the arguments of its call of `gvfs_file_info_populate_default`. -/
structure FtpFileInfo where
  name : List Char
  is_symlink : Bool
  symlink_target : Option (List Char)
  size : Nat
  populate_default : List Char × GFileType
  modification_time : Option Int
  deriving DecidableEq, Repr

/-- The attributes and the call of `gvfs_file_info_populate_default` with
which `process_line` ends, for the file `s` of the given type. -/
def process_line_finish (result : list_result) (s : List Char) (type : Char)
    (is_symlink : Bool) (link : Option (List Char)) : FtpFileInfo :=
  { name :=
      match strrchr s '/' with
      | none => s
      | some t => if byte_at s (t + 1) = 0 then s else s.drop (t + 1)
    is_symlink := is_symlink
    symlink_target := link
    size := strtoul result.fe_size
    populate_default :=
      (s, if type = 'd' then GFileType.G_FILE_TYPE_DIRECTORY else GFileType.G_FILE_TYPE_REGULAR)
    modification_time := if result.fe_time ≠ -1 then some result.fe_time else none }

/-- The part of `process_line` from `g_file_info_new` on, for the file
`name`. -/
def process_line_info (conn : FtpConnection) (result : list_result)
    (dirname : Option (List Char)) (name : List Char) : Option FtpFileInfo × FtpConnection :=
  let s := name
  if result.type = 'l' then
    let link := g_strndup result.fe_lname result.fe_lnlen
    match ftp_connection_cd conn dirname with
    | (false, conn) => (none, { conn with error := none })
    | (true, conn) =>
      match ftp_connection_try_cd conn (some s) with
      | (true, conn) => (some (process_line_finish result s 'd' true (some link)), conn)
      | (false, conn) => (some (process_line_finish result s 'f' true (some link)), conn)
  else (some (process_line_finish result s result.type false none), conn)

/-- The function `process_line`, given what `ParseFTPList` reported for the
line: the info returned (`NULL` is none) and the connection afterwards. -/
def process_line (conn : FtpConnection) (result : list_result)
    (dirname : Option (List Char)) : Option FtpFileInfo × FtpConnection :=
  if result.type ≠ 'd' ∧ result.type ≠ 'f' ∧ result.type ≠ 'l' then (none, conn)
  else
    let s := g_strndup result.fe_fname result.fe_fnlen
    let name :=
      match dirname with
      | some dirname => ftp_filename_construct dirname s
      | none => some s
    match name with
    | none => (none, conn)
    | some name => process_line_info conn result dirname name

/-- GLib's `g_error_matches`; it is false for `NULL`. -/
def g_error_matches (error : Option GError) (domain : GQuark) (code : GIOErrorEnum) : Bool :=
  match error with
  | some error => error.domain = domain ∧ error.code = code
  | none => false

/-- One pass of the loop `while (TRUE)` of `do_mount` from the label
`try_login` on, with the user name and the password at hand: the backend,
the connection, and whether the loop goes round again (it does after
`g_clear_error`, and not after a `break`). -/
def try_login (ftp : GVfsBackendFtp) (conn : FtpConnection) (username password : List Char) :
    GVfsBackendFtp × FtpConnection × Bool :=
  let ftp := { ftp with user := some username, password := some password }
  let (status, conn) := ftp_connection_login conn username password
  if status ≠ 0 then (ftp, conn, false)
  else if !g_error_matches conn.error G_IO_ERROR G_IO_ERROR_PERMISSION_DENIED then
    (ftp, conn, false)
  else (ftp, { conn with error := none }, true)

/-- The loop `while (TRUE)` of `do_mount`, entered at the label `try_login`,
over the answers the coming password dialogs give (none for a dialog that
fails or is aborted, as is a dialog nobody answers): the backend, the
connection and the local `error`. -/
def login_loop : List (Option (List Char × List Char)) → GVfsBackendFtp → FtpConnection →
    List Char → List Char → GVfsBackendFtp × FtpConnection × Option GError
  | some (username', password') :: answers, ftp, conn, username, password =>
    match try_login ftp conn username password with
    | (ftp, conn, false) => (ftp, conn, none)
    | (ftp, conn, true) => login_loop answers ftp conn username' password'
  | _, ftp, conn, username, password =>
    match try_login ftp conn username password with
    | (ftp, conn, false) => (ftp, conn, none)
    | (ftp, conn, true) =>
      (ftp, conn,
        g_set_error none G_IO_ERROR G_IO_ERROR_PERMISSION_DENIED "Password dialog cancelled")

/-- What `ParseFTPList` reports for a line that lists the symbolic link
`latest` to `v2`. -/
def sample_symlink : list_result :=
  { type := 'l', fe_fname := "latest -> v2".toList, fe_fnlen := 6,
    fe_lname := "v2".toList, fe_lnlen := 2, fe_size := "2".toList, fe_time := 0 }

/-- An idle connection bound to a job, to a server that answers the next
command with `550`. -/
def sample_conn_550 : FtpConnection :=
  sample_conn_reading [line_read "550 No such directory\r\n"]

/-- A connection bound to a job whose login was refused. -/
def sample_conn_denied : FtpConnection :=
  { sample_conn with
    job := some fresh_job
    error := some ⟨G_IO_ERROR, G_IO_ERROR_PERMISSION_DENIED, "Permission denied"⟩ }

/-! ## The names the platform provides -/

/-- What `_drive_get_description` reads from a `HalDevice`: the properties
`storage.drive_type` and `storage.bus` (which may be missing) and the
boolean properties `storage.cdrom.*`. -/
structure HalDevice where
  drive_type : List Char
  drive_bus : Option (List Char)
  cdr : Bool
  cdrw : Bool
  dvd : Bool
  dvdplusr : Bool
  dvdplusrw : Bool
  dvdr : Bool
  dvdrw : Bool
  dvdram : Bool
  hddvd : Bool
  hddvdr : Bool
  hddvdrw : Bool
  bd : Bool
  bdr : Bool
  bdre : Bool
  deriving DecidableEq, Repr

/-- The variable `first` of `_drive_get_description` for a CD-ROM drive. The
messages are taken untranslated. -/
def cdrom_first (d : HalDevice) : List Char :=
  let first := "CD-ROM".toList
  let first := if d.cdr then "CD-R".toList else first
  let first := if d.cdrw then "CD-RW".toList else first
  first

/-- The variable `second` of `_drive_get_description` for a CD-ROM drive. -/
def cdrom_second (d : HalDevice) : Option (List Char) :=
  let second : Option (List Char) := none
  let second := if d.dvd then some "DVD-ROM".toList else second
  let second := if d.dvdplusr then some "DVD+R".toList else second
  let second := if d.dvdplusrw then some "DVD+RW".toList else second
  let second := if d.dvdr then some "DVD-R".toList else second
  let second := if d.dvdrw then some "DVD-RW".toList else second
  let second := if d.dvdram then some "DVD-RAM".toList else second
  let second := if d.dvdr && d.dvdplusr then some "DVD�R".toList else second
  let second := if d.dvdrw && d.dvdplusrw then some "DVD�RW".toList else second
  let second := if d.hddvd then some "HDDVD".toList else second
  let second := if d.hddvdr then some "HDDVD-r".toList else second
  let second := if d.hddvdrw then some "HDDVD-RW".toList else second
  let second := if d.bd then some "Blu-ray".toList else second
  let second := if d.bdr then some "Blu-ray-R".toList else second
  let second := if d.bdre then some "Blu-ray-RE".toList else second
  second

/-- The branch of `_drive_get_description` for a CD-ROM drive: the formats
"%s/%s Drive" and "%s Drive". -/
def cdrom_description (d : HalDevice) : List Char :=
  match cdrom_second d with
  | some second => cdrom_first d ++ '/' :: second ++ " Drive".toList
  | none => cdrom_first d ++ " Drive".toList

/-- The branch of `_drive_get_description` for a disk: the value of `s`. -/
def disk_description (drive_bus : Option (List Char)) : Option (List Char) :=
  match drive_bus with
  | some drive_bus =>
    let s : Option (List Char) := none
    let s := if strcmp drive_bus "linux_raid".toList = 0
      then some "Software RAID Drive".toList else s
    let s := if strcmp drive_bus "usb".toList = 0 then some "USB Drive".toList else s
    let s := if strcmp drive_bus "ide".toList = 0 then some "ATA Drive".toList else s
    let s := if strcmp drive_bus "scsi".toList = 0 then some "SCSI Drive".toList else s
    let s := if strcmp drive_bus "ieee1394".toList = 0 then some "FireWire Drive".toList else s
    s
  | none => none

/-- The function `_drive_get_description` of the HAL volume monitor, whose
result is the name of a `GHalDrive`. -/
def drive_get_description (d : HalDevice) : List Char :=
  let s : Option (List Char) :=
    if strcmp d.drive_type "cdrom".toList = 0 then some (cdrom_description d)
    else if strcmp d.drive_type "floppy".toList = 0 then some "Floppy Drive".toList
    else if strcmp d.drive_type "disk".toList = 0 then disk_description d.drive_bus
    else if strcmp d.drive_type "tape".toList = 0 then some "Tape Drive".toList
    else if strcmp d.drive_type "compact_flash".toList = 0 then
      some "CompactFlash Drive".toList
    else if strcmp d.drive_type "memory_stick".toList = 0 then some "MemoryStick Drive".toList
    else if strcmp d.drive_type "smart_media".toList = 0 then some "SmartMedia Drive".toList
    else if strcmp d.drive_type "sd_mmc".toList = 0 then some "SD/MMC Drive".toList
    else if strcmp d.drive_type "zip".toList = 0 then some "Zip Drive".toList
    else if strcmp d.drive_type "jaz".toList = 0 then some "Jaz Drive".toList
    else if strcmp d.drive_type "flashkey".toList = 0 then some "Thumb Drive".toList
    else none
  match s with
  | none => "Mass Storage Drive".toList
  | some s => s

/-- The name `g_unix_volume_new` gives a volume, from the mount path and the
file system type of the mount (which may be `NULL`). -/
def g_unix_volume_new_name (mount_path : List Char) (filesystem_type : Option (List Char)) :
    List Char :=
  let volume_name : Option (List Char) := none
  let volume_name :=
    if volume_name.isNone then
      if (strrchr mount_path '/').isNone then
        match filesystem_type with
        | some fs_type => some (fs_type ++ " volume".toList)
        | none => volume_name
      else volume_name
    else volume_name
  match volume_name with
  | none => "Unknown volume".toList
  | some volume_name => volume_name

/-- Every name the volume monitor reports is a non-empty string: those of
the connected drives, of the volumes and of the mounts. -/
def spec_names_given (volume_monitor : GVolumeMonitor) : Prop :=
  (∀ drive ∈ volume_monitor.connected_drives, drive.name ≠ []) ∧
  (∀ volume ∈ volume_monitor.volumes, volume.name ≠ []) ∧
  (∀ mount ∈ volume_monitor.mounts, mount.name ≠ [])

instance (volume_monitor : GVolumeMonitor) : Decidable (spec_names_given volume_monitor) := by
  unfold spec_names_given
  infer_instance

/-- A HAL device of a CD-ROM drive that also reads DVDs. -/
def sample_hal_device : HalDevice :=
  { drive_type := "cdrom".toList, drive_bus := some "ide".toList,
    cdr := false, cdrw := false, dvd := true, dvdplusr := false, dvdplusrw := false,
    dvdr := false, dvdrw := false, dvdram := false, hddvd := false, hddvdr := false,
    hddvdrw := false, bd := false, bdr := false, bdre := false }

/-- A monitor state with one connected drive, named by the HAL volume
monitor for `sample_hal_device`, and one volume on /media/disk named by
`g_unix_volume_new`. -/
def sample_monitor_hal : GVolumeMonitor :=
  ⟨[⟨drive_get_description sample_hal_device, ⟨1⟩, true, []⟩],
    [⟨g_unix_volume_new_name "/media/disk".toList (some "ext3".toList), ⟨2⟩, true, false,
      none, false⟩], []⟩

/-! ## The reply to `PASV`, as the specification words it -/

end Gvfs

/-! # Theorems -/

namespace Gvfs

open GQuark GIOErrorEnum GFileMonitorEvent SoupSocketIOStatus

/-! ## Facts about `strcmp` -/

theorem strcmp_self (a : List Char) : strcmp a a = 0 := by
  induction a with
  | nil => rfl
  | cons c cs ih => simp [strcmp, ih]

theorem strcmp_eq_zero {a b : List Char} (h : strcmp a b = 0) : a = b := by
  induction a generalizing b with
  | nil => cases b with
    | nil => rfl
    | cons d ds => simp [strcmp] at h
  | cons c cs ih => cases b with
    | nil => simp [strcmp] at h
    | cons d ds =>
      simp only [strcmp] at h
      split_ifs at h with h1 h2
      · exact absurd h (by decide)
      · have hcd : c = d := Char.ext (UInt32.ext (by
          have : c.toNat = d.toNat := by omega
          exact this))
        rw [hcd, ih h]

theorem strcmp_eq_zero_iff (a b : List Char) : strcmp a b = 0 ↔ a = b :=
  ⟨strcmp_eq_zero, fun h => h ▸ strcmp_self a⟩

theorem strcmp_swap (a b : List Char) : strcmp b a = - strcmp a b := by
  induction a generalizing b with
  | nil => cases b <;> simp [strcmp]
  | cons c cs ih => cases b with
    | nil => simp [strcmp]
    | cons d ds =>
      simp only [strcmp]
      split_ifs <;> first | omega | simp | exact ih ds

theorem strcmp_lt_trans {a b c : List Char} (hab : strcmp a b < 0) (hbc : strcmp b c < 0) :
    strcmp a c < 0 := by
  induction a generalizing b c with
  | nil => cases c with
    | nil => cases b <;> simp [strcmp] at hab hbc
    | cons e es => simp [strcmp]
  | cons x xs ih => cases b with
    | nil => simp [strcmp] at hab
    | cons y ys => cases c with
      | nil => simp [strcmp] at hbc
      | cons z zs =>
        simp only [strcmp] at hab hbc ⊢
        split_ifs at hab hbc ⊢ <;> first | omega | simp | exact ih hab hbc

theorem strcmp_le_trans {a b c : List Char} (hab : strcmp a b ≤ 0) (hbc : strcmp b c ≤ 0) :
    strcmp a c ≤ 0 := by
  rcases lt_or_eq_of_le hab with h1 | h1
  · rcases lt_or_eq_of_le hbc with h2 | h2
    · exact le_of_lt (strcmp_lt_trans h1 h2)
    · rw [← strcmp_eq_zero h2]; exact hab
  · rw [strcmp_eq_zero h1]; exact hbc

theorem strcmp_le_total (a b : List Char) : strcmp a b ≤ 0 ∨ strcmp b a ≤ 0 := by
  rw [strcmp_swap a b]; omega


/-! ## The decimal digits of `%d` -/

theorem digitChar_toNat (d : Nat) (h : d < 10) : (Nat.digitChar d).toNat - 48 = d := by
  interval_cases d <;> rfl

theorem toDigitsCore_value (fuel n : Nat) (ds : List Char) (h : n < fuel) :
    (Nat.toDigitsCore 10 fuel n ds).foldl (fun v c => 10 * v + (c.toNat - 48)) 0
      = ds.foldl (fun v c => 10 * v + (c.toNat - 48)) n := by
  induction fuel generalizing n ds with
  | zero => omega
  | succ fuel ih =>
    simp only [Nat.toDigitsCore]
    split_ifs with h0
    · have hlt : n < 10 := by omega
      have hn : n % 10 = n := by omega
      simp only [List.foldl, hn, digitChar_toNat n hlt, Nat.mul_zero, Nat.zero_add]
    · rw [ih (n / 10) _ (by omega)]
      simp only [List.foldl, digitChar_toNat (n % 10) (Nat.mod_lt _ (by decide))]
      congr 1
      omega

theorem toDigits_injective {m n : Nat} (h : Nat.toDigits 10 m = Nat.toDigits 10 n) : m = n := by
  have hm := toDigitsCore_value (m + 1) m [] (by omega)
  have hn := toDigitsCore_value (n + 1) n [] (by omega)
  simp only [Nat.toDigits] at h
  rw [h] at hm
  simpa [hn] using hm.symm

theorem printf_uniq_injective (basename extension : List Char) {m n : Nat}
    (h : printf_uniq basename m extension = printf_uniq basename n extension) : m = n := by
  simp only [printf_uniq, List.append_cancel_left_eq, List.cons_append, List.cons.injEq,
    true_and, List.append_cancel_right_eq] at h
  exact toDigits_injective h

/-! ## Unique filenames -/

theorem filename_is_used_iff (done rest : List ComputerFile) (f : List Char)
    (hd : ∀ x ∈ done, x.filename.isSome = true) (hr : ∀ x ∈ rest, x.filename = none) :
    filename_is_used (done ++ rest) f = true ↔ some f ∈ done.map (·.filename) := by
  induction done with
  | nil =>
    cases rest with
    | nil => simp [filename_is_used]
    | cons r rs => simp [filename_is_used, hr r (List.mem_cons_self _ _)]
  | cons x xs ih =>
    have hx := hd x (List.mem_cons_self _ _)
    have ih' := ih (fun y hy => hd y (List.mem_cons_of_mem _ hy))
    cases hxf : x.filename with
    | none => simp [hxf] at hx
    | some g =>
      simp only [List.cons_append, filename_is_used, hxf, List.map_cons, List.mem_cons,
        Option.some.injEq]
      by_cases hg : strcmp g f = 0
      · simp [hg, (strcmp_eq_zero hg), strcmp_self]
      · have hne : ¬ f = g := fun h => hg (h ▸ strcmp_self f)
        simp [hg, hne, ih']

theorem uniq_loop_some {files : List ComputerFile} {basename extension : List Char}
    {fuel uniq : Nat} {filename f : List Char}
    (h : uniq_loop files basename extension fuel uniq filename = some f) :
    filename_is_used files f = false := by
  induction fuel generalizing uniq filename with
  | zero => simp [uniq_loop] at h
  | succ fuel ih =>
    simp only [uniq_loop] at h
    split_ifs at h with hu
    · exact ih h
    · simp only [Option.some.injEq] at h
      rw [← h]
      simpa using hu

theorem uniq_loop_none {files : List ComputerFile} {basename extension : List Char}
    {fuel uniq : Nat} {filename : List Char}
    (h : uniq_loop files basename extension fuel uniq filename = none) :
    ∀ k, uniq ≤ k → k + 1 < uniq + fuel →
      filename_is_used files (printf_uniq basename k extension) = true := by
  induction fuel generalizing uniq filename with
  | zero => intro k h1 h2; omega
  | succ fuel ih =>
    simp only [uniq_loop] at h
    split_ifs at h with hu
    intro k h1 h2
    rcases Nat.eq_or_lt_of_le h1 with hk | hk
    · subst hk
      cases fuel with
      | zero => omega
      | succ fuel =>
        simp only [uniq_loop] at h
        split_ifs at h with hu'
        exact hu'
    · exact ih h k hk (by omega)

theorem uniq_loop_total (done rest : List ComputerFile) (basename extension : List Char)
    (filename : List Char) (fuel : Nat) (hfuel : done.length + 1 < fuel)
    (hd : ∀ x ∈ done, x.filename.isSome = true) (hr : ∀ x ∈ rest, x.filename = none) :
    ∃ f, uniq_loop (done ++ rest) basename extension fuel 1 filename = some f := by
  cases h : uniq_loop (done ++ rest) basename extension fuel 1 filename with
  | some f => exact ⟨f, rfl⟩
  | none =>
    exfalso
    have hused := uniq_loop_none h
    let cands := (List.range (done.length + 1)).map
      fun i => some (printf_uniq basename (i + 1) extension)
    have hnodup : cands.Nodup := by
      refine List.Nodup.map ?_ (List.nodup_range _)
      intro a b hab
      have := printf_uniq_injective basename extension (Option.some.inj hab)
      omega
    have hsub : cands ⊆ done.map (·.filename) := by
      intro c hc
      simp only [cands, List.mem_map, List.mem_range] at hc
      obtain ⟨i, hi, rfl⟩ := hc
      exact (filename_is_used_iff done rest _ hd hr).1 (hused (i + 1) (by omega) (by omega))
    have hlen := (hnodup.subperm hsub).length_le
    simp [cands] at hlen

theorem fill_fields_filename (file : ComputerFile) :
    (fill_fields file).filename = file.filename := by
  unfold fill_fields
  split
  · rfl
  · split
    · rfl
    · split <;> rfl

/-- The entries `name_files` returns: all of them named, no name twice. -/
theorem name_files_spec (todo done : List ComputerFile)
    (hd : ∀ x ∈ done, x.filename.isSome = true)
    (hp : done.Pairwise fun a b => a.filename ≠ b.filename)
    (hr : ∀ x ∈ todo, x.filename = none) :
    ∃ out, name_files done todo = some out ∧ out.length = done.length + todo.length ∧
      (∀ x ∈ out, x.filename.isSome = true) ∧
      out.Pairwise fun a b => a.filename ≠ b.filename := by
  induction todo generalizing done with
  | nil => exact ⟨done, rfl, by simp, hd, hp⟩
  | cons file rest ih =>
    have hrest : ∀ x ∈ fill_fields file :: rest, x.filename = none := by
      intro x hx
      rcases List.mem_cons.1 hx with rfl | hx
      · rw [fill_fields_filename]; exact hr _ (List.mem_cons_self _ _)
      · exact hr _ (List.mem_cons_of_mem _ hx)
    obtain ⟨f, hf⟩ := uniq_loop_total done (fill_fields file :: rest)
      (convert_slashes (basename_extension (fill_fields file)).1)
      (basename_extension (fill_fields file)).2
      (convert_slashes (basename_extension (fill_fields file)).1 ++
        (basename_extension (fill_fields file)).2)
      ((done ++ fill_fields file :: rest).length + 1) (by simp) hd hrest
    have hfree := uniq_loop_some hf
    have hnot : some f ∉ done.map (·.filename) := by
      intro hmem
      have := (filename_is_used_iff done (fill_fields file :: rest) f hd hrest).2 hmem
      rw [hfree] at this
      exact Bool.false_ne_true this
    obtain ⟨out, hout, hlen, hsome, hpair⟩ :=
      ih (done ++ [{ fill_fields file with filename := some f }])
        (by
          intro x hx
          rcases List.mem_append.1 hx with hx | hx
          · exact hd x hx
          · simp only [List.mem_singleton] at hx; subst hx; rfl)
        (by
          rw [List.pairwise_append]
          refine ⟨hp, List.pairwise_singleton _ _, ?_⟩
          intro a ha b hb
          simp only [List.mem_singleton] at hb
          subst hb
          intro hab
          exact hnot (List.mem_map.2 ⟨a, ha, hab⟩))
        (fun x hx => hr x (List.mem_cons_of_mem _ hx))
    refine ⟨out, ?_, ?_, hsome, hpair⟩
    · simp only [name_files]
      rw [hf]
      exact hout
    · rw [hlen]; simp; omega

/-! ## The list handed to `update_from_files` -/

theorem foldl_prepend_all {β : Type} (P : ComputerFile → Prop)
    (step : List ComputerFile → β → List ComputerFile)
    (hstep : ∀ files b, (∀ x ∈ files, P x) → ∀ x ∈ step files b, P x) :
    ∀ (l : List β) (files : List ComputerFile), (∀ x ∈ files, P x) →
      ∀ x ∈ l.foldl step files, P x := by
  intro l
  induction l with
  | nil => intro files h; exact h
  | cons b l ih => intro files h; exact ih (step files b) (hstep files b h)

theorem add_drive_unnamed (files : List ComputerFile) (drive : GDrive)
    (h : ∀ x ∈ files, x.filename = none) : ∀ x ∈ add_drive files drive, x.filename = none := by
  unfold add_drive
  split_ifs
  · refine foldl_prepend_all (fun x => x.filename = none) _ ?_ _ files h
    intro fs v hfs x hx
    rcases List.mem_cons.1 hx with rfl | hx
    · rfl
    · exact hfs x hx
  · intro x hx
    rcases List.mem_cons.1 hx with rfl | hx
    · rfl
    · exact h x hx

theorem add_volume_unnamed (files : List ComputerFile) (volume : GVolume)
    (h : ∀ x ∈ files, x.filename = none) : ∀ x ∈ add_volume files volume, x.filename = none := by
  unfold add_volume
  split_ifs
  · intro x hx
    rcases List.mem_cons.1 hx with rfl | hx
    · rfl
    · exact h x hx
  · exact h

theorem add_mount_unnamed (files : List ComputerFile) (mount : GMount)
    (h : ∀ x ∈ files, x.filename = none) : ∀ x ∈ add_mount files mount, x.filename = none := by
  unfold add_mount
  split_ifs
  · intro x hx
    rcases List.mem_cons.1 hx with rfl | hx
    · rfl
    · exact h x hx
  · exact h

theorem collect_files_unnamed (volume_monitor : GVolumeMonitor) :
    ∀ x ∈ collect_files volume_monitor, x.filename = none := by
  intro x hx
  simp only [collect_files, List.mem_reverse] at hx
  refine foldl_prepend_all (fun x => x.filename = none) add_mount add_mount_unnamed _ _ ?_ x hx
  refine foldl_prepend_all (fun x => x.filename = none) add_volume add_volume_unnamed _ _ ?_
  refine foldl_prepend_all (fun x => x.filename = none) add_drive add_drive_unnamed _ _ ?_
  simp

theorem g_list_sort_files_perm (files : List ComputerFile) :
    (g_list_sort_files files).Perm files :=
  List.perm_insertionSort _ files

theorem g_list_sort_files_sorted (files : List ComputerFile) :
    (g_list_sort_files files).Pairwise fun a b => sort_file_by_filename a b ≤ 0 :=
  @List.sorted_insertionSort ComputerFile (fun a b => sort_file_by_filename a b ≤ 0) _
    ⟨fun _ _ => strcmp_le_total _ _⟩ ⟨fun _ _ _ hab hbc => strcmp_le_trans hab hbc⟩ files

/-- Sorting a list of named entries without a repeated name gives a list
strictly increasing by filename. -/
theorem g_list_sort_files_strict (files : List ComputerFile)
    (hsome : ∀ x ∈ files, x.filename.isSome = true)
    (hpair : files.Pairwise fun a b => a.filename ≠ b.filename) :
    (g_list_sort_files files).Pairwise
      fun a b => strcmp (deref a.filename) (deref b.filename) < 0 := by
  have hperm := g_list_sort_files_perm files
  have hne : (g_list_sort_files files).Pairwise fun a b => a.filename ≠ b.filename :=
    (hperm.pairwise_iff (fun h => Ne.symm h)).2 hpair
  refine ((g_list_sort_files_sorted files).and hne).imp_of_mem ?_
  intro a b ha hb hab
  have hsa := hsome a (hperm.subset ha)
  have hsb := hsome b (hperm.subset hb)
  rcases lt_or_eq_of_le hab.1 with hlt | heq
  · exact hlt
  · exfalso
    apply hab.2
    have := strcmp_eq_zero heq
    cases hfa : a.filename with
    | none => simp [hfa] at hsa
    | some fa =>
      cases hfb : b.filename with
      | none => simp [hfb] at hsb
      | some fb => simpa [deref, hfa, hfb] using this

/-- What `recompute_list` returns: a list of named entries, strictly
increasing by filename, as long as the collected list. -/
theorem recompute_list_spec (volume_monitor : GVolumeMonitor) :
    ∃ files, recompute_list volume_monitor = some files ∧
      files.length = (collect_files volume_monitor).length ∧
      (∀ x ∈ files, x.filename.isSome = true) ∧
      files.Pairwise fun a b => strcmp (deref a.filename) (deref b.filename) < 0 := by
  obtain ⟨out, hout, hlen, hsome, hpair⟩ :=
    name_files_spec (collect_files volume_monitor) [] (by simp) List.Pairwise.nil
      (collect_files_unnamed volume_monitor)
  refine ⟨g_list_sort_files out, by simp [recompute_list, hout], ?_, ?_, ?_⟩
  · rw [(g_list_sort_files_perm out).length_eq, hlen]; simp
  · intro x hx
    exact hsome x ((g_list_sort_files_perm out).subset hx)
  · exact g_list_sort_files_strict out hsome hpair

/-- C2. After every run of `recompute_files`, whatever drives, volumes and
mounts the volume monitor reports, the run yields a backend whose file list
has only named entries and is strictly increasing by filename in `strcmp`
order: it is sorted and no filename occurs twice. -/
theorem recompute_files_strictly_sorted (glib : GLib) (backend : GVfsBackendComputer)
    (volume_monitor : GVolumeMonitor) :
    ∃ backend', recompute_files glib backend volume_monitor = some backend' ∧
      (∀ x ∈ backend'.files, x.filename.isSome = true) ∧
      backend'.files.Pairwise
        fun a b => strcmp (deref a.filename) (deref b.filename) < 0 := by
  obtain ⟨files, hfiles, _, hsome, hpair⟩ := recompute_list_spec volume_monitor
  exact ⟨update_from_files glib backend files, by simp [recompute_files, hfiles], hsome, hpair⟩

/-! ## The events of `update_from_files` -/

theorem update_loop_nil (glib : GLib) (newl : List ComputerFile) :
    update_loop glib [] newl =
      newl.map fun new => ⟨G_FILE_MONITOR_EVENT_CREATED, event_path new⟩ := rfl

theorem update_loop_cons_nil (glib : GLib) (old : ComputerFile) (oldl : List ComputerFile) :
    update_loop glib (old :: oldl) [] =
      ⟨G_FILE_MONITOR_EVENT_DELETED, event_path old⟩ :: update_loop glib oldl [] := rfl

theorem update_loop_cons_cons (glib : GLib) (old new : ComputerFile)
    (oldl newl : List ComputerFile) :
    update_loop glib (old :: oldl) (new :: newl) =
      if strcmp (deref old.filename) (deref new.filename) = 0 then
        if !computer_file_equal glib old new then
          ⟨G_FILE_MONITOR_EVENT_CHANGED, event_path new⟩ :: update_loop glib oldl newl
        else update_loop glib oldl newl
      else if strcmp (deref old.filename) (deref new.filename) < 0 then
        ⟨G_FILE_MONITOR_EVENT_DELETED, event_path old⟩ :: update_loop glib oldl (new :: newl)
      else
        ⟨G_FILE_MONITOR_EVENT_CREATED, event_path new⟩ :: update_loop glib (old :: oldl) newl :=
  rfl

theorem strcmp_ne_of_lt {a b : List Char} (h : strcmp a b < 0) : a ≠ b := by
  intro hab
  rw [hab, strcmp_self] at h
  exact lt_irrefl _ h

theorem strcmp_ne_of_gt {a b : List Char} (h : 0 < strcmp a b) : a ≠ b := by
  intro hab
  rw [hab, strcmp_self] at h
  exact lt_irrefl _ h

theorem strcmp_gt_swap {a b : List Char} (h : 0 < strcmp a b) : strcmp b a < 0 := by
  rw [strcmp_swap a b]; omega

theorem spec_name_in_cons_ne (x : ComputerFile) (l : List ComputerFile) (y : ComputerFile)
    (h : deref x.filename ≠ deref y.filename) : spec_name_in (x :: l) y = spec_name_in l y := by
  simp [spec_name_in, h]

theorem spec_name_in_of_all_ne (l : List ComputerFile) (y : ComputerFile)
    (h : ∀ x ∈ l, deref x.filename ≠ deref y.filename) : spec_name_in l y = false := by
  simp only [spec_name_in, List.any_eq_false, decide_eq_true_eq]
  exact h

theorem spec_same_target_eq (glib : GLib) (a b : Option GFile) :
    spec_same_target glib a b =
      !(match a, b with
        | some ra, some rb => !glib.g_file_equal ra rb
        | some _, none => true
        | none, some _ => true
        | none, none => false) := by
  cases a <;> cases b <;> simp [spec_same_target]

/-- The comparison `computer_file_equal` of the code is deep equality as the
specification words it. -/
theorem computer_file_equal_eq (glib : GLib) (a b : ComputerFile) :
    computer_file_equal glib a b = spec_deep_equal glib a b := by
  unfold computer_file_equal spec_deep_equal
  rw [spec_same_target_eq]
  by_cases h1 : deref a.display_name = deref b.display_name
  · have h1' : strcmp (deref a.display_name) (deref b.display_name) = 0 := by
      rw [h1]; exact strcmp_self _
    rw [if_neg (not_not.2 h1')]
    simp only [h1, decide_True, Bool.true_and]
    cases glib.g_icon_equal a.icon b.icon
    · simp
    · generalize (match a.root, b.root with
        | some ra, some rb => !glib.g_file_equal ra rb
        | some _, none => true
        | none, some _ => true
        | none, none => false) = t
      cases t
      · by_cases h4 : a.prio = b.prio
        · by_cases h5 : a.can_mount = b.can_mount
          · by_cases h6 : a.can_unmount = b.can_unmount
            · by_cases h7 : a.can_eject = b.can_eject
              · simp [h4, h5, h6, h7]
              · simp [h4, h5, h6, h7]
            · simp [h4, h5, h6]
          · simp [h4, h5]
        · simp [h4]
      · simp
  · have h1' : strcmp (deref a.display_name) (deref b.display_name) ≠ 0 :=
      fun h => h1 (strcmp_eq_zero h)
    rw [if_pos h1']
    simp [h1]

theorem spec_events_eq_step {glib : GLib} {old new : ComputerFile}
    {oldl newl : List ComputerFile}
    (h0 : strcmp (deref old.filename) (deref new.filename) = 0)
    (hso : ∀ x ∈ oldl, strcmp (deref old.filename) (deref x.filename) < 0)
    (hsn : ∀ x ∈ newl, strcmp (deref new.filename) (deref x.filename) < 0) :
    spec_deleted (old :: oldl) (new :: newl) = spec_deleted oldl newl ∧
    spec_created (old :: oldl) (new :: newl) = spec_created oldl newl ∧
    spec_changed glib (old :: oldl) (new :: newl) =
      (if !spec_deep_equal glib old new then
        [⟨G_FILE_MONITOR_EVENT_CHANGED, '/' :: deref new.filename⟩] else []) ++
        spec_changed glib oldl newl := by
  have heq : deref old.filename = deref new.filename := strcmp_eq_zero h0
  refine ⟨?_, ?_, ?_⟩
  · unfold spec_deleted
    have h1 : spec_name_in (new :: newl) old = true := by simp [spec_name_in, heq]
    rw [List.filter_cons, h1]
    simp only [Bool.not_true, Bool.false_eq_true, if_false]
    congr 1
    apply List.filter_congr
    intro x hx
    rw [spec_name_in_cons_ne]
    rw [← heq]
    exact strcmp_ne_of_lt (hso x hx)
  · unfold spec_created
    have h1 : spec_name_in (old :: oldl) new = true := by simp [spec_name_in, heq]
    rw [List.filter_cons, h1]
    simp only [Bool.not_true, Bool.false_eq_true, if_false]
    congr 1
    apply List.filter_congr
    intro x hx
    rw [spec_name_in_cons_ne]
    rw [heq]
    exact strcmp_ne_of_lt (hsn x hx)
  · unfold spec_changed
    have hno : (oldl.any fun o =>
        decide (deref o.filename = deref new.filename) && !spec_deep_equal glib o new)
        = false := by
      simp only [List.any_eq_false, Bool.and_eq_true, decide_eq_true_eq, not_and]
      intro x hx hxe
      exact absurd hxe.symm (heq ▸ strcmp_ne_of_lt (hso x hx))
    have hrest : ∀ x ∈ newl,
        ((old :: oldl).any fun o =>
          decide (deref o.filename = deref x.filename) && !spec_deep_equal glib o x) =
        (oldl.any fun o =>
          decide (deref o.filename = deref x.filename) && !spec_deep_equal glib o x) := by
      intro x hx
      have : deref old.filename ≠ deref x.filename := heq ▸ strcmp_ne_of_lt (hsn x hx)
      simp [this]
    rw [List.filter_cons, List.filter_congr hrest]
    simp only [List.any_cons, hno, heq, decide_True, Bool.true_and, Bool.or_false]
    split_ifs <;> simp

theorem spec_events_lt_step {glib : GLib} {old : ComputerFile}
    {oldl newl : List ComputerFile}
    (hlt : ∀ x ∈ newl, strcmp (deref old.filename) (deref x.filename) < 0) :
    spec_deleted (old :: oldl) newl =
      ⟨G_FILE_MONITOR_EVENT_DELETED, '/' :: deref old.filename⟩ :: spec_deleted oldl newl ∧
    spec_created (old :: oldl) newl = spec_created oldl newl ∧
    spec_changed glib (old :: oldl) newl = spec_changed glib oldl newl := by
  refine ⟨?_, ?_, ?_⟩
  · unfold spec_deleted
    have h1 : spec_name_in newl old = false :=
      spec_name_in_of_all_ne _ _ fun x hx => (strcmp_ne_of_lt (hlt x hx)).symm
    rw [List.filter_cons, h1]
    simp
  · unfold spec_created
    congr 1
    apply List.filter_congr
    intro x hx
    rw [spec_name_in_cons_ne]
    exact strcmp_ne_of_lt (hlt x hx)
  · unfold spec_changed
    congr 1
    apply List.filter_congr
    intro x hx
    have : deref old.filename ≠ deref x.filename := strcmp_ne_of_lt (hlt x hx)
    simp [this]

theorem spec_events_gt_step {glib : GLib} {new : ComputerFile}
    {oldl newl : List ComputerFile}
    (hlt : ∀ x ∈ oldl, strcmp (deref new.filename) (deref x.filename) < 0) :
    spec_deleted oldl (new :: newl) = spec_deleted oldl newl ∧
    spec_created oldl (new :: newl) =
      ⟨G_FILE_MONITOR_EVENT_CREATED, '/' :: deref new.filename⟩ :: spec_created oldl newl ∧
    spec_changed glib oldl (new :: newl) = spec_changed glib oldl newl := by
  refine ⟨?_, ?_, ?_⟩
  · unfold spec_deleted
    congr 1
    apply List.filter_congr
    intro x hx
    rw [spec_name_in_cons_ne]
    exact strcmp_ne_of_lt (hlt x hx)
  · unfold spec_created
    have h1 : spec_name_in oldl new = false :=
      spec_name_in_of_all_ne _ _ fun x hx => (strcmp_ne_of_lt (hlt x hx)).symm
    rw [List.filter_cons, h1]
    simp
  · unfold spec_changed
    have hno : (oldl.any fun o =>
        decide (deref o.filename = deref new.filename) && !spec_deep_equal glib o new)
        = false := by
      simp only [List.any_eq_false, Bool.and_eq_true, decide_eq_true_eq, not_and]
      intro x hx hxe
      exact absurd hxe.symm (strcmp_ne_of_lt (hlt x hx))
    rw [List.filter_cons, hno]
    simp

theorem update_loop_perm (glib : GLib) (old : List ComputerFile) :
    ∀ new, StrictlySorted old → StrictlySorted new →
      (update_loop glib old new).Perm (spec_events glib old new) := by
  induction old with
  | nil =>
    intro new _ _
    simp [update_loop_nil, spec_events, spec_deleted, spec_created, spec_changed,
      spec_name_in, event_path]
  | cons o os iho =>
    intro new hold
    have hos : StrictlySorted os := (List.pairwise_cons.1 hold).2
    have ho := (List.pairwise_cons.1 hold).1
    induction new with
    | nil =>
      intro hnew
      have ih := iho [] hos hnew
      obtain ⟨hd, hc, hh⟩ := @spec_events_lt_step glib o os [] (by simp)
      rw [update_loop_cons_nil]
      simp only [spec_events, hd, hc, hh, event_path] at ih ⊢
      exact (List.Perm.cons _ ih)
    | cons n ns ihn =>
      intro hnew
      have hns : StrictlySorted ns := (List.pairwise_cons.1 hnew).2
      have hn := (List.pairwise_cons.1 hnew).1
      rw [update_loop_cons_cons, computer_file_equal_eq]
      split_ifs with h0 heq hlt
      · obtain ⟨hd, hc, hh⟩ := @spec_events_eq_step glib o n os ns h0 ho hn
        have ih := iho ns hos hns
        rw [List.perm_iff_count] at ih ⊢
        intro e
        have := ih e
        simp only [spec_events, hd, hc, hh, heq, if_true, event_path, List.count_append,
          List.count_cons, List.count_nil] at this ⊢
        omega
      · obtain ⟨hd, hc, hh⟩ := @spec_events_eq_step glib o n os ns h0 ho hn
        have ih := iho ns hos hns
        simp only [spec_events, hd, hc, hh, heq, if_false, List.nil_append] at ih ⊢
        exact ih
      · have hall : ∀ x ∈ n :: ns, strcmp (deref o.filename) (deref x.filename) < 0 := by
          intro x hx
          rcases List.mem_cons.1 hx with rfl | hx
          · exact hlt
          · exact strcmp_lt_trans hlt (hn x hx)
        obtain ⟨hd, hc, hh⟩ := @spec_events_lt_step glib o os (n :: ns) hall
        have ih := iho (n :: ns) hos hnew
        simp only [spec_events, hd, hc, hh, event_path, List.cons_append] at ih ⊢
        exact List.Perm.cons _ ih
      · have hgt : strcmp (deref n.filename) (deref o.filename) < 0 := by
          rw [strcmp_swap (deref o.filename)]
          omega
        have hall : ∀ x ∈ o :: os, strcmp (deref n.filename) (deref x.filename) < 0 := by
          intro x hx
          rcases List.mem_cons.1 hx with rfl | hx
          · exact hgt
          · exact strcmp_lt_trans hgt (ho x hx)
        obtain ⟨hd, hc, hh⟩ := @spec_events_gt_step glib n (o :: os) ns hall
        have ih := ihn hns
        rw [List.perm_iff_count] at ih ⊢
        intro e
        have := ih e
        simp only [spec_events, hd, hc, hh, event_path, List.count_append,
          List.count_cons, List.count_nil] at this ⊢
        omega

/-- C3. For old and new lists strictly sorted by filename,
`update_from_files` installs the new list and emits, after the events
already on the root monitor, exactly the events of the specification up to
their order: one `DELETED` per filename in the old list only, one `CREATED`
per filename in the new list only, one `CHANGED` per filename in both with
records that are not deep-equal, nothing for deep-equal records, each with
the path "/" followed by the filename. Deep equality is `spec_deep_equal`:
the same display name, equal icons, the same target, the same priority and
the same `can_mount`, `can_unmount` and `can_eject`. -/
theorem update_from_files_events (glib : GLib) (backend : GVfsBackendComputer)
    (files : List ComputerFile) (hold : StrictlySorted backend.files)
    (hnew : StrictlySorted files) :
    (update_from_files glib backend files).files = files ∧
    ∃ events, (update_from_files glib backend files).root_monitor =
        backend.root_monitor ++ events ∧
      events.Perm (spec_events glib backend.files files) :=
  ⟨rfl, update_loop glib backend.files files, rfl, update_loop_perm glib _ _ hold hnew⟩

theorem computer_file_equal_self (glib : GLib)
    (hicon : ∀ i, glib.g_icon_equal i i = true) (hfile : ∀ f, glib.g_file_equal f f = true)
    (a : ComputerFile) : computer_file_equal glib a a = true := by
  unfold computer_file_equal
  cases hr : a.root <;> simp [strcmp_self, hicon, hfile]

theorem update_loop_same (glib : GLib)
    (hicon : ∀ i, glib.g_icon_equal i i = true) (hfile : ∀ f, glib.g_file_equal f f = true)
    (files : List ComputerFile) : update_loop glib files files = [] := by
  induction files with
  | nil => rfl
  | cons x xs ih =>
    rw [update_loop_cons_cons]
    simp [strcmp_self, computer_file_equal_self glib hicon hfile, ih]

/-- C4. With reflexive icon and file equality, a run of `recompute_files`
over the platform state of the previous run emits no event: the backend it
yields has the root monitor's events and the file list of the backend it
started from. -/
theorem recompute_files_idempotent (glib : GLib)
    (hicon : ∀ i, glib.g_icon_equal i i = true) (hfile : ∀ f, glib.g_file_equal f f = true)
    (backend backend1 : GVfsBackendComputer) (volume_monitor : GVolumeMonitor)
    (hfirst : recompute_files glib backend volume_monitor = some backend1) :
    ∃ backend2, recompute_files glib backend1 volume_monitor = some backend2 ∧
      backend2.root_monitor = backend1.root_monitor ∧ backend2.files = backend1.files := by
  obtain ⟨files, hfiles, _⟩ := recompute_list_spec volume_monitor
  simp only [recompute_files, hfiles, Option.map_some', Option.some.injEq] at hfirst ⊢
  subst hfirst
  refine ⟨_, rfl, ?_, rfl⟩
  simp [update_from_files, update_loop_same glib hicon hfile]

theorem sample_files_names :
    sample_files.map (·.filename) = [some "A.drive".toList, some "B.volume".toList] := by
  decide

/-- Witness of C3: the drive A and the volume B, then B mounted; the one
event is `CHANGED` on `/B.volume`. And the same list with `can_eject` of
both records changed and nothing else: `CHANGED` on both. -/
theorem update_from_files_events_witness :
    StrictlySorted sample_backend.files ∧ StrictlySorted sample_files_mounted ∧
    update_loop sample_glib sample_backend.files sample_files_mounted =
      [⟨G_FILE_MONITOR_EVENT_CHANGED, "/B.volume".toList⟩] ∧
    ((update_from_files sample_glib sample_backend sample_files_mounted).files =
      sample_files_mounted ∧
    ∃ events, (update_from_files sample_glib sample_backend sample_files_mounted).root_monitor =
        sample_backend.root_monitor ++ events ∧
      events.Perm (spec_events sample_glib sample_backend.files sample_files_mounted)) ∧
    StrictlySorted sample_files_eject ∧
    spec_events sample_glib sample_backend.files sample_files_eject =
      [⟨G_FILE_MONITOR_EVENT_CHANGED, "/A.drive".toList⟩,
        ⟨G_FILE_MONITOR_EVENT_CHANGED, "/B.volume".toList⟩] ∧
    (update_from_files sample_glib sample_backend sample_files_eject).files =
      sample_files_eject ∧
    ∃ events, (update_from_files sample_glib sample_backend sample_files_eject).root_monitor =
        sample_backend.root_monitor ++ events ∧
      events.Perm (spec_events sample_glib sample_backend.files sample_files_eject) :=
  ⟨by unfold StrictlySorted; decide, by unfold StrictlySorted; decide, by decide,
    update_from_files_events sample_glib sample_backend sample_files_mounted
      (by unfold StrictlySorted; decide) (by unfold StrictlySorted; decide),
    by unfold StrictlySorted; decide, by decide,
    update_from_files_events sample_glib sample_backend sample_files_eject
      (by unfold StrictlySorted; decide) (by unfold StrictlySorted; decide)⟩

/-- Witness of C4: the sample platform, recomputed on a backend that starts
empty and then once more. -/
theorem recompute_files_idempotent_witness :
    ∃ backend2,
      recompute_files sample_glib
        ⟨sample_files, 0,
          [⟨G_FILE_MONITOR_EVENT_CREATED, "/A.drive".toList⟩,
            ⟨G_FILE_MONITOR_EVENT_CREATED, "/B.volume".toList⟩]⟩ sample_monitor
        = some backend2 ∧
      backend2.root_monitor =
        [⟨G_FILE_MONITOR_EVENT_CREATED, "/A.drive".toList⟩,
          ⟨G_FILE_MONITOR_EVENT_CREATED, "/B.volume".toList⟩] ∧
      backend2.files = sample_files :=
  recompute_files_idempotent sample_glib (by simp [sample_glib]) (by simp [sample_glib])
    ⟨[], 0, []⟩ _ sample_monitor (by decide)

/-! ## Completion of the jobs of the mountable-list backend -/

theorem lookup_cases (backend : GVfsBackendComputer) (job : GVfsJob) (filename : List Char) :
    lookup backend job filename = (LookupResult.ROOT, job) ∨
    (∃ file, lookup backend job filename = (LookupResult.FILE file, job)) ∨
    lookup backend job filename = (LookupResult.NULL,
      g_vfs_job_failed job G_IO_ERROR G_IO_ERROR_NOT_FOUND "File doesn't exist") := by
  unfold lookup lookup_out
  by_cases h1 : filename.head? ≠ some '/'
  · simp [h1]
  · by_cases h2 : skip_slashes filename = []
    · simp [h1, h2]
    · by_cases h3 : '/' ∈ skip_slashes filename
      · simp [h1, h2, h3]
      · cases h4 : lookup_files backend.files (skip_slashes filename) <;>
          simp [h1, h2, h3, h4]

/-- What `lookup` does to the job: nothing when it finds the root or an
entry, one failure with `NOT_FOUND` when it returns `NULL`. -/
theorem lookup_job (backend : GVfsBackendComputer) (job : GVfsJob) (filename : List Char) :
    (lookup backend job filename).2 =
      if (lookup backend job filename).1 = LookupResult.NULL then
        g_vfs_job_failed job G_IO_ERROR G_IO_ERROR_NOT_FOUND "File doesn't exist"
      else job := by
  rcases lookup_cases backend job filename with h | ⟨file, h⟩ | h <;> rw [h] <;> simp

/-- The handlers that guard on `file != NULL` complete the job once. -/
theorem guarded_handlers_complete_once (backend : GVfsBackendComputer) (job : GVfsJob)
    (filename : List Char) :
    (try_open_for_read backend job filename).completions.length = job.completions.length + 1 ∧
    (try_enumerate backend job filename).1.completions.length = job.completions.length + 1 ∧
    (try_mount_mountable backend job filename).completions.length
      = job.completions.length + 1 ∧
    (try_unmount_mountable backend job filename).completions.length
      = job.completions.length + 1 ∧
    (try_eject_mountable backend job filename).completions.length
      = job.completions.length + 1 := by
  unfold try_open_for_read try_enumerate try_mount_mountable try_unmount_mountable
    try_eject_mountable
  rcases lookup_cases backend job filename with h | ⟨file, h⟩ | h
  all_goals rw [h]
  all_goals simp only [g_vfs_job_failed, g_vfs_job_succeeded, start_async, List.length_append,
    List.length_singleton, true_and, and_true]
  all_goals repeat' constructor
  all_goals repeat' split
  all_goals simp

/-- The callbacks of the platform calls complete the job once. -/
theorem callbacks_complete_once (job : GVfsJob) (mounted : Except GError (Option GMount))
    (finished : Except GError Unit) :
    (mount_volume_cb mounted job).completions.length = job.completions.length + 1 ∧
    (finish_cb finished job).completions.length = job.completions.length + 1 := by
  constructor
  · unfold mount_volume_cb
    split <;> simp [g_vfs_job_failed, g_vfs_job_succeeded, g_vfs_job_failed_from_error]
  · unfold finish_cb
    split <;> simp [g_vfs_job_succeeded, g_vfs_job_failed_from_error]

/-- Whenever `lookup` returns `NULL`, `try_query_info` and
`try_create_dir_monitor` complete the job a second time. -/
theorem unguarded_handlers_complete_twice (backend : GVfsBackendComputer) (job : GVfsJob)
    (filename : List Char) (info : GFileInfo)
    (h : (lookup backend job filename).1 = LookupResult.NULL) :
    (try_query_info backend job filename info).1.completions =
      job.completions ++
        [Completion.FAILED ⟨G_IO_ERROR, G_IO_ERROR_NOT_FOUND, "File doesn't exist"⟩,
          Completion.SUCCEEDED] ∧
    (try_create_dir_monitor backend job filename).1.completions =
      job.completions ++
        [Completion.FAILED ⟨G_IO_ERROR, G_IO_ERROR_NOT_FOUND, "File doesn't exist"⟩,
          Completion.FAILED ⟨G_IO_ERROR, G_IO_ERROR_NOT_SUPPORTED,
            "Can't open mountable file"⟩] := by
  rcases lookup_cases backend job filename with h' | ⟨file, h'⟩ | h'
  · rw [h'] at h; cases h
  · rw [h'] at h; cases h
  · unfold try_query_info try_create_dir_monitor
    rw [h']
    simp [g_vfs_job_failed, g_vfs_job_succeeded]

/-- C1 (the code completes a job twice). On the sample backend, for the
path `/nonexistent`, `try_query_info` fails the job in `lookup` and then
calls `g_vfs_job_succeeded` on it, and `try_create_dir_monitor` fails the
job in `lookup` and then fails it again: two terminal calls each, where the
claim asks for exactly one. -/
theorem try_query_info_completes_twice :
    (try_query_info sample_backend fresh_job "/nonexistent".toList
      g_file_info_new).1.completions =
      [Completion.FAILED ⟨G_IO_ERROR, G_IO_ERROR_NOT_FOUND, "File doesn't exist"⟩,
        Completion.SUCCEEDED] ∧
    (try_create_dir_monitor sample_backend fresh_job "/nonexistent".toList).1.completions =
      [Completion.FAILED ⟨G_IO_ERROR, G_IO_ERROR_NOT_FOUND, "File doesn't exist"⟩,
        Completion.FAILED ⟨G_IO_ERROR, G_IO_ERROR_NOT_SUPPORTED,
          "Can't open mountable file"⟩] := by
  decide

/-! ## The connection pool -/

/-- With an empty idle queue on a live pool and a job that is not cancelled,
`g_vfs_backend_ftp_pop_connection` never waits: whatever wake-ups would
come, it fails the job with `CANCELLED` and goes on to use the `NULL`
connection. -/
theorem pop_connection_empty_queue (ftp : GVfsBackendFtp) (job : GVfsJob)
    (wakeups : List Wakeup) (hq : ftp.queue = some []) :
    g_vfs_backend_ftp_pop_connection ftp job wakeups =
      PopResult.NULL_DEREF ftp
        (g_vfs_job_failed job G_IO_ERROR G_IO_ERROR_CANCELLED "Operation was cancelled") 0 := by
  cases ftp with
  | mk addr user password queue freed =>
    simp only at hq
    subst hq
    cases wakeups <;>
      simp [g_vfs_backend_ftp_pop_connection, g_queue_pop_head, pop_wait_loop]

/-- With a connection in the idle queue, `g_vfs_backend_ftp_pop_connection`
returns the head of the queue with the job bound to it. -/
theorem pop_connection_head (ftp : GVfsBackendFtp) (job : GVfsJob) (wakeups : List Wakeup)
    (conn : FtpConnection) (queue : List FtpConnection) (hq : ftp.queue = some (conn :: queue)) :
    g_vfs_backend_ftp_pop_connection ftp job wakeups =
      PopResult.RETURNED (ftp_connection_push_job conn job) { ftp with queue := some queue } 0 := by
  simp [g_vfs_backend_ftp_pop_connection, g_queue_pop_head, hq]

/-- C5 (the code does not wait). On a mounted backend with an empty idle
queue, a job that is not cancelled and a push that would wake the waiter,
`g_vfs_backend_ftp_pop_connection` makes no call of `g_cond_wait`: it fails
the job with `CANCELLED` and then reads `conn->job` of the `NULL`
connection, where the claim has it wait for the pushed connection. -/
theorem pop_connection_does_not_wait :
    g_vfs_backend_ftp_pop_connection sample_ftp_empty fresh_job
        [⟨some [sample_conn], false⟩] =
      PopResult.NULL_DEREF sample_ftp_empty
        ⟨false, [Completion.FAILED cancelled_error]⟩ 0 := by
  decide

theorem free_all_spec (queue : List FtpConnection) :
    ∀ ftp : GVfsBackendFtp, (free_all ftp queue).queue = ftp.queue ∧
      (free_all ftp queue).freed = ftp.freed ++ queue := by
  induction queue with
  | nil => intro ftp; simp [free_all]
  | cons conn queue ih =>
    intro ftp
    obtain ⟨h1, h2⟩ := ih (ftp_connection_free ftp conn)
    rw [free_all]
    refine ⟨h1, ?_⟩
    rw [h2]
    simp [ftp_connection_free]

/-- C6 (the borrow after unmount uses a `NULL` connection). After
`do_unmount` the pool is destroyed (`queue` is `NULL`) and every idle
connection was freed; a push then frees the connection and leaves the queue
`NULL`; a borrow fails its job with `CANCELLED`, without waiting, and then
reads `conn->job` of the `NULL` connection instead of returning. -/
theorem borrow_after_unmount (ftp : GVfsBackendFtp) (job : GVfsJob) :
    (do_unmount ftp job).1.queue = none ∧
    (∀ queue, ftp.queue = some queue → (do_unmount ftp job).1.freed = ftp.freed ++ queue) ∧
    (∀ conn, (g_vfs_backend_ftp_push_connection (do_unmount ftp job).1 (some conn)).1.queue
        = none ∧
      (g_vfs_backend_ftp_push_connection (do_unmount ftp job).1 (some conn)).1.freed
        = (do_unmount ftp job).1.freed ++ [(ftp_connection_pop_job conn).2.1]) ∧
    ∀ job' wakeups,
      g_vfs_backend_ftp_pop_connection (do_unmount ftp job).1 job' wakeups =
        PopResult.NULL_DEREF (do_unmount ftp job).1
          (g_vfs_job_failed job' G_IO_ERROR G_IO_ERROR_CANCELLED "Operation was cancelled")
          0 := by
  refine ⟨rfl, ?_, ?_, ?_⟩
  · intro queue hq
    simp [do_unmount, hq, (free_all_spec queue ftp).2]
  · intro conn
    simp [g_vfs_backend_ftp_push_connection, do_unmount, ftp_connection_free]
  · intro job' wakeups
    simp [g_vfs_backend_ftp_pop_connection, do_unmount]

/-! ## The errors of reply codes -/

/-- C9. On a connection whose error slot is empty,
`ftp_connection_set_error_from_response` sets, for every code of the table
(332, 532, 421, 425, 426, 450, 550, 452, 552, 500 to 504, 530, 553), an
error of the kind listed, and for every code whatever an error of domain
`G_IO_ERROR`. -/
theorem set_error_from_response_table (conn : FtpConnection) (hempty : conn.error = none) :
    (∀ response kind, (response, kind) ∈ spec_error_table →
      ∃ msg, (ftp_connection_set_error_from_response conn response).error =
        some ⟨G_IO_ERROR, kind, msg⟩) ∧
    ∀ response, ∃ kind msg, (ftp_connection_set_error_from_response conn response).error =
      some ⟨G_IO_ERROR, kind, msg⟩ := by
  constructor
  · intro response kind hmem
    refine ⟨(error_from_response response).2, ?_⟩
    simp only [spec_error_table, List.mem_cons, Prod.mk.injEq, List.mem_singleton,
      List.not_mem_nil, or_false] at hmem
    rcases hmem with h | h | h | h | h | h | h | h | h | h | h | h | h | h | h | h <;>
      obtain ⟨rfl, rfl⟩ := h <;>
      simp [ftp_connection_set_error_from_response, error_from_response, g_set_error, hempty]
  · intro response
    exact ⟨(error_from_response response).1, (error_from_response response).2, by
      simp [ftp_connection_set_error_from_response, g_set_error, hempty]⟩

/-- Witness of C9: the sample connection. -/
theorem set_error_from_response_table_witness :
    sample_conn.error = none ∧
    (ftp_connection_set_error_from_response sample_conn 550).error =
      some ⟨G_IO_ERROR, G_IO_ERROR_NOT_FOUND, "File unavailable"⟩ ∧
    (∀ response kind, (response, kind) ∈ spec_error_table →
      ∃ msg, (ftp_connection_set_error_from_response sample_conn response).error =
        some ⟨G_IO_ERROR, kind, msg⟩) ∧
    ∀ response, ∃ kind msg, (ftp_connection_set_error_from_response sample_conn response).error =
      some ⟨G_IO_ERROR, kind, msg⟩ :=
  ⟨rfl, by decide, set_error_from_response_table sample_conn rfl⟩

/-- C10, counterexample. 451 is a 4xx code outside the list of the claim,
and the error set for it has the message "Operation failed", not
"Invalid reply". -/
theorem set_error_from_response_451 :
    400 ≤ 451 ∧ 451 ≤ 599 ∧ 451 ∉ spec_listed_codes ∧
    (ftp_connection_set_error_from_response sample_conn 451).error =
      some ⟨G_IO_ERROR, G_IO_ERROR_FAILED, "Operation failed"⟩ ∧
    (ftp_connection_set_error_from_response sample_conn 451).error ≠
      some ⟨G_IO_ERROR, G_IO_ERROR_FAILED, "Invalid reply"⟩ := by
  decide

/-- C10, amended. On a connection whose error slot is empty, every 4xx or
5xx code outside the list of the claim and other than 451 and 551 sets the
error `FAILED` "Invalid reply"; 451 and 551 set `FAILED` too, with the
messages "Operation failed" and "Page type unknown". -/
theorem set_error_from_response_default (conn : FtpConnection) (hempty : conn.error = none) :
    (∀ response, 400 ≤ response → response ≤ 599 → response ∉ spec_listed_codes →
      response ≠ 451 → response ≠ 551 →
      (ftp_connection_set_error_from_response conn response).error =
        some ⟨G_IO_ERROR, G_IO_ERROR_FAILED, "Invalid reply"⟩) ∧
    (ftp_connection_set_error_from_response conn 451).error =
      some ⟨G_IO_ERROR, G_IO_ERROR_FAILED, "Operation failed"⟩ ∧
    (ftp_connection_set_error_from_response conn 551).error =
      some ⟨G_IO_ERROR, G_IO_ERROR_FAILED, "Page type unknown"⟩ := by
  refine ⟨?_, ?_, ?_⟩
  · intro response h4 h5 hlist h451 h551
    simp only [spec_listed_codes, List.mem_cons, List.mem_singleton, List.not_mem_nil,
      or_false, not_or] at hlist
    obtain ⟨a1, a2, a3, a4, a5, a6, a7, a8, a9, a10, a11, a12, a13, a14, a15⟩ := hlist
    have h332 : response ≠ 332 := by omega
    simp [ftp_connection_set_error_from_response, error_from_response, g_set_error, hempty, *]
  · simp [ftp_connection_set_error_from_response, error_from_response, g_set_error, hempty]
  · simp [ftp_connection_set_error_from_response, error_from_response, g_set_error, hempty]

/-- Witness of C10, amended: the sample connection. -/
theorem set_error_from_response_default_witness :
    sample_conn.error = none ∧
    (ftp_connection_set_error_from_response sample_conn 599).error =
      some ⟨G_IO_ERROR, G_IO_ERROR_FAILED, "Invalid reply"⟩ ∧
    (∀ response, 400 ≤ response → response ≤ 599 → response ∉ spec_listed_codes →
      response ≠ 451 → response ≠ 551 →
      (ftp_connection_set_error_from_response sample_conn response).error =
        some ⟨G_IO_ERROR, G_IO_ERROR_FAILED, "Invalid reply"⟩) ∧
    (ftp_connection_set_error_from_response sample_conn 451).error =
      some ⟨G_IO_ERROR, G_IO_ERROR_FAILED, "Operation failed"⟩ ∧
    (ftp_connection_set_error_from_response sample_conn 551).error =
      some ⟨G_IO_ERROR, G_IO_ERROR_FAILED, "Page type unknown"⟩ :=
  ⟨rfl, by decide, set_error_from_response_default sample_conn rfl⟩

/-! ## Receiving a reply -/

/-- The bytes of the line just read, as the code reads them back from the
buffer at `last_line`, are the bytes the socket delivered. -/
theorem last_line_byte (buf data : List Char) (off i : Nat) (hoff : off ≤ buf.length)
    (hi : i < data.length) :
    byte_at ((buffer_store (buffer_store buf off data) (off + data.length) [NUL]).drop off) i
      = byte_at data i := by
  have hlen : (buf.take off ++ data).length = off + data.length := by
    simp [List.length_take, Nat.min_eq_left hoff]
  have htake : (buf.take off ++ data ++ buf.drop (off + data.length)).take (off + data.length)
      = buf.take off ++ data := by
    rw [List.take_append_of_le_length (by omega), List.take_of_length_le (by omega)]
  have hdrop : (buf.take off ++ (data ++ ([NUL] ++
      (buf.take off ++ data ++ buf.drop (off + data.length)).drop
        (off + data.length + [NUL].length)))).drop off
      = data ++ ([NUL] ++ (buf.take off ++ data ++ buf.drop (off + data.length)).drop
        (off + data.length + [NUL].length)) := by
    rw [List.drop_append_of_le_length (by simp [List.length_take, Nat.min_eq_left hoff])]
    rw [List.drop_of_length_le (by simp [List.length_take])]
    rfl
  unfold buffer_store byte_at
  rw [htake]
  simp only [List.append_assoc] at hdrop ⊢
  rw [hdrop]
  rw [List.getD_append _ _ _ _ hi]

/-- The loop body on the first line, in terms of the line delivered. -/
theorem receive_body_first_line (l : ReceiveLocals) (r : ReadResult)
    (hstate : l.reply_state = ReplyState.FIRST_LINE)
    (hstatus : r.status ≠ SOUP_SOCKET_ERROR) (hboundary : r.got_boundary = true)
    (hoff : l.conn.read_bytes ≤ l.conn.read_buffer.length)
    (hsize : l.conn.read_bytes + r.data.length < GSIZE) :
    receive_body l r =
      if spec_bad_header r.data then
        ReceiveStep.RETURN 0
          { spec_line_stored l.conn r.data with
            error := g_set_error l.conn.error G_IO_ERROR G_IO_ERROR_FAILED "Invalid reply" }
      else if byte_at r.data 3 = ' '.toNat then
        ReceiveStep.NEXT ⟨spec_line_stored l.conn r.data, ReplyState.DONE,
          spec_header_code r.data, (l.bytes_left + GSIZE - r.data.length % GSIZE) % GSIZE⟩
      else if byte_at r.data 3 = '-'.toNat then
        ReceiveStep.NEXT ⟨spec_line_stored l.conn r.data, ReplyState.MULTILINE,
          spec_header_code r.data, (l.bytes_left + GSIZE - r.data.length % GSIZE) % GSIZE⟩
      else
        ReceiveStep.RETURN 0
          { spec_line_stored l.conn r.data with
            error := g_set_error l.conn.error G_IO_ERROR G_IO_ERROR_FAILED "Invalid reply" } := by
  have hmod : (l.conn.read_bytes + r.data.length) % GSIZE = l.conn.read_bytes + r.data.length :=
    Nat.mod_eq_of_lt hsize
  have hbody : receive_body l r =
      (let conn := spec_line_stored l.conn r.data
       let last_line := conn.read_buffer.drop l.conn.read_bytes
       if r.data.length < 4 ∨
          byte_at last_line 0 ≤ '0'.toNat ∨ byte_at last_line 0 > '5'.toNat ∨
          byte_at last_line 1 < '0'.toNat ∨ byte_at last_line 1 > '9'.toNat ∨
          byte_at last_line 2 < '0'.toNat ∨ byte_at last_line 2 > '9'.toNat then
        ReceiveStep.RETURN 0
          { conn with
            error := g_set_error l.conn.error G_IO_ERROR G_IO_ERROR_FAILED "Invalid reply" }
       else
        if byte_at last_line 3 = ' '.toNat then
          ReceiveStep.NEXT ⟨conn, ReplyState.DONE,
            100 * (byte_at last_line 0 - '0'.toNat) +
              10 * (byte_at last_line 1 - '0'.toNat) + (byte_at last_line 2 - '0'.toNat),
            (l.bytes_left + GSIZE - r.data.length % GSIZE) % GSIZE⟩
        else if byte_at last_line 3 = '-'.toNat then
          ReceiveStep.NEXT ⟨conn, ReplyState.MULTILINE,
            100 * (byte_at last_line 0 - '0'.toNat) +
              10 * (byte_at last_line 1 - '0'.toNat) + (byte_at last_line 2 - '0'.toNat),
            (l.bytes_left + GSIZE - r.data.length % GSIZE) % GSIZE⟩
        else
          ReceiveStep.RETURN 0
            { conn with
              error := g_set_error l.conn.error G_IO_ERROR G_IO_ERROR_FAILED
                "Invalid reply" }) := by
    unfold receive_body spec_line_stored
    cases hs : r.status with
    | SOUP_SOCKET_ERROR => exact absurd hs hstatus
    | SOUP_SOCKET_OK => simp only [hboundary, hstate, hmod, if_true]
    | SOUP_SOCKET_EOF => simp only [hboundary, hstate, hmod, if_true]
  rw [hbody]
  by_cases h4 : r.data.length < 4
  · simp [spec_bad_header, h4]
  · have hb : ∀ i, i < 4 →
        byte_at ((spec_line_stored l.conn r.data).read_buffer.drop l.conn.read_bytes) i
          = byte_at r.data i := by
      intro i hi
      exact last_line_byte _ _ _ _ hoff (by omega)
    simp only [hb 0 (by decide), hb 1 (by decide), hb 2 (by decide), hb 3 (by decide),
      spec_bad_header, spec_header_code]

/-- The first pass of the loop of `ftp_connection_receive`. -/
theorem receive_read_cons (conn : FtpConnection) (r : ReadResult) (rest : List ReadResult)
    (hreads : conn.commands.reads = r :: rest) :
    receive_read conn =
      match receive_body
        ⟨{ conn with read_bytes := 0, commands := { conn.commands with reads := rest } },
          ReplyState.FIRST_LINE, 0, 255⟩ r with
      | ReceiveStep.RETURN value conn => ReceiveStep.RETURN value conn
      | ReceiveStep.NEXT l => receive_loop rest l := by
  simp [receive_read, hreads, receive_loop]

/-- C7. On a connection whose error slot is empty, when the first read
delivers a whole line (no socket error, the boundary found, a length that
fits a `gsize`) and the line is shorter than four bytes, or its first byte
is outside '1'..'5', or its second or third byte is not a digit, or its
fourth byte is neither a space nor '-', `ftp_connection_receive` returns 0
and sets the error `G_IO_ERROR_FAILED` "Invalid reply". -/
theorem receive_rejects_bad_first_line (conn : FtpConnection) (flags : Nat) (r : ReadResult)
    (rest : List ReadResult) (hempty : conn.error = none)
    (hreads : conn.commands.reads = r :: rest)
    (hstatus : r.status ≠ SOUP_SOCKET_ERROR) (hboundary : r.got_boundary = true)
    (hsize : r.data.length < GSIZE)
    (hbad : spec_bad_header r.data ∨
      (byte_at r.data 3 ≠ ' '.toNat ∧ byte_at r.data 3 ≠ '-'.toNat)) :
    (ftp_connection_receive conn flags).1 = 0 ∧
    (ftp_connection_receive conn flags).2.error =
      some ⟨G_IO_ERROR, G_IO_ERROR_FAILED, "Invalid reply"⟩ := by
  have hbody := receive_body_first_line
    ⟨{ conn with read_bytes := 0, commands := { conn.commands with reads := rest } },
      ReplyState.FIRST_LINE, 0, 255⟩ r rfl hstatus hboundary (Nat.zero_le _)
    (by simpa using hsize)
  have hin : ftp_connection_in_error conn = false := by simp [ftp_connection_in_error, hempty]
  simp only [ftp_connection_receive, hin, receive_read_cons conn r rest hreads, hbody]
  rcases hbad with hbad | ⟨h1, h2⟩
  · rw [if_pos hbad]
    simp [g_set_error, hempty]
  · by_cases hh : spec_bad_header r.data
    · rw [if_pos hh]
      simp [g_set_error, hempty]
    · rw [if_neg hh, if_neg h1, if_neg h2]
      simp [g_set_error, hempty]

/-- Witness of C7: the first line `20x hello`, whose third byte is not a
digit. -/
theorem receive_rejects_bad_first_line_witness :
    (ftp_connection_receive (sample_conn_reading [line_read "20x hello\r\n"]) 0).1 = 0 ∧
    (ftp_connection_receive (sample_conn_reading [line_read "20x hello\r\n"]) 0).2.error =
      some ⟨G_IO_ERROR, G_IO_ERROR_FAILED, "Invalid reply"⟩ :=
  receive_rejects_bad_first_line (sample_conn_reading [line_read "20x hello\r\n"]) 0
    (line_read "20x hello\r\n") [] rfl rfl (by decide) rfl (by decide) (Or.inl (by decide))

/-- A pass of the loop body that goes on to the next test leaves the error
slot as it was and the reply state past the first line; on the first line
it sets a response between 100 and 599, later it keeps the response. -/
theorem receive_body_next {l l' : ReceiveLocals} {r : ReadResult}
    (h : receive_body l r = ReceiveStep.NEXT l') :
    l'.conn.error = l.conn.error ∧ l'.reply_state ≠ ReplyState.FIRST_LINE ∧
    (l.reply_state = ReplyState.FIRST_LINE → 100 ≤ l'.response ∧ l'.response ≤ 599) ∧
    (l.reply_state ≠ ReplyState.FIRST_LINE → l'.response = l.response) := by
  unfold receive_body at h
  have e0 : '0'.toNat = 48 := rfl
  have e5 : '5'.toNat = 53 := rfl
  have e9 : '9'.toNat = 57 := rfl
  cases hs : r.status <;> cases hb : r.got_boundary <;> simp only [hs, hb] at h <;>
    first
    | cases h
    | (by_cases hfirst : l.reply_state = ReplyState.FIRST_LINE
       · simp only [hfirst, if_true] at h
         split_ifs at h with h1 h2 h3 <;>
           first
           | (cases h; done)
           | (simp only [ReceiveStep.NEXT.injEq] at h
              subst h
              simp only [not_or, not_lt, not_le, e0, e5, e9] at h1
              refine ⟨rfl, by simp, fun _ => ?_, fun hne => absurd hfirst hne⟩
              simp only [e0]
              omega)
       · simp only [hfirst, if_false] at h
         split_ifs at h with h1 <;>
           (simp only [ReceiveStep.NEXT.injEq] at h
            subst h
            exact ⟨rfl, by simp [hfirst], fun hf => absurd hf hfirst, fun _ => rfl⟩))

/-- The loop of `ftp_connection_receive`, when it ends without `return`,
leaves the error slot as it was, and a reply state past the first line comes
with a response between 100 and 599. -/
theorem receive_loop_next (reads : List ReadResult) :
    ∀ (l l' : ReceiveLocals), receive_loop reads l = ReceiveStep.NEXT l' →
      (l.reply_state ≠ ReplyState.FIRST_LINE → 100 ≤ l.response ∧ l.response ≤ 599) →
      l'.conn.error = l.conn.error ∧
      (l'.reply_state ≠ ReplyState.FIRST_LINE → 100 ≤ l'.response ∧ l'.response ≤ 599) := by
  induction reads with
  | nil =>
    intro l l' h hinv
    simp only [receive_loop] at h
    split_ifs at h with hc
    · exact absurd h (by simp [receive_body, read_at_eof])
    · simp only [ReceiveStep.NEXT.injEq] at h
      subst h
      exact ⟨rfl, hinv⟩
  | cons r reads ih =>
    intro l l' h hinv
    simp only [receive_loop] at h
    split_ifs at h with hc
    · cases hbody : receive_body
          { l with conn := { l.conn with commands := { l.conn.commands with reads := reads } } }
          r with
      | RETURN value conn => rw [hbody] at h; exact absurd h (by simp)
      | NEXT l1 =>
        rw [hbody] at h
        simp only at h
        obtain ⟨he, hst, hf, hn⟩ := receive_body_next hbody
        obtain ⟨he', hinv'⟩ := ih l1 l' h (by
          intro _
          by_cases hfirst : l.reply_state = ReplyState.FIRST_LINE
          · exact hf hfirst
          · rw [hn hfirst]; exact hinv hfirst)
        exact ⟨he'.trans he, hinv'⟩
    · simp only [ReceiveStep.NEXT.injEq] at h
      subst h
      exact ⟨rfl, hinv⟩

/-- Past the first line, the loop of `ftp_connection_receive` keeps the
response. -/
theorem receive_loop_response (reads : List ReadResult) :
    ∀ (l l' : ReceiveLocals), receive_loop reads l = ReceiveStep.NEXT l' →
      l.reply_state ≠ ReplyState.FIRST_LINE → l'.response = l.response := by
  induction reads with
  | nil =>
    intro l l' h _
    simp only [receive_loop] at h
    split_ifs at h with hc
    · exact absurd h (by simp [receive_body, read_at_eof])
    · simp only [ReceiveStep.NEXT.injEq] at h
      subst h
      rfl
  | cons r reads ih =>
    intro l l' h hst
    simp only [receive_loop] at h
    split_ifs at h with hc
    · cases hbody : receive_body
          { l with conn := { l.conn with commands := { l.conn.commands with reads := reads } } }
          r with
      | RETURN value conn => rw [hbody] at h; exact absurd h (by simp)
      | NEXT l1 =>
        rw [hbody] at h
        simp only at h
        obtain ⟨_, hst1, _, hn⟩ := receive_body_next hbody
        rw [ih l1 l' h hst1, hn hst]
    · simp only [ReceiveStep.NEXT.injEq] at h
      subst h
      rfl

/-- When the reading part of `ftp_connection_receive` ends without
`return`, the first read delivered a whole line with a good header, and the
response is the code of that line. -/
theorem receive_read_first_line (conn : FtpConnection) (l : ReceiveLocals)
    (hread : receive_read conn = ReceiveStep.NEXT l) :
    ∃ r rest, conn.commands.reads = r :: rest ∧ r.status ≠ SOUP_SOCKET_ERROR ∧
      r.got_boundary = true ∧
      (r.data.length < GSIZE →
        ¬ spec_bad_header r.data ∧ l.response = spec_header_code r.data) := by
  cases hreads : conn.commands.reads with
  | nil =>
    exfalso
    simp [receive_read, hreads, receive_loop, receive_body, read_at_eof] at hread
  | cons r rest =>
    refine ⟨r, rest, rfl, ?_⟩
    rw [receive_read_cons conn r rest hreads] at hread
    have hstatus : r.status ≠ SOUP_SOCKET_ERROR := by
      intro hs
      simp [receive_body, hs] at hread
    have hboundary : r.got_boundary = true := by
      cases hb : r.got_boundary with
      | true => rfl
      | false =>
        exfalso
        cases hs : r.status <;> simp [receive_body, hs, hb] at hread
    refine ⟨hstatus, hboundary, fun hsize => ?_⟩
    rw [receive_body_first_line _ r rfl hstatus hboundary (Nat.zero_le _)
      (by simpa using hsize)] at hread
    by_cases hbad : spec_bad_header r.data
    · rw [if_pos hbad] at hread
      simp at hread
    · refine ⟨hbad, ?_⟩
      rw [if_neg hbad] at hread
      split_ifs at hread with h1 h2
      · simp only at hread
        exact receive_loop_response rest _ l hread (by simp)
      · simp only at hread
        exact receive_loop_response rest _ l hread (by simp)

/-- A first line delivered whole, with a good header and a space as its
fourth byte, completes the reply at once: the reading part ends in state
`DONE` with the code of the line. -/
theorem receive_read_single_line (conn : FtpConnection) (r : ReadResult)
    (rest : List ReadResult) (hreads : conn.commands.reads = r :: rest)
    (hstatus : r.status ≠ SOUP_SOCKET_ERROR) (hboundary : r.got_boundary = true)
    (hsize : r.data.length < GSIZE) (hgood : ¬ spec_bad_header r.data)
    (hspace : byte_at r.data 3 = ' '.toNat) :
    receive_read conn = ReceiveStep.NEXT
      ⟨spec_line_stored
          { conn with read_bytes := 0, commands := { conn.commands with reads := rest } } r.data,
        ReplyState.DONE, spec_header_code r.data,
        (255 + GSIZE - r.data.length % GSIZE) % GSIZE⟩ := by
  rw [receive_read_cons conn r rest hreads,
    receive_body_first_line _ r rfl hstatus hboundary (Nat.zero_le _) (by simpa using hsize),
    if_neg hgood, if_pos hspace]
  cases rest <;> simp [receive_loop]

/-- The switch at the end of `ftp_connection_receive`, for a response
between 100 and 599 on a connection whose error slot is empty. -/
theorem receive_switch_spec (conn : FtpConnection) (flags c : Nat) (hempty : conn.error = none)
    (hlo : 100 ≤ c) (hhi : c ≤ 599) :
    receive_switch conn flags c =
      if spec_passes flags c then (c, conn)
      else (0, { conn with
        error := some ⟨G_IO_ERROR, (error_from_response c).1, (error_from_response c).2⟩ }) := by
  have hg : c / 100 = 1 ∨ c / 100 = 2 ∨ c / 100 = 3 ∨ c / 100 = 4 ∨ c / 100 = 5 := by omega
  unfold receive_switch STATUS_GROUP spec_passes ftp_connection_set_error_from_response
  rcases hg with hg | hg | hg | hg | hg <;> rw [hg] <;>
    simp only [g_set_error, hempty] <;>
    by_cases hf1 : flags &&& RESPONSE_PASS_100 = 0 <;>
    by_cases hf2 : flags &&& RESPONSE_FAIL_200 = 0 <;>
    by_cases hf3 : flags &&& RESPONSE_PASS_300 = 0 <;>
    by_cases hf4 : flags &&& RESPONSE_PASS_400 = 0 <;>
    by_cases hf5 : flags &&& RESPONSE_PASS_500 = 0 <;>
    simp [hf1, hf2, hf3, hf4, hf5]

/-- C8. On a connection whose error slot is empty, when the reading part of
`ftp_connection_receive` ends with the reply complete (state `DONE`), the
first read delivered a whole line with a good header, the response `c` is
the code of that line and lies between 100 and 599, and for every flag set
the function returns `c` if `c` is 2xx and `RESPONSE_FAIL_200` is not set or
`c` is of group 1, 3, 4 or 5 and the matching `RESPONSE_PASS_g00` is set,
and otherwise returns 0 with the connection error set from `c`. With
`RESPONSE_PASS_100 | RESPONSE_FAIL_200` it returns `c` exactly for a 1xx. -/
theorem receive_flags (conn : FtpConnection) (l : ReceiveLocals)
    (hempty : conn.error = none) (hread : receive_read conn = ReceiveStep.NEXT l)
    (hdone : l.reply_state = ReplyState.DONE) :
    (∃ r rest, conn.commands.reads = r :: rest ∧ r.status ≠ SOUP_SOCKET_ERROR ∧
      r.got_boundary = true ∧
      (r.data.length < GSIZE →
        ¬ spec_bad_header r.data ∧ l.response = spec_header_code r.data)) ∧
    100 ≤ l.response ∧ l.response ≤ 599 ∧
    (∀ flags, ftp_connection_receive conn flags =
      if spec_passes flags l.response then (l.response, l.conn)
      else (0, { l.conn with
        error := some ⟨G_IO_ERROR, (error_from_response l.response).1,
          (error_from_response l.response).2⟩ })) ∧
    ftp_connection_receive conn (RESPONSE_PASS_100 ||| RESPONSE_FAIL_200) =
      if l.response / 100 = 1 then (l.response, l.conn)
      else (0, { l.conn with
        error := some ⟨G_IO_ERROR, (error_from_response l.response).1,
          (error_from_response l.response).2⟩ }) := by
  have hinv := receive_loop_next _ _ l hread (fun h => absurd rfl h)
  have herr : l.conn.error = none := by rw [hinv.1]; exact hempty
  obtain ⟨hlo, hhi⟩ := hinv.2 (by rw [hdone]; simp)
  have hin : ftp_connection_in_error conn = false := by simp [ftp_connection_in_error, hempty]
  have hall : ∀ flags, ftp_connection_receive conn flags =
      if spec_passes flags l.response then (l.response, l.conn)
      else (0, { l.conn with
        error := some ⟨G_IO_ERROR, (error_from_response l.response).1,
          (error_from_response l.response).2⟩ }) := by
    intro flags
    simp only [ftp_connection_receive, hin, hread, hdone]
    simpa using receive_switch_spec l.conn flags l.response herr hlo hhi
  refine ⟨receive_read_first_line conn l hread, hlo, hhi, hall, ?_⟩
  rw [hall]
  have hp : spec_passes (RESPONSE_PASS_100 ||| RESPONSE_FAIL_200) l.response
      = decide (l.response / 100 = 1) := by
    have h1 : (RESPONSE_PASS_100 ||| RESPONSE_FAIL_200) &&& RESPONSE_FAIL_200 = 16 := by decide
    have h2 : (RESPONSE_PASS_100 ||| RESPONSE_FAIL_200) &&& RESPONSE_PASS_100 = 1 := by decide
    have h3 : (RESPONSE_PASS_100 ||| RESPONSE_FAIL_200) &&& RESPONSE_PASS_300 = 0 := by decide
    have h4 : (RESPONSE_PASS_100 ||| RESPONSE_FAIL_200) &&& RESPONSE_PASS_400 = 0 := by decide
    have h5 : (RESPONSE_PASS_100 ||| RESPONSE_FAIL_200) &&& RESPONSE_PASS_500 = 0 := by decide
    simp [spec_passes, h1, h2, h3, h4, h5]
  rw [hp]
  simp

/-- Witness of C8: the reply `150 Opening data connection`, which is
returned under `RESPONSE_PASS_100 | RESPONSE_FAIL_200` and fails without
flags. -/
theorem receive_flags_witness :
    sample_conn_150.error = none ∧
    receive_read sample_conn_150 = ReceiveStep.NEXT sample_locals_150 ∧
    sample_locals_150.reply_state = ReplyState.DONE ∧
    sample_locals_150.response = 150 ∧
    (ftp_connection_receive sample_conn_150 (RESPONSE_PASS_100 ||| RESPONSE_FAIL_200)).1 = 150 ∧
    (ftp_connection_receive sample_conn_150 0).1 = 0 ∧
    (ftp_connection_receive sample_conn_150 0).2.error =
      some ⟨G_IO_ERROR, G_IO_ERROR_FAILED, "Invalid reply"⟩ := by
  have hread : receive_read sample_conn_150 = ReceiveStep.NEXT sample_locals_150 := rfl
  have hdone : sample_locals_150.reply_state = ReplyState.DONE := rfl
  have hcode : sample_locals_150.response = 150 := rfl
  obtain ⟨_, _, _, hall, hretr⟩ := receive_flags sample_conn_150 sample_locals_150 rfl hread hdone
  refine ⟨rfl, hread, hdone, hcode, ?_, ?_, ?_⟩
  · rw [hretr, hcode]
    rfl
  · rw [hall 0, hcode]
    rfl
  · rw [hall 0, hcode]
    rfl

/-! ## Enumeration of the mountable-list backend -/

/-- The paths `lookup` resolves to the root: the non-empty paths made of
slashes only. -/
theorem skip_slashes_eq_nil (filename : List Char) :
    skip_slashes filename = [] ↔ ∀ c ∈ filename, c = '/' := by
  induction filename with
  | nil => simp [skip_slashes]
  | cons c cs ih =>
    simp only [skip_slashes]
    split_ifs with h
    · simp [ih, h]
    · simp [h]

theorem lookup_root_iff (backend : GVfsBackendComputer) (job : GVfsJob) (filename : List Char) :
    (lookup backend job filename).1 = LookupResult.ROOT ↔
      filename ≠ [] ∧ ∀ c ∈ filename, c = '/' := by
  unfold lookup lookup_out
  by_cases h1 : filename.head? ≠ some '/'
  · rw [if_pos h1]
    constructor
    · intro h; simp at h
    · rintro ⟨hne, hall⟩
      cases filename with
      | nil => exact absurd rfl hne
      | cons c cs => exact absurd (by simp [hall c (List.mem_cons_self _ _)]) h1
  · have hne : filename ≠ [] := by
      intro h; subst h; simp at h1
    rw [if_neg h1]
    by_cases h2 : skip_slashes filename = []
    · have hall := (skip_slashes_eq_nil filename).1 h2
      simp only [h2, if_true]
      exact ⟨fun _ => ⟨hne, hall⟩, fun _ => trivial⟩
    · have hnot : ¬ ∀ c ∈ filename, c = '/' := fun h => h2 ((skip_slashes_eq_nil filename).2 h)
      simp only [h2, if_false]
      by_cases h3 : '/' ∈ skip_slashes filename
      · simp only [h3, if_true]
        exact ⟨fun h => by simp at h, fun h => absurd h.2 hnot⟩
      · simp only [h3, if_false]
        cases h4 : lookup_files backend.files (skip_slashes filename) <;>
          exact ⟨fun h => by simp at h, fun h => absurd h.2 hnot⟩

/-- C16, counterexample. On the sample backend `try_enumerate` of the path
`/nonexistent`, which is not the root, fails with `NOT_FOUND`, not with
`NOT_DIRECTORY`. -/
theorem try_enumerate_not_found :
    "/nonexistent".toList ≠ [] ∧ ¬ (∀ c ∈ "/nonexistent".toList, c = '/') ∧
    try_enumerate sample_backend fresh_job "/nonexistent".toList =
      (⟨false, [Completion.FAILED ⟨G_IO_ERROR, G_IO_ERROR_NOT_FOUND, "File doesn't exist"⟩]⟩,
        []) ∧
    (try_enumerate sample_backend fresh_job "/nonexistent".toList).1.completions ≠
      [Completion.FAILED ⟨G_IO_ERROR, G_IO_ERROR_NOT_DIRECTORY,
        "The file is not a directory"⟩] := by
  decide

/-- C16, amended. `try_enumerate` succeeds exactly on the root, the
non-empty paths made of slashes only, and then yields one info record per
entry of the file list, in list order; on a path `lookup` resolves to an
entry it fails with `NOT_DIRECTORY`; on every other path it fails with
`NOT_FOUND`; in both failures no info record is added. -/
theorem try_enumerate_spec (backend : GVfsBackendComputer) (job : GVfsJob)
    (filename : List Char) :
    ((filename ≠ [] ∧ ∀ c ∈ filename, c = '/') →
      try_enumerate backend job filename =
        (g_vfs_job_succeeded job,
          backend.files.map fun file => file_info_from_file file g_file_info_new)) ∧
    (∀ file, (lookup backend job filename).1 = LookupResult.FILE file →
      try_enumerate backend job filename =
        (g_vfs_job_failed job G_IO_ERROR G_IO_ERROR_NOT_DIRECTORY
          "The file is not a directory", [])) ∧
    (¬ (filename ≠ [] ∧ ∀ c ∈ filename, c = '/') →
      (∀ file, (lookup backend job filename).1 ≠ LookupResult.FILE file) →
      try_enumerate backend job filename =
        (g_vfs_job_failed job G_IO_ERROR G_IO_ERROR_NOT_FOUND "File doesn't exist", [])) := by
  have hroot := lookup_root_iff backend job filename
  unfold try_enumerate
  rcases lookup_cases backend job filename with h | ⟨file, h⟩ | h
  · refine ⟨fun _ => by rw [h], fun file hf => ?_, fun hn _ => ?_⟩
    · rw [h] at hf; cases hf
    · exact absurd (hroot.1 (by rw [h])) hn
  · refine ⟨fun hr => ?_, fun file' _ => by rw [h], fun _ hf => ?_⟩
    · have := hroot.2 hr
      rw [h] at this; cases this
    · exact absurd (by rw [h]) (hf file)
  · refine ⟨fun hr => ?_, fun file hf => ?_, fun _ _ => by rw [h]⟩
    · have := hroot.2 hr
      rw [h] at this; cases this
    · rw [h] at hf; cases hf

/-! ## Debounced recomputation -/

theorem recompute_files_in_idle_tag (glib : GLib) (backend : GVfsBackendComputer)
    (volume_monitor : GVolumeMonitor) :
    (recompute_files_in_idle glib backend volume_monitor).1.recompute_idle_tag = 0 ∧
    (recompute_files_in_idle glib backend volume_monitor).2 = false := by
  obtain ⟨files, hfiles, _⟩ := recompute_list_spec volume_monitor
  simp [recompute_files_in_idle, recompute_files, hfiles, update_from_files]

theorem loop_step_coalesced (glib : GLib) (s : ComputerLoop) (step : LoopStep)
    (hs : spec_coalesced s) : spec_coalesced (loop_step glib s step) := by
  cases step with
  | PLATFORM_EVENT =>
    rcases hs with ⟨h1, h2⟩ | ⟨h1, h2⟩
    · right
      simp [loop_step, object_changed, g_idle_add, h1, h2]
    · right
      simp [loop_step, object_changed, h1, h2]
  | IDLE volume_monitor =>
    rcases hs with ⟨h1, h2⟩ | ⟨h1, h2⟩
    · left
      simp [loop_step, h1, h2]
    · left
      have ht := recompute_files_in_idle_tag glib s.backend volume_monitor
      simp [loop_step, h1, ht.1, ht.2]

theorem loop_run_coalesced (glib : GLib) (steps : List LoopStep) :
    ∀ s : ComputerLoop, spec_coalesced s → spec_coalesced (loop_run glib s steps) := by
  induction steps with
  | nil => intro s hs; exact hs
  | cons step steps ih =>
    intro s hs
    exact ih (loop_step glib s step) (loop_step_coalesced glib s step hs)

theorem loop_run_append (glib : GLib) (s : ComputerLoop) (xs ys : List LoopStep) :
    loop_run glib s (xs ++ ys) = loop_run glib (loop_run glib s xs) ys := by
  simp [loop_run, List.foldl_append]

theorem loop_step_idle_nil (glib : GLib) (s : ComputerLoop) (volume_monitor : GVolumeMonitor)
    (h : s.context.idle_sources = []) :
    loop_step glib s (LoopStep.IDLE volume_monitor) = s := by
  simp [loop_step, h]

/-- What `recompute_files_in_idle` does: it runs `recompute_files` on the
backend with the tag reset to 0, which returns, and returns `FALSE`. -/
theorem recompute_files_in_idle_run (glib : GLib) (backend : GVfsBackendComputer)
    (volume_monitor : GVolumeMonitor) :
    ∃ backend', recompute_files glib { backend with recompute_idle_tag := 0 } volume_monitor
        = some backend' ∧
      recompute_files_in_idle glib backend volume_monitor = (backend', false) := by
  obtain ⟨files, hfiles, _⟩ := recompute_list_spec volume_monitor
  refine ⟨update_from_files glib { backend with recompute_idle_tag := 0 } files, ?_, ?_⟩
  · simp [recompute_files, hfiles]
  · simp [recompute_files_in_idle, recompute_files, hfiles]

/-- A platform event while a recomputation is pending changes nothing. -/
theorem loop_step_event_pending (glib : GLib) (s : ComputerLoop)
    (h : s.backend.recompute_idle_tag ≠ 0) :
    loop_step glib s LoopStep.PLATFORM_EVENT = s := by
  simp [loop_step, object_changed, h]

theorem loop_run_events_pending (glib : GLib) (n : Nat) (s : ComputerLoop)
    (h : s.backend.recompute_idle_tag ≠ 0) :
    loop_run glib s (List.replicate n LoopStep.PLATFORM_EVENT) = s := by
  induction n with
  | zero => rfl
  | succ n ih =>
    simp only [List.replicate_succ, loop_run, List.foldl_cons] at ih ⊢
    rw [loop_step_event_pending glib s h]
    exact ih

/-- A burst of platform events on a loop with nothing pending attaches one
idle source, stores its id as the tag and leaves the rest of the backend as
it was. -/
theorem loop_run_events (glib : GLib) (n : Nat) (s : ComputerLoop) (hn : 1 ≤ n)
    (htag : s.backend.recompute_idle_tag = 0) (hsrc : s.context.idle_sources = []) :
    loop_run glib s (List.replicate n LoopStep.PLATFORM_EVENT) =
      ⟨{ s.backend with recompute_idle_tag := s.context.last_id + 1 },
        ⟨[s.context.last_id + 1], s.context.last_id + 1⟩⟩ := by
  obtain ⟨m, rfl⟩ : ∃ m, n = m + 1 := ⟨n - 1, by omega⟩
  have hfirst : loop_step glib s LoopStep.PLATFORM_EVENT =
      ⟨{ s.backend with recompute_idle_tag := s.context.last_id + 1 },
        ⟨[s.context.last_id + 1], s.context.last_id + 1⟩⟩ := by
    simp [loop_step, object_changed, g_idle_add, htag, hsrc]
  have hrest := loop_run_events_pending glib m (loop_step glib s LoopStep.PLATFORM_EVENT)
    (by rw [hfirst]; exact Nat.succ_ne_zero _)
  simp only [List.replicate_succ, loop_run, List.foldl_cons] at hrest ⊢
  rw [hrest, hfirst]

/-- C20. From a state in which the tag and the idle sources agree, every
sequence of platform events and idle runs keeps them in agreement, so that
at most one recomputation is pending at any time. When nothing is pending,
any `n ≥ 1` platform events leave exactly one idle source and do not run
`recompute_files`: the list and the events on the root monitor are as
before. The next idle run is one run of `recompute_files`: it returns, and
the backend afterwards is the backend that `recompute_files` returns for the
backend as it was before the events, with nothing pending. A further idle
run changes nothing. -/
theorem platform_events_coalesced (glib : GLib) (s : ComputerLoop) (hs : spec_coalesced s) :
    (∀ steps, spec_coalesced (loop_run glib s steps) ∧
      (loop_run glib s steps).context.idle_sources.length ≤ 1) ∧
    (∀ n volume_monitor volume_monitor', 1 ≤ n → s.context.idle_sources = [] →
      (loop_run glib s (List.replicate n LoopStep.PLATFORM_EVENT)).context.idle_sources.length
        = 1 ∧
      (loop_run glib s (List.replicate n LoopStep.PLATFORM_EVENT)).backend.files
        = s.backend.files ∧
      (loop_run glib s (List.replicate n LoopStep.PLATFORM_EVENT)).backend.root_monitor
        = s.backend.root_monitor ∧
      ∃ backend', recompute_files glib s.backend volume_monitor = some backend' ∧
        (recompute_files_in_idle glib
          (loop_run glib s (List.replicate n LoopStep.PLATFORM_EVENT)).backend
          volume_monitor) = (backend', false) ∧
        loop_run glib s (List.replicate n LoopStep.PLATFORM_EVENT ++
          [LoopStep.IDLE volume_monitor]) = ⟨backend', ⟨[], s.context.last_id + 1⟩⟩ ∧
        loop_run glib s (List.replicate n LoopStep.PLATFORM_EVENT ++
          [LoopStep.IDLE volume_monitor, LoopStep.IDLE volume_monitor'])
          = ⟨backend', ⟨[], s.context.last_id + 1⟩⟩) := by
  constructor
  · intro steps
    have h := loop_run_coalesced glib steps s hs
    refine ⟨h, ?_⟩
    rcases h with ⟨h1, _⟩ | ⟨h1, _⟩ <;> simp [h1]
  · intro n vm vm' hn hsrc
    have htag : s.backend.recompute_idle_tag = 0 := by
      rcases hs with ⟨_, h2⟩ | ⟨h1, _⟩
      · exact h2
      · rw [hsrc] at h1; cases h1
    have hburst := loop_run_events glib n s hn htag hsrc
    have hback : ({ s.backend with recompute_idle_tag := s.context.last_id + 1 } :
        GVfsBackendComputer) = ⟨s.backend.files, s.context.last_id + 1,
          s.backend.root_monitor⟩ := rfl
    have hzero : ({ ({ s.backend with recompute_idle_tag := s.context.last_id + 1 } :
        GVfsBackendComputer) with recompute_idle_tag := 0 } : GVfsBackendComputer)
        = s.backend := by
      cases hb : s.backend with
      | mk files tag root_monitor =>
        rw [hb] at htag
        simp only at htag
        subst htag
        rfl
    obtain ⟨backend', hrun, hidle⟩ := recompute_files_in_idle_run glib
      ({ s.backend with recompute_idle_tag := s.context.last_id + 1 } : GVfsBackendComputer) vm
    rw [hzero] at hrun
    have h1 : loop_step glib
        ⟨{ s.backend with recompute_idle_tag := s.context.last_id + 1 },
          ⟨[s.context.last_id + 1], s.context.last_id + 1⟩⟩ (LoopStep.IDLE vm) =
        ⟨backend', ⟨[], s.context.last_id + 1⟩⟩ := by
      simp [loop_step, hidle]
    rw [loop_run_append, loop_run_append, hburst]
    refine ⟨rfl, rfl, rfl, backend', hrun, hidle, h1, ?_⟩
    simp only [loop_run, List.foldl_cons, List.foldl_nil]
    rw [h1]
    exact loop_step_idle_nil glib _ vm' rfl

/-- Witness of C20: the sample backend with nothing pending and the volume B
mounted meanwhile; three events attach one idle source and emit nothing, and
the idle run is the one run of `recompute_files`: it emits `CHANGED` on
`/B.volume`, installs the new list and leaves nothing pending. -/
theorem platform_events_coalesced_witness :
    spec_coalesced ⟨sample_backend, ⟨[], 0⟩⟩ ∧
    (loop_run sample_glib ⟨sample_backend, ⟨[], 0⟩⟩
      (List.replicate 3 LoopStep.PLATFORM_EVENT)) =
      ⟨⟨sample_files, 1, []⟩, ⟨[1], 1⟩⟩ ∧
    recompute_files sample_glib sample_backend sample_monitor_mounted =
      some ⟨sample_files_mounted, 0, [⟨G_FILE_MONITOR_EVENT_CHANGED, "/B.volume".toList⟩]⟩ ∧
    ∃ backend', recompute_files sample_glib sample_backend sample_monitor_mounted
        = some backend' ∧
      loop_run sample_glib ⟨sample_backend, ⟨[], 0⟩⟩
        (List.replicate 3 LoopStep.PLATFORM_EVENT ++
          [LoopStep.IDLE sample_monitor_mounted]) = ⟨backend', ⟨[], 1⟩⟩ :=
  have hs : spec_coalesced ⟨sample_backend, ⟨[], 0⟩⟩ := Or.inl ⟨rfl, rfl⟩
  have h := (platform_events_coalesced sample_glib ⟨sample_backend, ⟨[], 0⟩⟩ hs).2
    3 sample_monitor_mounted sample_monitor (by decide) rfl
  ⟨hs, by decide, by decide,
    h.2.2.2.elim fun backend' hb => ⟨backend', hb.1, hb.2.2.1⟩⟩

/-! ## The entries `recompute_files` builds -/

/-- An invariant of the second loop of `recompute_files`: what holds of the
named and the unnamed entries at the start and is kept by naming one entry
holds of the list the loop returns. -/
theorem name_files_invariant (Inv : List ComputerFile → List ComputerFile → Prop)
    (hstep : ∀ done file rest fn, Inv done (file :: rest) →
      uniq_loop (done ++ fill_fields file :: rest)
        (convert_slashes (basename_extension (fill_fields file)).1)
        (basename_extension (fill_fields file)).2
        ((done ++ fill_fields file :: rest).length + 1) 1
        (convert_slashes (basename_extension (fill_fields file)).1 ++
          (basename_extension (fill_fields file)).2) = some fn →
      Inv (done ++ [{ fill_fields file with filename := some fn }]) rest) :
    ∀ todo done out, Inv done todo → name_files done todo = some out → Inv out [] := by
  intro todo
  induction todo with
  | nil =>
    intro done out hinv h
    simp only [name_files, Option.some.injEq] at h
    subst h
    exact hinv
  | cons file rest ih =>
    intro done out hinv h
    simp only [name_files] at h
    split at h
    · cases h
    · rename_i fn hfn
      exact ih _ out (hstep done file rest fn hinv hfn) h

theorem fill_fields_origin (file : ComputerFile) :
    entry_origin (fill_fields file) = entry_origin file := by
  unfold fill_fields entry_origin
  split
  · rfl
  · split
    · rfl
    · split <;> rfl

/-- The second loop of `recompute_files` keeps the drive, volume, mount and
priority of every entry, in order. -/
theorem name_files_origins (todo out : List ComputerFile)
    (h : name_files [] todo = some out) :
    out.map entry_origin = todo.map entry_origin := by
  have := name_files_invariant
    (fun done rest => (done ++ rest).map entry_origin = todo.map entry_origin)
    (by
      intro done file rest fn hinv _
      rw [← hinv]
      simp only [List.map_append, List.map_cons, List.append_assoc, List.singleton_append,
        List.map_nil]
      congr 2
      exact fill_fields_origin file)
    todo [] out rfl h
  simpa using this

theorem foldl_reverse_append {α β : Type} (f : β → List α) (step : List α → β → List α)
    (hstep : ∀ fs x, step fs x = (f x).reverse ++ fs) :
    ∀ (l : List β) (init : List α),
      l.foldl step init = ((l.map f).flatten).reverse ++ init := by
  intro l
  induction l with
  | nil => intro init; rfl
  | cons x l ih =>
    intro init
    simp only [List.foldl_cons, ih, hstep, List.map_cons, List.flatten_cons,
      List.reverse_append, List.append_assoc]

theorem flatten_filter_map {α β : Type} (p : α → Bool) (e : α → β) (l : List α) :
    (l.map fun x => if p x then [e x] else []).flatten = (l.filter p).map e := by
  induction l with
  | nil => rfl
  | cons x l ih =>
    simp only [List.map_cons, List.flatten_cons, ih, List.filter_cons]
    split_ifs <;> simp

theorem add_drive_eq (fs : List ComputerFile) (drive : GDrive) :
    add_drive fs drive = (drive_entries drive).reverse ++ fs := by
  unfold add_drive drive_entries
  by_cases hv : drive.volumes = []
  · simp [hv]
  · simp only [hv, ne_eq, not_false_eq_true, if_true, if_false]
    have h := foldl_reverse_append
      (fun volume : GVolume =>
        [({ blank_file with
          drive := some drive, volume := some volume, mount := volume.mount, prio := -3 }
          : ComputerFile)])
      (fun files volume =>
        { blank_file with
          drive := some drive, volume := some volume, mount := volume.mount, prio := -3 }
          :: files)
      (fun _ _ => rfl) drive.volumes fs
    rw [h]
    congr 2
    generalize drive.volumes = vs
    induction vs with
    | nil => rfl
    | cons v vs ih => simp [ih]

theorem add_volume_eq (fs : List ComputerFile) (volume : GVolume) :
    add_volume fs volume = (volume_entries volume).reverse ++ fs := by
  cases h : volume.has_drive <;> simp [add_volume, volume_entries, h]

theorem add_mount_eq (fs : List ComputerFile) (mount : GMount) :
    add_mount fs mount = (mount_entries mount).reverse ++ fs := by
  cases h : mount.has_volume <;> simp [add_mount, mount_entries, h]

/-- The first part of `recompute_files` puts the entries of the drives, then
of the volumes, then of the mounts, each in the order reported. -/
theorem collect_files_eq (volume_monitor : GVolumeMonitor) :
    collect_files volume_monitor =
      (volume_monitor.connected_drives.map drive_entries).flatten ++
      (volume_monitor.volumes.map volume_entries).flatten ++
      (volume_monitor.mounts.map mount_entries).flatten := by
  simp only [collect_files]
  rw [foldl_reverse_append _ add_mount add_mount_eq,
    foldl_reverse_append _ add_volume add_volume_eq,
    foldl_reverse_append _ add_drive add_drive_eq]
  simp [List.reverse_append]

/-- The first part of `recompute_files` builds the entries the specification
lists, in its order. -/
theorem collect_files_origins (volume_monitor : GVolumeMonitor) :
    (collect_files volume_monitor).map entry_origin = spec_origins volume_monitor := by
  rw [collect_files_eq]
  simp only [List.map_append, List.map_flatten, List.map_map, spec_origins]
  congr 1
  · congr 1
    · congr 1
      apply List.map_congr_left
      intro drive _
      simp only [Function.comp, drive_entries]
      split_ifs
      · rfl
      · simp only [List.map_map]
        rfl
    · rw [← flatten_filter_map]
      congr 1
      apply List.map_congr_left
      intro volume _
      simp only [Function.comp, volume_entries]
      split_ifs <;> rfl
  · rw [← flatten_filter_map]
    congr 1
    apply List.map_congr_left
    intro mount _
    simp only [Function.comp, mount_entries]
    split_ifs <;> rfl

theorem spec_origins_length (volume_monitor : GVolumeMonitor) :
    (spec_origins volume_monitor).length = spec_length volume_monitor := by
  simp only [spec_origins, spec_length, List.length_append, List.length_map,
    List.length_flatten, List.map_map]
  congr 3
  apply List.map_congr_left
  intro drive _
  simp only [Function.comp]
  split_ifs with h
  · simp [h]
  · have : 0 < drive.volumes.length := List.length_pos.2 h
    simp only [List.length_map]
    omega

theorem spec_origins_prio (volume_monitor : GVolumeMonitor)
    (o : Option GDrive × Option GVolume × Option GMount × Int)
    (ho : o ∈ spec_origins volume_monitor) :
    (o.1.isSome = true → o.2.2.2 = -3) ∧
    (o.1 = none → o.2.1.isSome = true → o.2.2.2 = -2) ∧
    (o.1 = none → o.2.1 = none → o.2.2.1.isSome = true ∧ o.2.2.2 = -1) := by
  simp only [spec_origins, List.mem_append, List.mem_flatten, List.mem_map,
    List.mem_filter] at ho
  rcases ho with (⟨l, ⟨drive, _, rfl⟩, ho⟩ | ⟨volume, _, rfl⟩) | ⟨mount, _, rfl⟩
  · split_ifs at ho
    · simp only [List.mem_singleton] at ho
      subst ho
      simp
    · simp only [List.mem_map] at ho
      obtain ⟨volume, _, rfl⟩ := ho
      simp
  · simp
  · simp

/-- The list before sorting: the second loop of `recompute_files` returns,
and `recompute_list` is its result sorted. -/
theorem recompute_list_named (volume_monitor : GVolumeMonitor) :
    ∃ out, name_files [] (collect_files volume_monitor) = some out ∧
      recompute_list volume_monitor = some (g_list_sort_files out) := by
  obtain ⟨out, hout, _⟩ :=
    name_files_spec (collect_files volume_monitor) [] (by simp) List.Pairwise.nil
      (collect_files_unnamed volume_monitor)
  exact ⟨out, hout, by simp [recompute_list, hout]⟩

/-- C19. For every state of the volume monitor `recompute_files` returns a
backend whose entries are, up to the order of the sort, exactly those the
specification lists: one entry per volume of each connected drive, one
drive-only entry for each connected drive without volumes, one entry for each
volume without drive and one for each mount without volume. The list length
is the sum over the drives of max(1, number of volumes) plus the number of
drive-less volumes plus the number of volume-less mounts. An entry with a
drive has priority -3, an entry with a volume and no drive has -2, and an
entry with neither has a mount and priority -1. -/
theorem recompute_files_entries (glib : GLib) (backend : GVfsBackendComputer)
    (volume_monitor : GVolumeMonitor) :
    ∃ backend', recompute_files glib backend volume_monitor = some backend' ∧
      (backend'.files.map entry_origin).Perm (spec_origins volume_monitor) ∧
      backend'.files.length = spec_length volume_monitor ∧
      ∀ file ∈ backend'.files,
        (file.drive.isSome = true → file.prio = -3) ∧
        (file.drive = none → file.volume.isSome = true → file.prio = -2) ∧
        (file.drive = none → file.volume = none →
          file.mount.isSome = true ∧ file.prio = -1) := by
  obtain ⟨out, hout, hlist⟩ := recompute_list_named volume_monitor
  have hperm : ((g_list_sort_files out).map entry_origin).Perm (spec_origins volume_monitor) := by
    rw [← collect_files_origins, ← name_files_origins _ _ hout]
    exact (g_list_sort_files_perm out).map entry_origin
  refine ⟨update_from_files glib backend (g_list_sort_files out),
    by simp [recompute_files, hlist], hperm, ?_, ?_⟩
  · rw [← spec_origins_length, ← hperm.length_eq]
    simp [update_from_files]
  · intro file hfile
    have hmem : entry_origin file ∈ spec_origins volume_monitor :=
      hperm.subset (List.mem_map_of_mem entry_origin hfile)
    exact spec_origins_prio volume_monitor _ hmem

/-! ## The names the filename loop picks -/

theorem spec_candidate_zero (basename extension : List Char) :
    spec_candidate basename extension 0 = basename ++ extension := rfl

theorem spec_candidate_succ (basename extension : List Char) (i : Nat) :
    spec_candidate basename extension (i + 1) = printf_uniq basename (i + 1) extension := by
  simp [spec_candidate, printf_uniq]

/-- The filename loop returns the first of the candidate names that is not
in use. -/
theorem uniq_loop_first_free {files : List ComputerFile} {basename extension : List Char}
    {fuel uniq : Nat} {f : List Char}
    (h : uniq_loop files basename extension fuel (uniq + 1)
      (spec_candidate basename extension uniq) = some f) :
    ∃ k, uniq ≤ k ∧ f = spec_candidate basename extension k ∧
      ∀ j, uniq ≤ j → j < k →
        filename_is_used files (spec_candidate basename extension j) = true := by
  induction fuel generalizing uniq with
  | zero => simp [uniq_loop] at h
  | succ fuel ih =>
    simp only [uniq_loop] at h
    by_cases hu : filename_is_used files (spec_candidate basename extension uniq) = true
    · rw [if_pos hu, ← spec_candidate_succ] at h
      obtain ⟨k, hk, hf, hused⟩ := ih h
      refine ⟨k, by omega, hf, ?_⟩
      intro j h1 h2
      rcases Nat.eq_or_lt_of_le h1 with rfl | h1
      · exact hu
      · exact hused j h1 h2
    · rw [if_neg hu] at h
      simp only [Option.some.injEq] at h
      exact ⟨uniq, le_refl _, h.symm, fun j h1 h2 => by omega⟩

theorem name_files_extends (todo done out : List ComputerFile)
    (h : name_files done todo = some out) :
    ∃ named, out = done ++ named ∧ named.length = todo.length := by
  induction todo generalizing done with
  | nil =>
    simp only [name_files, Option.some.injEq] at h
    exact ⟨[], by simp [h], rfl⟩
  | cons file rest ih =>
    simp only [name_files] at h
    split at h
    · cases h
    · obtain ⟨named, hout, hlen⟩ := ih _ h
      exact ⟨_ :: named, by simpa using hout, by simp [hlen]⟩

theorem basename_extension_fill_fields (file : ComputerFile) :
    basename_extension (fill_fields file) = basename_extension file := by
  unfold fill_fields
  split
  · rfl
  · split
    · rfl
    · split <;> rfl

theorem basename_extension_spec (file : ComputerFile) :
    basename_extension file = (spec_name file, spec_extension file) := by
  unfold basename_extension spec_name spec_extension
  cases file.drive <;> cases file.volume <;> cases file.mount <;> rfl

/-- The entry the second loop of `recompute_files` makes at each place: the
entry built there with its fields filled in, named by the first candidate no
entry before it has. -/
theorem name_files_at (todo done out : List ComputerFile)
    (hd : ∀ x ∈ done, x.filename.isSome = true) (hr : ∀ x ∈ todo, x.filename = none)
    (h : name_files done todo = some out) (n : Nat) (file : ComputerFile)
    (hn : todo[n]? = some file) :
    ∃ k, out[done.length + n]? =
        some { fill_fields file with
          filename := some (spec_candidate (convert_slashes (spec_name file))
            (spec_extension file) k) } ∧
      some (spec_candidate (convert_slashes (spec_name file)) (spec_extension file) k) ∉
        (out.take (done.length + n)).map (·.filename) ∧
      ∀ j < k, some (spec_candidate (convert_slashes (spec_name file))
          (spec_extension file) j) ∈ (out.take (done.length + n)).map (·.filename) := by
  induction todo generalizing done n with
  | nil => simp at hn
  | cons head rest ih =>
    have hrest : ∀ x ∈ fill_fields head :: rest, x.filename = none := by
      intro x hx
      rcases List.mem_cons.1 hx with rfl | hx
      · rw [fill_fields_filename]; exact hr _ (List.mem_cons_self _ _)
      · exact hr _ (List.mem_cons_of_mem _ hx)
    simp only [name_files] at h
    split at h
    · cases h
    · rename_i fn hfn
      rw [basename_extension_fill_fields, basename_extension_spec] at hfn
      simp only at hfn
      have hd' : ∀ x ∈ done ++ [{ fill_fields head with filename := some fn }],
          x.filename.isSome = true := by
        intro x hx
        rcases List.mem_append.1 hx with hx | hx
        · exact hd x hx
        · simp only [List.mem_singleton] at hx
          subst hx
          rfl
      cases n with
      | zero =>
        simp only [List.getElem?_cons_zero, Option.some.injEq] at hn
        subst hn
        obtain ⟨named, hout, _⟩ := name_files_extends _ _ _ h
        have hfree := uniq_loop_some hfn
        obtain ⟨k, _, hk, hused⟩ := uniq_loop_first_free hfn
        have htake : out.take (done.length + 0) = done := by
          rw [hout]; simp
        refine ⟨k, ?_, ?_, ?_⟩
        · rw [hout, ← hk, List.append_assoc, Nat.add_zero,
            List.getElem?_append_right (le_refl _)]
          simp
        · rw [htake, ← hk, ← filename_is_used_iff done _ fn hd hrest, hfree]
          simp
        · intro j hj
          rw [htake, ← filename_is_used_iff done _ _ hd hrest]
          exact hused j (Nat.zero_le _) hj
      | succ n =>
        simp only [List.getElem?_cons_succ] at hn
        have := ih _ hd' (fun x hx => hr x (List.mem_cons_of_mem _ hx)) h n hn
        simpa [Nat.add_assoc, Nat.add_comm 1 n] using this

/-! ## Entries that share a name -/

theorem countP_take_succ {α : Type} (p : α → Bool) (l : List α) (n : Nat) (a : α)
    (h : l[n]? = some a) :
    (l.take (n + 1)).countP p = (l.take n).countP p + if p a = true then 1 else 0 := by
  rw [List.take_succ, h, List.countP_append]
  simp [List.countP_cons]

theorem countP_take_mono {α : Type} (p : α → Bool) (l : List α) {m n : Nat} (h : m ≤ n) :
    (l.take m).countP p ≤ (l.take n).countP p :=
  List.Sublist.countP_le p (List.take_sublist_take_left l h)

theorem mem_take_map_iff {α β : Type} (f : α → β) (l : List α) (n : Nat) (b : β) :
    b ∈ (l.take n).map f ↔ ∃ m a, m < n ∧ l[m]? = some a ∧ f a = b := by
  constructor
  · intro h
    obtain ⟨a, ha, rfl⟩ := List.mem_map.1 h
    obtain ⟨m, hm⟩ := List.mem_iff_getElem?.1 ha
    rw [List.getElem?_take] at hm
    by_cases hlt : m < n
    · rw [if_pos hlt] at hm
      exact ⟨m, a, hlt, hm, rfl⟩
    · rw [if_neg hlt] at hm
      cases hm
  · rintro ⟨m, a, hlt, hm, rfl⟩
    refine List.mem_map.2 ⟨a, List.mem_iff_getElem?.2 ⟨m, ?_⟩, rfl⟩
    rw [List.getElem?_take, if_pos hlt, hm]

/-- Among the first `n` elements, every rank below the number of elements
with `p` is the rank of one of them. -/
theorem exists_rank {α : Type} (p : α → Bool) (l : List α) :
    ∀ n k, k < (l.take n).countP p →
      ∃ m a, m < n ∧ l[m]? = some a ∧ p a = true ∧ (l.take m).countP p = k := by
  intro n
  induction n with
  | zero => intro k hk; simp at hk
  | succ n ih =>
    intro k hk
    cases hn : l[n]? with
    | none =>
      rw [List.take_succ, hn] at hk
      simp only [Option.toList_none, List.append_nil] at hk
      obtain ⟨m, a, hm, h⟩ := ih k hk
      exact ⟨m, a, by omega, h⟩
    | some a =>
      rw [countP_take_succ p l n a hn] at hk
      by_cases hlt : k < (l.take n).countP p
      · obtain ⟨m, b, hm, h⟩ := ih k hlt
        exact ⟨m, b, by omega, h⟩
      · by_cases hp : p a = true
        · rw [if_pos hp] at hk
          exact ⟨n, a, by omega, hn, hp, by omega⟩
        · rw [if_neg hp] at hk
          omega

/-- When every entry of a group gets the first of the names `c 0`, `c 1`,
... that no entry before it has, the entry of the group with `i` entries of
the group before it gets `c i`, provided that the entries outside the group
before it have none of `c 0`, ..., `c i`. -/
theorem first_free_rank (out : List ComputerFile) (grp : ComputerFile → Bool)
    (c : Nat → List Char) (hc : ∀ i j, c i = c j → i = j)
    (hff : ∀ n file, out[n]? = some file → grp file = true →
      ∃ k, file.filename = some (c k) ∧
        some (c k) ∉ (out.take n).map (·.filename) ∧
        ∀ j < k, some (c j) ∈ (out.take n).map (·.filename)) :
    ∀ n file, out[n]? = some file → grp file = true →
      (∀ m other, m < n → out[m]? = some other → grp other = false →
        ∀ i ≤ (out.take n).countP grp, other.filename ≠ some (c i)) →
      file.filename = some (c ((out.take n).countP grp)) := by
  intro n
  induction n using Nat.strong_induction_on with
  | _ n ih =>
    intro file hn hg hothers
    obtain ⟨k, hk, hfree, hused⟩ := hff n file hn hg
    have hbefore : ∀ m other, m < n → out[m]? = some other → grp other = true →
        other.filename = some (c ((out.take m).countP grp)) ∧
          (out.take m).countP grp < (out.take n).countP grp := by
      intro m other hm hmo hgo
      have hlt : (out.take m).countP grp < (out.take n).countP grp := by
        have h1 := countP_take_succ grp out m other hmo
        rw [if_pos hgo] at h1
        have h2 := countP_take_mono grp out (show m + 1 ≤ n by omega)
        omega
      refine ⟨ih m hm other hmo hgo ?_, hlt⟩
      intro m' other' hm' hmo' hgo' i hi
      exact hothers m' other' (by omega) hmo' hgo' i (by omega)
    rcases Nat.lt_trichotomy k ((out.take n).countP grp) with hlt | heq | hgt
    · exfalso
      obtain ⟨m, a, hm, hma, hga, hrank⟩ := exists_rank grp out n k hlt
      apply hfree
      rw [mem_take_map_iff]
      exact ⟨m, a, hm, hma, by rw [(hbefore m a hm hma hga).1, hrank]⟩
    · rw [hk, heq]
    · exfalso
      have := hused _ hgt
      rw [mem_take_map_iff] at this
      obtain ⟨m, a, hm, hma, hfa⟩ := this
      cases hga : grp a with
      | false => exact hothers m a hm hma hga _ (le_refl _) hfa
      | true =>
        obtain ⟨h1, h2⟩ := hbefore m a hm hma hga
        rw [h1] at hfa
        have := hc _ _ (Option.some.inj hfa)
        omega

theorem spec_candidate_injective (basename extension : List Char) (i j : Nat)
    (h : spec_candidate basename extension i = spec_candidate basename extension j) : i = j := by
  unfold spec_candidate at h
  by_cases hi : i = 0 <;> by_cases hj : j = 0
  · omega
  · rw [if_pos hi, if_neg hj] at h
    have hlen := congrArg List.length h
    simp at hlen
    omega
  · rw [if_neg hi, if_pos hj] at h
    have hlen := congrArg List.length h
    simp at hlen
    omega
  · rw [if_neg hi, if_neg hj] at h
    exact printf_uniq_injective basename extension h

theorem convert_slashes_eq_self (str : List Char) (h : ∀ c ∈ str, c ≠ '/') :
    convert_slashes str = str := by
  induction str with
  | nil => rfl
  | cons c cs ih =>
    simp only [convert_slashes]
    rw [if_neg (h c (List.mem_cons_self _ _)), ih fun d hd => h d (List.mem_cons_of_mem _ hd)]

theorem spec_name_fill_fields (file : ComputerFile) (fn : Option (List Char)) :
    spec_name { fill_fields file with filename := fn } = spec_name file ∧
    spec_extension { fill_fields file with filename := fn } = spec_extension file := by
  have h := basename_extension_fill_fields file
  rw [basename_extension_spec, basename_extension_spec] at h
  exact ⟨congrArg Prod.fst h, congrArg Prod.snd h⟩

/-- Every entry the second loop of `recompute_files` returns is named by the
first candidate for its own name and extension that no entry before it
has. -/
theorem name_files_out (todo out : List ComputerFile) (hr : ∀ x ∈ todo, x.filename = none)
    (h : name_files [] todo = some out) (n : Nat) (file : ComputerFile)
    (hn : out[n]? = some file) :
    ∃ k, file.filename =
        some (spec_candidate (convert_slashes (spec_name file)) (spec_extension file) k) ∧
      some (spec_candidate (convert_slashes (spec_name file)) (spec_extension file) k) ∉
        (out.take n).map (·.filename) ∧
      ∀ j < k, some (spec_candidate (convert_slashes (spec_name file))
          (spec_extension file) j) ∈ (out.take n).map (·.filename) := by
  obtain ⟨named, hout, hlen⟩ := name_files_extends _ _ _ h
  have hlt : n < todo.length := by
    have := (List.getElem?_eq_some.1 hn).1
    rw [hout] at this
    simpa [hlen] using this
  obtain ⟨k, hk, hfree, hused⟩ :=
    name_files_at todo [] out (by simp) hr h n todo[n] (List.getElem?_eq_getElem hlt)
  simp only [List.length_nil, Nat.zero_add] at hk hfree hused
  rw [hn, Option.some.injEq] at hk
  obtain ⟨h1, h2⟩ := spec_name_fill_fields todo[n]
    (some (spec_candidate (convert_slashes (spec_name todo[n])) (spec_extension todo[n]) k))
  rw [← hk] at h1 h2
  rw [h1, h2]
  exact ⟨k, by rw [hk], hfree, hused⟩

theorem spec_drive_only_name (name : List Char) (file : ComputerFile)
    (h : spec_drive_only name file = true) :
    spec_name file = name ∧ spec_extension file = ".drive".toList := by
  unfold spec_drive_only at h
  unfold spec_name spec_extension
  cases hd : file.drive with
  | none => rw [hd] at h; cases h
  | some drive =>
    rw [hd] at h
    simp only [Bool.and_eq_true, decide_eq_true_eq] at h
    exact ⟨h.1, rfl⟩

/-- The names of the drive-only entries of the drives called `name`, in the
list before sorting. -/
theorem name_files_drive_only (todo out : List ComputerFile) (name : List Char)
    (hr : ∀ x ∈ todo, x.filename = none) (h : name_files [] todo = some out) :
    ∀ n file, out[n]? = some file → spec_drive_only name file = true →
      (∀ m other, m < n → out[m]? = some other → spec_drive_only name other = false →
        ∀ i ≤ (out.take n).countP (spec_drive_only name),
          other.filename ≠ some (spec_candidate (convert_slashes name) ".drive".toList i)) →
      file.filename = some (spec_candidate (convert_slashes name) ".drive".toList
        ((out.take n).countP (spec_drive_only name))) := by
  apply first_free_rank out (spec_drive_only name)
    (spec_candidate (convert_slashes name) ".drive".toList)
    (spec_candidate_injective _ _)
  intro n file hn hg
  obtain ⟨h1, h2⟩ := spec_drive_only_name name file hg
  have := name_files_out todo out hr h n file hn
  rwa [h1, h2] at this

/-- C17. Let `out` be the list the naming loop of `recompute_files` returns
(the file list is `out` sorted). A drive-only entry of a drive named `name`
that has `i` such entries before it in `out` is named `name.drive` for i = 0
and `name-i.drive` otherwise (with each '/' of the name replaced, which
leaves a name without '/' as it is), provided no other entry before it has
one of the names for 0, ..., i. When the connected drives are exactly two
drives named `name` without volumes, the first two entries of `out` are
theirs, named `name.drive` and `name-1.drive`. -/
theorem same_named_drives (glib : GLib) (backend : GVfsBackendComputer)
    (volume_monitor : GVolumeMonitor) (name : List Char) :
    ∃ out, name_files [] (collect_files volume_monitor) = some out ∧
      recompute_files glib backend volume_monitor =
        some (update_from_files glib backend (g_list_sort_files out)) ∧
      (∀ n file, out[n]? = some file → spec_drive_only name file = true →
        (∀ m other, m < n → out[m]? = some other → spec_drive_only name other = false →
          ∀ i ≤ (out.take n).countP (spec_drive_only name),
            other.filename ≠ some (spec_candidate (convert_slashes name) ".drive".toList i)) →
        file.filename = some (spec_candidate (convert_slashes name) ".drive".toList
          ((out.take n).countP (spec_drive_only name)))) ∧
      (∀ first second : GDrive, volume_monitor.connected_drives = [first, second] →
        first.name = name → second.name = name → first.volumes = [] → second.volumes = [] →
        ∃ a b rest, out = a :: b :: rest ∧ a.drive = some first ∧ b.drive = some second ∧
          a.filename = some (convert_slashes name ++ ".drive".toList) ∧
          b.filename = some (convert_slashes name ++ "-1.drive".toList)) ∧
      ((∀ c ∈ name, c ≠ '/') → convert_slashes name = name) := by
  obtain ⟨out, hout, hlist⟩ := recompute_list_named volume_monitor
  have hgen := name_files_drive_only _ out name (collect_files_unnamed volume_monitor) hout
  refine ⟨out, hout, by simp [recompute_files, hlist], hgen, ?_, convert_slashes_eq_self name⟩
  intro first second hdrives h1 h2 hv1 hv2
  have horig := name_files_origins _ _ hout
  rw [collect_files_origins] at horig
  simp only [spec_origins, hdrives, hv1, hv2, List.map_cons, List.map_nil, if_true,
    List.flatten_cons, List.flatten_nil, List.append_nil, List.singleton_append,
    List.cons_append, List.nil_append, List.append_assoc] at horig
  rcases out with _ | ⟨a, _ | ⟨b, rest⟩⟩
  · simp at horig
  · simp at horig
  · simp only [List.map_cons, List.cons.injEq, entry_origin, Prod.mk.injEq, List.nil_append,
      List.singleton_append, List.cons_append, List.append_assoc] at horig
    obtain ⟨⟨ha1, ha2, -⟩, ⟨hb1, hb2, -⟩, -⟩ := horig
    have hga : spec_drive_only name a = true := by
      simp [spec_drive_only, ha1, ha2, h1]
    have hgb : spec_drive_only name b = true := by
      simp [spec_drive_only, hb1, hb2, h2]
    refine ⟨a, b, rest, rfl, ha1, hb1, ?_, ?_⟩
    · have := hgen 0 a (by simp) hga (fun m other hm => absurd hm (Nat.not_lt_zero m))
      simpa [spec_candidate] using this
    · have := hgen 1 b (by simp) hgb (by
        intro m other hm hmo hgo
        have hm0 : m = 0 := by omega
        subst hm0
        simp only [List.getElem?_cons_zero, Option.some.injEq] at hmo
        subst hmo
        rw [hga] at hgo
        cases hgo)
      rw [this]
      simp only [List.take_succ_cons, List.take_zero, List.countP_cons, List.countP_nil, hga,
        if_true, Nat.zero_add, spec_candidate, Nat.one_ne_zero, if_false, List.append_assoc]
      rfl

/-- The naming loop on two drives named "X" and a volume named "X". -/
theorem name_files_twins :
    (name_files [] (collect_files sample_monitor_twins)).map (List.map (·.filename)) =
      some [some "X.drive".toList, some "X-1.drive".toList, some "X.volume".toList] := by
  decide

/-- Witness for C17 on two drives named "X" and a volume named "X": the
first two entries of the naming loop are named `X.drive` and `X-1.drive`. -/
theorem same_named_drives_witness :
    ∃ a b rest, name_files [] (collect_files sample_monitor_twins) = some (a :: b :: rest) ∧
      a.filename = some "X.drive".toList ∧ b.filename = some "X-1.drive".toList := by
  obtain ⟨out, hout, -, -, htwo, -⟩ :=
    same_named_drives sample_glib sample_backend sample_monitor_twins "X".toList
  obtain ⟨a, b, rest, rfl, -, -, ha, hb⟩ := htwo _ _ rfl rfl rfl rfl rfl
  exact ⟨a, b, rest, hout, ha, hb⟩

/-! ## The shape of the filenames -/

theorem digitChar_isDigit (d : Nat) (h : d < 10) : (Nat.digitChar d).isDigit = true := by
  interval_cases d <;> rfl

theorem toDigitsCore_isDigit (fuel n : Nat) (ds : List Char)
    (hds : ∀ c ∈ ds, c.isDigit = true) :
    ∀ c ∈ Nat.toDigitsCore 10 fuel n ds, c.isDigit = true := by
  induction fuel generalizing n ds with
  | zero => simpa [Nat.toDigitsCore] using hds
  | succ fuel ih =>
    have hcons : ∀ c ∈ Nat.digitChar (n % 10) :: ds, c.isDigit = true := by
      intro c hc
      rcases List.mem_cons.1 hc with rfl | hc
      · exact digitChar_isDigit _ (Nat.mod_lt _ (by decide))
      · exact hds c hc
    simp only [Nat.toDigitsCore]
    split_ifs
    · exact hcons
    · exact ih _ _ hcons

theorem toDigits_isDigit (n : Nat) : ∀ c ∈ Nat.toDigits 10 n, c.isDigit = true :=
  toDigitsCore_isDigit _ _ [] (by simp)

theorem convert_slashes_eq_map (str : List Char) :
    convert_slashes str = str.map fun c => if c = '/' then '\\' else c := by
  induction str with
  | nil => rfl
  | cons c cs ih => simp [convert_slashes, ih]

theorem convert_slashes_no_slash (str : List Char) : ∀ c ∈ convert_slashes str, c ≠ '/' := by
  rw [convert_slashes_eq_map]
  intro c hc
  obtain ⟨d, _, rfl⟩ := List.mem_map.1 hc
  split_ifs with h
  · decide
  · exact h

theorem spec_extension_cases (file : ComputerFile) :
    spec_extension file = '.' :: "drive".toList ∨ spec_extension file = '.' :: "volume".toList ∨
      spec_extension file = '.' :: "mount".toList := by
  unfold spec_extension
  split_ifs
  · exact Or.inl rfl
  · exact Or.inr (Or.inl rfl)
  · exact Or.inr (Or.inr rfl)

/-- The stem of a candidate name: all of it but the extension. -/
theorem spec_candidate_stem (basename extension : List Char) (k : Nat) :
    ∃ stem, spec_candidate basename extension k = stem ++ extension ∧
      basename.length ≤ stem.length ∧
      ∀ c ∈ stem, c ∈ basename ∨ c = '-' ∨ c.isDigit = true := by
  unfold spec_candidate
  split_ifs
  · exact ⟨basename, rfl, le_refl _, fun c hc => Or.inl hc⟩
  · refine ⟨basename ++ '-' :: Nat.toDigits 10 k, rfl, by simp, ?_⟩
    intro c hc
    rcases List.mem_append.1 hc with hc | hc
    · exact Or.inl hc
    · rcases List.mem_cons.1 hc with rfl | hc
      · exact Or.inr (Or.inl rfl)
      · exact Or.inr (Or.inr (toDigits_isDigit k c hc))

/-- A candidate name has no '/', and matches the pattern when the platform
name is not empty. -/
theorem spec_candidate_shape (file : ComputerFile) (k : Nat) :
    (∀ c ∈ spec_candidate (convert_slashes (spec_name file)) (spec_extension file) k, c ≠ '/') ∧
    (spec_name file ≠ [] →
      spec_matches_pattern
        (spec_candidate (convert_slashes (spec_name file)) (spec_extension file) k)) := by
  obtain ⟨stem, hstem, hlen, hchars⟩ :=
    spec_candidate_stem (convert_slashes (spec_name file)) (spec_extension file) k
  have hno : ∀ c ∈ stem, c ≠ '/' := by
    intro c hc
    rcases hchars c hc with h | rfl | h
    · exact convert_slashes_no_slash _ c h
    · decide
    · intro hs
      rw [hs] at h
      revert h
      decide
  rw [hstem]
  constructor
  · intro c hc
    rcases List.mem_append.1 hc with hc | hc
    · exact hno c hc
    · have hext : ∀ c ∈ spec_extension file, c ≠ '/' := by
        rcases spec_extension_cases file with h | h | h <;> rw [h] <;> decide
      exact hext c hc
  · intro hname
    have hne : stem ≠ [] := by
      intro h
      rw [h, convert_slashes_eq_map] at hlen
      simp at hlen
      exact hname hlen
    rcases spec_extension_cases file with h | h | h
    · exact ⟨stem, _, [], by rw [h, List.append_nil], hne, hno, Or.inl rfl, Or.inl rfl⟩
    · exact ⟨stem, _, [], by rw [h, List.append_nil], hne, hno, Or.inr (Or.inl rfl), Or.inl rfl⟩
    · exact ⟨stem, _, [], by rw [h, List.append_nil], hne, hno, Or.inr (Or.inr rfl), Or.inl rfl⟩

theorem cdrom_description_ne_nil (d : HalDevice) : cdrom_description d ≠ [] := by
  unfold cdrom_description
  cases cdrom_second d <;> simp

theorem disk_description_ne_nil (drive_bus : Option (List Char)) (s : List Char)
    (h : disk_description drive_bus = some s) : s ≠ [] := by
  unfold disk_description at h
  cases drive_bus with
  | none => cases h
  | some bus =>
    simp only at h
    split_ifs at h
    all_goals (cases h; try decide)

theorem description_default_ne_nil (s : Option (List Char))
    (h : ∀ x, s = some x → x ≠ []) :
    (match s with
      | none => "Mass Storage Drive".toList
      | some s => s) ≠ [] := by
  cases s with
  | none => decide
  | some x => exact h x rfl

theorem named_ite (c : Prop) [Decidable c] (a b : Option (List Char))
    (ha : ∀ x, a = some x → x ≠ []) (hb : ∀ x, b = some x → x ≠ []) :
    ∀ x, (if c then a else b) = some x → x ≠ [] := by
  intro x hx
  by_cases h : c
  · rw [if_pos h] at hx; exact ha x hx
  · rw [if_neg h] at hx; exact hb x hx

theorem named_some (s : List Char) (h : s ≠ []) :
    ∀ x, some s = some x → x ≠ [] := by
  intro x hx
  cases hx
  exact h

/-- The HAL volume monitor never names a drive with the empty string. -/
theorem drive_get_description_ne_nil (d : HalDevice) : drive_get_description d ≠ [] := by
  unfold drive_get_description
  refine description_default_ne_nil _ ?_
  refine named_ite _ _ _ (named_some _ (cdrom_description_ne_nil d)) ?_
  refine named_ite _ _ _ (named_some _ (by decide)) ?_
  refine named_ite _ _ _ (disk_description_ne_nil _) ?_
  repeat (refine named_ite _ _ _ (named_some _ (by decide)) ?_)
  intro x hx
  cases hx

/-- The function `g_unix_volume_new` never names a volume with the empty
string. -/
theorem g_unix_volume_new_name_ne_nil (mount_path : List Char)
    (filesystem_type : Option (List Char)) :
    g_unix_volume_new_name mount_path filesystem_type ≠ [] := by
  unfold g_unix_volume_new_name
  cases filesystem_type <;> cases (strrchr mount_path '/') <;> simp

/-- The name an entry's filename is derived from is a name the volume
monitor reports for a connected drive, a volume or a mount. -/
theorem spec_origins_name (volume_monitor : GVolumeMonitor) (file : ComputerFile)
    (h : entry_origin file ∈ spec_origins volume_monitor) :
    (∃ drive ∈ volume_monitor.connected_drives, spec_name file = drive.name) ∨
    (∃ volume ∈ volume_monitor.volumes, spec_name file = volume.name) ∨
    (∃ mount ∈ volume_monitor.mounts, spec_name file = mount.name) := by
  simp only [spec_origins, List.mem_append, List.mem_flatten, List.mem_map,
    List.mem_filter] at h
  rcases h with (⟨l, ⟨drive, hd, rfl⟩, ho⟩ | ⟨volume, hv, ho⟩) | ⟨mount, hm, ho⟩
  · left
    refine ⟨drive, hd, ?_⟩
    split_ifs at ho
    · simp only [List.mem_singleton, entry_origin, Prod.mk.injEq] at ho
      simp [spec_name, ho.1]
    · simp only [List.mem_map, entry_origin, Prod.mk.injEq] at ho
      obtain ⟨volume, _, ho⟩ := ho
      simp [spec_name, ← ho.1]
  · right; left
    refine ⟨volume, hv.1, ?_⟩
    simp only [entry_origin, Prod.mk.injEq] at ho
    simp [spec_name, ← ho.1, ← ho.2.1]
  · right; right
    refine ⟨mount, hm.1, ?_⟩
    simp only [entry_origin, Prod.mk.injEq] at ho
    simp [spec_name, ← ho.1, ← ho.2.1, ← ho.2.2.1]

/-- When no name the volume monitor reports is empty, no entry is named
from the empty string. -/
theorem spec_name_given (volume_monitor : GVolumeMonitor)
    (hnames : spec_names_given volume_monitor) (out : List ComputerFile)
    (hout : name_files [] (collect_files volume_monitor) = some out) :
    ∀ file ∈ out, spec_name file ≠ [] := by
  intro file hfile
  have horigin : entry_origin file ∈ spec_origins volume_monitor := by
    rw [← collect_files_origins, ← name_files_origins _ out hout]
    exact List.mem_map_of_mem _ hfile
  rcases spec_origins_name volume_monitor file horigin with
    ⟨drive, hd, hn⟩ | ⟨volume, hv, hn⟩ | ⟨mount, hm, hn⟩
  · rw [hn]; exact hnames.1 drive hd
  · rw [hn]; exact hnames.2.1 volume hv
  · rw [hn]; exact hnames.2.2 mount hm

/-- C18. For every state of the volume monitor `recompute_files` returns a
backend in which every entry's filename is built from the platform-provided
name with each '/' replaced by a backslash: the name followed by the
extension, or the name, a dash, a decimal number and the extension, where
the extension is `.drive` when the entry has a drive, else `.volume` when it
has a volume, else `.mount`. The filename contains no '/'. It matches
`^[^/]+\.(drive|volume|mount)(-[0-9]+)?$` whenever the name it is built
from is not empty; so when the names the volume monitor reports are not
empty, as are all names `_drive_get_description` and `g_unix_volume_new`
make, every filename of the list matches the pattern. -/
theorem filenames_shape (glib : GLib) (backend : GVfsBackendComputer)
    (volume_monitor : GVolumeMonitor) :
    ∃ backend', recompute_files glib backend volume_monitor = some backend' ∧
      (∀ file ∈ backend'.files, ∃ filename k,
        file.filename = some filename ∧
        filename = spec_candidate
          ((spec_name file).map fun c => if c = '/' then '\\' else c) (spec_extension file) k ∧
        (∀ c ∈ filename, c ≠ '/') ∧
        (spec_name file ≠ [] → spec_matches_pattern filename)) ∧
      (spec_names_given volume_monitor →
        ∀ file ∈ backend'.files, ∃ filename,
          file.filename = some filename ∧ (∀ c ∈ filename, c ≠ '/') ∧
          spec_matches_pattern filename) := by
  obtain ⟨out, hout, hlist⟩ := recompute_list_named volume_monitor
  have hshape : ∀ file ∈ g_list_sort_files out, ∃ filename k,
      file.filename = some filename ∧
      filename = spec_candidate
        ((spec_name file).map fun c => if c = '/' then '\\' else c) (spec_extension file) k ∧
      (∀ c ∈ filename, c ≠ '/') ∧
      (spec_name file ≠ [] → spec_matches_pattern filename) := by
    intro file hfile
    have hmem : file ∈ out := (g_list_sort_files_perm out).subset hfile
    obtain ⟨n, hn⟩ := List.mem_iff_getElem?.1 hmem
    obtain ⟨k, hk, -, -⟩ :=
      name_files_out _ out (collect_files_unnamed volume_monitor) hout n file hn
    obtain ⟨h1, h2⟩ := spec_candidate_shape file k
    exact ⟨_, k, hk, by rw [convert_slashes_eq_map], h1, h2⟩
  refine ⟨update_from_files glib backend (g_list_sort_files out),
    by simp [recompute_files, hlist], hshape, ?_⟩
  intro hnames file hfile
  obtain ⟨filename, k, hk, -, hno, hmatch⟩ := hshape file hfile
  exact ⟨filename, hk, hno, hmatch (spec_name_given volume_monitor hnames out hout file
    ((g_list_sort_files_perm out).subset hfile))⟩

/-- Witness of C18: a CD-ROM/DVD-ROM drive named by the HAL volume monitor
and a volume named by `g_unix_volume_new`; the names are not empty, the list
is `CD-ROM\DVD-ROM Drive.drive`, `Unknown volume.volume`, and both filenames
match the pattern. -/
theorem filenames_shape_witness :
    spec_names_given sample_monitor_hal ∧
    (recompute_files sample_glib sample_backend sample_monitor_hal).map
        (fun backend => backend.files.map (·.filename)) =
      some [some "CD-ROM\\DVD-ROM Drive.drive".toList, some "Unknown volume.volume".toList] ∧
    ∃ backend', recompute_files sample_glib sample_backend sample_monitor_hal = some backend' ∧
      ∀ file ∈ backend'.files, ∃ filename,
        file.filename = some filename ∧ (∀ c ∈ filename, c ≠ '/') ∧
        spec_matches_pattern filename :=
  have hnames : spec_names_given sample_monitor_hal := by decide
  ⟨hnames, by decide,
    (filenames_shape sample_glib sample_backend sample_monitor_hal).elim
      fun backend' h => ⟨backend', h.1, h.2.2 hnames⟩⟩

/-! ## File names of the FTP backend -/

theorem strpbrk_isSome_iff (s accept : List Char) :
    (strpbrk s accept).isSome = true ↔ ∃ c ∈ s, c ∈ accept := by
  unfold strpbrk
  induction s with
  | nil => simp
  | cons x xs ih =>
    by_cases hx : x ∈ accept
    · simp [List.dropWhile, hx]
    · have hx' : accept.contains x = false := by simpa using hx
      simp only [List.dropWhile, hx', Bool.not_false, List.mem_cons, exists_eq_or_imp, hx,
        false_or]
      exact ih

theorem dropWhile_eq_self_of_head {α : Type} (p : α → Bool) (l : List α)
    (h : ∀ a, l.head? = some a → p a = false) : l.dropWhile p = l := by
  cases l with
  | nil => rfl
  | cons a l => simp [List.dropWhile, h a rfl]

theorem strrchr_none (s : List Char) (c : Char) (h : c ∉ s) : strrchr s c = none := by
  induction s with
  | nil => rfl
  | cons x s ih =>
    have hx : x ≠ c := fun e => h (e ▸ List.mem_cons_self _ _)
    simp [strrchr, ih fun hm => h (List.mem_cons_of_mem _ hm), hx]

/-- The call `strrchr` finds the `c` after which no `c` comes. -/
theorem strrchr_append (pre rest : List Char) (c : Char) (h : c ∉ rest) :
    strrchr (pre ++ c :: rest) c = some pre.length := by
  induction pre with
  | nil => simp [strrchr, strrchr_none rest c h]
  | cons x pre ih => simp [strrchr, ih]

theorem spec_strip_trailing_eq_nil_iff (s : List Char) :
    spec_strip_trailing s = [] ↔ ∀ c ∈ s, c = '/' := by
  unfold spec_strip_trailing
  rw [List.reverse_eq_nil_iff, List.dropWhile_eq_nil_iff]
  simp

theorem dropWhile_slash_eq_nil_iff (s : List Char) :
    s.dropWhile (· = '/') = [] ↔ ∀ c ∈ s, c = '/' := by
  rw [List.dropWhile_eq_nil_iff]
  simp

/-- A string is what is left without the '/' that end it, then those. -/
theorem spec_strip_trailing_append (s : List Char) :
    spec_strip_trailing s ++ s.drop (spec_strip_trailing s).length = s ∧
    (spec_strip_trailing s).length ≤ s.length := by
  unfold spec_strip_trailing
  have h := List.takeWhile_append_dropWhile (· = '/') s.reverse
  have h2 : s = (s.reverse.dropWhile (· = '/')).reverse ++
      (s.reverse.takeWhile (· = '/')).reverse := by
    rw [← List.reverse_append, h, List.reverse_reverse]
  have hlen : (s.reverse.dropWhile (· = '/')).reverse.length ≤ s.length := by
    have := congrArg List.length h2
    simp only [List.length_append] at this
    omega
  refine ⟨?_, hlen⟩
  have hdrop := List.drop_left (s.reverse.dropWhile (· = '/')).reverse
    (s.reverse.takeWhile (· = '/')).reverse
  rw [← h2] at hdrop
  rw [hdrop]
  exact h2.symm

theorem spec_strip_trailing_no_slash (s : List Char) (h : s.getLast? ≠ some '/') :
    spec_strip_trailing s = s := by
  unfold spec_strip_trailing
  cases hs : s.reverse with
  | nil =>
    rw [List.reverse_eq_nil_iff] at hs
    subst hs
    rfl
  | cons a l =>
    have ha : s.getLast? = some a := by
      rw [← List.head?_reverse, hs]
      rfl
    have : a ≠ '/' := fun h' => h (h' ▸ ha)
    simp only [List.dropWhile, this, decide_False]
    rw [← hs, List.reverse_reverse]

theorem spec_strip_trailing_leading (s : List Char) (h : s.dropWhile (· = '/') ≠ []) :
    spec_strip_trailing s =
      s.takeWhile (· = '/') ++ spec_strip_trailing (s.dropWhile (· = '/')) ∧
    spec_strip_trailing (s.dropWhile (· = '/')) ≠ [] := by
  have hne : spec_strip_trailing (s.dropWhile (· = '/')) ≠ [] := by
    intro h0
    rw [spec_strip_trailing_eq_nil_iff] at h0
    cases hd : s.dropWhile (· = '/') with
    | nil => exact h hd
    | cons a l =>
      have h1 := List.head_dropWhile_not (· = '/') s h
      have h2 : a = '/' := h0 a (by rw [hd]; exact List.mem_cons_self _ _)
      simp only [hd, List.head_cons, h2, decide_True] at h1
      exact absurd h1 (by decide)
  refine ⟨?_, hne⟩
  have hsplit := List.takeWhile_append_dropWhile (· = '/') s
  unfold spec_strip_trailing at hne ⊢
  conv_lhs => rw [← hsplit]
  rw [List.reverse_append, List.dropWhile_append]
  have : (List.dropWhile (· = '/') (s.dropWhile (· = '/')).reverse).isEmpty = false := by
    rw [List.isEmpty_eq_false]
    intro h0
    apply hne
    rw [h0]
    rfl
  rw [this]
  simp

/-- One pass of the loop of `g_build_path_va` on an element that is not
empty, with the element cut into its leading separators, its middle and its
trailing separators. -/
theorem build_path_step_cons (st : BuildPath) (element : List Char) (h : element ≠ []) :
    build_path_step st element =
      let start := element.dropWhile (· = '/')
      let middle := spec_strip_trailing start
      let trailing := element.drop (spec_strip_trailing element).length
      let st := { st with last_trailing := some trailing }
      let st :=
        if !st.have_leading then
          { st with
            single_element :=
              if element.length - trailing.length ≤ element.length - start.length
              then some element else st.single_element
            result := st.result ++ element.take (element.length - start.length)
            have_leading := true }
        else { st with single_element := none }
      if middle = [] then st
      else
        { st with
          result := (if st.is_first then st.result else st.result ++ ['/']) ++ middle
          is_first := false } := by
  unfold build_path_step
  rw [if_neg h]
  simp only [spec_strip_trailing, List.length_reverse]

theorem take_leading (s : List Char) :
    s.take (s.length - (s.dropWhile (· = '/')).length) = s.takeWhile (· = '/') := by
  have hsplit := List.takeWhile_append_dropWhile (· = '/') s
  have hl : (s.takeWhile (· = '/')).length = s.length - (s.dropWhile (· = '/')).length := by
    have := congrArg List.length hsplit
    simp only [List.length_append] at this
    omega
  rw [← hl]
  have := List.take_left (s.takeWhile (· = '/')) (s.dropWhile (· = '/'))
  rwa [hsplit] at this

/-- The state of `g_build_path_va` after a first element that is not made of
separators only. -/
theorem build_path_step_first (element : List Char)
    (h : element.dropWhile (· = '/') ≠ []) :
    build_path_step ⟨[], true, false, none, none⟩ element =
      ⟨spec_strip_trailing element, false, true, none,
        some (element.drop (spec_strip_trailing element).length)⟩ := by
  have hne : element ≠ [] := by
    intro h0
    rw [h0] at h
    exact h rfl
  obtain ⟨hlead, hmid⟩ := spec_strip_trailing_leading element h
  obtain ⟨happ, hlen⟩ := spec_strip_trailing_append element
  have hsplit := List.takeWhile_append_dropWhile (· = '/') element
  have hlen2 : (element.takeWhile (· = '/')).length + (element.dropWhile (· = '/')).length
      = element.length := by
    have := congrArg List.length hsplit
    rw [List.length_append] at this
    exact this
  have hmpos : 0 < (spec_strip_trailing (element.dropWhile (· = '/'))).length :=
    List.length_pos.2 hmid
  have hstrip_len : (spec_strip_trailing element).length =
      (element.takeWhile (· = '/')).length +
        (spec_strip_trailing (element.dropWhile (· = '/'))).length := by
    rw [hlead, List.length_append]
  have hcond : ¬ element.length - (element.drop (spec_strip_trailing element).length).length ≤
      element.length - (element.dropWhile (· = '/')).length := by
    rw [List.length_drop]
    omega
  rw [build_path_step_cons _ _ hne]
  simp only [Bool.not_false, if_true, hcond, if_false, hmid, List.nil_append, take_leading,
    ← hlead]

/-- The state of `g_build_path_va` after a first element made of separators
only. -/
theorem build_path_step_root (element : List Char) (hne : element ≠ [])
    (h : element.dropWhile (· = '/') = []) :
    build_path_step ⟨[], true, false, none, none⟩ element =
      ⟨element, true, true, some element, some element⟩ := by
  have hall : ∀ c ∈ element, c = '/' := (dropWhile_slash_eq_nil_iff element).1 h
  have hstrip : spec_strip_trailing element = [] :=
    (spec_strip_trailing_eq_nil_iff element).2 hall
  have hnil : spec_strip_trailing [] = [] := rfl
  rw [build_path_step_cons _ _ hne]
  simp [h, hstrip, hnil]

/-- GLib's `g_build_path` on a directory name and a base name without
separator is the join of the two. -/
theorem g_build_path_spec_join (dirname basename : List Char)
    (hslash : ∀ c ∈ basename, c ≠ '/') :
    g_build_path [dirname, basename] = spec_join dirname basename := by
  have hbstart : basename.dropWhile (· = '/') = basename := by
    cases basename with
    | nil => rfl
    | cons a l =>
      have : a ≠ '/' := hslash a (List.mem_cons_self _ _)
      simp [List.dropWhile, this]
  have hbstrip : spec_strip_trailing basename = basename := by
    apply spec_strip_trailing_no_slash
    intro h
    exact hslash _ (List.mem_of_mem_getLast? h) rfl
  unfold spec_join g_build_path
  simp only [List.foldl_cons, List.foldl_nil]
  by_cases hd : dirname = []
  · subst hd
    have h0 : build_path_step ⟨[], true, false, none, none⟩ [] = ⟨[], true, false, none, none⟩ :=
      rfl
    rw [h0]
    by_cases hb : basename = []
    · subst hb
      rfl
    · rw [if_neg hb, build_path_step_first basename (by rw [hbstart]; exact hb), hbstrip]
      simp [spec_strip_trailing]
  · by_cases hroot : dirname.dropWhile (· = '/') = []
    · have hstrip : spec_strip_trailing dirname = [] :=
        (spec_strip_trailing_eq_nil_iff dirname).2
          ((dropWhile_slash_eq_nil_iff dirname).1 hroot)
      rw [build_path_step_root dirname hd hroot]
      by_cases hb : basename = []
      · subst hb
        simp [build_path_step]
      · rw [if_neg hb, if_pos hstrip, build_path_step_cons _ _ hb]
        simp [hbstart, hbstrip, hb]
    · obtain ⟨hlead, hmid⟩ := spec_strip_trailing_leading dirname hroot
      have hstrip : spec_strip_trailing dirname ≠ [] := by
        rw [hlead]
        simp [hmid]
      rw [build_path_step_first dirname hroot]
      by_cases hb : basename = []
      · subst hb
        simp [build_path_step, (spec_strip_trailing_append dirname).1]
      · rw [if_neg hb, if_neg hstrip, build_path_step_cons _ _ hb]
        simp [hbstart, hbstrip, hb]

theorem strrchr_lt (s : List Char) (c : Char) :
    ∀ i, strrchr s c = some i → i < s.length := by
  induction s with
  | nil => intro i h; cases h
  | cons x s ih =>
    intro i h
    simp only [strrchr] at h
    cases hs : strrchr s c with
    | some j =>
      rw [hs] at h
      cases h
      have := ih j hs
      simp only [List.length_cons]
      omega
    | none =>
      rw [hs] at h
      by_cases hx : x = c
      · simp only [hx, if_true, Option.some.injEq] at h
        subst h
        exact Nat.succ_pos _
      · simp [hx] at h

theorem dirname_loop_spec (file_name : List Char) (base : Nat) :
    dirname_loop file_name base ≤ base ∧
    (dirname_loop file_name base = 0 ∨
      file_name.getD (dirname_loop file_name base) NUL ≠ '/') := by
  induction base with
  | zero => exact ⟨le_refl _, Or.inl rfl⟩
  | succ base ih =>
    simp only [dirname_loop]
    by_cases h : file_name.getD (base + 1) NUL = '/'
    · rw [if_pos h]
      exact ⟨Nat.le_succ_of_le ih.1, ih.2⟩
    · rw [if_neg h]
      exact ⟨le_refl _, Or.inr h⟩

/-- The directory name GLib gives is the root "/", or it is not empty and
does not end in '/'. -/
theorem g_path_get_dirname_cases (file_name : List Char) :
    g_path_get_dirname file_name = ['/'] ∨
    (g_path_get_dirname file_name ≠ [] ∧ (g_path_get_dirname file_name).getLast? ≠ some '/') := by
  unfold g_path_get_dirname
  cases hs : strrchr file_name '/' with
  | none =>
    exact Or.inr ⟨(by decide : ".".toList ≠ []),
      (by decide : ".".toList.getLast? ≠ some '/')⟩
  | some base =>
    have hbase := strrchr_lt file_name '/' base hs
    obtain ⟨hle, hk⟩ := dirname_loop_spec file_name base
    simp only
    generalize dirname_loop file_name base = k at hle hk ⊢
    have hlt : k < file_name.length := by omega
    have htake : file_name.take (1 + k) = file_name.take k ++ [file_name[k]] := by
      rw [Nat.add_comm, List.take_succ, List.getElem?_eq_getElem hlt]
      rfl
    have hget : file_name.getD k NUL = file_name[k] := List.getD_eq_getElem _ _ hlt
    rw [htake]
    by_cases hc : file_name[k] = '/'
    · left
      rcases hk with hk | hk
      · subst hk
        simp [hc]
      · rw [hget] at hk
        exact absurd hc hk
    · right
      refine ⟨List.append_ne_nil_of_right_ne_nil _ (List.cons_ne_nil _ _), ?_⟩
      rw [List.getLast?_append_of_ne_nil _ (List.cons_ne_nil _ _)]
      simpa using hc

/-- The directory name of a path made of '/' and a name without '/' is the
root. -/
theorem g_path_get_dirname_top (name : List Char) (h : '/' ∉ name) :
    g_path_get_dirname ('/' :: name) = ['/'] := by
  have hs : strrchr ('/' :: name) '/' = some 0 := by
    have := strrchr_append [] name '/' h
    simpa using this
  simp [g_path_get_dirname, hs, dirname_loop]

theorem ftp_connection_send_in_error (conn : FtpConnection) (flags : Nat) (command : List Char)
    (h : conn.error.isSome = true) : ftp_connection_send conn flags command = (0, conn) := by
  simp [ftp_connection_send, ftp_connection_sendv, ftp_connection_in_error, h]

/-- A rename to a name that `ftp_filename_construct` rejects: nothing is
written to the server, the connection goes back to the queue as it was, and
the job is failed with `INVALID_FILENAME`. -/
theorem do_set_display_name_rejected (ftp : GVfsBackendFtp) (job : GVfsJob)
    (wakeups : List Wakeup) (filename display_name : List Char) (conn : FtpConnection)
    (queue : List FtpConnection) (hq : ftp.queue = some (conn :: queue))
    (hjob : conn.job = none) (herr : conn.error = none)
    (hnow : ftp_filename_construct (g_path_get_dirname filename) display_name = none) :
    do_set_display_name ftp job wakeups filename display_name =
      JobRun.RETURNED { ftp with queue := some (queue ++ [conn]) }
        (some (g_vfs_job_failed job G_IO_ERROR G_IO_ERROR_INVALID_FILENAME
          "Invalid filename")) := by
  cases conn with
  | mk error cjob features commands read_buffer read_bytes data =>
    simp only at hjob herr
    subst hjob herr
    simp only [do_set_display_name, pop_connection_head ftp job wakeups _ queue hq,
      ftp_filename_from_gvfs_path, hnow, Option.isNone_none, if_true, ftp_connection_push_job,
      g_set_error]
    simp [ftp_connection_send, ftp_connection_sendv, ftp_connection_in_error,
      g_vfs_backend_ftp_push_connection, ftp_connection_pop_job,
      g_vfs_job_failed_from_error, g_vfs_job_failed]

/-- C14. The function `ftp_filename_construct` returns no filename exactly
when the base name contains '/', a carriage return or a line feed. Otherwise
it returns the directory name and the base name joined by '/', for every
directory name: one '/' stands between the two in place of the '/' that end
the directory name, and the root "/" is followed by the base name. So a
base name that is not empty gives the directory name, '/' and the base name
when the directory name is not empty and does not end in '/', and '/' and
the base name in the root, which is the directory name of every top-level
path; the directory name `g_path_get_dirname` gives a rename is always of
one of these two kinds. A rename on an idle connection whose new name is
rejected this way fails the job with `INVALID_FILENAME`, and the connection
goes back to the queue with nothing written to the server, neither `RNFR`
nor `RNTO`. -/
theorem ftp_filename_construct_spec (dirname basename : List Char) :
    (ftp_filename_construct dirname basename = none ↔
      '/' ∈ basename ∨ '\r' ∈ basename ∨ '\n' ∈ basename) ∧
    (¬ ('/' ∈ basename ∨ '\r' ∈ basename ∨ '\n' ∈ basename) →
      ftp_filename_construct dirname basename = some (spec_join dirname basename) ∧
      (basename ≠ [] →
        (dirname ≠ [] → dirname.getLast? ≠ some '/' →
          ftp_filename_construct dirname basename = some (dirname ++ '/' :: basename)) ∧
        ftp_filename_construct ['/'] basename = some ('/' :: basename) ∧
        (∀ name : List Char, '/' ∉ name →
          ftp_filename_construct (g_path_get_dirname ('/' :: name)) basename =
            some ('/' :: basename)) ∧
        ∀ filename : List Char,
          ftp_filename_construct (g_path_get_dirname filename) basename =
            some (if g_path_get_dirname filename = ['/'] then '/' :: basename
              else g_path_get_dirname filename ++ '/' :: basename))) ∧
    (∀ (ftp : GVfsBackendFtp) (job : GVfsJob) (wakeups : List Wakeup) (filename : List Char)
      (conn : FtpConnection) (queue : List FtpConnection),
      ftp.queue = some (conn :: queue) → conn.job = none → conn.error = none →
      ftp_filename_construct (g_path_get_dirname filename) basename = none →
      do_set_display_name ftp job wakeups filename basename =
        JobRun.RETURNED { ftp with queue := some (queue ++ [conn]) }
          (some (g_vfs_job_failed job G_IO_ERROR G_IO_ERROR_INVALID_FILENAME
            "Invalid filename"))) := by
  have hiff : ∀ d : List Char, ftp_filename_construct d basename = none ↔
      '/' ∈ basename ∨ '\r' ∈ basename ∨ '\n' ∈ basename := by
    intro d
    unfold ftp_filename_construct
    by_cases h : (strpbrk basename "/\r\n".toList).isSome = true
    · rw [if_pos h]
      have := (strpbrk_isSome_iff _ _).1 h
      simp only [String.toList, List.mem_cons, List.mem_singleton] at this
      obtain ⟨c, hc, hc'⟩ := this
      simp only [List.not_mem_nil, or_false] at hc'
      rcases hc' with rfl | rfl | rfl <;> simp [hc]
    · rw [if_neg h]
      simp only [reduceCtorEq, false_iff]
      intro hmem
      apply h
      rw [strpbrk_isSome_iff]
      rcases hmem with hm | hm | hm
      · exact ⟨_, hm, by decide⟩
      · exact ⟨_, hm, by decide⟩
      · exact ⟨_, hm, by decide⟩
  refine ⟨hiff dirname, ?_, ?_⟩
  · intro hno
    have hslash : ∀ c ∈ basename, c ≠ '/' := fun c hc hs => hno (Or.inl (hs ▸ hc))
    have hsome : ∀ d : List Char, ftp_filename_construct d basename =
        some (spec_join d basename) := by
      intro d
      have hne : ftp_filename_construct d basename ≠ none := fun h => hno ((hiff d).1 h)
      unfold ftp_filename_construct at hne ⊢
      by_cases h : (strpbrk basename "/\r\n".toList).isSome = true
      · rw [if_pos h] at hne
        exact absurd rfl hne
      · rw [if_neg h, g_build_path_spec_join d basename hslash]
    have hroot : spec_join ['/'] basename = '/' :: basename ∨ basename = [] := by
      by_cases hb : basename = []
      · exact Or.inr hb
      · left
        have : spec_strip_trailing ['/'] = [] := by decide
        simp [spec_join, hb, this]
    have hjoin : ∀ d : List Char, d ≠ [] → d.getLast? ≠ some '/' →
        ftp_filename_construct d basename = some (d ++ '/' :: basename) ∨ basename = [] := by
      intro d hd hlast
      by_cases hb : basename = []
      · exact Or.inr hb
      · left
        rw [hsome d]
        have hstrip := spec_strip_trailing_no_slash d hlast
        simp [spec_join, hb, hstrip, hd]
    refine ⟨hsome dirname, fun hb => ⟨?_, ?_, ?_, ?_⟩⟩
    · intro hd hlast
      exact (hjoin dirname hd hlast).resolve_right hb
    · rw [hsome]
      rcases hroot with h | h
      · rw [h]
      · exact absurd h hb
    · intro name hname
      rw [g_path_get_dirname_top name hname, hsome]
      rcases hroot with h | h
      · rw [h]
      · exact absurd h hb
    · intro filename
      rcases g_path_get_dirname_cases filename with hd | ⟨hd, hlast⟩
      · rw [if_pos hd, hd, hsome]
        rcases hroot with h | h
        · rw [h]
        · exact absurd h hb
      · have hne : g_path_get_dirname filename ≠ ['/'] := by
          intro h
          rw [h] at hlast
          exact hlast rfl
        rw [if_neg hne]
        exact (hjoin _ hd hlast).resolve_right hb
  · intro ftp job wakeups filename conn queue hq hjob herr hnow
    exact do_set_display_name_rejected ftp job wakeups filename basename conn queue hq hjob
      herr hnow

/-- Witness for C14: "/pub" and "new" give "/pub/new", as "/pub/" and "new"
do; the root "/" and "new" give "/new", also as the directory name of
"/old"; "/pub" and "a/b" give nothing, and the rename of "/pub/old" to "a/b"
on the sample backend fails with `INVALID_FILENAME` and leaves the idle
connection as it was. -/
theorem ftp_filename_construct_witness :
    ftp_filename_construct "/pub".toList "new".toList = some "/pub/new".toList ∧
    ftp_filename_construct "/pub/".toList "new".toList = some "/pub/new".toList ∧
    ftp_filename_construct "/".toList "new".toList = some "/new".toList ∧
    ftp_filename_construct (g_path_get_dirname "/old".toList) "new".toList =
      some "/new".toList ∧
    ftp_filename_construct "/pub".toList "a/b".toList = none ∧
    do_set_display_name sample_ftp fresh_job [] "/pub/old".toList "a/b".toList =
      JobRun.RETURNED sample_ftp
        (some (g_vfs_job_failed fresh_job G_IO_ERROR G_IO_ERROR_INVALID_FILENAME
          "Invalid filename")) := by
  have h := (ftp_filename_construct_spec "/pub".toList "new".toList).2.1 (by decide)
  have h2 := h.2 (by decide)
  refine ⟨h2.1 (by decide) (by decide), by decide, h2.2.1, h2.2.2.1 "old".toList (by decide),
    by decide, ?_⟩
  exact (ftp_filename_construct_spec [] "a/b".toList).2.2 sample_ftp fresh_job []
    "/pub/old".toList sample_conn [] rfl rfl rfl (by decide)

/-! ## Sending a command and reading its reply -/

theorem spec_same_session_refl (a : FtpConnection) : spec_same_session a a :=
  ⟨rfl, rfl, rfl, rfl, rfl, rfl⟩

theorem spec_same_session_trans {a b c : FtpConnection} (h1 : spec_same_session a b)
    (h2 : spec_same_session b c) : spec_same_session a c :=
  ⟨h1.1.trans h2.1, h1.2.1.trans h2.2.1, h1.2.2.1.trans h2.2.2.1,
    h1.2.2.2.1.trans h2.2.2.2.1, h1.2.2.2.2.1.trans h2.2.2.2.2.1,
    h1.2.2.2.2.2.trans h2.2.2.2.2.2⟩

/-- The body of the loop of `ftp_connection_receive`, when it does not
return, touches the buffer and its count only. -/
theorem receive_body_frame {l l' : ReceiveLocals} {r : ReadResult}
    (h : receive_body l r = ReceiveStep.NEXT l') : spec_same_session l'.conn l.conn := by
  unfold receive_body at h
  cases hs : r.status <;> cases hb : r.got_boundary <;> simp only [hs, hb] at h <;>
    first
    | cases h
    | (split_ifs at h <;>
        first
        | (cases h; done)
        | (simp only [ReceiveStep.NEXT.injEq] at h
           subst h
           exact ⟨rfl, rfl, rfl, rfl, rfl, rfl⟩))

theorem receive_loop_frame (reads : List ReadResult) :
    ∀ (l l' : ReceiveLocals), receive_loop reads l = ReceiveStep.NEXT l' →
      spec_same_session l'.conn l.conn := by
  induction reads with
  | nil =>
    intro l l' h
    simp only [receive_loop] at h
    split_ifs at h with hc
    · exact absurd h (by simp [receive_body, read_at_eof])
    · simp only [ReceiveStep.NEXT.injEq] at h
      subst h
      exact spec_same_session_refl _
  | cons r reads ih =>
    intro l l' h
    simp only [receive_loop] at h
    split_ifs at h with hc
    · cases hbody : receive_body
          { l with conn := { l.conn with commands := { l.conn.commands with reads := reads } } }
          r with
      | RETURN value conn => rw [hbody] at h; exact absurd h (by simp)
      | NEXT l1 =>
        rw [hbody] at h
        simp only at h
        exact spec_same_session_trans (ih l1 l' h)
          (spec_same_session_trans (receive_body_frame hbody) ⟨rfl, rfl, rfl, rfl, rfl, rfl⟩)
    · simp only [ReceiveStep.NEXT.injEq] at h
      subst h
      exact spec_same_session_refl _

/-- A complete reply, read on a connection without error: the code lies
between 100 and 599, the error slot stays empty, only the buffer changed,
and `ftp_connection_receive` returns the code or sets the error from it as
the flags say. -/
theorem receive_answered (conn : FtpConnection) (c : Nat) (after : FtpConnection)
    (herr : conn.error = none) (h : spec_answered conn c after) :
    100 ≤ c ∧ c ≤ 599 ∧ after.error = none ∧ spec_same_session after conn ∧
    ∀ flags, ftp_connection_receive conn flags =
      if spec_passes flags c then (c, after)
      else (0, { after with error := some (spec_response_error c) }) := by
  obtain ⟨l, hread, hdone, rfl, rfl⟩ := h
  have hinv := receive_loop_next _ _ l hread (fun h => absurd rfl h)
  have hframe := receive_loop_frame _ _ l hread
  have herr' : l.conn.error = none := by rw [hinv.1]; exact herr
  obtain ⟨hlo, hhi⟩ := hinv.2 (by rw [hdone]; simp)
  have hin : ftp_connection_in_error conn = false := by simp [ftp_connection_in_error, herr]
  refine ⟨hlo, hhi, herr', hframe, ?_⟩
  intro flags
  simp only [ftp_connection_receive, hin, hread, hdone]
  simpa [spec_response_error] using receive_switch_spec l.conn flags l.response herr' hlo hhi

/-- A command written whole on a connection without error and answered by a
complete reply. -/
theorem ftp_connection_send_answered (conn : FtpConnection) (flags : Nat)
    (command : List Char) (c : Nat) (after : FtpConnection)
    (herr : conn.error = none) (hw : conn.commands.writes = [])
    (h : spec_answered (spec_sent conn command) c after) :
    100 ≤ c ∧ c ≤ 599 ∧ after.error = none ∧ after.commands.writes = [] ∧
    after.job = conn.job ∧
    after.commands.written = conn.commands.written ++ [command ++ "\r\n".toList] ∧
    ftp_connection_send conn flags command =
      if spec_passes flags c then (c, after)
      else (0, { after with error := some (spec_response_error c) }) := by
  obtain ⟨hlo, hhi, herr', hframe, hall⟩ :=
    receive_answered (spec_sent conn command) c after herr h
  refine ⟨hlo, hhi, herr', hframe.2.2.2.2.1.trans hw, hframe.1, hframe.2.2.2.2.2, ?_⟩
  have hin : ftp_connection_in_error conn = false := by simp [ftp_connection_in_error, herr]
  simp only [ftp_connection_send, ftp_connection_sendv, hin, soup_socket_write, hw]
  simp only [Bool.false_eq_true, if_false, if_true]
  rw [← hall flags]
  congr 1
  simp only [spec_sent, hw]

/-! ## Delete -/

theorem spec_passes_pass_500 (c : Nat) :
    spec_passes RESPONSE_PASS_500 c = decide (c / 100 = 2 ∨ c / 100 = 5) := by
  have h1 : RESPONSE_PASS_500 &&& RESPONSE_FAIL_200 = 0 := by decide
  have h2 : RESPONSE_PASS_500 &&& RESPONSE_PASS_100 = 0 := by decide
  have h3 : RESPONSE_PASS_500 &&& RESPONSE_PASS_300 = 0 := by decide
  have h4 : RESPONSE_PASS_500 &&& RESPONSE_PASS_400 = 0 := by decide
  have h5 : RESPONSE_PASS_500 &&& RESPONSE_PASS_500 = 8 := by decide
  simp [spec_passes, h1, h2, h3, h4, h5]

theorem spec_passes_zero (c : Nat) : spec_passes 0 c = decide (c / 100 = 2) := by
  simp [spec_passes]

/-- The function `g_vfs_backend_ftp_push_connection` on a mounted backend
and a connection that has a job: the job succeeds when the error slot is
empty and fails with the error otherwise; the connection is queued without
job and error. -/
theorem push_connection_job (ftp : GVfsBackendFtp) (conn : FtpConnection) (job : GVfsJob)
    (queue : List FtpConnection) (hq : ftp.queue = some queue) (hjob : conn.job = some job) :
    g_vfs_backend_ftp_push_connection ftp (some conn) =
      ({ ftp with queue := some (queue ++ [{ conn with error := none, job := none }]) },
        some (match conn.error with
          | some error => g_vfs_job_failed_from_error job error
          | none => g_vfs_job_succeeded job)) := by
  cases conn with
  | mk error cjob features commands read_buffer read_bytes data =>
    simp only at hjob
    subst hjob
    cases error <;> simp [g_vfs_backend_ftp_push_connection, ftp_connection_pop_job, hq]

/-- C13. On a mounted backend with an idle connection without error whose
socket takes every command whole, `do_delete` writes `DELE path` first. When
the reply to it is complete with code `c1`: for a 2xx the job succeeds and
nothing more is written; for a 5xx `RMD path` is written next, and when its
reply is complete with code `c2` the job succeeds if `c2` is 2xx and
otherwise fails with the error mapped from `c2`; for any other `c1` no `RMD`
is written and the job fails with the error mapped from `c1`. The
connection goes back to the queue without job and error. -/
theorem do_delete_spec (ftp : GVfsBackendFtp) (job : GVfsJob) (wakeups : List Wakeup)
    (filename : List Char) (conn : FtpConnection) (queue : List FtpConnection)
    (c1 : Nat) (conn1 : FtpConnection)
    (hq : ftp.queue = some (conn :: queue)) (hjob : conn.job = none)
    (herr : conn.error = none) (hw : conn.commands.writes = [])
    (h1 : spec_answered (spec_sent { conn with job := some job } ("DELE ".toList ++ filename))
      c1 conn1) :
    conn1.commands.written =
      conn.commands.written ++ ["DELE ".toList ++ filename ++ "\r\n".toList] ∧
    (c1 / 100 = 2 →
      do_delete ftp job wakeups filename =
        JobRun.RETURNED { ftp with queue := some (queue ++ [{ conn1 with job := none }]) }
          (some (g_vfs_job_succeeded job))) ∧
    (c1 / 100 ≠ 2 → c1 / 100 ≠ 5 →
      do_delete ftp job wakeups filename =
        JobRun.RETURNED { ftp with queue := some (queue ++ [{ conn1 with job := none }]) }
          (some (g_vfs_job_failed_from_error job (spec_response_error c1)))) ∧
    (c1 / 100 = 5 → ∀ c2 conn2,
      spec_answered (spec_sent conn1 ("RMD ".toList ++ filename)) c2 conn2 →
      conn2.commands.written =
        conn.commands.written ++ ["DELE ".toList ++ filename ++ "\r\n".toList,
          "RMD ".toList ++ filename ++ "\r\n".toList] ∧
      (c2 / 100 = 2 →
        do_delete ftp job wakeups filename =
          JobRun.RETURNED { ftp with queue := some (queue ++ [{ conn2 with job := none }]) }
            (some (g_vfs_job_succeeded job))) ∧
      (c2 / 100 ≠ 2 →
        do_delete ftp job wakeups filename =
          JobRun.RETURNED { ftp with queue := some (queue ++ [{ conn2 with job := none }]) }
            (some (g_vfs_job_failed_from_error job (spec_response_error c2))))) := by
  have hpush : ftp_connection_push_job conn job = { conn with job := some job } := by
    simp [ftp_connection_push_job, hjob]
  obtain ⟨_, _, herr1, hw1, hjob1, hwritten1, hsend1⟩ :=
    ftp_connection_send_answered { conn with job := some job } RESPONSE_PASS_500
      ("DELE ".toList ++ filename) c1 conn1 herr hw h1
  simp only at hjob1 hwritten1
  have hstart : do_delete ftp job wakeups filename =
      (let (response, conn) :=
          ftp_connection_send { conn with job := some job } RESPONSE_PASS_500
            ("DELE ".toList ++ filename)
        let conn :=
          if STATUS_GROUP response = 5 then
            (ftp_connection_send conn 0 ("RMD ".toList ++ filename)).2
          else conn
        let (ftp, job) :=
          g_vfs_backend_ftp_push_connection { ftp with queue := some queue } (some conn)
        JobRun.RETURNED ftp job) := by
    simp only [do_delete, pop_connection_head ftp job wakeups conn queue hq, hpush,
      ftp_filename_from_gvfs_path]
  have hqueued : ∀ after : FtpConnection, after.error = none →
      ({ after with error := none, job := none } : FtpConnection) =
        { after with job := none } := by
    intro after h
    cases after
    simp only at h
    subst h
    rfl
  rw [hstart, hsend1, spec_passes_pass_500]
  refine ⟨by rw [hwritten1, List.append_assoc], ?_, ?_, ?_⟩
  · intro h2
    have hg : STATUS_GROUP c1 ≠ 5 := by unfold STATUS_GROUP; omega
    simp only [h2, true_or, decide_True, if_true, hg, if_false]
    rw [push_connection_job { ftp with queue := some queue } conn1 job queue rfl hjob1, herr1,
      hqueued conn1 herr1]
  · intro h2 h5
    have hg : STATUS_GROUP 0 ≠ 5 := by decide
    simp only [h2, h5, or_self, decide_False, Bool.false_eq_true, if_false, hg]
    rw [push_connection_job { ftp with queue := some queue }
      { conn1 with error := some (spec_response_error c1) } job queue rfl hjob1]
    simp only [hqueued conn1 herr1]
  · intro h5 c2 conn2 h2
    obtain ⟨_, _, herr2, _, hjob2, hwritten2, hsend2⟩ :=
      ftp_connection_send_answered conn1 0 ("RMD ".toList ++ filename) c2 conn2 herr1 hw1 h2
    have hg : STATUS_GROUP c1 = 5 := h5
    simp only [h5, or_true, decide_True, if_true, hg, hsend2, spec_passes_zero]
    refine ⟨by rw [hwritten2, hwritten1]; simp, ?_, ?_⟩
    · intro h22
      simp only [h22, decide_True, if_true]
      rw [push_connection_job { ftp with queue := some queue } conn2 job queue rfl
        (hjob2.trans hjob1), herr2, hqueued conn2 herr2]
    · intro h22
      simp only [h22, decide_False, Bool.false_eq_true, if_false]
      rw [push_connection_job { ftp with queue := some queue }
        { conn2 with error := some (spec_response_error c2) } job queue rfl
        (hjob2.trans hjob1)]
      simp only [hqueued conn2 herr2]

/-- Witness for C13: the server answers `DELE /x` with 550 and `RMD /x`
with 250; both commands are written, in this order, and the job
succeeds. -/
theorem do_delete_spec_witness :
    sample_conn_rmd.commands.written = ["DELE /x\r\n".toList, "RMD /x\r\n".toList] ∧
    do_delete sample_ftp_delete fresh_job [] "/x".toList =
      JobRun.RETURNED
        { sample_ftp_delete with queue := some [{ sample_conn_rmd with job := none }] }
        (some (g_vfs_job_succeeded fresh_job)) := by
  have h1 : spec_answered
      (spec_sent { sample_conn_delete with job := some fresh_job } ("DELE ".toList ++ "/x".toList))
      550 sample_conn_dele := ⟨_, rfl, rfl, rfl, rfl⟩
  have h2 : spec_answered (spec_sent sample_conn_dele ("RMD ".toList ++ "/x".toList))
      250 sample_conn_rmd := ⟨_, rfl, rfl, rfl, rfl⟩
  obtain ⟨_, _, _, h5⟩ :=
    do_delete_spec sample_ftp_delete fresh_job [] "/x".toList sample_conn_delete [] 550
      sample_conn_dele rfl rfl rfl rfl h1
  obtain ⟨hw, hok, _⟩ := h5 (by decide) 250 sample_conn_rmd h2
  exact ⟨hw, hok (by decide)⟩

/-! ## The data connection -/

theorem shift_or_octet (port1 port2 : Nat) (h1 : port1 ≤ 255) (h2 : port2 ≤ 255) :
    (port1 <<< 8) % 2 ^ 32 ||| port2 = port1 * 256 + port2 := by
  have hlt : port2 < 2 ^ 8 := by omega
  have hor := Nat.mul_add_lt_is_or hlt port1
  have hshift : port1 <<< 8 = 2 ^ 8 * port1 := by rw [Nat.shiftLeft_eq, Nat.mul_comm]
  have hmod : 2 ^ 8 * port1 % 2 ^ 32 = 2 ^ 8 * port1 := Nat.mod_eq_of_lt (by omega)
  rw [hshift, hmod, ← hor]
  omega

/-- The part of `ftp_connection_ensure_data_connection` from `PASV` on,
when the command is written whole and answered by a complete reply: a code
that is not 2xx sets the error from the code; a 2xx fails with `Invalid
reply` when the loop finds no six numbers in the buffer, and else gives the
address made of them. -/
theorem pasv_address_answered (conn : FtpConnection) (code : Nat) (after : FtpConnection)
    (herr : conn.error = none) (hw : conn.commands.writes = [])
    (h : spec_answered (spec_sent conn "PASV".toList) code after) :
    after.commands.written = conn.commands.written ++ ["PASV\r\n".toList] ∧
    pasv_address conn =
      if code / 100 = 2 then
        match pasv_scan (c_string after.read_buffer) with
        | none =>
          (none, { after with error := some ⟨G_IO_ERROR, G_IO_ERROR_FAILED, "Invalid reply"⟩ })
        | some (ip1, ip2, ip3, ip4, port1, port2) =>
          (some ⟨Nat.toDigits 10 ip1 ++ '.' :: Nat.toDigits 10 ip2 ++
              '.' :: Nat.toDigits 10 ip3 ++ '.' :: Nat.toDigits 10 ip4,
            (port1 <<< 8) % 2 ^ 32 ||| port2⟩, after)
      else (none, { after with error := some (spec_response_error code) }) := by
  obtain ⟨hlo, _, herr', _, _, hwritten, hsend⟩ :=
    ftp_connection_send_answered conn 0 "PASV".toList code after herr hw h
  refine ⟨hwritten, ?_⟩
  simp only [pasv_address, hsend, spec_passes_zero]
  by_cases h2 : code / 100 = 2
  · have hne : code ≠ 0 := by omega
    simp only [h2, decide_True, if_true, hne, if_false, g_set_error, herr']
  · simp [h2]

theorem c_string_drop (l : List Char) (n : Nat) (h : n ≤ (c_string l).length) :
    c_string (l.drop n) = (c_string l).drop n := by
  induction n generalizing l with
  | zero => simp
  | succ n ih =>
    cases l with
    | nil => simp [c_string]
    | cons x l =>
      by_cases hx : x ≠ NUL
      · have hc : c_string (x :: l) = x :: c_string l := by
          simp [c_string, List.takeWhile, hx]
        rw [hc] at h ⊢
        simp only [List.length_cons, List.drop_succ_cons] at h ⊢
        exact ih l (by omega)
      · have hc : c_string (x :: l) = [] := by
          simp only [ne_eq, not_not] at hx
          simp [c_string, List.takeWhile, hx]
        rw [hc] at h
        simp at h

theorem toDigitsCore_ne_nil (fuel n : Nat) (ds : List Char) (h : ds ≠ [] ∨ 0 < fuel) :
    Nat.toDigitsCore 10 fuel n ds ≠ [] := by
  induction fuel generalizing n ds with
  | zero =>
    rcases h with h | h
    · simpa [Nat.toDigitsCore] using h
    · omega
  | succ fuel ih =>
    simp only [Nat.toDigitsCore]
    split_ifs
    · simp
    · exact ih _ _ (Or.inl (by simp))

theorem toDigits_ne_nil (n : Nat) : Nat.toDigits 10 n ≠ [] :=
  toDigitsCore_ne_nil _ _ _ (Or.inr (Nat.succ_pos n))

theorem digits_value_toDigits (n : Nat) : digits_value (Nat.toDigits 10 n) = n := by
  have h := toDigitsCore_value (n + 1) n [] (by omega)
  simpa [digits_value, Nat.toDigits] using h

theorem takeWhile_append_of_all {α : Type} (p : α → Bool) (l : List α) (x : α) (rest : List α)
    (hl : ∀ a ∈ l, p a = true) (hx : p x = false) :
    (l ++ x :: rest).takeWhile p = l ∧ (l ++ x :: rest).dropWhile p = x :: rest := by
  induction l with
  | nil => simp [List.takeWhile, List.dropWhile, hx]
  | cons a l ih =>
    have ha := hl a (List.mem_cons_self _ _)
    obtain ⟨h1, h2⟩ := ih fun b hb => hl b (List.mem_cons_of_mem _ hb)
    simp [List.takeWhile, List.dropWhile, ha, h1, h2]

/-- The call `strtoul` on the decimal digits of a number below 2^64,
followed by a byte that is not a digit, gives the number. -/
theorem strtoul_toDigits (n : Nat) (x : Char) (rest : List Char) (hn : n < 2 ^ 64)
    (hx : x.isDigit = false) : strtoul (Nat.toDigits 10 n ++ x :: rest) = n := by
  obtain ⟨d, ds, hds⟩ : ∃ d ds, Nat.toDigits 10 n = d :: ds := by
    cases h : Nat.toDigits 10 n with
    | nil => exact absurd h (toDigits_ne_nil n)
    | cons d ds => exact ⟨d, ds, rfl⟩
  have hall := toDigits_isDigit n
  have hd : d.isDigit = true := hall d (by rw [hds]; exact List.mem_cons_self _ _)
  have hspace : isspace d = false := by
    cases hs : isspace d with
    | false => rfl
    | true =>
      exfalso
      simp only [isspace, Bool.or_eq_true, decide_eq_true_eq, Bool.and_eq_true] at hs
      simp only [Char.isDigit, Bool.and_eq_true, decide_eq_true_eq] at hd
      have h48 : (48 : UInt32) ≤ d.val := hd.1
      have hv : 48 ≤ d.toNat := by
        have := UInt32.le_def.1 h48
        simpa [Char.toNat] using this
      rcases hs with rfl | ⟨_, h13⟩
      · revert hv; decide
      · omega
  have hminus : d ≠ '-' := by
    rintro rfl
    revert hd
    decide
  have hplus : d ≠ '+' := by
    rintro rfl
    revert hd
    decide
  obtain ⟨htake, hdrop⟩ :=
    takeWhile_append_of_all Char.isDigit (Nat.toDigits 10 n) x rest hall hx
  have hskip : (Nat.toDigits 10 n ++ x :: rest).dropWhile isspace =
      Nat.toDigits 10 n ++ x :: rest := by
    rw [hds]
    simp [List.dropWhile, hspace]
  unfold strtoul scan_unsigned_long
  rw [hskip]
  have hsign : (match Nat.toDigits 10 n ++ x :: rest with
      | '-' :: t => (true, t)
      | '+' :: t => (false, t)
      | _ => (false, Nat.toDigits 10 n ++ x :: rest)) =
      (false, Nat.toDigits 10 n ++ x :: rest) := by
    rw [hds]
    simp only [List.cons_append]
    split
    · rename_i heq
      exact absurd (List.cons.inj heq).1 hminus
    · rename_i heq
      exact absurd (List.cons.inj heq).1 hplus
    · rfl
  simp only [hsign, htake, hdrop, toDigits_ne_nil n, if_false, digits_value_toDigits]
  rw [if_neg (by omega), if_neg (by simp)]

/-! ## The numbers of the reply to `PASV` -/

/-- The `EPSV` part of `ftp_connection_ensure_data_connection` when the
feature is set, the command is written whole and the reply is complete: a
2xx reply whose last '(' is followed by three bytes and a number other than
0 gives that port on the host of the command socket; every other 2xx and
every 5xx gives no address and no error; another code sets the error from
the code. -/
theorem epsv_address_answered (conn : FtpConnection) (code : Nat) (after : FtpConnection)
    (herr : conn.error = none) (hw : conn.commands.writes = [])
    (hfeat : conn.features &&& FTP_FEATURE_EPSV ≠ 0)
    (h : spec_answered (spec_sent conn "EPSV".toList) code after) :
    (code / 100 = 5 → epsv_address conn = (none, after)) ∧
    (code / 100 = 2 → ∀ (pre post : List Char) (port : Nat),
      c_string after.read_buffer =
        pre ++ "(|||".toList ++ Nat.toDigits 10 port ++ '|' :: post →
      '(' ∉ post → 0 < port → port < 2 ^ 32 →
      epsv_address conn = (some ⟨conn.commands.remote_address.name, port⟩, after)) := by
  obtain ⟨_, _, _, _, _, _, hsend⟩ :=
    ftp_connection_send_answered conn RESPONSE_PASS_500 "EPSV".toList code after herr hw h
  obtain ⟨_, _, _, hframe, _⟩ := receive_answered (spec_sent conn "EPSV".toList) code after herr h
  have haddr : after.commands.remote_address = conn.commands.remote_address := hframe.2.2.2.1
  constructor
  · intro h5
    have hg : STATUS_GROUP code ≠ 2 := by unfold STATUS_GROUP; omega
    simp only [epsv_address, hsend, spec_passes_pass_500, h5]
    simp [hg, hfeat]
  · intro h2 pre post port hbuf hpost hpos hlt
    have hg : STATUS_GROUP code = 2 := h2
    have hdigit : ∀ c ∈ Nat.toDigits 10 port, c ≠ '(' := by
      intro c hc hp
      have := toDigits_isDigit port c hc
      rw [hp] at this
      revert this
      decide
    have hrest : '(' ∉ "|||".toList ++ Nat.toDigits 10 port ++ '|' :: post := by
      intro hm
      simp only [List.mem_append, List.mem_cons] at hm
      rcases hm with (hm | hm) | hm | hm
      · revert hm; decide
      · exact hdigit _ hm rfl
      · revert hm; decide
      · exact hpost hm
    have hsplit : c_string after.read_buffer =
        pre ++ '(' :: ("|||".toList ++ Nat.toDigits 10 port ++ '|' :: post) := by
      rw [hbuf]
      simp [List.append_assoc]
    have hs : strrchr (c_string after.read_buffer) '(' = some pre.length := by
      rw [hsplit]
      exact strrchr_append pre _ '(' hrest
    have hdrop : c_string (after.read_buffer.drop (pre.length + 4)) =
        Nat.toDigits 10 port ++ '|' :: post := by
      rw [c_string_drop _ _ (by rw [hbuf]; simp), hbuf]
      have : pre ++ "(|||".toList ++ Nat.toDigits 10 port ++ '|' :: post =
          (pre ++ "(|||".toList) ++ (Nat.toDigits 10 port ++ '|' :: post) := by
        simp [List.append_assoc]
      rw [this]
      have hlen : pre.length + 4 = (pre ++ "(|||".toList).length := by simp
      rw [hlen, List.drop_left]
    have hport : strtoul (Nat.toDigits 10 port ++ '|' :: post) % 2 ^ 32 = port := by
      rw [strtoul_toDigits port '|' post (by omega) (by decide)]
      exact Nat.mod_eq_of_lt hlt
    have hne : port ≠ 0 := by omega
    have hport' : strtoul (Nat.toDigits 10 port ++ '|' :: post) % 4294967296 = port := hport
    simp only [epsv_address, hsend, spec_passes_pass_500, h2]
    simp [hg, hs, hdrop, hport', hne, haddr, hfeat]

/-- C12. Let the feature mask hold `EPSV` and `EPSV` be written whole on a
connection without error and answered by a complete reply, after which the
error slot is empty. When the reply is a 5xx, `PASV` is the next command
written, and when its reply is a complete 2xx in which `sscanf` first reads
the octets a, b, c, d, p1, p2, the data socket is connected to a.b.c.d,
port p1 * 256 + p2. When the reply to `EPSV` is a 2xx whose text ends in
`(|||PORT|` and a rest without '(', with PORT between 1 and 2^32 - 1, no
`PASV` is written and the data socket is connected to the host of the
command socket, port PORT. -/
theorem epsv_fallback (net : SoupNetwork) (conn : FtpConnection) (code1 : Nat)
    (conn1 : FtpConnection) (herr : conn.error = none) (hw : conn.commands.writes = [])
    (hfeat : conn.features &&& FTP_FEATURE_EPSV ≠ 0)
    (h1 : spec_answered (spec_sent conn "EPSV".toList) code1 conn1) :
    conn1.error = none ∧
    conn1.commands.written = conn.commands.written ++ ["EPSV\r\n".toList] ∧
    (code1 / 100 = 5 →
      epsv_address conn = (none, conn1) ∧
      ∀ code2 conn2, spec_answered (spec_sent conn1 "PASV".toList) code2 conn2 →
        code2 / 100 = 2 →
        conn2.error = none ∧
        conn2.commands.written =
          conn.commands.written ++ ["EPSV\r\n".toList, "PASV\r\n".toList] ∧
        ∀ a b c d p1 p2 : Nat,
          pasv_scan (c_string conn2.read_buffer) = some (a, b, c, d, p1, p2) →
          a ≤ 255 → b ≤ 255 → c ≤ 255 → d ≤ 255 → p1 ≤ 255 → p2 ≤ 255 →
          ftp_connection_ensure_data_connection net conn =
            have_address net conn2
              ⟨Nat.toDigits 10 a ++ '.' :: Nat.toDigits 10 b ++
                '.' :: Nat.toDigits 10 c ++ '.' :: Nat.toDigits 10 d, p1 * 256 + p2⟩) ∧
    (code1 / 100 = 2 → ∀ (pre post : List Char) (port : Nat),
      c_string conn1.read_buffer =
        pre ++ "(|||".toList ++ Nat.toDigits 10 port ++ '|' :: post →
      '(' ∉ post → 0 < port → port < 2 ^ 32 →
      ftp_connection_ensure_data_connection net conn =
        have_address net conn1 ⟨conn.commands.remote_address.name, port⟩) := by
  obtain ⟨_, _, herr1, hw1, _, hwritten1, _⟩ :=
    ftp_connection_send_answered conn RESPONSE_PASS_500 "EPSV".toList code1 conn1 herr hw h1
  obtain ⟨h5, h2⟩ := epsv_address_answered conn code1 conn1 herr hw hfeat h1
  refine ⟨herr1, hwritten1, ?_, ?_⟩
  · intro hcode
    refine ⟨h5 hcode, ?_⟩
    intro code2 conn2 hans hcode2
    obtain ⟨hwritten2, hpasv⟩ := pasv_address_answered conn1 code2 conn2 herr1 hw1 hans
    obtain ⟨_, _, herr2, _⟩ :=
      receive_answered (spec_sent conn1 "PASV".toList) code2 conn2 herr1 hans
    refine ⟨herr2, by rw [hwritten2, hwritten1]; simp, ?_⟩
    intro a b c d p1 p2 hscan _ _ _ _ hp1 hp2
    rw [if_pos hcode2, hscan] at hpasv
    simp only [ftp_connection_ensure_data_connection, h5 hcode, hpasv]
    rw [shift_or_octet p1 p2 hp1 hp2]
  · intro hcode pre post port hbuf hpost hpos hlt
    simp only [ftp_connection_ensure_data_connection, h2 hcode pre post port hbuf hpost hpos hlt]

/-- Witness for C12: `EPSV` is answered with 500 and `PASV` with `227
Entering Passive Mode (10,0,0,5,20,30)`; both commands are written, no error
is set, and the data socket goes to 10.0.0.5, port 5150. -/
theorem epsv_fallback_witness :
    sample_conn_epsv_pasv.commands.written = ["EPSV\r\n".toList, "PASV\r\n".toList] ∧
    ftp_connection_ensure_data_connection sample_net sample_conn_epsv =
      (true, { sample_conn_epsv_pasv with
        data := some ⟨⟨"10.0.0.5".toList, 5150⟩, [], [], []⟩ }) := by
  have h1 : spec_answered (spec_sent sample_conn_epsv "EPSV".toList) 500
      sample_conn_epsv_after := ⟨_, rfl, rfl, rfl, rfl⟩
  have h2 : spec_answered (spec_sent sample_conn_epsv_after "PASV".toList) 227
      sample_conn_epsv_pasv := ⟨_, rfl, rfl, rfl, rfl⟩
  obtain ⟨_, _, h5, _⟩ :=
    epsv_fallback sample_net sample_conn_epsv 500 sample_conn_epsv_after rfl rfl
      (by decide) h1
  obtain ⟨_, hwritten, haddr⟩ := (h5 (by decide)).2 227 sample_conn_epsv_pasv h2 (by decide)
  have := haddr 10 0 0 5 20 30 rfl (by decide) (by decide) (by decide) (by decide)
    (by decide) (by decide)
  exact ⟨hwritten, this⟩

/-! ## Listing a directory -/

theorem list_loop_too_long (reads : List ReadResult) (l : ListLocals)
    (h : l.bytes_read + 3 ≥ l.size ∧ l.size ≥ 16384) (hb : l.bytes_read + 3 < GSIZE) :
    list_loop reads l = ListExit.TOO_LONG l := by
  have hmod : (l.bytes_read + 3) % GSIZE = l.bytes_read + 3 := Nat.mod_eq_of_lt hb
  cases reads <;> simp [list_loop, hmod, h]

/-- One pass of the loop of `run_list_command` that goes on to the next:
the read reports `SOUP_SOCKET_OK` and delivers something. -/
theorem list_loop_step (r : ReadResult) (reads : List ReadResult) (l : ListLocals)
    (hs : r.status = SOUP_SOCKET_OK) (hne : r.data ≠ [])
    (hb : l.bytes_read + 3 < GSIZE) (hlen : l.bytes_read + r.data.length < GSIZE)
    (hnot : ¬ (l.bytes_read + 3 ≥ l.size ∧ l.size ≥ 16384)) :
    list_loop (r :: reads) l = list_loop reads (spec_list_next l r) := by
  have hmod : (l.bytes_read + 3) % GSIZE = l.bytes_read + 3 := Nat.mod_eq_of_lt hb
  have hmod' : (l.bytes_read + r.data.length) % GSIZE = l.bytes_read + r.data.length :=
    Nat.mod_eq_of_lt hlen
  have hlen0 : r.data.length ≠ 0 := fun h => hne (List.length_eq_zero.1 h)
  rw [list_loop, hmod, if_neg hnot]
  simp only [hs, hlen0, if_false, if_true]
  unfold spec_list_next
  by_cases hgrow : l.bytes_read + 3 ≥ l.size <;> by_cases hbd : r.got_boundary = true <;>
    simp [hgrow, hbd, hmod']

theorem c_string_append_nul (a b : List Char) : c_string (a ++ NUL :: b) = c_string a := by
  induction a with
  | nil => simp [c_string, List.takeWhile]
  | cons x a ih =>
    unfold c_string at ih ⊢
    by_cases hx : x = NUL
    · simp [List.takeWhile, hx]
    · have hd : decide (x ≠ NUL) = true := by simpa using hx
      simp only [List.cons_append, List.takeWhile, hd]
      exact congrArg (x :: ·) ih

/-- Bytes stored behind `off` bytes of a buffer that holds at least `off`:
the buffer then starts with those `off` bytes and the bytes stored. -/
theorem buffer_store_take (buf data : List Char) (off : Nat) (hoff : off ≤ buf.length) :
    (buffer_store buf off data).take (off + data.length) = buf.take off ++ data := by
  unfold buffer_store
  have hlen : (buf.take off ++ data).length = off + data.length := by
    simp [List.length_take, Nat.min_eq_left hoff]
  rw [← hlen, List.take_left]

theorem buffer_store_length (buf data : List Char) (off : Nat) (hoff : off ≤ buf.length) :
    off + data.length ≤ (buffer_store buf off data).length := by
  unfold buffer_store
  simp [List.length_take, Nat.min_eq_left hoff]

/-- The string in a buffer that starts with `line`, after a NUL was stored
at an offset inside `line`. -/
theorem c_string_buffer_store (buf line : List Char) (n : Nat) (hn : n ≤ line.length)
    (hbuf : buf.take line.length = line) :
    c_string (buffer_store buf n [NUL]) = c_string (line.take n) := by
  have htake : buf.take n = line.take n := by
    rw [← hbuf, List.take_take, Nat.min_eq_left hn]
  unfold buffer_store
  rw [htake, List.append_assoc]
  exact c_string_append_nul _ _

theorem spec_list_next_size (l : ListLocals) (r : ReadResult) :
    (spec_list_next l r).size = if l.bytes_read + 3 ≥ l.size then l.size + 128 else l.size := by
  unfold spec_list_next
  cases r.got_boundary <;> rfl

theorem spec_list_next_bytes_read (l : ListLocals) (r : ReadResult) :
    (spec_list_next l r).bytes_read =
      if r.got_boundary = true then 0 else l.bytes_read + r.data.length := by
  unfold spec_list_next
  cases r.got_boundary <;> rfl

theorem spec_reads_fit_cons (r : ReadResult) (reads : List ReadResult) (l : ListLocals)
    (hnot : ¬ (l.bytes_read + 3 ≥ l.size ∧ l.size ≥ 16384))
    (hfit : spec_reads_fit (r :: reads) l.size l.bytes_read = true) :
    r.data.length ≤ (spec_list_next l r).size - l.bytes_read - 1 ∧
    spec_reads_fit reads (spec_list_next l r).size (spec_list_next l r).bytes_read = true := by
  rw [spec_reads_fit, if_neg hnot] at hfit
  simp only [Bool.and_eq_true, decide_eq_true_eq] at hfit
  rw [spec_list_next_size, spec_list_next_bytes_read]
  exact hfit

theorem spec_list_next_size_inv (l : ListLocals) (r : ReadResult)
    (hsize : ∃ k, l.size = 128 * k ∧ 1 ≤ k ∧ k ≤ 128)
    (hnot : ¬ (l.bytes_read + 3 ≥ l.size ∧ l.size ≥ 16384)) :
    ∃ k, (spec_list_next l r).size = 128 * k ∧ 1 ≤ k ∧ k ≤ 128 := by
  obtain ⟨k, hk, hk1, hk128⟩ := hsize
  rw [spec_list_next_size]
  by_cases hgrow : l.bytes_read + 3 ≥ l.size
  · rw [if_pos hgrow]
    exact ⟨k + 1, by omega, by omega, by omega⟩
  · rw [if_neg hgrow]
    exact ⟨k, hk, hk1, hk128⟩

/-- The loop of `run_list_command` over the reads of one line of at most
16381 bytes, in whatever pieces: it goes on behind the line with the line
added to the list and `bytes_read` back at 0. -/
theorem list_loop_line (pieces : List (List Char)) :
    ∀ (l : ListLocals) (consumed : List Char) (rest : List ReadResult),
      pieces ≠ [] → (∀ p ∈ pieces, p ≠ []) →
      l.bytes_read = consumed.length → l.name.take consumed.length = consumed →
      2 ≤ consumed.length + pieces.flatten.length →
      consumed.length + pieces.flatten.length ≤ 16381 →
      (∃ k, l.size = 128 * k ∧ 1 ≤ k ∧ k ≤ 128) →
      ∃ l', list_loop (spec_line_reads pieces ++ rest) l = list_loop rest l' ∧
        l'.bytes_read = 0 ∧ (∃ k, l'.size = 128 * k ∧ 1 ≤ k ∧ k ≤ 128) ∧
        l'.list = c_string ((consumed ++ pieces.flatten).take
          (consumed.length + pieces.flatten.length - 2)) :: l.list ∧
        (spec_reads_fit (spec_line_reads pieces ++ rest) l.size l.bytes_read = true →
          spec_reads_fit rest l'.size 0 = true) := by
  induction pieces with
  | nil => intro l consumed rest hne; exact absurd rfl hne
  | cons p ps ih =>
    intro l consumed rest _ hall hbr hname h2 h16 hsize
    have hp : p ≠ [] := hall p (List.mem_cons_self _ _)
    have hplen : 0 < p.length := List.length_pos.2 hp
    have hflat : (p :: ps).flatten.length = p.length + ps.flatten.length := by simp
    rw [hflat] at h2 h16
    have hG : GSIZE = 18446744073709551616 := rfl
    have hnot : ¬ (l.bytes_read + 3 ≥ l.size ∧ l.size ≥ 16384) := by rw [hbr]; omega
    have hstep := list_loop_step ⟨SOUP_SOCKET_OK, p, decide (ps = []), none⟩
      (spec_line_reads ps ++ rest) l rfl hp (by rw [hbr, hG]; omega)
      (by rw [hbr, hG]; simp only; omega) hnot
    have hinv := spec_list_next_size_inv l ⟨SOUP_SOCKET_OK, p, decide (ps = []), none⟩ hsize hnot
    have hlenname : consumed.length ≤ l.name.length := by
      have := congrArg List.length hname
      simp only [List.length_take] at this
      omega
    have htake : (buffer_store l.name consumed.length p).take (consumed.length + p.length) =
        consumed ++ p := by
      rw [buffer_store_take _ _ _ hlenname, hname]
    have hreads : spec_line_reads (p :: ps) ++ rest =
        ⟨SOUP_SOCKET_OK, p, decide (ps = []), none⟩ :: (spec_line_reads ps ++ rest) := rfl
    rw [hreads, hstep]
    by_cases hps : ps = []
    · subst hps
      refine ⟨spec_list_next l ⟨SOUP_SOCKET_OK, p, decide (([] : List (List Char)) = []), none⟩,
        rfl, ?_, hinv, ?_, ?_⟩
      · rw [spec_list_next_bytes_read]
        simp
      · simp only [spec_list_next, decide_True, if_true, hbr, List.flatten_cons,
          List.flatten_nil, List.append_nil, List.length_nil, Nat.add_zero]
        congr 1
        have hline : (buffer_store l.name consumed.length p).take (consumed ++ p).length =
            consumed ++ p := by
          rw [List.length_append]
          exact htake
        have := c_string_buffer_store (buffer_store l.name consumed.length p) (consumed ++ p)
          (consumed.length + p.length - 2) (by rw [List.length_append]; omega) hline
        exact this
      · intro hfit
        have := (spec_reads_fit_cons _ _ l hnot hfit).2
        rw [spec_list_next_bytes_read] at this
        simpa using this
    · have hd : decide (ps = []) = false := by simpa using hps
      have hnext_br : (spec_list_next l ⟨SOUP_SOCKET_OK, p, decide (ps = []), none⟩).bytes_read =
          (consumed ++ p).length := by
        rw [spec_list_next_bytes_read, hd, hbr, List.length_append]
        simp
      have hnext_name : (spec_list_next l ⟨SOUP_SOCKET_OK, p, decide (ps = []), none⟩).name =
          buffer_store l.name consumed.length p := by
        simp [spec_list_next, hd, hbr]
      have hnext_list : (spec_list_next l ⟨SOUP_SOCKET_OK, p, decide (ps = []), none⟩).list =
          l.list := by
        simp [spec_list_next, hd]
      obtain ⟨l', hloop, hbr', hsize', hlist', hfit'⟩ :=
        ih (spec_list_next l ⟨SOUP_SOCKET_OK, p, decide (ps = []), none⟩) (consumed ++ p) rest
          hps (fun q hq => hall q (List.mem_cons_of_mem _ hq)) hnext_br
          (by rw [hnext_name, List.length_append]; exact htake)
          (by rw [List.length_append]; omega) (by rw [List.length_append]; omega) hinv
      refine ⟨l', hloop, hbr', hsize', ?_, ?_⟩
      · rw [hlist', hnext_list]
        simp only [List.flatten_cons, List.append_assoc, List.length_append]
        congr 3
        omega
      · intro hfit
        apply hfit'
        have := (spec_reads_fit_cons _ _ l hnot hfit).2
        rw [hnext_br] at this ⊢
        exact this

/-- The loop of `run_list_command` over a listing whose lines have at most
16381 bytes each: it goes on behind the listing with the lines added to the
list, in order. -/
theorem list_loop_listing (lines : List (List (List Char))) :
    ∀ (l : ListLocals) (rest : List ReadResult),
      (∀ pieces ∈ lines, pieces ≠ [] ∧ (∀ p ∈ pieces, p ≠ []) ∧
        2 ≤ pieces.flatten.length ∧ pieces.flatten.length ≤ 16381) →
      l.bytes_read = 0 → (∃ k, l.size = 128 * k ∧ 1 ≤ k ∧ k ≤ 128) →
      ∃ l', list_loop (spec_listing_reads lines ++ rest) l = list_loop rest l' ∧
        l'.bytes_read = 0 ∧ (∃ k, l'.size = 128 * k ∧ 1 ≤ k ∧ k ≤ 128) ∧
        l'.list = (lines.map spec_line).reverse ++ l.list ∧
        (spec_reads_fit (spec_listing_reads lines ++ rest) l.size 0 = true →
          spec_reads_fit rest l'.size 0 = true) := by
  induction lines with
  | nil =>
    intro l rest _ hbr hsize
    exact ⟨l, rfl, hbr, hsize, rfl, fun h => h⟩
  | cons pieces lines ih =>
    intro l rest hshort hbr hsize
    obtain ⟨hne, hall, h2, h16⟩ := hshort pieces (List.mem_cons_self _ _)
    have hreads : spec_listing_reads (pieces :: lines) ++ rest =
        spec_line_reads pieces ++ (spec_listing_reads lines ++ rest) := by
      simp [spec_listing_reads, List.append_assoc]
    obtain ⟨l1, hloop1, hbr1, hsize1, hlist1, hfit1⟩ :=
      list_loop_line pieces l [] (spec_listing_reads lines ++ rest) hne hall hbr rfl
        (by simpa using h2) (by simpa using h16) hsize
    obtain ⟨l2, hloop2, hbr2, hsize2, hlist2, hfit2⟩ :=
      ih l1 rest (fun q hq => hshort q (List.mem_cons_of_mem _ hq)) hbr1 hsize1
    refine ⟨l2, by rw [hreads, hloop1, hloop2], hbr2, hsize2, ?_, ?_⟩
    · rw [hlist2, hlist1]
      simp [spec_line]
    · intro hfit
      rw [hreads] at hfit
      rw [← hbr] at hfit
      exact hfit2 (hfit1 hfit)

/-- The loop of `run_list_command` over the reads of a line that, with the
bytes read so far, has 16384 bytes or more, when no read delivers more than
it was asked for: the loop is left with the line too long. -/
theorem list_loop_long (pieces : List (List Char)) :
    ∀ (l : ListLocals) (rest : List ReadResult),
      (∀ p ∈ pieces, p ≠ []) → (∃ k, l.size = 128 * k ∧ 1 ≤ k ∧ k ≤ 128) →
      l.bytes_read < l.size → 16384 ≤ l.bytes_read + pieces.flatten.length →
      spec_reads_fit (spec_line_reads pieces ++ rest) l.size l.bytes_read = true →
      ∃ l', list_loop (spec_line_reads pieces ++ rest) l = ListExit.TOO_LONG l' := by
  induction pieces with
  | nil =>
    intro l rest _ hsize hlt h16 _
    obtain ⟨k, hk, _, hk128⟩ := hsize
    simp only [List.flatten_nil, List.length_nil, Nat.add_zero] at h16
    omega
  | cons p ps ih =>
    intro l rest hall hsize hlt h16 hfit
    have hG : GSIZE = 18446744073709551616 := rfl
    have hsize' := hsize
    obtain ⟨k, hk, hk1, hk128⟩ := hsize'
    by_cases hcond : l.bytes_read + 3 ≥ l.size ∧ l.size ≥ 16384
    · exact ⟨l, list_loop_too_long _ l hcond (by rw [hG]; omega)⟩
    · have hp : p ≠ [] := hall p (List.mem_cons_self _ _)
      have hplen : 0 < p.length := List.length_pos.2 hp
      have hreads : spec_line_reads (p :: ps) ++ rest =
          ⟨SOUP_SOCKET_OK, p, decide (ps = []), none⟩ :: (spec_line_reads ps ++ rest) := rfl
      rw [hreads] at hfit ⊢
      obtain ⟨hfits, hfit'⟩ := spec_reads_fit_cons _ _ l hcond hfit
      have hinv := spec_list_next_size_inv l ⟨SOUP_SOCKET_OK, p, decide (ps = []), none⟩
        hsize hcond
      obtain ⟨k', hk', _, hk128'⟩ := hinv
      have hge : l.size ≤ (spec_list_next l ⟨SOUP_SOCKET_OK, p, decide (ps = []), none⟩).size := by
        rw [spec_list_next_size]
        split_ifs <;> omega
      simp only at hfits
      have hstep := list_loop_step ⟨SOUP_SOCKET_OK, p, decide (ps = []), none⟩
        (spec_line_reads ps ++ rest) l rfl hp (by rw [hG]; omega)
        (by rw [hG]; simp only; omega) hcond
      rw [hstep]
      have hflat : (p :: ps).flatten.length = p.length + ps.flatten.length := by simp
      rw [hflat] at h16
      have hps : ps ≠ [] := by
        rintro rfl
        simp only [List.flatten_nil, List.length_nil, Nat.add_zero] at h16
        omega
      have hd : decide (ps = []) = false := by simpa using hps
      have hnext_br : (spec_list_next l ⟨SOUP_SOCKET_OK, p, decide (ps = []), none⟩).bytes_read =
          l.bytes_read + p.length := by
        rw [spec_list_next_bytes_read, hd]
        simp
      rw [hnext_br] at hfit'
      have := ih (spec_list_next l ⟨SOUP_SOCKET_OK, p, decide (ps = []), none⟩) rest
        (fun q hq => hall q (List.mem_cons_of_mem _ hq)) ⟨k', hk', by omega, hk128'⟩
        (by rw [hnext_br]; omega) (by rw [hnext_br]; omega) (by rw [hnext_br]; exact hfit')
      exact this

/-- The function `run_list_command` when the loop ends at the end of the
data with no line begun, and the reply that follows sets no error. -/
theorem run_list_command_done (net : SoupNetwork) (conn : FtpConnection)
    (command : List Char) (ok : Bool) (conn1 : FtpConnection) (code : Nat)
    (conn2 : FtpConnection) (data : SoupSocket) (l : ListLocals)
    (hensure : ftp_connection_ensure_data_connection net conn = (ok, conn1))
    (hsend : ftp_connection_sendv conn1 (RESPONSE_PASS_100 ||| RESPONSE_FAIL_200) command =
      (code, conn2))
    (herr : conn2.error = none) (hdata : conn2.data = some data)
    (hloop : list_loop data.reads ⟨128, 0, [], []⟩ = ListExit.DONE l)
    (hbr : l.bytes_read = 0)
    (hfinal : (ftp_connection_receive { conn2 with data := none } 0).2.error = none) :
    run_list_command net conn command =
      (l.list.reverse, (ftp_connection_receive { conn2 with data := none } 0).2) := by
  have hin : ftp_connection_in_error conn2 = false := by
    simp [ftp_connection_in_error, herr]
  have hin' : ftp_connection_in_error
      (ftp_connection_receive { conn2 with data := none } 0).2 = false := by
    simp [ftp_connection_in_error, hfinal]
  simp only [run_list_command, hensure, hsend, hin, hdata, hloop, hbr,
    ftp_connection_close_data_connection, hin']
  simp

/-- The function `run_list_command` when the loop is left with a line too
long: no line is returned and the error is `FILENAME_TOO_LONG`. -/
theorem run_list_command_too_long (net : SoupNetwork) (conn : FtpConnection)
    (command : List Char) (ok : Bool) (conn1 : FtpConnection) (code : Nat)
    (conn2 : FtpConnection) (data : SoupSocket) (l : ListLocals)
    (hensure : ftp_connection_ensure_data_connection net conn = (ok, conn1))
    (hsend : ftp_connection_sendv conn1 (RESPONSE_PASS_100 ||| RESPONSE_FAIL_200) command =
      (code, conn2))
    (herr : conn2.error = none) (hdata : conn2.data = some data)
    (hloop : list_loop data.reads ⟨128, 0, [], []⟩ = ListExit.TOO_LONG l) :
    run_list_command net conn command =
      ([], { conn2 with
        error := some ⟨G_IO_ERROR, G_IO_ERROR_FILENAME_TOO_LONG, "filename too long"⟩
        data := none }) := by
  have hin : ftp_connection_in_error conn2 = false := by
    simp [ftp_connection_in_error, herr]
  simp only [run_list_command, hensure, hsend, hin, hdata, hloop,
    ftp_connection_close_data_connection, g_set_error, herr]
  simp [ftp_connection_receive, ftp_connection_in_error]

theorem list_loop_end (l : ListLocals) (hbr : l.bytes_read = 0)
    (hsize : ∃ k, l.size = 128 * k ∧ 1 ≤ k ∧ k ≤ 128) :
    list_loop [] l = ListExit.DONE l := by
  obtain ⟨k, hk, hk1, _⟩ := hsize
  have hmod : (l.bytes_read + 3) % GSIZE = 3 := by rw [hbr]; rfl
  have h3 : ¬ 3 ≥ l.size := by omega
  simp [list_loop, hmod, h3]

/-- C15 (amended). Let the data connection be made and the list command be
sent without error. When the data socket delivers a listing whose lines
have at most 16381 bytes each, line end included, in whatever pieces, and
the reply that follows sets no error, `run_list_command` returns all lines,
in order, each without its line end. When after such lines comes a line of
16384 bytes or more, and no read delivers more than it was asked for,
`run_list_command` returns no line and the error is `FILENAME_TOO_LONG`. -/
theorem run_list_command_lines (net : SoupNetwork) (conn : FtpConnection)
    (command : List Char) (ok : Bool) (conn1 : FtpConnection) (code : Nat)
    (conn2 : FtpConnection) (data : SoupSocket) (lines : List (List (List Char)))
    (hensure : ftp_connection_ensure_data_connection net conn = (ok, conn1))
    (hsend : ftp_connection_sendv conn1 (RESPONSE_PASS_100 ||| RESPONSE_FAIL_200) command =
      (code, conn2))
    (herr : conn2.error = none) (hdata : conn2.data = some data)
    (hshort : ∀ pieces ∈ lines, pieces ≠ [] ∧ (∀ p ∈ pieces, p ≠ []) ∧
      2 ≤ pieces.flatten.length ∧ pieces.flatten.length ≤ 16381) :
    (data.reads = spec_listing_reads lines →
      (ftp_connection_receive { conn2 with data := none } 0).2.error = none →
      run_list_command net conn command =
        (lines.map spec_line, (ftp_connection_receive { conn2 with data := none } 0).2)) ∧
    (∀ (long : List (List Char)) (rest : List ReadResult),
      data.reads = spec_listing_reads lines ++ (spec_line_reads long ++ rest) →
      (∀ p ∈ long, p ≠ []) → 16384 ≤ long.flatten.length →
      spec_reads_fit data.reads 128 0 = true →
      run_list_command net conn command =
        ([], { conn2 with
          error := some ⟨G_IO_ERROR, G_IO_ERROR_FILENAME_TOO_LONG, "filename too long"⟩
          data := none })) := by
  have hsize0 : ∃ k, (⟨128, 0, [], []⟩ : ListLocals).size = 128 * k ∧ 1 ≤ k ∧ k ≤ 128 :=
    ⟨1, rfl, by omega, by omega⟩
  constructor
  · intro hreads hfinal
    obtain ⟨l, hloop, hbr, hsize, hlist, _⟩ :=
      list_loop_listing lines ⟨128, 0, [], []⟩ [] hshort rfl hsize0
    rw [List.append_nil, ← hreads, list_loop_end l hbr hsize] at hloop
    rw [run_list_command_done net conn command ok conn1 code conn2 data l hensure hsend herr
      hdata hloop hbr hfinal, hlist]
    simp
  · intro long rest hreads hall h16 hfit
    obtain ⟨l, hloop, hbr, hsize, _, hfit'⟩ :=
      list_loop_listing lines ⟨128, 0, [], []⟩ (spec_line_reads long ++ rest) hshort rfl hsize0
    rw [← hreads] at hloop hfit'
    obtain ⟨k, hk, hk1, hk128⟩ := hsize
    have hfitl := hfit' hfit
    rw [← hbr] at hfitl
    obtain ⟨l', hlong⟩ := list_loop_long long l rest hall ⟨k, hk, hk1, hk128⟩
      (by rw [hbr]; omega) (by rw [hbr]; omega) hfitl
    rw [hlong] at hloop
    exact run_list_command_too_long net conn command ok conn1 code conn2 data l' hensure hsend
      herr hdata hloop

/-! ## A line of 16384 bytes -/

theorem sample_long_line_length : sample_long_line.flatten.length = 16384 := by
  simp only [sample_long_line, List.flatten_cons, List.flatten_append, List.length_append,
    List.length_replicate, List.length_flatten, List.map_replicate, List.sum_replicate,
    List.flatten_nil, List.length_cons, List.length_nil, smul_eq_mul]

theorem spec_line_reads_cons (piece : List Char) (pieces : List (List Char)) :
    spec_line_reads (piece :: pieces) =
      ⟨SOUP_SOCKET_OK, piece, decide (pieces = []), none⟩ :: spec_line_reads pieces := rfl

theorem spec_line_reads_replicate (n : Nat) (piece last : List Char) :
    spec_line_reads (List.replicate n piece ++ [last]) =
      List.replicate n ⟨SOUP_SOCKET_OK, piece, false, none⟩ ++
        [⟨SOUP_SOCKET_OK, last, true, none⟩] := by
  induction n with
  | zero => simp [spec_line_reads]
  | succ n ih =>
    have hne : List.replicate n piece ++ [last] ≠ [] := by simp
    rw [List.replicate_succ, List.cons_append, spec_line_reads_cons, ih]
    simp only [hne, decide_False, List.replicate_succ, List.cons_append]

theorem sample_long_line_reads :
    spec_line_reads sample_long_line =
      ⟨SOUP_SOCKET_OK, List.replicate 126 'a', false, none⟩ ::
        (List.replicate 127 ⟨SOUP_SOCKET_OK, List.replicate 128 'a', false, none⟩ ++
          [⟨SOUP_SOCKET_OK, ['\r', '\n'], true, none⟩]) := by
  have hne : List.replicate 127 (List.replicate 128 'a') ++ [['\r', '\n']] ≠ [] := by
    intro h
    have := congrArg List.length h
    simp only [List.length_append, List.length_replicate, List.length_cons, List.length_nil]
      at this
    omega
  rw [sample_long_line, spec_line_reads_cons, spec_line_reads_replicate]
  simp only [hne, decide_False]

/-- Reads of 128 bytes without the boundary, each asked for after the
buffer grew by 128 bytes, fit. -/
theorem spec_reads_fit_replicate (n : Nat) (piece : List Char) (rest : List ReadResult)
    (hp : piece.length = 128) :
    ∀ j, j + n ≤ 127 →
      spec_reads_fit (List.replicate n ⟨SOUP_SOCKET_OK, piece, false, none⟩ ++ rest)
        (128 * (j + 1)) (126 + 128 * j) =
      spec_reads_fit rest (128 * (j + n + 1)) (126 + 128 * (j + n)) := by
  induction n with
  | zero => intro j _; rfl
  | succ n ih =>
    intro j hj
    have hcond : ¬ (126 + 128 * j + 3 ≥ 128 * (j + 1) ∧ 128 * (j + 1) ≥ 16384) := by omega
    have hgrow : 126 + 128 * j + 3 ≥ 128 * (j + 1) := by omega
    have hfits : 128 ≤ 128 * (j + 1) + 128 - (126 + 128 * j) - 1 := by omega
    rw [List.replicate_succ, List.cons_append, spec_reads_fit, if_neg hcond]
    simp only [hgrow, if_true, hp, hfits, decide_True, Bool.true_and,
      Bool.false_eq_true, if_false]
    have h := ih (j + 1) (by omega)
    have e1 : 128 * (j + 1) + 128 = 128 * (j + 1 + 1) := by omega
    have e2 : 126 + 128 * j + 128 = 126 + 128 * (j + 1) := by omega
    have e3 : j + 1 + n = j + (n + 1) := by omega
    rw [e1, e2, h, e3]

/-- A first read of 126 bytes, then 127 reads of 128 bytes: every read fits,
and the next read is not made. -/
theorem spec_reads_fit_long (n : Nat) (first piece : List Char) (rest : List ReadResult)
    (hn : n = 127) (hf : first.length = 126) (hp : piece.length = 128) :
    spec_reads_fit
      (⟨SOUP_SOCKET_OK, first, false, none⟩ ::
        (List.replicate n ⟨SOUP_SOCKET_OK, piece, false, none⟩ ++ rest)) 128 0 = true := by
  have hcond : ¬ (0 + 3 ≥ 128 ∧ 128 ≥ 16384) := by omega
  have hgrow : ¬ (0 + 3 ≥ 128) := by omega
  have h := spec_reads_fit_replicate n piece rest hp 0 (by omega)
  rw [spec_reads_fit, if_neg hcond]
  simp only [hgrow, if_false, hf, Bool.false_eq_true, Nat.zero_add]
  simp only [Nat.zero_add, Nat.mul_one, Nat.mul_zero, Nat.add_zero] at h
  rw [h, hn]
  cases rest with
  | nil => rfl
  | cons r rest => rw [spec_reads_fit, if_pos (by omega)]; rfl

theorem sample_long_line_fit (rest : List ReadResult) :
    spec_reads_fit (spec_line_reads sample_long_line ++ rest) 128 0 = true := by
  rw [sample_long_line_reads, List.cons_append, List.append_assoc]
  exact spec_reads_fit_long 127 _ _ _ rfl (List.length_replicate _ _)
    (List.length_replicate _ _)

theorem sample_long_line_pieces : ∀ p ∈ sample_long_line, p ≠ [] := by
  intro p hp
  have hpos : 0 < p.length := by
    rw [sample_long_line, List.mem_cons, List.mem_append, List.mem_singleton] at hp
    rcases hp with rfl | hp | rfl
    · rw [List.length_replicate]; omega
    · rw [List.eq_of_mem_replicate hp, List.length_replicate]; omega
    · rw [List.length_cons, List.length_cons]; omega
  exact List.length_pos.1 hpos

/-- Counterexample to C15 as first worded: a listing of one line of 16384
bytes, line end included, delivered in reads that never exceed what was
asked for, and a server that answers every command well. The listing
fails: no line is returned and the error is `FILENAME_TOO_LONG`. -/
theorem run_list_command_16384 :
    sample_long_line.flatten.length = 16384 ∧
    run_list_command sample_net_long sample_conn_list "LIST".toList =
      ([], { sample_conn_list_sent sample_net_long with
        error := some ⟨G_IO_ERROR, G_IO_ERROR_FILENAME_TOO_LONG, "filename too long"⟩
        data := none }) := by
  refine ⟨sample_long_line_length, ?_⟩
  obtain ⟨l, hloop⟩ := list_loop_long sample_long_line ⟨128, 0, [], []⟩ []
    sample_long_line_pieces ⟨1, rfl, by omega, by omega⟩ (by decide)
    (by rw [sample_long_line_length]) (sample_long_line_fit [])
  rw [List.append_nil] at hloop
  exact run_list_command_too_long sample_net_long sample_conn_list "LIST".toList
    (ftp_connection_ensure_data_connection sample_net_long sample_conn_list).1
    (sample_conn_list_data sample_net_long)
    (ftp_connection_sendv (sample_conn_list_data sample_net_long)
      (RESPONSE_PASS_100 ||| RESPONSE_FAIL_200) "LIST".toList).1
    (sample_conn_list_sent sample_net_long)
    ⟨⟨"10.0.0.5".toList, 5150⟩, spec_line_reads sample_long_line, [], []⟩ l
    rfl rfl rfl rfl hloop

/-- Witness for C15 (amended): the listing of the lines "abc", delivered in
two pieces, and "d" is returned whole and no error is set. -/
theorem run_list_command_lines_witness :
    (run_list_command sample_net_listing sample_conn_list "LIST".toList).1 =
      ["abc".toList, "d".toList] ∧
    (run_list_command sample_net_listing sample_conn_list "LIST".toList).2.error = none := by
  have h := (run_list_command_lines sample_net_listing sample_conn_list "LIST".toList
    (ftp_connection_ensure_data_connection sample_net_listing sample_conn_list).1
    (sample_conn_list_data sample_net_listing)
    (ftp_connection_sendv (sample_conn_list_data sample_net_listing)
      (RESPONSE_PASS_100 ||| RESPONSE_FAIL_200) "LIST".toList).1
    (sample_conn_list_sent sample_net_listing)
    ⟨⟨"10.0.0.5".toList, 5150⟩, spec_listing_reads sample_listing, [], []⟩ sample_listing
    rfl rfl rfl rfl (by decide)).1 rfl rfl
  rw [h]
  exact ⟨rfl, rfl⟩


/-! ## Reuse of pooled connections -/

/-- A pop never waits: it leaves the queue without its head, whatever the
wake-ups would bring. -/
theorem pop_connection_queue (ftp : GVfsBackendFtp) (job : GVfsJob) (wakeups : List Wakeup) :
    (spec_after_pop ftp (g_vfs_backend_ftp_pop_connection ftp job wakeups)).queue =
      ftp.queue.map List.tail := by
  cases ftp with
  | mk addr user password queue freed =>
    rcases queue with _ | _ | ⟨conn, queue⟩ <;>
      cases wakeups <;>
      simp [g_vfs_backend_ftp_pop_connection, g_queue_pop_head, pop_wait_loop, spec_after_pop]

/-- C21. On a mounted backend whose idle queue holds a head connection
without job and `queue` behind it, `g_vfs_backend_ftp_pop_connection` returns
the head bound to the job without waiting and leaves `queue`. Pushing that
connection back after use, still bound to the job and without error, appends
it unbound at the tail and completes the job as succeeded: the queue has as
many connections as before the pop, and when the head had no error and is
pushed back as it was popped, the queue is the old one rotated by one. -/
theorem pool_reuse (ftp : GVfsBackendFtp) (job : GVfsJob) (wakeups : List Wakeup)
    (conn : FtpConnection) (queue : List FtpConnection) (used : FtpConnection)
    (hq : ftp.queue = some (conn :: queue)) (hidle : conn.job = none)
    (hjob : used.job = some job) (herr : used.error = none) :
    ∃ ftp1,
      g_vfs_backend_ftp_pop_connection ftp job wakeups =
        PopResult.RETURNED { conn with job := some job } ftp1 0 ∧
      ftp1.queue = some queue ∧
      g_vfs_backend_ftp_push_connection ftp1 (some used) =
        ({ ftp1 with queue := some (queue ++ [{ used with job := none }]) },
          some (g_vfs_job_succeeded job)) ∧
      (queue ++ [{ used with job := none }]).length = (conn :: queue).length ∧
      (conn.error = none →
        (g_vfs_backend_ftp_push_connection ftp1 (some { conn with job := some job })).1.queue =
          some (queue ++ [conn])) := by
  refine ⟨{ ftp with queue := some queue }, ?_, rfl, ?_, by simp, ?_⟩
  · rw [pop_connection_head ftp job wakeups conn queue hq]
    simp [ftp_connection_push_job, hidle]
  · rw [push_connection_job { ftp with queue := some queue } used job queue rfl hjob]
    cases used with
    | mk error cjob features commands read_buffer read_bytes data =>
      simp only at herr
      subst herr
      rfl
  · intro hnone
    rw [push_connection_job { ftp with queue := some queue } { conn with job := some job } job
      queue rfl rfl]
    cases conn with
    | mk error cjob features commands read_buffer read_bytes data =>
      simp only at hidle hnone
      subst hidle
      subst hnone
      rfl

/-- Witness for C21 on a pool of two idle connections: after pop and push
the second connection is at the head and the first at the tail. -/
theorem pool_reuse_witness :
    ∃ ftp1,
      g_vfs_backend_ftp_pop_connection sample_ftp_two fresh_job [] =
        PopResult.RETURNED { sample_conn with job := some fresh_job } ftp1 0 ∧
      (g_vfs_backend_ftp_push_connection ftp1
          (some { sample_conn with job := some fresh_job })).1.queue =
        some [sample_conn_second, sample_conn] := by
  obtain ⟨ftp1, h1, -, -, -, h5⟩ :=
    pool_reuse sample_ftp_two fresh_job [] sample_conn [sample_conn_second]
      { sample_conn with job := some fresh_job } rfl rfl rfl rfl
  exact ⟨ftp1, h1, h5 rfl⟩

/-- C22. While every connection in the idle queue has no job and an empty
error slot, this stays so: `g_vfs_backend_ftp_push_connection` of a
connection bound to a job completes that job through
`ftp_connection_pop_job`, as failed with the connection's error when the
slot is non-empty and as succeeded otherwise, and what it enqueues at the
tail of a live queue is the connection with the error slot emptied and the
job unbound, so the queue still holds idle connections only; a pop only
takes the head off the queue, and the queue of a fresh mount is empty. -/
theorem idle_queue_invariant (ftp : GVfsBackendFtp) (conn : FtpConnection) (job : GVfsJob)
    (hinv : spec_pool_idle ftp) (hjob : conn.job = some job) :
    ftp_connection_pop_job conn =
      (conn.error.isSome, { conn with error := none, job := none },
        some (match conn.error with
          | some error => g_vfs_job_failed_from_error job error
          | none => g_vfs_job_succeeded job)) ∧
    (g_vfs_backend_ftp_push_connection ftp (some conn)).2 =
      (ftp_connection_pop_job conn).2.2 ∧
    (∀ queue, ftp.queue = some queue →
      (g_vfs_backend_ftp_push_connection ftp (some conn)).1.queue =
        some (queue ++ [(ftp_connection_pop_job conn).2.1])) ∧
    spec_idle (ftp_connection_pop_job conn).2.1 ∧
    spec_pool_idle (g_vfs_backend_ftp_push_connection ftp (some conn)).1 ∧
    (∀ job' wakeups,
      spec_pool_idle
        (spec_after_pop ftp (g_vfs_backend_ftp_pop_connection ftp job' wakeups))) ∧
    spec_pool_idle { ftp with queue := some [] } := by
  have hpop : ftp_connection_pop_job conn =
      (conn.error.isSome, { conn with error := none, job := none },
        some (match conn.error with
          | some error => g_vfs_job_failed_from_error job error
          | none => g_vfs_job_succeeded job)) := by
    cases conn with
    | mk error cjob features commands read_buffer read_bytes data =>
      simp only at hjob
      subst hjob
      cases error <;> rfl
  have hpush : ∀ queue, ftp.queue = some queue →
      g_vfs_backend_ftp_push_connection ftp (some conn) =
        ({ ftp with queue := some (queue ++ [(ftp_connection_pop_job conn).2.1]) },
          (ftp_connection_pop_job conn).2.2) := by
    intro queue hq
    rw [push_connection_job ftp conn job queue hq hjob, hpop]
  refine ⟨hpop, ?_, ?_, ?_, ?_, ?_, ?_⟩
  · cases hq : ftp.queue with
    | none => simp [g_vfs_backend_ftp_push_connection, hq]
    | some queue => rw [hpush queue hq]
  · intro queue hq
    rw [hpush queue hq]
  · rw [hpop]
    exact ⟨rfl, rfl⟩
  · cases hq : ftp.queue with
    | none =>
      intro queue hqueue
      simp [g_vfs_backend_ftp_push_connection, hq, ftp_connection_free] at hqueue
    | some queue =>
      rw [hpush queue hq]
      intro queue' hqueue' c hc
      simp only [Option.some.injEq] at hqueue'
      subst hqueue'
      rcases List.mem_append.1 hc with hc | hc
      · exact hinv queue hq c hc
      · rw [List.mem_singleton.1 hc, hpop]
        exact ⟨rfl, rfl⟩
  · intro job' wakeups queue hqueue c hc
    rw [pop_connection_queue] at hqueue
    cases hq : ftp.queue with
    | none => simp [hq] at hqueue
    | some old =>
      simp only [hq, Option.map_some', Option.some.injEq] at hqueue
      subst hqueue
      exact hinv old hq c (List.mem_of_mem_tail hc)
  · intro queue hqueue c hc
    simp only [Option.some.injEq] at hqueue
    subst hqueue
    simp at hc

/-- Witness for C22: a connection that met an error is pushed on a pool of
one idle connection; its job fails with that error and the queue holds two
idle connections. -/
theorem idle_queue_invariant_witness :
    (g_vfs_backend_ftp_push_connection sample_ftp (some sample_conn_failed)).2 =
      some (g_vfs_job_failed_from_error fresh_job cancelled_error) ∧
    (g_vfs_backend_ftp_push_connection sample_ftp (some sample_conn_failed)).1.queue =
      some [sample_conn, sample_conn] ∧
    spec_pool_idle (g_vfs_backend_ftp_push_connection sample_ftp (some sample_conn_failed)).1 := by
  have hinv : spec_pool_idle sample_ftp := by
    intro queue hq c hc
    have : queue = [sample_conn] := by
      simpa [sample_ftp] using hq.symm
    subst this
    rw [List.mem_singleton.1 hc]
    decide
  obtain ⟨h1, h2, h3, -, h5, -, -⟩ :=
    idle_queue_invariant sample_ftp sample_conn_failed fresh_job hinv rfl
  refine ⟨?_, ?_, h5⟩
  · rw [h2, h1]
    rfl
  · rw [h3 [sample_conn] rfl, h1]
    rfl

/-! ## Resolution of the listed entries -/

theorem skip_slashes_replicate (n : Nat) (name : List Char) (h : name.head? ≠ some '/') :
    skip_slashes (List.replicate n '/' ++ name) = name := by
  induction n with
  | zero =>
    cases name with
    | nil => rfl
    | cons c cs =>
      have hc : c ≠ '/' := by simpa using h
      simp [skip_slashes, hc]
  | succ n ih => simpa [List.replicate_succ, skip_slashes] using ih

/-- In a list without two entries of the same name, the loop of `lookup`
finds each entry by its own name. -/
theorem lookup_files_self (files : List ComputerFile)
    (hpair : files.Pairwise fun a b => strcmp (deref a.filename) (deref b.filename) < 0)
    (e : ComputerFile) (he : e ∈ files) :
    lookup_files files (deref e.filename) = some e := by
  induction files with
  | nil => simp at he
  | cons x xs ih =>
    rw [List.pairwise_cons] at hpair
    rcases List.mem_cons.1 he with rfl | hmem
    · simp [lookup_files, strcmp_self]
    · have hne : strcmp (deref x.filename) (deref e.filename) ≠ 0 :=
        ne_of_lt (hpair.1 e hmem)
      simp only [lookup_files, if_neg hne]
      exact ih hpair.2 hmem

theorem lookup_files_none (files : List ComputerFile) (name : List Char)
    (h : ∀ e ∈ files, deref e.filename ≠ name) : lookup_files files name = none := by
  induction files with
  | nil => rfl
  | cons x xs ih =>
    have hne : strcmp (deref x.filename) name ≠ 0 := fun h0 =>
      h x (List.mem_cons_self _ _) (strcmp_eq_zero h0)
    simp only [lookup_files, if_neg hne]
    exact ih fun e he => h e (List.mem_cons_of_mem _ he)

/-- A candidate name is not empty: it ends in the extension. -/
theorem spec_candidate_ne_nil (file : ComputerFile) (k : Nat) :
    spec_candidate (convert_slashes (spec_name file)) (spec_extension file) k ≠ [] := by
  obtain ⟨stem, hstem, -, -⟩ :=
    spec_candidate_stem (convert_slashes (spec_name file)) (spec_extension file) k
  rw [hstem]
  rcases spec_extension_cases file with h | h | h <;> rw [h] <;> simp

/-- A path of slashes followed by a name without '/': `lookup` searches the
list for the name. -/
theorem lookup_name (backend : GVfsBackendComputer) (job : GVfsJob) (n : Nat)
    (name : List Char) (hne : name ≠ []) (hslash : ∀ c ∈ name, c ≠ '/') :
    lookup backend job (List.replicate (n + 1) '/' ++ name) =
      match lookup_files backend.files name with
      | some file => (LookupResult.FILE file, job)
      | none => lookup_out job := by
  have hhead : name.head? ≠ some '/' := by
    cases name with
    | nil => simp
    | cons c cs => simpa using hslash c (List.mem_cons_self _ _)
  have hnot : ¬ '/' ∈ name := fun h => hslash _ h rfl
  unfold lookup
  rw [if_neg (by simp [List.replicate_succ])]
  simp only [skip_slashes_replicate (n + 1) name hhead, if_neg hne, if_neg hnot]

/-- C30. For every state of the volume monitor `recompute_files` returns a
backend in which `lookup` of one or more slashes followed by the filename of
an entry of the list returns that very entry and leaves the job untouched.
On that backend `lookup` of one or more slashes alone returns the root and
leaves the job untouched, and it returns `NULL` and fails the job with
`NOT_FOUND` for a path that does not start with '/', for a path with a '/'
after its first component, and for a path whose single component is the
filename of no entry. -/
theorem lookup_resolves_entries (glib : GLib) (backend : GVfsBackendComputer)
    (volume_monitor : GVolumeMonitor) (job : GVfsJob) :
    ∃ backend', recompute_files glib backend volume_monitor = some backend' ∧
      (∀ e ∈ backend'.files, ∀ n,
        lookup backend' job (List.replicate (n + 1) '/' ++ deref e.filename) =
          (LookupResult.FILE e, job)) ∧
      (∀ n, lookup backend' job (List.replicate (n + 1) '/') = (LookupResult.ROOT, job)) ∧
      (∀ path, path.head? ≠ some '/' →
        lookup backend' job path = (LookupResult.NULL,
          g_vfs_job_failed job G_IO_ERROR G_IO_ERROR_NOT_FOUND "File doesn't exist")) ∧
      (∀ n name rest, name ≠ [] → name.head? ≠ some '/' →
        lookup backend' job (List.replicate (n + 1) '/' ++ name ++ '/' :: rest) =
          (LookupResult.NULL,
            g_vfs_job_failed job G_IO_ERROR G_IO_ERROR_NOT_FOUND "File doesn't exist")) ∧
      (∀ n name, name ≠ [] → (∀ c ∈ name, c ≠ '/') →
        (∀ e ∈ backend'.files, deref e.filename ≠ name) →
        lookup backend' job (List.replicate (n + 1) '/' ++ name) =
          (LookupResult.NULL,
            g_vfs_job_failed job G_IO_ERROR G_IO_ERROR_NOT_FOUND "File doesn't exist")) := by
  obtain ⟨out, hout, hlist⟩ := recompute_list_named volume_monitor
  obtain ⟨files, hfiles, -, -, hpair⟩ := recompute_list_spec volume_monitor
  have hfeq : files = g_list_sort_files out := by
    rw [hfiles] at hlist
    exact Option.some.inj hlist
  subst hfeq
  refine ⟨update_from_files glib backend (g_list_sort_files out),
    by simp [recompute_files, hlist], ?_, ?_, ?_, ?_, ?_⟩
  · intro e he n
    have hmem : e ∈ out := (g_list_sort_files_perm out).subset he
    obtain ⟨i, hi⟩ := List.mem_iff_getElem?.1 hmem
    obtain ⟨k, hk, -, -⟩ :=
      name_files_out _ out (collect_files_unnamed volume_monitor) hout i e hi
    have hname : deref e.filename =
        spec_candidate (convert_slashes (spec_name e)) (spec_extension e) k := by
      rw [hk]; rfl
    rw [lookup_name _ job n _ (by rw [hname]; exact spec_candidate_ne_nil e k)
      (by rw [hname]; exact (spec_candidate_shape e k).1)]
    have hfind := lookup_files_self (g_list_sort_files out) hpair e he
    simp only [update_from_files]
    rw [hfind]
  · intro n
    unfold lookup
    rw [if_neg (by simp [List.replicate_succ])]
    have h := skip_slashes_replicate (n + 1) [] (by simp)
    rw [List.append_nil] at h
    simp only [h, if_true]
  · intro path hpath
    unfold lookup lookup_out
    rw [if_pos hpath]
  · intro n name rest hne hhead
    unfold lookup lookup_out
    rw [if_neg (by simp [List.replicate_succ])]
    have hhead' : (name ++ '/' :: rest).head? ≠ some '/' := by
      cases name with
      | nil => exact absurd rfl hne
      | cons c cs => simpa using hhead
    have h := skip_slashes_replicate (n + 1) (name ++ '/' :: rest) hhead'
    rw [← List.append_assoc] at h
    simp only [h]
    rw [if_neg (by simp), if_pos (by simp)]
  · intro n name hne hslash hnone
    rw [lookup_name _ job n name hne hslash]
    have hfind := lookup_files_none (g_list_sort_files out) name hnone
    simp only [update_from_files]
    rw [hfind]
    rfl

/-! ## Registration of mounts -/

theorem g_hash_table_lookup_insert (table : List (List Char × RegisteredPath))
    (key key' : List Char) (value : RegisteredPath) :
    g_hash_table_lookup (g_hash_table_insert table key value) key' =
      if key = key' then some value else g_hash_table_lookup table key' := by
  induction table with
  | nil => simp [g_hash_table_insert, g_hash_table_lookup]
  | cons p table ih =>
    obtain ⟨k, v⟩ := p
    by_cases hk : k = key
    · subst hk
      by_cases hk' : k = key' <;> simp [g_hash_table_insert, g_hash_table_lookup, hk']
    · by_cases hk' : k = key'
      · subst hk'
        have : ¬ key = k := fun h => hk h.symm
        simp [g_hash_table_insert, g_hash_table_lookup, hk, this]
      · simp [g_hash_table_insert, g_hash_table_lookup, hk, hk', ih]

theorem spec_mount_path_injective {m n : Nat} (h : spec_mount_path m = spec_mount_path n) :
    m = n := by
  simp only [spec_mount_path, List.append_cancel_left_eq] at h
  exact toDigits_injective h

/-- One registration while the counter is below the largest `gint`. -/
theorem register_mount_step (daemon : GVfsDaemon) (callback user_data c : Nat)
    (hc : daemon.mount_counter = c) (hlt : c + 1 < 2 ^ 31) :
    g_vfs_daemon_register_mount daemon callback user_data =
      (spec_mount_path (c + 1),
        ⟨g_hash_table_insert daemon.registered_paths (spec_mount_path (c + 1))
            ⟨spec_mount_path (c + 1), callback, user_data⟩, ((c + 1 : Nat) : Int)⟩) := by
  have hw : gint_wrap (daemon.mount_counter + 1) = ((c + 1 : Nat) : Int) := by
    rw [hc]
    unfold gint_wrap
    push_cast
    omega
  have hp : printf_d ((c + 1 : Nat) : Int) = Nat.toDigits 10 (c + 1) := by
    unfold printf_d
    rw [if_neg (by omega)]
    simp
  simp only [g_vfs_daemon_register_mount, hw, hp, spec_mount_path]

/-- Registrations made in sequence from a counter `c`: the paths, the
counter, and what the table holds afterwards. -/
theorem spec_register_all_run (regs : List (Nat × Nat)) :
    ∀ (daemon : GVfsDaemon) (c : Nat), daemon.mount_counter = c →
      c + regs.length < 2 ^ 31 →
      (spec_register_all daemon regs).1 =
        (List.range regs.length).map (fun i => spec_mount_path (c + 1 + i)) ∧
      (spec_register_all daemon regs).2.mount_counter = ((c + regs.length : Nat) : Int) ∧
      (∀ i (hi : i < regs.length),
        g_hash_table_lookup (spec_register_all daemon regs).2.registered_paths
            (spec_mount_path (c + 1 + i)) =
          some ⟨spec_mount_path (c + 1 + i), (regs.get ⟨i, hi⟩).1, (regs.get ⟨i, hi⟩).2⟩) ∧
      (∀ key, (∀ i < regs.length, key ≠ spec_mount_path (c + 1 + i)) →
        g_hash_table_lookup (spec_register_all daemon regs).2.registered_paths key =
          g_hash_table_lookup daemon.registered_paths key) := by
  induction regs with
  | nil =>
    intro daemon c hc _
    refine ⟨rfl, by simpa [spec_register_all] using hc, ?_, ?_⟩
    · intro i hi
      simp at hi
    · intro key _
      rfl
  | cons r rest ih =>
    intro daemon c hc hlt
    obtain ⟨callback, user_data⟩ := r
    simp only [List.length_cons] at hlt
    have hstep := register_mount_step daemon callback user_data c hc (by omega)
    obtain ⟨h1, h2, h3, h4⟩ :=
      ih ⟨g_hash_table_insert daemon.registered_paths (spec_mount_path (c + 1))
        ⟨spec_mount_path (c + 1), callback, user_data⟩, ((c + 1 : Nat) : Int)⟩ (c + 1) rfl
        (by omega)
    simp only [spec_register_all, hstep]
    refine ⟨?_, ?_, ?_, ?_⟩
    · simp only [h1, List.length_cons, List.range_succ_eq_map, List.map_cons, List.map_map,
        Nat.add_zero, List.cons.injEq, true_and]
      apply List.map_congr_left
      intro i _
      simp only [Function.comp]
      congr 1
      omega
    · rw [h2]
      simp only [List.length_cons]
      congr 1
      omega
    · intro i hi
      cases i with
      | zero =>
        rw [h4 _ (by
          intro j _ h
          have := spec_mount_path_injective h
          omega)]
        simp [g_hash_table_lookup_insert]
      | succ i =>
        have hi' : i < rest.length := by simpa using hi
        have := h3 i hi'
        have he : c + 1 + (i + 1) = c + 1 + 1 + i := by omega
        rw [he]
        simpa using this
    · intro key hkey
      rw [h4 key (by
        intro j hj
        have := hkey (j + 1) (by simp only [List.length_cons]; omega)
        have he : c + 1 + (j + 1) = c + 1 + 1 + j := by omega
        rwa [he] at this)]
      rw [g_hash_table_lookup_insert, if_neg]
      intro h
      exact hkey 0 (by simp) h.symm

/-- C25. On a fresh daemon, calls of `g_vfs_daemon_register_mount` made one
after the other, fewer than 2^31 of them, return the object paths
`/org/gtk/vfs/mount/1`, `/org/gtk/vfs/mount/2` and so on, the k-th call the
path with the decimal number k. The paths returned are pairwise distinct,
the counter ends at the number of calls, and after all the calls the table
still holds under the k-th path the callback and the data of the k-th call.
One call on any daemon whose counter is between 0 and 2^31 - 2 raises the
counter by exactly one. -/
theorem register_mount_paths (regs : List (Nat × Nat)) (hlen : regs.length < 2 ^ 31) :
    (spec_register_all g_vfs_daemon_init regs).1 =
      (List.range regs.length).map
        (fun i => "/org/gtk/vfs/mount/".toList ++ Nat.toDigits 10 (i + 1)) ∧
    (spec_register_all g_vfs_daemon_init regs).1.Nodup ∧
    (spec_register_all g_vfs_daemon_init regs).2.mount_counter = regs.length ∧
    (∀ i (hi : i < regs.length),
      g_hash_table_lookup (spec_register_all g_vfs_daemon_init regs).2.registered_paths
          ("/org/gtk/vfs/mount/".toList ++ Nat.toDigits 10 (i + 1)) =
        some ⟨"/org/gtk/vfs/mount/".toList ++ Nat.toDigits 10 (i + 1),
          (regs.get ⟨i, hi⟩).1, (regs.get ⟨i, hi⟩).2⟩) ∧
    (∀ (daemon : GVfsDaemon) (callback user_data : Nat),
      0 ≤ daemon.mount_counter → daemon.mount_counter + 1 < 2 ^ 31 →
      (g_vfs_daemon_register_mount daemon callback user_data).2.mount_counter =
        daemon.mount_counter + 1 ∧
      (g_vfs_daemon_register_mount daemon callback user_data).1 =
        "/org/gtk/vfs/mount/".toList ++ printf_d (daemon.mount_counter + 1)) := by
  obtain ⟨h1, h2, h3, -⟩ := spec_register_all_run regs g_vfs_daemon_init 0 rfl (by omega)
  have hpath : ∀ i, spec_mount_path (0 + 1 + i) =
      "/org/gtk/vfs/mount/".toList ++ Nat.toDigits 10 (i + 1) := by
    intro i
    rw [show 0 + 1 + i = i + 1 by omega]
    rfl
  simp only [hpath] at h1 h3
  refine ⟨h1, ?_, by simpa using h2, h3, ?_⟩
  · rw [h1]
    apply List.Nodup.map_on
    · intro i _ j _ h
      have := toDigits_injective (List.append_cancel_left h)
      omega
    · exact List.nodup_range _
  · intro daemon callback user_data h0 hlt
    have hw : gint_wrap (daemon.mount_counter + 1) = daemon.mount_counter + 1 := by
      unfold gint_wrap
      omega
    simp only [g_vfs_daemon_register_mount, hw, and_self]

/-- Witness for C25: three registrations on a fresh daemon. -/
theorem register_mount_paths_witness :
    (spec_register_all g_vfs_daemon_init [(7, 70), (8, 80), (9, 90)]).1 =
      ["/org/gtk/vfs/mount/1".toList, "/org/gtk/vfs/mount/2".toList,
        "/org/gtk/vfs/mount/3".toList] ∧
    g_hash_table_lookup
        (spec_register_all g_vfs_daemon_init [(7, 70), (8, 80), (9, 90)]).2.registered_paths
        "/org/gtk/vfs/mount/1".toList = some ⟨"/org/gtk/vfs/mount/1".toList, 7, 70⟩ := by
  have h := register_mount_paths [(7, 70), (8, 80), (9, 90)] (by decide)
  exact ⟨h.1, h.2.2.2.1 0 (by decide)⟩

/-! ## Seek offsets on the wire -/

theorem swap_le_be_bytes (b0 b1 b2 b3 val : Nat) (h0 : b0 < 256) (h1 : b1 < 256)
    (h2 : b2 < 256) (h3 : b3 < 256)
    (hv : val = b0 + 256 * b1 + 65536 * b2 + 16777216 * b3) :
    GUINT32_SWAP_LE_BE val = b3 + 256 * b2 + 65536 * b1 + 16777216 * b0 := by
  have e0 : val % 256 = b0 := by omega
  have e1 : val / 2 ^ 8 % 256 = b1 := by omega
  have e2 : val / 2 ^ 16 % 256 = b2 := by omega
  have e3 : val / 2 ^ 24 % 256 = b3 := by omega
  unfold GUINT32_SWAP_LE_BE
  rw [e0, e1, e2, e3]
  omega

theorem swap_le_be_lt (val : Nat) : GUINT32_SWAP_LE_BE val < 2 ^ 32 := by
  unfold GUINT32_SWAP_LE_BE
  omega

theorem swap_le_be_swap (val : Nat) (h : val < 2 ^ 32) :
    GUINT32_SWAP_LE_BE (GUINT32_SWAP_LE_BE val) = val := by
  have hv : val = val % 256 + 256 * (val / 2 ^ 8 % 256) + 65536 * (val / 2 ^ 16 % 256) +
      16777216 * (val / 2 ^ 24 % 256) := by omega
  have hb0 : val % 256 < 256 := Nat.mod_lt _ (by norm_num)
  have hb1 : val / 2 ^ 8 % 256 < 256 := Nat.mod_lt _ (by norm_num)
  have hb2 : val / 2 ^ 16 % 256 < 256 := Nat.mod_lt _ (by norm_num)
  have hb3 : val / 2 ^ 24 % 256 < 256 := Nat.mod_lt _ (by norm_num)
  rw [swap_le_be_bytes _ _ _ _ (GUINT32_SWAP_LE_BE val) hb3 hb2 hb1 hb0
    (swap_le_be_bytes _ _ _ _ val hb0 hb1 hb2 hb3 hv)]
  omega

theorem g_ntohl_htonl (little_endian : Bool) (val : Nat) (h : val < 2 ^ 32) :
    g_ntohl little_endian (g_htonl little_endian val) = val := by
  cases little_endian
  · simp only [g_ntohl, g_htonl, Bool.false_eq_true, if_false]
    omega
  · simp only [g_ntohl, g_htonl, if_true]
    rw [Nat.mod_eq_of_lt h, Nat.mod_eq_of_lt (swap_le_be_lt val), swap_le_be_swap val h]

/-- The request rule on two values below 2^32: the 64 bits are
`arg1 + 2^32 * arg2`. -/
theorem seek_request_offset_eq (arg1 arg2 : Nat) (h1 : arg1 < 2 ^ 32) (h2 : arg2 < 2 ^ 32) :
    seek_request_offset arg1 arg2 = goffset_of_bits (2 ^ 32 * arg2 + arg1) := by
  unfold seek_request_offset
  rw [Nat.mod_eq_of_lt h1, Nat.mod_eq_of_lt h2, Nat.shiftLeft_eq, Nat.mul_comm arg2,
    Nat.mod_eq_of_lt (by omega), Nat.lor_comm, Nat.mul_add_lt_is_or h1]

theorem goffset_low_bits (offset : Int) :
    goffset_bits offset &&& 0xffffffff = (offset % 2 ^ 32).toNat := by
  have h := Nat.and_pow_two_sub_one_eq_mod (goffset_bits offset) 32
  have he : (2 : Nat) ^ 32 - 1 = 0xffffffff := by norm_num
  rw [he] at h
  rw [h]
  unfold goffset_bits
  omega

theorem goffset_high_bits (offset : Int) :
    guint32_of_goffset (offset >>> (32 : Nat)) = (offset / 2 ^ 32 % 2 ^ 32).toNat := by
  unfold guint32_of_goffset
  rw [Int.shiftRight_eq_div_pow]
  norm_num

/-- C26. In `write_channel_handle_request` each of the three seek commands
creates a seek job whose offset is the signed 64-bit value of
`arg1 | (arg2 << 32)`, the two arguments taken as unsigned 32-bit values. The
reply of `g_vfs_write_channel_send_seek_offset` carries, in network byte
order, `offset & 0xffffffff` as arg1 and `offset >> 32` truncated to 32 bits
as arg2. For every offset of the signed 64-bit range, the two reply
arguments, read back from network order and put through the request rule,
give the offset again. -/
theorem seek_offset_roundtrip (little_endian : Bool) (REQUEST_WRITE seq_nr : Nat)
    (offset : Int) (hlo : -2 ^ 63 ≤ offset) (hhi : offset < 2 ^ 63) :
    (∀ command arg1 arg2 data, command ≠ REQUEST_WRITE →
      command = G_VFS_DAEMON_SOCKET_PROTOCOL_REQUEST_SEEK_CUR ∨
        command = G_VFS_DAEMON_SOCKET_PROTOCOL_REQUEST_SEEK_SET ∨
        command = G_VFS_DAEMON_SOCKET_PROTOCOL_REQUEST_SEEK_END →
      arg1 < 2 ^ 32 → arg2 < 2 ^ 32 →
      ∃ seek_type,
        write_channel_handle_request REQUEST_WRITE command seq_nr arg1 arg2 data =
          (some (WriteChannelJob.SEEK_WRITE seek_type
            (goffset_of_bits (arg1 ||| arg2 <<< 32))), none)) ∧
    g_ntohl little_endian
        (g_vfs_write_channel_send_seek_offset little_endian seq_nr offset).arg1 =
      goffset_bits offset &&& 0xffffffff ∧
    g_ntohl little_endian
        (g_vfs_write_channel_send_seek_offset little_endian seq_nr offset).arg2 =
      ((offset >>> (32 : Nat)) % 2 ^ 32).toNat ∧
    seek_request_offset
        (g_ntohl little_endian
          (g_vfs_write_channel_send_seek_offset little_endian seq_nr offset).arg1)
        (g_ntohl little_endian
          (g_vfs_write_channel_send_seek_offset little_endian seq_nr offset).arg2) =
      offset := by
  have hlow := goffset_low_bits offset
  have hhigh := goffset_high_bits offset
  have h1 : g_ntohl little_endian
      (g_vfs_write_channel_send_seek_offset little_endian seq_nr offset).arg1 =
      (offset % 2 ^ 32).toNat := by
    simp only [g_vfs_write_channel_send_seek_offset]
    rw [hlow]
    exact g_ntohl_htonl _ _ (by omega)
  have h2 : g_ntohl little_endian
      (g_vfs_write_channel_send_seek_offset little_endian seq_nr offset).arg2 =
      (offset / 2 ^ 32 % 2 ^ 32).toNat := by
    simp only [g_vfs_write_channel_send_seek_offset]
    rw [hhigh]
    exact g_ntohl_htonl _ _ (by omega)
  refine ⟨?_, ?_, ?_, ?_⟩
  · intro command arg1 arg2 data hw hcmd ha1 ha2
    have hoff : seek_request_offset arg1 arg2 = goffset_of_bits (arg1 ||| arg2 <<< 32) := by
      unfold seek_request_offset
      rw [Nat.mod_eq_of_lt ha1, Nat.mod_eq_of_lt ha2, Nat.mod_eq_of_lt]
      rw [Nat.shiftLeft_eq]
      omega
    unfold write_channel_handle_request
    rw [if_neg hw, hoff]
    rcases hcmd with h | h | h <;> subst h <;>
      simp [G_VFS_DAEMON_SOCKET_PROTOCOL_REQUEST_CLOSE,
        G_VFS_DAEMON_SOCKET_PROTOCOL_REQUEST_SEEK_CUR,
        G_VFS_DAEMON_SOCKET_PROTOCOL_REQUEST_SEEK_SET,
        G_VFS_DAEMON_SOCKET_PROTOCOL_REQUEST_SEEK_END]
  · rw [h1, hlow]
  · rw [h2, Int.shiftRight_eq_div_pow]
    norm_num
  · rw [h1, h2, seek_request_offset_eq _ _ (by omega) (by omega)]
    unfold goffset_of_bits
    split_ifs with h <;> omega

/-- Witness for C26: the offset -1 on a little-endian host travels as two
words of all ones and comes back as -1. -/
theorem seek_offset_roundtrip_witness :
    seek_request_offset
        (g_ntohl true (g_vfs_write_channel_send_seek_offset true 0 (-1)).arg1)
        (g_ntohl true (g_vfs_write_channel_send_seek_offset true 0 (-1)).arg2) = -1 :=
  (seek_offset_roundtrip true 0 0 (-1) (by decide) (by decide)).2.2.2

/-! ## The exit status of `gvfs-move` -/

/-- The exit status of `main` depends on the arguments and on whether the
target is a directory only, not on how the moves end. -/
theorem main_exit_status (p : MovePlatform) (interactive backup : Bool)
    (argv : List (List Char)) (st : MoveState) :
    (main p interactive backup argv st).1 =
      if argv.length ≤ 2 ∨
          (¬ p.is_dir (argv.getD (argv.length - 1) []) ∧ argv.length > 3) then 1
      else 0 := by
  simp only [main]
  by_cases h1 : argv.length ≤ 2
  · rw [if_pos h1, if_pos (Or.inl h1)]
  · rw [if_neg h1]
    by_cases h2 : (!p.is_dir (argv.getD (argv.length - 1) [])) = true ∧ argv.length > 3
    · rw [if_pos h2, if_pos (Or.inr ⟨by simpa using h2.1, h2.2⟩)]
    · rw [if_neg h2, if_neg]
      rintro (h | ⟨ha, hb⟩)
      · exact h1 h
      · exact h2 ⟨by simpa using ha, hb⟩

/-- C27 (the code exits with 0 after a failed move). The run
`gvfs-move a b`, where `b` is not a directory and the move of `a` fails
because `a` does not exist: `main` calls `g_file_move` once, prints
`Error moving file a: No such file or directory` and returns 0, where the
claim has the exit status 1. -/
theorem gvfs_move_failed_move_exits_zero :
    main sample_platform false false ["gvfs-move".toList, "a".toList, "b".toList]
        sample_move_state =
      (0, { sample_move_state with
            moves := []
            calls := [⟨"a".toList, "b".toList, ⟨true, false⟩⟩]
            stderr := ["Error moving file a: No such file or directory\n".toList] }) := by
  rfl

/-! ## The value `ftp_connection_receive` returns -/

/-- A pass of the loop body that leaves the function returns 0 with the
error slot set, when a failing read sets its error. -/
theorem receive_body_return {l : ReceiveLocals} {r : ReadResult} {value : Nat}
    {conn : FtpConnection} (h : receive_body l r = ReceiveStep.RETURN value conn)
    (herror : r.status = SOUP_SOCKET_ERROR → r.error.isSome = true) :
    value = 0 ∧ conn.error.isSome = true := by
  have hset : ∀ slot : Option GError,
      (g_set_error slot G_IO_ERROR G_IO_ERROR_FAILED "Invalid reply").isSome = true := by
    intro slot
    cases slot <;> rfl
  unfold receive_body at h
  cases hs : r.status <;> cases hb : r.got_boundary <;> simp only [hs, hb] at h
  case SOUP_SOCKET_ERROR.false | SOUP_SOCKET_ERROR.true =>
    simp only [ReceiveStep.RETURN.injEq] at h
    obtain ⟨hv, hc⟩ := h
    subst hc
    refine ⟨hv.symm, ?_⟩
    have := herror hs
    cases he : l.conn.error <;> simp [he, this]
  case SOUP_SOCKET_OK.false | SOUP_SOCKET_EOF.false =>
    simp only [ReceiveStep.RETURN.injEq] at h
    obtain ⟨hv, hc⟩ := h
    subst hc
    exact ⟨hv.symm, hset _⟩
  case SOUP_SOCKET_OK.true | SOUP_SOCKET_EOF.true =>
    split_ifs at h <;>
      (simp only [ReceiveStep.RETURN.injEq] at h
       obtain ⟨hv, hc⟩ := h
       subst hc
       exact ⟨hv.symm, hset _⟩)

theorem receive_loop_return (reads : List ReadResult)
    (herror : ∀ r ∈ reads, r.status = SOUP_SOCKET_ERROR → r.error.isSome = true) :
    ∀ (l : ReceiveLocals) (value : Nat) (conn : FtpConnection),
      receive_loop reads l = ReceiveStep.RETURN value conn →
      value = 0 ∧ conn.error.isSome = true := by
  induction reads with
  | nil =>
    intro l value conn h
    simp only [receive_loop] at h
    split_ifs at h with hc
    · cases hbody : receive_body l read_at_eof with
      | RETURN v c =>
        rw [hbody] at h
        simp only [ReceiveStep.RETURN.injEq] at h
        obtain ⟨hv, hc'⟩ := h
        subst hv
        subst hc'
        exact receive_body_return hbody (by simp [read_at_eof])
      | NEXT l1 => rw [hbody] at h; cases h
  | cons r reads ih =>
    intro l value conn h
    simp only [receive_loop] at h
    split_ifs at h with hc
    · cases hbody : receive_body
          { l with conn := { l.conn with commands := { l.conn.commands with reads := reads } } }
          r with
      | RETURN v c =>
        rw [hbody] at h
        simp only [ReceiveStep.RETURN.injEq] at h
        obtain ⟨hv, hc'⟩ := h
        subst hv
        subst hc'
        exact receive_body_return hbody (herror r (List.mem_cons_self _ _))
      | NEXT l1 =>
        rw [hbody] at h
        exact ih (fun r' hr' => herror r' (List.mem_cons_of_mem _ hr')) l1 value conn h

theorem set_error_from_response_isSome (conn : FtpConnection) (response : Nat) :
    (ftp_connection_set_error_from_response conn response).error.isSome = true := by
  unfold ftp_connection_set_error_from_response g_set_error
  cases conn.error <;> rfl

/-- The `switch` on a response between 100 and 599 and an empty error slot:
it returns the response and leaves the slot empty, or returns 0 and sets
the slot. -/
theorem receive_switch_value (conn : FtpConnection) (flags c : Nat)
    (hempty : conn.error = none) (hlo : 100 ≤ c) (hhi : c ≤ 599) :
    ((receive_switch conn flags c).1 = c ∧ (receive_switch conn flags c).2.error = none) ∨
    ((receive_switch conn flags c).1 = 0 ∧
      (receive_switch conn flags c).2.error.isSome = true) := by
  rw [receive_switch_spec conn flags c hempty hlo hhi]
  split_ifs
  · exact Or.inl ⟨rfl, hempty⟩
  · exact Or.inr ⟨rfl, rfl⟩

/-- C28. Whatever the flags and whatever the control socket delivers, as
long as every read that reports an error sets one and delivers a number of
bytes that fits a `gsize`, `ftp_connection_receive` returns 0 exactly when
the error slot of the connection is non-empty on return. A return value
other than 0 is between 100 and 599 and is the number written by the first
three bytes of the first line read, which are digits. -/
theorem receive_zero_iff_error (conn : FtpConnection) (flags : Nat)
    (herror : ∀ r ∈ conn.commands.reads,
      r.status = SOUP_SOCKET_ERROR → r.error.isSome = true)
    (hsize : ∀ r ∈ conn.commands.reads, r.data.length < GSIZE) :
    ((ftp_connection_receive conn flags).1 = 0 ↔
      (ftp_connection_receive conn flags).2.error.isSome = true) ∧
    ((ftp_connection_receive conn flags).1 ≠ 0 →
      100 ≤ (ftp_connection_receive conn flags).1 ∧
      (ftp_connection_receive conn flags).1 ≤ 599 ∧
      ∃ r rest, conn.commands.reads = r :: rest ∧ ¬ spec_bad_header r.data ∧
        (ftp_connection_receive conn flags).1 = spec_header_code r.data) := by
  unfold ftp_connection_receive
  by_cases hin : ftp_connection_in_error conn = true
  · rw [if_pos hin]
    exact ⟨⟨fun _ => hin, fun _ => rfl⟩, fun h => absurd rfl h⟩
  · rw [if_neg hin]
    have hempty : conn.error = none := by
      cases he : conn.error with
      | none => rfl
      | some e => simp [ftp_connection_in_error, he] at hin
    cases hread : receive_read conn with
    | RETURN value c =>
      have hr : receive_loop conn.commands.reads
          ⟨{ conn with read_bytes := 0 }, ReplyState.FIRST_LINE, 0, 256 - 0 - 1⟩ =
          ReceiveStep.RETURN value c := hread
      obtain ⟨hv, hc⟩ := receive_loop_return _ herror _ value c hr
      subst hv
      exact ⟨⟨fun _ => hc, fun _ => rfl⟩, fun h => absurd rfl h⟩
    | NEXT l =>
      have hr : receive_loop conn.commands.reads
          ⟨{ conn with read_bytes := 0 }, ReplyState.FIRST_LINE, 0, 256 - 0 - 1⟩ =
          ReceiveStep.NEXT l := hread
      obtain ⟨herr, hresp⟩ := receive_loop_next _ _ l hr (fun h => absurd rfl h)
      have hlempty : l.conn.error = none := by rw [herr]; exact hempty
      simp only
      by_cases hdone : l.reply_state ≠ ReplyState.DONE
      · rw [if_pos hdone]
        simp [g_set_error, hlempty]
      · rw [if_neg hdone]
        have hd : l.reply_state = ReplyState.DONE := not_not.1 hdone
        obtain ⟨hlo, hhi⟩ := hresp (by rw [hd]; decide)
        obtain ⟨r, rest, hreads, -, -, hcode⟩ := receive_read_first_line conn l hread
        obtain ⟨hgood, hcode⟩ := hcode (hsize r (by rw [hreads]; exact List.mem_cons_self _ _))
        rcases receive_switch_value l.conn flags l.response hlempty hlo hhi with
          ⟨h1, h2⟩ | ⟨h1, h2⟩
        · refine ⟨⟨fun h0 => ?_, fun hs => ?_⟩, fun _ => ?_⟩
          · rw [h1] at h0
            omega
          · rw [h2] at hs
            cases hs
          · rw [h1]
            exact ⟨hlo, hhi, r, rest, hreads, hgood, hcode⟩
        · exact ⟨⟨fun _ => h2, fun _ => h1⟩, fun h => absurd h1 h⟩

/-- Witness for C28: a reply `150` returns 150 under `RESPONSE_PASS_100`
and 0 with the error set under no flag. -/
theorem receive_zero_iff_error_witness :
    ((ftp_connection_receive sample_conn_150 RESPONSE_PASS_100).1 = 0 ↔
      (ftp_connection_receive sample_conn_150 RESPONSE_PASS_100).2.error.isSome = true) ∧
    (ftp_connection_receive sample_conn_150 RESPONSE_PASS_100).1 = 150 ∧
    (ftp_connection_receive sample_conn_150 0).1 = 0 ∧
    (ftp_connection_receive sample_conn_150 0).2.error.isSome = true := by
  have h1 := receive_zero_iff_error sample_conn_150 RESPONSE_PASS_100 (by decide) (by
    intro r hr
    have : r = line_read "150 Opening data connection\r\n" := by
      simpa [sample_conn_150, sample_conn_reading] using hr
    subst this
    decide)
  have h0 := receive_zero_iff_error sample_conn_150 0 (by decide) (by
    intro r hr
    have : r = line_read "150 Opening data connection\r\n" := by
      simpa [sample_conn_150, sample_conn_reading] using hr
    subst this
    decide)
  have hv : (ftp_connection_receive sample_conn_150 0).1 = 0 := by decide
  exact ⟨h1.1, by decide, hv, h0.1.1 hv⟩

/-! ## The reply buffer -/

theorem GSIZE_eq : GSIZE = 18446744073709551616 := rfl

theorem NUL_toNat : NUL.toNat = 0 := rfl

theorem buffer_store_length_eq (buf data : List Char) (off : Nat)
    (h : off + data.length ≤ buf.length) : (buffer_store buf off data).length = buf.length := by
  unfold buffer_store
  simp only [List.length_append, List.length_take, List.length_drop]
  omega

theorem buffer_store_take_before (buf data : List Char) (off : Nat) (h : off ≤ buf.length) :
    (buffer_store buf off data).take off = buf.take off := by
  unfold buffer_store
  rw [List.append_assoc]
  exact List.take_left' (by simp [List.length_take, Nat.min_eq_left h])

theorem buffer_store_nul (buf : List Char) (off : Nat) (h : off < buf.length) :
    byte_at (buffer_store buf off [NUL]) off = 0 := by
  unfold buffer_store byte_at
  have hlen : (buf.take off).length = off := by
    simp [List.length_take, Nat.min_eq_left (le_of_lt h)]
  rw [List.append_assoc, List.getD_eq_getElem?_getD, List.getElem?_append_right (by omega), hlen]
  simp [NUL_toNat]

/-- The connection after a line that fits was stored: the buffer keeps its
256 bytes, holds the bytes read before and the line, and is terminated
behind them. -/
theorem spec_line_stored_safe (conn : FtpConnection) (data : List Char)
    (hlen : conn.read_buffer.length = 256) (hfit : conn.read_bytes + data.length ≤ 255) :
    (spec_line_stored conn data).read_buffer.length = 256 ∧
    (spec_line_stored conn data).read_bytes = conn.read_bytes + data.length ∧
    byte_at (spec_line_stored conn data).read_buffer (conn.read_bytes + data.length) = 0 ∧
    (spec_line_stored conn data).read_buffer.take (conn.read_bytes + data.length) =
      conn.read_buffer.take conn.read_bytes ++ data := by
  have h1 : (buffer_store conn.read_buffer conn.read_bytes data).length = 256 := by
    rw [buffer_store_length_eq _ _ _ (by omega), hlen]
  refine ⟨?_, rfl, ?_, ?_⟩
  · simp only [spec_line_stored]
    rw [buffer_store_length_eq _ _ _ (by simp only [List.length_singleton]; omega), h1]
  · simp only [spec_line_stored]
    exact buffer_store_nul _ _ (by omega)
  · simp only [spec_line_stored]
    rw [buffer_store_take_before _ _ _ (by omega), buffer_store_take _ _ _ (by omega)]

/-- The line just read, as the code finds it at `last_line`. -/
theorem last_line_eq (buf data : List Char) (off : Nat) (hoff : off ≤ buf.length) :
    ∃ tail, (buffer_store (buffer_store buf off data) (off + data.length) [NUL]).drop off =
      data ++ tail := by
  have h1 := buffer_store_length buf data off hoff
  have h2 : (buffer_store (buffer_store buf off data) (off + data.length) [NUL]).take
      (off + data.length) = buf.take off ++ data := by
    rw [buffer_store_take_before _ _ _ h1, buffer_store_take _ _ _ hoff]
  refine ⟨(buffer_store (buffer_store buf off data) (off + data.length) [NUL]).drop
    (off + data.length), ?_⟩
  have h3 := List.take_append_drop (off + data.length)
    (buffer_store (buffer_store buf off data) (off + data.length) [NUL])
  rw [h2] at h3
  generalize (buffer_store (buffer_store buf off data) (off + data.length) [NUL]).drop
    (off + data.length) = tail at h3 ⊢
  rw [← h3, List.append_assoc, List.drop_left' (by simp [List.length_take, Nat.min_eq_left hoff])]

/-- A whole line that ends a continuation has at least six bytes. -/
theorem spec_terminates_length (r : ReadResult) (code : List Char) (hwhole : spec_whole_line r)
    (hterm : spec_terminates code r.data) : 6 ≤ r.data.length := by
  obtain ⟨-, -, body, hbody⟩ := hwhole
  obtain ⟨h4, -, hsp⟩ := hterm
  rw [← hbody] at h4 hsp ⊢
  rcases body with _ | ⟨a, _ | ⟨b, _ | ⟨c, _ | ⟨d, rest⟩⟩⟩⟩
  · simp at h4
  · simp at h4
  · simp [byte_at] at hsp
  · simp [byte_at] at hsp
  · simp

/-! ## One pass of the loop of `ftp_connection_receive` -/

/-- A pass in which the read fails or does not find the boundary: the
function returns 0 with the terminator put back at `read_bytes`. -/
theorem receive_body_failed (l : ReceiveLocals) (r : ReadResult)
    (h : r.status = SOUP_SOCKET_ERROR ∨ r.got_boundary = false) :
    ∃ error, receive_body l r = ReceiveStep.RETURN 0
        { l.conn with
          read_buffer :=
            buffer_store (buffer_store l.conn.read_buffer l.conn.read_bytes r.data)
              l.conn.read_bytes [NUL]
          error := error } ∧
      (r.status ≠ SOUP_SOCKET_ERROR →
        error = g_set_error l.conn.error G_IO_ERROR G_IO_ERROR_FAILED "Invalid reply") := by
  unfold receive_body
  cases hs : r.status <;> cases hb : r.got_boundary <;> simp only [hs, hb] at h ⊢
  case SOUP_SOCKET_OK.false | SOUP_SOCKET_EOF.false =>
    exact ⟨_, rfl, fun _ => rfl⟩
  case SOUP_SOCKET_ERROR.false | SOUP_SOCKET_ERROR.true =>
    exact ⟨_, rfl, fun hne => absurd rfl hne⟩
  all_goals simp at h

/-- A pass after the first line in which the read delivers a line that fits,
in terms of the line stored. -/
theorem receive_body_later (l : ReceiveLocals) (r : ReadResult)
    (hstate : l.reply_state ≠ ReplyState.FIRST_LINE)
    (hstatus : r.status ≠ SOUP_SOCKET_ERROR) (hboundary : r.got_boundary = true)
    (hinv : spec_receive_inv l) (hfit : r.data.length ≤ l.bytes_left) :
    receive_body l r = ReceiveStep.NEXT
      ⟨spec_line_stored l.conn r.data,
        if r.data.length ≥ 4 ∧
            (spec_line_stored l.conn r.data).read_buffer.take 3 =
              ((spec_line_stored l.conn r.data).read_buffer.drop l.conn.read_bytes).take 3 ∧
            byte_at ((spec_line_stored l.conn r.data).read_buffer.drop l.conn.read_bytes) 3 =
              ' '.toNat then ReplyState.DONE
        else l.reply_state,
        l.response, l.bytes_left - r.data.length⟩ := by
  obtain ⟨hsum, hlen⟩ := hinv
  have hmod : (l.conn.read_bytes + r.data.length) % GSIZE = l.conn.read_bytes + r.data.length :=
    Nat.mod_eq_of_lt (by rw [GSIZE_eq]; omega)
  have hleft : (l.bytes_left + GSIZE - r.data.length % GSIZE) % GSIZE =
      l.bytes_left - r.data.length := by
    rw [GSIZE_eq]
    omega
  unfold receive_body spec_line_stored
  cases hs : r.status with
  | SOUP_SOCKET_ERROR => exact absurd hs hstatus
  | SOUP_SOCKET_OK =>
    simp only [hboundary, if_neg hstate, hmod, hleft]
    split_ifs <;> rfl
  | SOUP_SOCKET_EOF =>
    simp only [hboundary, if_neg hstate, hmod, hleft]
    split_ifs <;> rfl

/-- A pass after the first line in which the read delivers a whole line that
fits: the line is stored, and the reply is done exactly when the line has at
least four bytes, starts with the three bytes at the start of the buffer
and has a space as its fourth byte. -/
theorem receive_body_later_line (l : ReceiveLocals) (r : ReadResult)
    (hstate : l.reply_state ≠ ReplyState.FIRST_LINE)
    (hstatus : r.status ≠ SOUP_SOCKET_ERROR) (hboundary : r.got_boundary = true)
    (hinv : spec_receive_inv l) (hfit : r.data.length ≤ l.bytes_left)
    (h3 : 3 ≤ l.conn.read_bytes) :
    receive_body l r = ReceiveStep.NEXT
      ⟨spec_line_stored l.conn r.data,
        if spec_terminates (l.conn.read_buffer.take 3) r.data then ReplyState.DONE
        else l.reply_state,
        l.response, l.bytes_left - r.data.length⟩ := by
  rw [receive_body_later l r hstate hstatus hboundary hinv hfit]
  obtain ⟨hsum, hlen⟩ := hinv
  obtain ⟨-, -, -, htake⟩ := spec_line_stored_safe l.conn r.data hlen (by omega)
  have hcode : (spec_line_stored l.conn r.data).read_buffer.take 3 =
      l.conn.read_buffer.take 3 := by
    have h := congrArg (List.take 3) htake
    rw [List.take_take, Nat.min_eq_left (by omega),
      List.take_append_of_le_length (by simp [List.length_take]; omega), List.take_take,
      Nat.min_eq_left h3] at h
    exact h
  obtain ⟨tail, htail⟩ := last_line_eq l.conn.read_buffer r.data l.conn.read_bytes (by omega)
  have hlast : (spec_line_stored l.conn r.data).read_buffer.drop l.conn.read_bytes =
      r.data ++ tail := htail
  simp only [hcode, hlast]
  congr 2
  by_cases h4 : r.data.length ≥ 4
  · have ht : (r.data ++ tail).take 3 = r.data.take 3 :=
      List.take_append_of_le_length (by omega)
    have hb : byte_at (r.data ++ tail) 3 = byte_at r.data 3 := by
      unfold byte_at
      rw [List.getD_append _ _ _ _ (by omega)]
    rw [ht, hb]
    rfl
  · have hterm : ¬ spec_terminates (l.conn.read_buffer.take 3) r.data := fun h => h4 h.1
    rw [if_neg hterm, if_neg (fun h => h4 h.1)]

/-- One pass of the loop body keeps the invariant and leaves the buffer
terminated, on whichever way it ends, when the read delivers at most the
bytes asked for. -/
theorem receive_body_safe (l : ReceiveLocals) (r : ReadResult) (hinv : spec_receive_inv l)
    (hfit : r.data.length ≤ l.bytes_left) :
    match receive_body l r with
    | ReceiveStep.NEXT l' =>
      spec_receive_inv l' ∧ spec_terminated l'.conn ∧
        l'.conn.read_bytes = l.conn.read_bytes + r.data.length ∧
        l'.conn.read_buffer.take l'.conn.read_bytes =
          l.conn.read_buffer.take l.conn.read_bytes ++ r.data
    | ReceiveStep.RETURN _ conn => spec_terminated conn := by
  obtain ⟨hsum, hlen⟩ := hinv
  obtain ⟨s1, s2, s3, s4⟩ := spec_line_stored_safe l.conn r.data hlen (by omega)
  have hgsize : l.conn.read_bytes + r.data.length < GSIZE := by rw [GSIZE_eq]; omega
  have hleft : (l.bytes_left + GSIZE - r.data.length % GSIZE) % GSIZE =
      l.bytes_left - r.data.length := by
    rw [GSIZE_eq]
    omega
  have hstored : spec_terminated (spec_line_stored l.conn r.data) :=
    ⟨s1, by rw [s2]; omega, by rw [s2]; exact s3⟩
  by_cases hfail : r.status = SOUP_SOCKET_ERROR ∨ r.got_boundary = false
  · obtain ⟨error, hbody, -⟩ := receive_body_failed l r hfail
    rw [hbody]
    have h1 : (buffer_store l.conn.read_buffer l.conn.read_bytes r.data).length = 256 := by
      rw [buffer_store_length_eq _ _ _ (by omega), hlen]
    refine ⟨?_, by show l.conn.read_bytes ≤ 255; omega, ?_⟩
    · show (buffer_store _ _ [NUL]).length = 256
      rw [buffer_store_length_eq _ _ _ (by simp only [List.length_singleton]; omega), h1]
    · exact buffer_store_nul _ _ (by omega)
  · have hstatus : r.status ≠ SOUP_SOCKET_ERROR := fun h => hfail (Or.inl h)
    have hboundary : r.got_boundary = true := by
      cases hb : r.got_boundary with
      | true => rfl
      | false => exact absurd (Or.inr hb) hfail
    have hnext : ∀ state response,
        spec_receive_inv ⟨spec_line_stored l.conn r.data, state, response,
          l.bytes_left - r.data.length⟩ ∧
        spec_terminated (spec_line_stored l.conn r.data) ∧
        (spec_line_stored l.conn r.data).read_bytes = l.conn.read_bytes + r.data.length ∧
        (spec_line_stored l.conn r.data).read_buffer.take
            (spec_line_stored l.conn r.data).read_bytes =
          l.conn.read_buffer.take l.conn.read_bytes ++ r.data := by
      intro state response
      refine ⟨⟨?_, s1⟩, hstored, s2, by rw [s2]; exact s4⟩
      show (spec_line_stored l.conn r.data).read_bytes + (l.bytes_left - r.data.length) = 255
      rw [s2]
      omega
    by_cases hfirst : l.reply_state = ReplyState.FIRST_LINE
    · rw [receive_body_first_line l r hfirst hstatus hboundary (by omega) hgsize, hleft]
      split_ifs
      · exact hstored
      · exact hnext _ _
      · exact hnext _ _
      · exact hstored
    · rw [receive_body_later l r hfirst hstatus hboundary ⟨hsum, hlen⟩ hfit]
      exact hnext _ _

/-! ## The loop of `ftp_connection_receive` and the reply buffer -/

theorem receive_body_eof (l : ReceiveLocals) :
    ∃ error, receive_body l read_at_eof = ReceiveStep.RETURN 0
        { l.conn with
          read_buffer :=
            buffer_store (buffer_store l.conn.read_buffer l.conn.read_bytes [])
              l.conn.read_bytes [NUL]
          error := error } ∧
      error = g_set_error l.conn.error G_IO_ERROR G_IO_ERROR_FAILED "Invalid reply" := by
  obtain ⟨error, h1, h2⟩ := receive_body_failed l read_at_eof (Or.inr rfl)
  exact ⟨error, h1, h2 (by decide)⟩

/-- The loop keeps the invariant: when every read it makes delivers at most
the bytes asked for, the locals it ends with satisfy the invariant, the
buffer is terminated behind the bytes read once a pass was made, and the
loop ends only with the reply done or fewer than six bytes left; a return
from inside the loop leaves the buffer terminated too. -/
theorem receive_loop_safe (reads : List ReadResult) :
    ∀ l : ReceiveLocals, spec_receive_inv l → spec_receive_fit reads l = true →
      (∀ l', receive_loop reads l = ReceiveStep.NEXT l' →
        spec_receive_inv l' ∧
        (spec_terminated l.conn ∨ (l.reply_state ≠ ReplyState.DONE ∧ l.bytes_left ≥ 6) →
          spec_terminated l'.conn) ∧
        (l'.reply_state = ReplyState.DONE ∨ l'.bytes_left < 6)) ∧
      (∀ value conn, receive_loop reads l = ReceiveStep.RETURN value conn →
        spec_terminated conn) := by
  induction reads with
  | nil =>
    intro l hinv _
    by_cases hc : l.reply_state ≠ ReplyState.DONE ∧ l.bytes_left ≥ 6
    · obtain ⟨error, hbody, -⟩ := receive_body_eof l
      have hsafe := receive_body_safe l read_at_eof hinv (Nat.zero_le _)
      simp only [receive_loop, if_pos hc]
      rw [hbody] at hsafe ⊢
      refine ⟨fun l' h => (nomatch h), fun value conn h => ?_⟩
      simp only [ReceiveStep.RETURN.injEq] at h
      rw [← h.2]
      exact hsafe
    · simp only [receive_loop, if_neg hc]
      refine ⟨fun l' h => ?_, fun value conn h => (nomatch h)⟩
      simp only [ReceiveStep.NEXT.injEq] at h
      subst h
      refine ⟨hinv, fun hp => hp.resolve_right hc, ?_⟩
      by_cases hd : l.reply_state = ReplyState.DONE
      · exact Or.inl hd
      · exact Or.inr (by
          have : ¬ l.bytes_left ≥ 6 := fun h6 => hc ⟨hd, h6⟩
          omega)
  | cons r reads ih =>
    intro l hinv hfit
    by_cases hc : l.reply_state ≠ ReplyState.DONE ∧ l.bytes_left ≥ 6
    · simp only [spec_receive_fit, if_pos hc, Bool.and_eq_true, decide_eq_true_eq] at hfit
      obtain ⟨hlen, hrest⟩ := hfit
      have hinv0 : spec_receive_inv
          { l with conn := { l.conn with commands := { l.conn.commands with reads := reads } } } :=
        hinv
      have hsafe := receive_body_safe _ r hinv0 hlen
      simp only [receive_loop, if_pos hc]
      cases hbody : receive_body
          { l with conn := { l.conn with commands := { l.conn.commands with reads := reads } } }
          r with
      | RETURN v c =>
        rw [hbody] at hsafe
        refine ⟨fun l' h => (nomatch h), fun value conn h => ?_⟩
        simp only [ReceiveStep.RETURN.injEq] at h
        rw [← h.2]
        exact hsafe
      | NEXT l1 =>
        rw [hbody] at hsafe hrest
        simp only at hsafe hrest ⊢
        obtain ⟨h1, h2⟩ := ih l1 hsafe.1 hrest
        refine ⟨fun l' h => ?_, h2⟩
        obtain ⟨a, b, c⟩ := h1 l' h
        exact ⟨a, fun _ => b (Or.inl hsafe.2.1), c⟩
    · simp only [receive_loop, if_neg hc]
      refine ⟨fun l' h => ?_, fun value conn h => (nomatch h)⟩
      simp only [ReceiveStep.NEXT.injEq] at h
      subst h
      refine ⟨hinv, fun hp => hp.resolve_right hc, ?_⟩
      by_cases hd : l.reply_state = ReplyState.DONE
      · exact Or.inl hd
      · exact Or.inr (by
          have : ¬ l.bytes_left ≥ 6 := fun h6 => hc ⟨hd, h6⟩
          omega)

theorem spec_receive_start_inv (conn : FtpConnection) (hlen : conn.read_buffer.length = 256) :
    spec_receive_inv (spec_receive_start conn) :=
  ⟨rfl, hlen⟩

theorem receive_read_start (conn : FtpConnection) :
    receive_read conn = receive_loop conn.commands.reads (spec_receive_start conn) := rfl

/-- C29. On a connection with the buffer of 256 bytes, when every read the
loop of `ftp_connection_receive` makes delivers at most the `bytes_left`
bytes it asks for: the loop starts with `read_bytes + bytes_left = 255`, and
each pass that goes on keeps this sum and the size of the buffer and leaves
a NUL at `read_buffer[read_bytes]` with `read_bytes <= 255`; so do the
locals the loop ends with. When the error slot was empty at the call, on
return the buffer still has 256 bytes, `read_bytes` is at most 255 and the
byte at `read_buffer[read_bytes]` is NUL. When the loop ends before the
reply is done, fewer than six bytes are left and the function returns 0 with
the error `G_IO_ERROR_FAILED` "Invalid reply". -/
theorem receive_buffer_safe (conn : FtpConnection) (flags : Nat)
    (hlen : conn.read_buffer.length = 256)
    (hfit : spec_receive_fit conn.commands.reads (spec_receive_start conn) = true) :
    spec_receive_inv (spec_receive_start conn) ∧
    (∀ l r l', spec_receive_inv l → r.data.length ≤ l.bytes_left →
      receive_body l r = ReceiveStep.NEXT l' →
      l'.conn.read_bytes + l'.bytes_left = 255 ∧ l'.conn.read_buffer.length = 256 ∧
        l'.conn.read_bytes ≤ 255 ∧ byte_at l'.conn.read_buffer l'.conn.read_bytes = 0) ∧
    (∀ l, receive_read conn = ReceiveStep.NEXT l →
      l.conn.read_bytes + l.bytes_left = 255 ∧ l.conn.read_buffer.length = 256 ∧
        l.conn.read_bytes ≤ 255 ∧ byte_at l.conn.read_buffer l.conn.read_bytes = 0) ∧
    (conn.error = none →
      (ftp_connection_receive conn flags).2.read_buffer.length = 256 ∧
      (ftp_connection_receive conn flags).2.read_bytes ≤ 255 ∧
      byte_at (ftp_connection_receive conn flags).2.read_buffer
        (ftp_connection_receive conn flags).2.read_bytes = 0) ∧
    (conn.error = none → ∀ l, receive_read conn = ReceiveStep.NEXT l →
      l.reply_state ≠ ReplyState.DONE →
      l.bytes_left < 6 ∧ 250 ≤ l.conn.read_bytes ∧
      ftp_connection_receive conn flags =
        (0, { l.conn with error := some ⟨G_IO_ERROR, G_IO_ERROR_FAILED, "Invalid reply"⟩ })) := by
  have hstart := spec_receive_start_inv conn hlen
  obtain ⟨hnext, hret⟩ := receive_loop_safe conn.commands.reads (spec_receive_start conn)
    hstart hfit
  have hend : ∀ l, receive_read conn = ReceiveStep.NEXT l →
      spec_receive_inv l ∧ spec_terminated l.conn ∧
        (l.reply_state = ReplyState.DONE ∨ l.bytes_left < 6) := by
    intro l h
    obtain ⟨a, b, c⟩ := hnext l h
    exact ⟨a, b (Or.inr ⟨by simp [spec_receive_start], by simp [spec_receive_start]⟩), c⟩
  refine ⟨hstart, ?_, ?_, ?_, ?_⟩
  · intro l r l' hinv hle hbody
    have h := receive_body_safe l r hinv hle
    rw [hbody] at h
    exact ⟨h.1.1, h.1.2, h.2.1.2.1, h.2.1.2.2⟩
  · intro l h
    obtain ⟨a, b, -⟩ := hend l h
    exact ⟨a.1, a.2, b.2.1, b.2.2⟩
  · intro hempty
    have hin : ftp_connection_in_error conn = false := by
      simp [ftp_connection_in_error, hempty]
    have hgoal : spec_terminated (ftp_connection_receive conn flags).2 := by
      unfold ftp_connection_receive
      rw [hin]
      simp only [Bool.false_eq_true, if_false]
      cases hread : receive_read conn with
      | RETURN value c => exact hret value c hread
      | NEXT l =>
        obtain ⟨-, hterm, -⟩ := hend l hread
        simp only
        split_ifs
        · exact hterm
        · unfold receive_switch
          split <;> first | exact hterm | (split_ifs <;> exact hterm)
    exact hgoal
  · intro hempty l hread hdone
    obtain ⟨hinv, -, hor⟩ := hend l hread
    have hleft : l.bytes_left < 6 := hor.resolve_left hdone
    have hin : ftp_connection_in_error conn = false := by
      simp [ftp_connection_in_error, hempty]
    have herr : l.conn.error = none := by
      have := (receive_loop_next _ _ l hread (fun h => absurd rfl h)).1
      rw [this]
      exact hempty
    refine ⟨hleft, by have := hinv.1; omega, ?_⟩
    unfold ftp_connection_receive
    rw [hin]
    simp only [Bool.false_eq_true, if_false, hread, if_pos hdone, g_set_error, herr]

theorem sample_conn_unended_length : sample_conn_unended.read_buffer.length = 256 :=
  List.length_replicate _ _

/-- Witness for C29: five continuation lines of fifty bytes each fill the
buffer up to 250 bytes; the function gives up with "Invalid reply" and
leaves the buffer terminated behind the 250 bytes. -/
theorem receive_buffer_safe_witness :
    (ftp_connection_receive sample_conn_unended 0).2.read_buffer.length = 256 ∧
    (ftp_connection_receive sample_conn_unended 0).2.read_bytes ≤ 255 ∧
    byte_at (ftp_connection_receive sample_conn_unended 0).2.read_buffer
      (ftp_connection_receive sample_conn_unended 0).2.read_bytes = 0 :=
  (receive_buffer_safe sample_conn_unended 0 sample_conn_unended_length (by decide)).2.2.2.1 rfl

theorem sample_conn_unended_fails :
    (ftp_connection_receive sample_conn_unended 0).1 = 0 ∧
    (ftp_connection_receive sample_conn_unended 0).2.read_bytes = 250 ∧
    (ftp_connection_receive sample_conn_unended 0).2.error =
      some ⟨G_IO_ERROR, G_IO_ERROR_FAILED, "Invalid reply"⟩ := by
  decide

/-! ## Replies of several lines -/

theorem spec_header_code_range (line : List Char) (h : ¬ spec_bad_header line) :
    100 ≤ spec_header_code line ∧ spec_header_code line ≤ 599 := by
  have e0 : '0'.toNat = 48 := rfl
  have e5 : '5'.toNat = 53 := rfl
  have e9 : '9'.toNat = 57 := rfl
  simp only [spec_bad_header, not_or, not_lt, not_le, e0, e5, e9, gt_iff_lt] at h
  simp only [spec_header_code, e0]
  omega

theorem receive_loop_done (reads : List ReadResult) (l : ReceiveLocals)
    (h : l.reply_state = ReplyState.DONE) : receive_loop reads l = ReceiveStep.NEXT l := by
  cases reads <;> simp [receive_loop, h]

/-- Storing a line behind three or more bytes leaves the first three bytes
of the buffer as they are. -/
theorem spec_line_stored_code (conn : FtpConnection) (data : List Char)
    (hlen : conn.read_buffer.length = 256) (hfit : conn.read_bytes + data.length ≤ 255)
    (h3 : 3 ≤ conn.read_bytes) :
    (spec_line_stored conn data).read_buffer.take 3 = conn.read_buffer.take 3 := by
  obtain ⟨-, -, -, htake⟩ := spec_line_stored_safe conn data hlen hfit
  have h := congrArg (List.take 3) htake
  rw [List.take_take, Nat.min_eq_left (by omega),
    List.take_append_of_le_length (by simp [List.length_take]; omega), List.take_take,
    Nat.min_eq_left h3] at h
  exact h

/-- Storing a first line of three or more bytes puts its first three bytes
at the start of the buffer. -/
theorem spec_line_stored_first (conn : FtpConnection) (data : List Char)
    (hlen : conn.read_buffer.length = 256) (hzero : conn.read_bytes = 0)
    (hfit : data.length ≤ 255) (h3 : 3 ≤ data.length) :
    (spec_line_stored conn data).read_buffer.take 3 = data.take 3 := by
  obtain ⟨-, -, -, htake⟩ := spec_line_stored_safe conn data hlen (by omega)
  have h := congrArg (List.take 3) htake
  rw [List.take_take, Nat.min_eq_left (by omega), hzero, List.take_zero, List.nil_append] at h
  exact h

/-- The loop inside a continuation: lines that do not end it are stored and
skipped, and the first line that ends it makes the reply done. -/
theorem receive_loop_continuation (middle : List ReadResult) :
    ∀ (l : ReceiveLocals) (last : ReadResult) (rest : List ReadResult),
      l.reply_state = ReplyState.MULTILINE → spec_receive_inv l → 3 ≤ l.conn.read_bytes →
      (∀ r ∈ middle,
        spec_whole_line r ∧ ¬ spec_terminates (l.conn.read_buffer.take 3) r.data) →
      spec_whole_line last → spec_terminates (l.conn.read_buffer.take 3) last.data →
      l.conn.read_bytes + (middle.map (·.data.length)).sum + last.data.length ≤ 255 →
      ∃ l', receive_loop (middle ++ last :: rest) l = ReceiveStep.NEXT l' ∧
        l'.reply_state = ReplyState.DONE ∧ l'.response = l.response ∧
        l'.conn.commands.reads = rest ∧ l'.conn.error = l.conn.error ∧
        l'.conn.read_bytes =
          l.conn.read_bytes + (middle.map (·.data.length)).sum + last.data.length ∧
        l'.conn.read_buffer.take l'.conn.read_bytes =
          l.conn.read_buffer.take l.conn.read_bytes ++ (middle.map (·.data)).flatten ++
            last.data := by
  induction middle with
  | nil =>
    intro l last rest hstate hinv h3 _ hwhole hterm hfit
    have h6 := spec_terminates_length last _ hwhole hterm
    simp only [List.map_nil, List.sum_nil, Nat.add_zero] at hfit
    have hc : l.reply_state ≠ ReplyState.DONE ∧ l.bytes_left ≥ 6 := by
      refine ⟨by rw [hstate]; decide, ?_⟩
      have := hinv.1
      omega
    have hbody := receive_body_later_line
      { l with conn := { l.conn with commands := { l.conn.commands with reads := rest } } }
      last (by rw [hstate]; decide) hwhole.1 hwhole.2.1 hinv
      (by have := hinv.1; show last.data.length ≤ l.bytes_left; omega) h3
    simp only [if_pos hterm] at hbody
    obtain ⟨-, s2, -, s4⟩ := spec_line_stored_safe
      { l.conn with commands := { l.conn.commands with reads := rest } } last.data hinv.2
      (by show l.conn.read_bytes + last.data.length ≤ 255; omega)
    refine ⟨⟨spec_line_stored
        { l.conn with commands := { l.conn.commands with reads := rest } } last.data,
      ReplyState.DONE, l.response, l.bytes_left - last.data.length⟩, ?_, rfl, rfl, rfl, rfl, ?_, ?_⟩
    · simp only [List.nil_append, receive_loop, if_pos hc, hbody]
      exact receive_loop_done _ _ rfl
    · simp only [List.map_nil, List.sum_nil, Nat.add_zero]
      exact s2
    · simp only [List.map_nil, List.flatten_nil, List.append_nil]
      rw [s2]
      exact s4
  | cons m middle ih =>
    intro l last rest hstate hinv h3 hmiddle hwhole hterm hfit
    have h6 := spec_terminates_length last _ hwhole hterm
    simp only [List.map_cons, List.sum_cons] at hfit
    obtain ⟨hmwhole, hmterm⟩ := hmiddle m (List.mem_cons_self _ _)
    have hc : l.reply_state ≠ ReplyState.DONE ∧ l.bytes_left ≥ 6 := by
      refine ⟨by rw [hstate]; decide, ?_⟩
      have := hinv.1
      omega
    have hmfit : m.data.length ≤ l.bytes_left := by
      have := hinv.1
      omega
    have hbody := receive_body_later_line
      { l with
        conn :=
          { l.conn with commands := { l.conn.commands with reads := middle ++ last :: rest } } }
      m (by rw [hstate]; decide) hmwhole.1 hmwhole.2.1 hinv hmfit h3
    simp only [if_neg hmterm] at hbody
    have hsafe := receive_body_safe
      { l with
        conn :=
          { l.conn with commands := { l.conn.commands with reads := middle ++ last :: rest } } }
      m hinv hmfit
    rw [hbody] at hsafe
    obtain ⟨i1, -, i3, i4⟩ := hsafe
    have hcode := spec_line_stored_code
      { l.conn with commands := { l.conn.commands with reads := middle ++ last :: rest } }
      m.data hinv.2 (by show l.conn.read_bytes + m.data.length ≤ 255; omega) h3
    obtain ⟨l', h1, h2, h3', h4, h5, h6', h7⟩ := ih
      ⟨spec_line_stored
        { l.conn with commands := { l.conn.commands with reads := middle ++ last :: rest } }
        m.data, l.reply_state, l.response, l.bytes_left - m.data.length⟩ last rest hstate i1
      (by rw [i3]; show 3 ≤ l.conn.read_bytes + m.data.length; omega)
      (by
        intro r hr
        rw [hcode]
        exact hmiddle r (List.mem_cons_of_mem _ hr))
      hwhole (by rw [hcode]; exact hterm)
      (by rw [i3]; show l.conn.read_bytes + m.data.length + _ + _ ≤ 255; omega)
    refine ⟨l', ?_, h2, h3', h4, h5, ?_, ?_⟩
    · show receive_loop (m :: (middle ++ last :: rest)) l = ReceiveStep.NEXT l'
      simp only [receive_loop, if_pos hc, hbody]
      exact h1
    · rw [h6', i3]
      simp only [List.map_cons, List.sum_cons]
      show l.conn.read_bytes + m.data.length + _ + _ = _
      omega
    · rw [h7, i4]
      simp only [List.map_cons, List.flatten_cons, List.append_assoc]

/-- The loop inside a continuation that no line ends: it goes on until the
buffer is used up or a read does not deliver a line, and then fails with
"Invalid reply". -/
theorem receive_loop_unterminated (reads : List ReadResult) :
    ∀ l : ReceiveLocals,
      l.reply_state = ReplyState.MULTILINE → spec_receive_inv l → 3 ≤ l.conn.read_bytes →
      l.conn.error = none →
      (∀ r ∈ reads, r.status ≠ SOUP_SOCKET_ERROR ∧
        (r.got_boundary = true → ¬ spec_terminates (l.conn.read_buffer.take 3) r.data)) →
      spec_receive_fit reads l = true →
      (∀ l', receive_loop reads l = ReceiveStep.NEXT l' →
        l'.reply_state ≠ ReplyState.DONE ∧ l'.conn.error = none) ∧
      (∀ value conn, receive_loop reads l = ReceiveStep.RETURN value conn →
        value = 0 ∧ conn.error = some ⟨G_IO_ERROR, G_IO_ERROR_FAILED, "Invalid reply"⟩) := by
  induction reads with
  | nil =>
    intro l hstate hinv h3 hempty _ _
    by_cases hc : l.reply_state ≠ ReplyState.DONE ∧ l.bytes_left ≥ 6
    · obtain ⟨error, hbody, herror⟩ := receive_body_eof l
      simp only [receive_loop, if_pos hc, hbody]
      refine ⟨fun l' h => (nomatch h), fun value conn h => ?_⟩
      simp only [ReceiveStep.RETURN.injEq] at h
      rw [← h.1, ← h.2]
      refine ⟨rfl, ?_⟩
      show error = _
      rw [herror, hempty]
      rfl
    · simp only [receive_loop, if_neg hc]
      refine ⟨fun l' h => ?_, fun value conn h => (nomatch h)⟩
      simp only [ReceiveStep.NEXT.injEq] at h
      subst h
      exact ⟨by rw [hstate]; decide, hempty⟩
  | cons r reads ih =>
    intro l hstate hinv h3 hempty hreads hfit
    by_cases hc : l.reply_state ≠ ReplyState.DONE ∧ l.bytes_left ≥ 6
    · simp only [spec_receive_fit, if_pos hc, Bool.and_eq_true, decide_eq_true_eq] at hfit
      obtain ⟨hrfit, hrest⟩ := hfit
      obtain ⟨hstatus, hnot⟩ := hreads r (List.mem_cons_self _ _)
      simp only [receive_loop, if_pos hc]
      cases hb : r.got_boundary with
      | false =>
        obtain ⟨error, hbody, herror⟩ := receive_body_failed
          { l with conn := { l.conn with commands := { l.conn.commands with reads := reads } } }
          r (Or.inr hb)
        rw [hbody]
        refine ⟨fun l' h => (nomatch h), fun value conn h => ?_⟩
        simp only [ReceiveStep.RETURN.injEq] at h
        rw [← h.1, ← h.2]
        refine ⟨rfl, ?_⟩
        show error = _
        rw [herror hstatus]
        show g_set_error l.conn.error _ _ _ = _
        rw [hempty]
        rfl
      | true =>
        have hbody := receive_body_later_line
          { l with conn := { l.conn with commands := { l.conn.commands with reads := reads } } }
          r (by rw [hstate]; decide) hstatus hb hinv hrfit h3
        simp only [if_neg (hnot hb)] at hbody
        have hsafe := receive_body_safe
          { l with conn := { l.conn with commands := { l.conn.commands with reads := reads } } }
          r hinv hrfit
        rw [hbody] at hsafe hrest ⊢
        obtain ⟨i1, -, i3, -⟩ := hsafe
        have hcode := spec_line_stored_code
          { l.conn with commands := { l.conn.commands with reads := reads } }
          r.data hinv.2 (by have := hinv.1; show l.conn.read_bytes + r.data.length ≤ 255; omega)
          h3
        exact ih
          ⟨spec_line_stored { l.conn with commands := { l.conn.commands with reads := reads } }
            r.data, l.reply_state, l.response, l.bytes_left - r.data.length⟩ hstate i1
          (by rw [i3]; show 3 ≤ l.conn.read_bytes + r.data.length; omega) hempty
          (by
            intro r' hr'
            rw [hcode]
            exact hreads r' (List.mem_cons_of_mem _ hr'))
          hrest
    · simp only [receive_loop, if_neg hc]
      refine ⟨fun l' h => ?_, fun value conn h => (nomatch h)⟩
      simp only [ReceiveStep.NEXT.injEq] at h
      subst h
      exact ⟨by rw [hstate]; decide, hempty⟩

/-- The first pass of the loop on a whole first line with a good header that
opens a continuation. -/
theorem receive_read_continuation (conn : FtpConnection) (first : ReadResult)
    (later : List ReadResult) (hreads : conn.commands.reads = first :: later)
    (hfirst : spec_whole_line first) (hgood : ¬ spec_bad_header first.data)
    (hfit : first.data.length ≤ 255) (hdash : byte_at first.data 3 = '-'.toNat) :
    receive_read conn = receive_loop later
      ⟨spec_line_stored
          { conn with read_bytes := 0, commands := { conn.commands with reads := later } }
          first.data,
        ReplyState.MULTILINE, spec_header_code first.data, 255 - first.data.length⟩ := by
  have hleft : (255 + GSIZE - first.data.length % GSIZE) % GSIZE = 255 - first.data.length := by
    rw [GSIZE_eq]
    omega
  have hbody := receive_body_first_line
    ⟨{ conn with read_bytes := 0, commands := { conn.commands with reads := later } },
      ReplyState.FIRST_LINE, 0, 255⟩ first rfl hfirst.1 hfirst.2.1 (Nat.zero_le _)
    (by rw [GSIZE_eq]; show 0 + first.data.length < _; omega)
  have hspace : ¬ byte_at first.data 3 = ' '.toNat := by
    rw [hdash]
    decide
  rw [if_neg hgood, if_neg hspace, if_pos hdash] at hbody
  simp only [hleft] at hbody
  rw [receive_read_cons conn first later hreads, hbody]

/-- C23. On a connection with an empty error slot and the buffer of 256
bytes, let the first read deliver a whole line of at most 255 bytes with a
good header, three digits NNN. When its fourth byte is a space the reply is
complete at once. When its fourth byte is '-', the lines that follow are
skipped whatever they hold as long as they are not a line of at least four
bytes that starts with the same three bytes NNN followed by a space; the
first such line completes the reply, when the lines up to it fit in 255
bytes together. In both cases `ftp_connection_receive` returns the code NNN
of the first line when the flags pass it and 0 with the error for that code
otherwise, and takes no further read off the socket. When after a first
line with '-' no read reports a socket error and no line delivered is such
a terminating line, each read delivering at most the bytes asked for,
`ftp_connection_receive` returns 0 with the error `G_IO_ERROR_FAILED`
"Invalid reply". -/
theorem receive_reply_lines (conn : FtpConnection) (flags : Nat) (first : ReadResult)
    (later : List ReadResult) (hempty : conn.error = none)
    (hlen : conn.read_buffer.length = 256) (hreads : conn.commands.reads = first :: later)
    (hfirst : spec_whole_line first) (hgood : ¬ spec_bad_header first.data)
    (hfit : first.data.length ≤ 255) :
    (byte_at first.data 3 = ' '.toNat →
      ∃ after, after.commands.reads = later ∧ after.error = none ∧
        after.read_buffer.take after.read_bytes = first.data ∧
        ftp_connection_receive conn flags =
          if spec_passes flags (spec_header_code first.data) then
            (spec_header_code first.data, after)
          else (0, { after with
            error := some (spec_response_error (spec_header_code first.data)) })) ∧
    (byte_at first.data 3 = '-'.toNat →
      ∀ middle last rest, later = middle ++ last :: rest →
        (∀ r ∈ middle, spec_whole_line r ∧ ¬ spec_terminates (first.data.take 3) r.data) →
        spec_whole_line last → spec_terminates (first.data.take 3) last.data →
        first.data.length + (middle.map (·.data.length)).sum + last.data.length ≤ 255 →
        ∃ after, after.commands.reads = rest ∧ after.error = none ∧
          after.read_buffer.take after.read_bytes =
            first.data ++ (middle.map (·.data)).flatten ++ last.data ∧
          ftp_connection_receive conn flags =
            if spec_passes flags (spec_header_code first.data) then
              (spec_header_code first.data, after)
            else (0, { after with
              error := some (spec_response_error (spec_header_code first.data)) })) ∧
    (byte_at first.data 3 = '-'.toNat →
      (∀ r ∈ later, r.status ≠ SOUP_SOCKET_ERROR ∧
        (r.got_boundary = true → ¬ spec_terminates (first.data.take 3) r.data)) →
      spec_receive_fit conn.commands.reads (spec_receive_start conn) = true →
      (ftp_connection_receive conn flags).1 = 0 ∧
      (ftp_connection_receive conn flags).2.error =
        some ⟨G_IO_ERROR, G_IO_ERROR_FAILED, "Invalid reply"⟩) := by
  have hin : ftp_connection_in_error conn = false := by simp [ftp_connection_in_error, hempty]
  obtain ⟨hlo, hhi⟩ := spec_header_code_range first.data hgood
  have h4 : 4 ≤ first.data.length := by
    have : ¬ first.data.length < 4 := fun h => hgood (Or.inl h)
    omega
  obtain ⟨s1, s2, s3, s4⟩ := spec_line_stored_safe
    { conn with read_bytes := 0, commands := { conn.commands with reads := later } }
    first.data hlen (by show 0 + first.data.length ≤ 255; omega)
  have hcode := spec_line_stored_first
    { conn with read_bytes := 0, commands := { conn.commands with reads := later } }
    first.data hlen rfl hfit (by omega)
  have hinv1 : spec_receive_inv
      ⟨spec_line_stored
          { conn with read_bytes := 0, commands := { conn.commands with reads := later } }
          first.data,
        ReplyState.MULTILINE, spec_header_code first.data, 255 - first.data.length⟩ := by
    refine ⟨?_, s1⟩
    show (spec_line_stored _ first.data).read_bytes + (255 - first.data.length) = 255
    rw [s2]
    show 0 + first.data.length + (255 - first.data.length) = 255
    omega
  have hrb : (spec_line_stored
      { conn with read_bytes := 0, commands := { conn.commands with reads := later } }
      first.data).read_bytes = first.data.length := by
    rw [s2]
    exact Nat.zero_add _
  refine ⟨?_, ?_, ?_⟩
  · intro hspace
    have hread := receive_read_single_line conn first later hreads hfirst.1 hfirst.2.1
      (by rw [GSIZE_eq]; omega) hgood hspace
    refine ⟨spec_line_stored
      { conn with read_bytes := 0, commands := { conn.commands with reads := later } }
      first.data, rfl, hempty, ?_, ?_⟩
    · rw [hrb]
      have := s4
      simp only [List.take_zero, List.nil_append, Nat.zero_add] at this
      exact this
    · unfold ftp_connection_receive
      rw [hin]
      simp only [Bool.false_eq_true, if_false, hread, ne_eq, not_true_eq_false]
      exact receive_switch_spec _ flags _ hempty hlo hhi
  · intro hdash middle last rest hlater hmiddle hlast hterm hsum
    subst hlater
    have hread := receive_read_continuation conn first _ hreads hfirst hgood hfit hdash
    obtain ⟨l', h1, h2, h3, h5, h6, h7, h8⟩ := receive_loop_continuation middle
      ⟨spec_line_stored
          { conn with read_bytes := 0,
                      commands := { conn.commands with reads := middle ++ last :: rest } }
          first.data,
        ReplyState.MULTILINE, spec_header_code first.data, 255 - first.data.length⟩
      last rest rfl hinv1 (by rw [hrb]; omega)
      (by rw [hcode]; exact hmiddle) hlast (by rw [hcode]; exact hterm)
      (by rw [hrb]; exact hsum)
    have herr : l'.conn.error = none := by rw [h6]; exact hempty
    refine ⟨l'.conn, h5, herr, ?_, ?_⟩
    · rw [h8, hrb]
      have := s4
      simp only [List.take_zero, List.nil_append, Nat.zero_add] at this
      rw [this]
    · unfold ftp_connection_receive
      rw [hin]
      simp only [Bool.false_eq_true, if_false, hread, h1, h2, ne_eq, not_true_eq_false, h3]
      exact receive_switch_spec _ flags _ herr hlo hhi
  · intro hdash hlater hfits
    have hread := receive_read_continuation conn first later hreads hfirst hgood hfit hdash
    have hfit1 : spec_receive_fit later
        ⟨spec_line_stored
            { conn with read_bytes := 0, commands := { conn.commands with reads := later } }
            first.data,
          ReplyState.MULTILINE, spec_header_code first.data, 255 - first.data.length⟩ = true := by
      have hbody := receive_body_first_line
        ⟨{ conn with read_bytes := 0, commands := { conn.commands with reads := later } },
          ReplyState.FIRST_LINE, 0, 255⟩ first rfl hfirst.1 hfirst.2.1 (Nat.zero_le _)
        (by rw [GSIZE_eq]; show 0 + first.data.length < _; omega)
      have hspace : ¬ byte_at first.data 3 = ' '.toNat := by
        rw [hdash]
        decide
      have hleft : (255 + GSIZE - first.data.length % GSIZE) % GSIZE =
          255 - first.data.length := by
        rw [GSIZE_eq]
        omega
      rw [if_neg hgood, if_neg hspace, if_pos hdash] at hbody
      simp only [hleft] at hbody
      rw [hreads] at hfits
      simp only [spec_receive_fit, spec_receive_start, Bool.and_eq_true,
        decide_eq_true_eq] at hfits
      rw [if_pos ⟨by decide, by decide⟩] at hfits
      simp only [Bool.and_eq_true, decide_eq_true_eq] at hfits
      have h2 := hfits.2
      rw [hbody] at h2
      exact h2
    obtain ⟨hnext, hret⟩ := receive_loop_unterminated later _ rfl hinv1
      (by rw [hrb]; omega) hempty
      (by rw [hcode]; exact hlater) hfit1
    unfold ftp_connection_receive
    rw [hin]
    simp only [Bool.false_eq_true, if_false, hread]
    cases hloop : receive_loop later
        ⟨spec_line_stored
            { conn with read_bytes := 0, commands := { conn.commands with reads := later } }
            first.data,
          ReplyState.MULTILINE, spec_header_code first.data, 255 - first.data.length⟩ with
    | RETURN value c =>
      obtain ⟨hv, hc⟩ := hret value c hloop
      exact ⟨hv, hc⟩
    | NEXT l' =>
      obtain ⟨hd, he⟩ := hnext l' hloop
      simp only [if_pos hd, g_set_error, he]
      exact ⟨trivial, trivial⟩

/-- Witness for C23: the reply `211-Features`, `211-MDTM`, ` SIZE`,
`211 End` is complete at its fourth line and gives 211, the read behind it
is left on the socket; a continuation of five lines that is never ended
fails with "Invalid reply". -/
theorem receive_reply_lines_witness :
    (ftp_connection_receive sample_conn_feat 0).1 = 211 ∧
    (ftp_connection_receive sample_conn_feat 0).2.commands.reads =
      [line_read "200 next\r\n"] ∧
    (ftp_connection_receive sample_conn_unended 0).1 = 0 ∧
    (ftp_connection_receive sample_conn_unended 0).2.error =
      some ⟨G_IO_ERROR, G_IO_ERROR_FAILED, "Invalid reply"⟩ := by
  obtain ⟨-, hmulti, -⟩ := receive_reply_lines sample_conn_feat 0 (line_read "211-Features\r\n")
    [line_read "211-MDTM\r\n", line_read " SIZE\r\n", line_read "211 End\r\n",
      line_read "200 next\r\n"]
    rfl (List.length_replicate _ _) rfl (by decide) (by decide) (by decide)
  obtain ⟨after, hreads, -, -, hrecv⟩ := hmulti (by decide)
    [line_read "211-MDTM\r\n", line_read " SIZE\r\n"] (line_read "211 End\r\n")
    [line_read "200 next\r\n"] rfl (by decide) (by decide) (by decide) (by decide)
  obtain ⟨-, -, hfail⟩ := receive_reply_lines sample_conn_unended 0 (sample_continuation 50)
    (List.replicate 4 (sample_continuation 50))
    rfl (List.length_replicate _ _) rfl (by decide) (by decide) (by decide)
  have hpass : spec_passes 0 (spec_header_code (line_read "211-Features\r\n").data) = true := by
    decide
  rw [if_pos hpass] at hrecv
  rw [hrecv]
  have hcode : spec_header_code (line_read "211-Features\r\n").data = 211 := by decide
  exact ⟨hcode, hreads, hfail (by decide) (by decide) (by decide)⟩

/-! ## The error slot -/

theorem sendv_in_error (conn : FtpConnection) (flags : Nat) (command : List Char)
    (h : conn.error.isSome = true) : ftp_connection_sendv conn flags command = (0, conn) := by
  simp [ftp_connection_sendv, ftp_connection_in_error, h]

theorem receive_in_error (conn : FtpConnection) (flags : Nat) (h : conn.error.isSome = true) :
    ftp_connection_receive conn flags = (0, conn) := by
  simp [ftp_connection_receive, ftp_connection_in_error, h]

theorem cd_in_error (conn : FtpConnection) (file : Option (List Char))
    (h : conn.error.isSome = true) : ftp_connection_cd conn file = (false, conn) := by
  simp [ftp_connection_cd, ftp_connection_send_in_error conn _ _ h, STATUS_GROUP]

theorem ensure_data_connection_in_error (net : SoupNetwork) (conn : FtpConnection)
    (h : conn.error.isSome = true) :
    ftp_connection_ensure_data_connection net conn = (false, conn) := by
  have h1 : epsv_address conn = (none, conn) := by
    unfold epsv_address
    split_ifs
    · simp [ftp_connection_send_in_error conn _ _ h, STATUS_GROUP]
    · rfl
  have h2 : pasv_address conn = (none, conn) := by
    simp [pasv_address, ftp_connection_send_in_error conn _ _ h]
  simp [ftp_connection_ensure_data_connection, h1, h2]

theorem run_list_command_in_error (net : SoupNetwork) (conn : FtpConnection)
    (command : List Char) (h : conn.error.isSome = true) :
    run_list_command net conn command = ([], ftp_connection_close_data_connection conn) := by
  simp [run_list_command, ensure_data_connection_in_error net conn h,
    sendv_in_error conn _ _ h, ftp_connection_in_error, h]

theorem receive_body_return_zero {l : ReceiveLocals} {r : ReadResult} {value : Nat}
    {conn : FtpConnection} (h : receive_body l r = ReceiveStep.RETURN value conn) :
    value = 0 := by
  unfold receive_body at h
  cases hs : r.status <;> cases hb : r.got_boundary <;> simp only [hs, hb] at h
  case SOUP_SOCKET_OK.true | SOUP_SOCKET_EOF.true =>
    split_ifs at h <;>
      (simp only [ReceiveStep.RETURN.injEq] at h
       exact h.1.symm)
  all_goals
    simp only [ReceiveStep.RETURN.injEq] at h
    exact h.1.symm

theorem receive_loop_return_zero (reads : List ReadResult) :
    ∀ (l : ReceiveLocals) (value : Nat) (conn : FtpConnection),
      receive_loop reads l = ReceiveStep.RETURN value conn → value = 0 := by
  induction reads with
  | nil =>
    intro l value conn h
    simp only [receive_loop] at h
    split_ifs at h with hc
    cases hbody : receive_body l read_at_eof with
    | RETURN v c =>
      rw [hbody] at h
      simp only [ReceiveStep.RETURN.injEq] at h
      rw [← h.1]
      exact receive_body_return_zero hbody
    | NEXT l1 => rw [hbody] at h; cases h
  | cons r reads ih =>
    intro l value conn h
    simp only [receive_loop] at h
    split_ifs at h with hc
    cases hbody : receive_body
        { l with conn := { l.conn with commands := { l.conn.commands with reads := reads } } }
        r with
    | RETURN v c =>
      rw [hbody] at h
      simp only [ReceiveStep.RETURN.injEq] at h
      rw [← h.1]
      exact receive_body_return_zero hbody
    | NEXT l1 =>
      rw [hbody] at h
      exact ih l1 value conn h

/-- A reply code returned by `ftp_connection_receive` on a connection with
an empty error slot comes with the slot still empty. -/
theorem receive_nonzero_error (conn : FtpConnection) (flags : Nat)
    (hempty : conn.error = none) (h : (ftp_connection_receive conn flags).1 ≠ 0) :
    (ftp_connection_receive conn flags).2.error = none := by
  unfold ftp_connection_receive at h ⊢
  rw [if_neg (by simp [ftp_connection_in_error, hempty])] at h ⊢
  cases hread : receive_read conn with
  | RETURN value c =>
    rw [hread] at h
    exact absurd (receive_loop_return_zero _ _ value c hread) h
  | NEXT l =>
    rw [hread] at h
    simp only at h ⊢
    have hr : receive_loop conn.commands.reads
        ⟨{ conn with read_bytes := 0 }, ReplyState.FIRST_LINE, 0, 256 - 0 - 1⟩ =
        ReceiveStep.NEXT l := hread
    obtain ⟨herr, hresp⟩ := receive_loop_next _ _ l hr (fun h => absurd rfl h)
    have hlempty : l.conn.error = none := by rw [herr]; exact hempty
    by_cases hdone : l.reply_state ≠ ReplyState.DONE
    · rw [if_pos hdone] at h
      exact absurd rfl h
    · rw [if_neg hdone] at h ⊢
      have hd : l.reply_state = ReplyState.DONE := not_not.1 hdone
      obtain ⟨hlo, hhi⟩ := hresp (by rw [hd]; decide)
      rcases receive_switch_value l.conn flags l.response hlempty hlo hhi with
        ⟨-, h2⟩ | ⟨h1, -⟩
      · exact h2
      · exact absurd h1 h

/-- A reply code returned by `ftp_connection_send` on a connection with an
empty error slot comes with the slot still empty. -/
theorem send_nonzero_error (conn : FtpConnection) (flags : Nat) (command : List Char)
    (hempty : conn.error = none) (h : (ftp_connection_send conn flags command).1 ≠ 0) :
    (ftp_connection_send conn flags command).2.error = none := by
  unfold ftp_connection_send ftp_connection_sendv at h ⊢
  rw [if_neg (by simp [ftp_connection_in_error, hempty])] at h ⊢
  simp only at h ⊢
  cases hs : (soup_socket_write conn.commands (command ++ "\r\n".toList)).1.status <;>
    simp only [hs] at h ⊢
  case SOUP_SOCKET_ERROR => exact absurd rfl h
  all_goals
    split_ifs at h ⊢ with hn
    · exact receive_nonzero_error _ flags hempty h
    · exact absurd rfl h

/-- The call `ftp_connection_cd` on a connection with an empty error slot:
when it returns true the slot is still empty. -/
theorem cd_true_error (conn : FtpConnection) (file : Option (List Char))
    (hempty : conn.error = none) (h : (ftp_connection_cd conn file).1 = true) :
    (ftp_connection_cd conn file).2.error = none := by
  have hsend := send_nonzero_error conn RESPONSE_PASS_500 ("CWD ".toList ++ printf_s file) hempty
  obtain ⟨response, c, hs⟩ : ∃ response c,
      ftp_connection_send conn RESPONSE_PASS_500 ("CWD ".toList ++ printf_s file) =
        (response, c) := ⟨_, _, rfl⟩
  rw [hs] at hsend
  unfold ftp_connection_cd at h ⊢
  rw [hs] at h ⊢
  simp only at h ⊢
  by_cases h1 : response = 550
  · rw [if_pos h1] at h
    cases h
  · rw [if_neg h1] at h ⊢
    by_cases h2 : STATUS_GROUP response = 5
    · rw [if_pos h2] at h
      cases h
    · rw [if_neg h2] at h ⊢
      exact hsend (by simpa using h)

theorem try_cd_error (conn : FtpConnection) (file : Option (List Char))
    (hempty : conn.error = none) : (ftp_connection_try_cd conn file).2.error = none := by
  unfold ftp_connection_try_cd
  rw [if_neg (by simp [ftp_connection_in_error, hempty])]
  cases hcd : ftp_connection_cd conn file with
  | mk ok c =>
    cases ok
    · rfl
    · have := cd_true_error conn file hempty (by rw [hcd])
      rw [hcd] at this
      exact this

theorem process_line_info_error (conn : FtpConnection) (result : list_result)
    (dirname : Option (List Char)) (name : List Char) (hempty : conn.error = none) :
    (process_line_info conn result dirname name).2.error = none := by
  unfold process_line_info
  simp only
  by_cases hl : result.type = 'l'
  · rw [if_pos hl]
    cases hcd : ftp_connection_cd conn dirname with
    | mk ok c =>
      cases ok
      · rfl
      · have hc : c.error = none := by
          have := cd_true_error conn dirname hempty (by rw [hcd])
          rw [hcd] at this
          exact this
        have ht := try_cd_error c (some name) hc
        simp only
        cases htry : ftp_connection_try_cd c (some name) with
        | mk ok2 c2 =>
          rw [htry] at ht
          cases ok2 <;> exact ht
  · rw [if_neg hl]
    exact hempty

/-- What `process_line` does to the connection: nothing, or what its part
from `g_file_info_new` on does. -/
theorem process_line_cases (conn : FtpConnection) (result : list_result)
    (dirname : Option (List Char)) :
    process_line conn result dirname = (none, conn) ∨
    ∃ name, process_line conn result dirname = process_line_info conn result dirname name := by
  unfold process_line
  by_cases h1 : result.type ≠ 'd' ∧ result.type ≠ 'f' ∧ result.type ≠ 'l'
  · rw [if_pos h1]
    exact Or.inl rfl
  · rw [if_neg h1]
    cases dirname with
    | none => exact Or.inr ⟨_, rfl⟩
    | some d =>
      simp only
      cases ftp_filename_construct d (g_strndup result.fe_fname result.fe_fnlen) with
      | none => exact Or.inl rfl
      | some name => exact Or.inr ⟨name, rfl⟩

theorem process_line_error (conn : FtpConnection) (result : list_result)
    (dirname : Option (List Char)) (hempty : conn.error = none) :
    (process_line conn result dirname).2.error = none := by
  rcases process_line_cases conn result dirname with h | ⟨name, h⟩
  · rw [h]
    exact hempty
  · rw [h]
    exact process_line_info_error conn result dirname name hempty

theorem use_true_error (conn : FtpConnection) (h : (ftp_connection_use conn).1 = true) :
    (ftp_connection_use conn).2.error = none := by
  unfold ftp_connection_use at h ⊢
  simp only at h ⊢
  by_cases hin : ftp_connection_in_error (ftp_connection_send conn 0 "TYPE I".toList).2 = true
  · rw [if_pos hin] at h
    cases h
  · rw [if_neg hin]

/-- C24 (amended). On a connection whose error slot is non-empty,
`ftp_connection_send`, `ftp_connection_sendv` and `ftp_connection_receive`
return 0 and leave the whole connection as it is, sockets, error slot and
read buffer included; so do `ftp_connection_login`, `ftp_connection_cd`,
`ftp_connection_try_cd`, `ftp_connection_use`,
`ftp_connection_ensure_data_connection`,
`ftp_connection_set_error_from_response` and, when no job is bound,
`ftp_connection_pop_job`; `run_list_command` only drops the data socket,
`ftp_connection_push_job` keeps the error, and `process_line` leaves the
connection as it is on a line that is not a symbolic link. The slot is
emptied by `ftp_connection_pop_job` when a job is bound, which fails the job
with the error; by the login retry of `do_mount` when the error is
`PERMISSION_DENIED`; and by `process_line` on a symbolic-link line whose name
can be constructed, where `ftp_connection_cd` fails on the poisoned
connection. `ftp_connection_try_cd`, `process_line` and a successful
`ftp_connection_use` clear the errors of their own commands: entered with an
empty slot, they leave it empty. -/
theorem error_slot_poisons (conn : FtpConnection) (error : GError)
    (herr : conn.error = some error) :
    (∀ flags command,
      ftp_connection_send conn flags command = (0, conn) ∧
      ftp_connection_sendv conn flags command = (0, conn)) ∧
    (∀ flags, ftp_connection_receive conn flags = (0, conn)) ∧
    (∀ username password, ftp_connection_login conn username password = (0, conn)) ∧
    (∀ file,
      ftp_connection_cd conn file = (false, conn) ∧
      ftp_connection_try_cd conn file = (false, conn)) ∧
    ftp_connection_use conn = (false, conn) ∧
    (∀ net, ftp_connection_ensure_data_connection net conn = (false, conn)) ∧
    (∀ response, ftp_connection_set_error_from_response conn response = conn) ∧
    (conn.job = none → ftp_connection_pop_job conn = (false, conn, none)) ∧
    (∀ net command, run_list_command net conn command = ([], { conn with data := none })) ∧
    (∀ job, (ftp_connection_push_job conn job).error = some error) ∧
    (∀ result dirname, result.type ≠ 'l' → (process_line conn result dirname).2 = conn) ∧
    (∀ job, conn.job = some job →
      ftp_connection_pop_job conn =
        (true, { conn with error := none, job := none },
          some (g_vfs_job_failed_from_error job error))) ∧
    (∀ ftp username password,
      try_login ftp conn username password =
        if error.domain = G_IO_ERROR ∧ error.code = G_IO_ERROR_PERMISSION_DENIED then
          ({ ftp with user := some username, password := some password },
            { conn with error := none }, true)
        else ({ ftp with user := some username, password := some password }, conn, false)) ∧
    (error.domain = G_IO_ERROR ∧ error.code = G_IO_ERROR_PERMISSION_DENIED →
      ∀ ftp username password username' password' answers,
        login_loop (some (username', password') :: answers) ftp conn username password =
          login_loop answers { ftp with user := some username, password := some password }
            { conn with error := none } username' password') ∧
    (∀ result dirname, result.type = 'l' →
      (∀ d, dirname = some d →
        (ftp_filename_construct d (g_strndup result.fe_fname result.fe_fnlen)).isSome = true) →
      process_line conn result dirname = (none, { conn with error := none })) ∧
    (∀ c : FtpConnection, c.error = none →
      (∀ file, (ftp_connection_try_cd c file).2.error = none) ∧
      (∀ result dirname, (process_line c result dirname).2.error = none) ∧
      ((ftp_connection_use c).1 = true → (ftp_connection_use c).2.error = none)) := by
  have hsome : conn.error.isSome = true := by rw [herr]; rfl
  have hin : ftp_connection_in_error conn = true := hsome
  have hsend := ftp_connection_send_in_error conn
  have hcd := cd_in_error conn
  have hlogin : ∀ ftp username password,
      try_login ftp conn username password =
        if error.domain = G_IO_ERROR ∧ error.code = G_IO_ERROR_PERMISSION_DENIED then
          ({ ftp with user := some username, password := some password },
            { conn with error := none }, true)
        else ({ ftp with user := some username, password := some password }, conn, false) := by
    intro ftp username password
    have hlogin : ftp_connection_login conn username password = (0, conn) := by
      simp [ftp_connection_login, hin]
    simp only [try_login, hlogin, g_error_matches, herr]
    by_cases hm : error.domain = G_IO_ERROR ∧ error.code = G_IO_ERROR_PERMISSION_DENIED
    · simp [hm]
    · simp [hm]
  refine ⟨?_, ?_, ?_, ?_, ?_, ?_, ?_, ?_, ?_, ?_, ?_, ?_, hlogin, ?_, ?_, ?_⟩
  · exact fun flags command => ⟨hsend flags command hsome, sendv_in_error conn flags command hsome⟩
  · exact fun flags => receive_in_error conn flags hsome
  · intro username password
    simp [ftp_connection_login, hin]
  · intro file
    exact ⟨hcd file hsome, by simp [ftp_connection_try_cd, hin]⟩
  · simp only [ftp_connection_use, hsend 0 _ hsome, hin, if_true]
  · exact fun net => ensure_data_connection_in_error net conn hsome
  · intro response
    cases conn with
    | mk e job features commands read_buffer read_bytes data =>
      simp only at herr
      subst herr
      rfl
  · intro hjob
    simp [ftp_connection_pop_job, hjob]
  · intro net command
    rw [run_list_command_in_error net conn command hsome]
    rfl
  · intro job
    unfold ftp_connection_push_job
    cases conn.job <;> exact herr
  · intro result dirname hl
    rcases process_line_cases conn result dirname with h | ⟨name, h⟩
    · rw [h]
    · rw [h]
      simp only [process_line_info, if_neg hl]
  · intro job hjob
    simp [ftp_connection_pop_job, hjob, herr]
  · intro hm ftp username password username' password' answers
    rw [login_loop, hlogin, if_pos hm]
  · intro result dirname hl hname
    have hinfo : ∀ name, process_line_info conn result dirname name =
        (none, { conn with error := none }) := by
      intro name
      simp only [process_line_info, if_pos hl, hcd dirname hsome]
    unfold process_line
    rw [if_neg (by simp [hl])]
    cases dirname with
    | none => exact hinfo _
    | some d =>
      obtain ⟨name, hn⟩ := Option.isSome_iff_exists.1 (hname d rfl)
      simp only [hn]
      exact hinfo name
  · intro c hc
    refine ⟨fun file => try_cd_error c file hc, fun result dirname =>
      process_line_error c result dirname hc, ?_⟩
    exact use_true_error c

/-- The claim C24 lists the places that empty the error slot; this is a
place it does not list. `process_line` on the line of a symbolic link, on a
connection whose error slot holds the error of a cancelled read: it returns
`NULL` with the slot emptied, through its own `g_clear_error`. So it does on
a connection with an empty slot whose server answers `CWD` with 550:
`ftp_connection_cd` sets `NOT_DIRECTORY` and `process_line` returns with the
slot empty. -/
theorem process_line_empties_slot :
    sample_conn_failed.error = some cancelled_error ∧
    process_line sample_conn_failed sample_symlink (some "/pub".toList) =
      (none, { sample_conn_failed with error := none }) ∧
    (ftp_connection_cd sample_conn_550 (some "/pub".toList)).2.error =
      some ⟨G_IO_ERROR, G_IO_ERROR_NOT_DIRECTORY, "The file is not a directory"⟩ ∧
    (process_line sample_conn_550 sample_symlink (some "/pub".toList)).1 = none ∧
    (process_line sample_conn_550 sample_symlink (some "/pub".toList)).2.error = none := by
  refine ⟨rfl, rfl, by decide, by decide, by decide⟩

/-- Witness for C24 (amended): the connection poisoned by a cancelled read
takes no command and no reply, and its error is handed to the job by
`ftp_connection_pop_job`; a connection refused at login is cleared by the
login retry. -/
theorem error_slot_poisons_witness :
    ftp_connection_send sample_conn_failed 0 "NOOP".toList = (0, sample_conn_failed) ∧
    ftp_connection_receive sample_conn_failed 0 = (0, sample_conn_failed) ∧
    ftp_connection_pop_job sample_conn_failed =
      (true, sample_conn, some (g_vfs_job_failed_from_error fresh_job cancelled_error)) ∧
    (try_login sample_ftp sample_conn_denied "anonymous".toList []).2.1.error = none := by
  obtain ⟨h1, h2, -, -, -, -, -, -, -, -, -, h12, -, -, -, -⟩ :=
    error_slot_poisons sample_conn_failed cancelled_error rfl
  obtain ⟨-, -, -, -, -, -, -, -, -, -, -, -, h13, -, -, -⟩ :=
    error_slot_poisons sample_conn_denied
      ⟨G_IO_ERROR, G_IO_ERROR_PERMISSION_DENIED, "Permission denied"⟩ rfl
  refine ⟨(h1 0 _).1, h2 0, h12 fresh_job rfl, ?_⟩
  rw [h13 sample_ftp "anonymous".toList []]
  rfl
end Gvfs
